import Mathlib

/-!
# canvas-reports: a shallow embedding of the Canvas gateway and the report handlers

The Go packages `canvas` (the gateway over the upstream REST API) and `api` (the three
report handlers) are embedded as Lean functions.

Modelling conventions

* A Go `string` is a Lean `String`; the byte-oriented functions of package `strings` are
  embedded over `List Char`.  On valid UTF-8 text a search for an ASCII byte and a search
  for the ASCII character agree, so slicing by byte index is slicing by character index.
  Text that is not valid UTF-8 is outside the model.
* A Go `int` is an `Int`; the only place where the 64 bit range matters is `strconv.Atoi`,
  which checks it explicitly.
* A Go `error` is an `Option String`: `none` is `nil`, `some msg` carries `err.Error()`.
* A slice that may be `nil` is an `Option (List α)`; `none` is the nil slice.
* A pointer to a struct that may be `nil` (an element of the slices `[]*T` the list methods
  return) is the struct with the flag `IsNil`; a read of a field through a nil pointer is a
  panic, after which the handler does not return (`nilDereference`).
* The network, the request context and `encoding/json` are the environment: they are
  oracles (`Env`, `Context`) and everything the program does to them is recorded in
  a `World` that is threaded through every operation.
-/

set_option autoImplicit false

namespace CanvasReports

/-! ## Package `strings`, `unicode`, `regexp`, `strconv` -/

/-- Go `unicode.IsSpace`: the Latin-1 spaces and the characters with the Unicode
White_Space property. -/
def isSpace (c : Char) : Bool :=
  let n := c.toNat
  n == 0x20 || (0x09 ≤ n && n ≤ 0x0D) || n == 0x85 || n == 0xA0 || n == 0x1680 ||
    (0x2000 ≤ n && n ≤ 0x200A) || n == 0x2028 || n == 0x2029 || n == 0x202F ||
    n == 0x205F || n == 0x3000

/-- Go `strings.TrimSpace`: drop leading and trailing white space. -/
def TrimSpace (s : List Char) : List Char :=
  ((s.dropWhile isSpace).reverse.dropWhile isSpace).reverse

/-- Go `strings.Split(s, sep)` for a separator of one character.  The result is never empty:
a string without the separator is returned as its only piece. -/
def Split (s : List Char) (sep : Char) : List (List Char) :=
  match s with
  | [] => [[]]
  | c :: cs =>
    if c = sep then [] :: Split cs sep
    else
      match Split cs sep with
      | [] => [[c]]
      | p :: ps => (c :: p) :: ps

/-- Whether `p` is an initial segment of `s`. -/
def startsWith : List Char → List Char → Bool
  | [], _ => true
  | _ :: _, [] => false
  | a :: p, b :: s => a == b && startsWith p s

/-- Search of `Index`: the position, counted from `i`, of the first occurrence of `substr`
in `s`, or `-1`. -/
def indexFrom (substr : List Char) : List Char → Nat → Int
  | [], i => if startsWith substr [] then (i : Int) else -1
  | c :: cs, i => if startsWith substr (c :: cs) then (i : Int) else indexFrom substr cs (i + 1)

/-- Go `strings.Index(s, substr)`: index of the first occurrence of `substr` in `s`,
or `-1` when there is none. -/
def Index (s substr : List Char) : Int :=
  indexFrom substr s 0

/-- Go slice expression `s[lo:hi]` for `0 ≤ lo ≤ hi ≤ len(s)`. -/
def slice (s : List Char) (lo hi : Int) : List Char :=
  (s.drop lo.toNat).take (hi.toNat - lo.toNat)

/-- The thirteen characters that close a next entry. -/
def nextTail : List Char := ">; rel=\"next\"".data

/-- The regular expression `^<(.*)>; rel="next"$` of `getNextUrl`, as `MatchString`.
No flag is set, so `^` and `$` anchor at the two ends of the text and `.` is any character
but the line feed: the text matches when it starts with `<`, ends with `>; rel="next"`
(the two not overlapping) and has no line feed in between. -/
def nextRegExMatch (t : List Char) : Bool :=
  match t with
  | [] => false
  | c :: rest =>
    c == '<' && nextTail.length ≤ rest.length &&
      rest.drop (rest.length - nextTail.length) == nextTail &&
      (rest.take (rest.length - nextTail.length)).all (fun d => d != '\n')

/-- Whether `c` is one of the ASCII digits. -/
def isDigit (c : Char) : Bool :=
  48 ≤ c.toNat && c.toNat ≤ 57

/-- The number written by a string of ASCII digits. -/
def digitsValue (ds : List Char) : Nat :=
  ds.foldl (fun n c => 10 * n + (c.toNat - 48)) 0

/-- The digits of `strconv.Atoi`, after the sign was read: one or more ASCII digits, whose
value with the sign lies inside the range of a 64 bit `int`. -/
def atoiDigits (neg : Bool) (digits : List Char) : Option Int :=
  if digits.isEmpty || !(digits.all isDigit) then none
  else
    let v : Int := if neg then - (digitsValue digits : Int) else (digitsValue digits : Int)
    if v < -(2 : Int) ^ 63 ∨ (2 : Int) ^ 63 - 1 < v then none else some v

/-- Go `strconv.Atoi` on a 64 bit platform: an optional sign, then one or more ASCII digits,
and a value inside the range of `int`; `none` is a non-nil `*NumError`. -/
def Atoi (s : String) : Option Int :=
  match s.data with
  | '-' :: digits => atoiDigits true digits
  | '+' :: digits => atoiDigits false digits
  | digits => atoiDigits false digits

/-! ## Package `net/url` -/

/-- Digit `n` of the upper case hexadecimal alphabet used by `url.QueryEscape`. -/
def hexDigit (n : Nat) : Char :=
  "0123456789ABCDEF".data.getD n '0'

/-- The UTF-8 encoding of a character, as byte values. -/
def utf8Bytes (c : Char) : List Nat :=
  let n := c.toNat
  if n < 0x80 then [n]
  else if n < 0x800 then [0xC0 + n / 64, 0x80 + n % 64]
  else if n < 0x10000 then [0xE0 + n / 4096, 0x80 + n / 64 % 64, 0x80 + n % 64]
  else [0xF0 + n / 262144, 0x80 + n / 4096 % 64, 0x80 + n / 64 % 64, 0x80 + n % 64]

/-- Whether the character is kept as it is by `url.QueryEscape`: the ASCII letters and digits
and `-`, `_`, `.`, `~`. -/
def unreserved (c : Char) : Bool :=
  let n := c.toNat
  (48 ≤ n && n ≤ 57) || (65 ≤ n && n ≤ 90) || (97 ≤ n && n ≤ 122) ||
    c == '-' || c == '_' || c == '.' || c == '~'

/-- Go `url.QueryEscape`: a space becomes `+`, an unreserved character is kept, every other
byte becomes `%XX`. -/
def QueryEscape (s : String) : String :=
  String.mk (s.data.flatMap fun c =>
    if c == ' ' then ['+']
    else if unreserved c then [c]
    else (utf8Bytes c).flatMap fun b => ['%', hexDigit (b / 16), hexDigit (b % 16)])

/-- Lexicographic order on strings by code point, which on valid UTF-8 is the bytewise
order of Go. -/
def strLt : List Char → List Char → Bool
  | _, [] => false
  | [], _ :: _ => true
  | a :: s, b :: t => a.toNat < b.toNat || (a.toNat == b.toNat && strLt s t)

/-- Insert a key in a sorted list of distinct keys. -/
def insertKey (k : String) : List String → List String
  | [] => [k]
  | x :: xs =>
    if k = x then x :: xs
    else if strLt k.data x.data then k :: x :: xs
    else x :: insertKey k xs

/-- Go `url.Values`, as the list of the `Add(key, value)` calls in the order they were made. -/
abbrev Values := List (String × String)

/-- Go `url.Values.Encode`: the keys in sorted order, the values of one key in the order
they were added, as `key=value` joined by `&`, both sides escaped. -/
def Values.Encode (v : Values) : String :=
  let keys := v.foldl (fun ks kv => insertKey kv.1 ks) []
  "&".intercalate (keys.flatMap fun k =>
    (v.filter fun kv => kv.1 == k).map fun kv => QueryEscape k ++ "=" ++ QueryEscape kv.2)

/-! ## Package `canvas`: client and link header -/

/-- The `CanvasClient` struct; its `httpClient` is the `Env` of the model. -/
structure CanvasClient where
  baseUrl : String
  accessToken : String
  pageSize : Int
  WebUrl : String
  deriving DecidableEq, Repr

/-- Go `getWebUrl`: the base url up to and including the first `.com`. -/
def getWebUrl (baseUrl : String) : String :=
  let index := Index baseUrl.data ".com".data
  if index ≠ -1 then String.mk (slice baseUrl.data 0 (index + 4)) else ""

/-- Go `NewCanvasClient`; `none` is the `nil` client returned with an error. -/
def NewCanvasClient (baseUrl accessToken : String) (pageSize : Int) : Option CanvasClient :=
  if baseUrl = "" then none
  else if accessToken = "" then none
  else if pageSize ≤ 0 then none
  else some { baseUrl := baseUrl, accessToken := accessToken, pageSize := pageSize,
              WebUrl := getWebUrl baseUrl }

/-- The `for _, link := range links` loop of `getNextUrl`. -/
def getNextUrlLoop : List (List Char) → String
  | [] => ""
  | link :: links =>
    if nextRegExMatch (TrimSpace link) then
      let start := Index link ['<']
      let stop := Index link ['>']
      if start ≠ -1 ∧ stop ≠ -1 ∧ stop > start then String.mk (slice link (start + 1) stop)
      else getNextUrlLoop links
    else getNextUrlLoop links

/-- Go `getNextUrl`: the next url of a Link header, or the empty string. -/
def getNextUrl (linkHeader : String) : String :=
  if linkHeader = "" then ""
  else getNextUrlLoop (Split linkHeader.data ',')

/-! ## Package `canvas`: the data model

Every struct of the package, field by field.  The zero value of a struct is `{}`.

The list methods return their elements behind pointers (`[]*Enrollment`, `[]*Assignment`,
`[]*AssignmentData`, `[]*Course`, `[]*Section`, `[]*Submission`), and `json.Unmarshal` leaves
a nil pointer in the slice for a JSON `null` element.  The six structs that are held this way
have the extra field `IsNil`: it is set for the nil pointer, and it is `false` for a pointer
to a struct and for a struct held by value.  The other fields of a nil pointer do not exist:
the first read of a field through it panics, which is what the handlers below do. -/

/-- Go `time.Time`, as an opaque instant; the zero value `time.Time{}` is `{}`. -/
structure Time where
  instant : Int := 0
  deriving DecidableEq, Repr

/-- The `null.String` of `guregu/null`: a string that may be JSON null. -/
structure NullString where
  String : String := ""
  Valid : Bool := false
  deriving DecidableEq, Repr

/-- The `null.Int` of `guregu/null`. -/
structure NullInt where
  Int64 : Int := 0
  Valid : Bool := false
  deriving DecidableEq, Repr

/-- The `null.Float` of `guregu/null`.  A JSON number decodes to a finite float, which is
held as the rational it denotes; the order of floats is the order of these rationals. -/
structure NullFloat where
  Float64 : Rat := 0
  Valid : Bool := false
  deriving DecidableEq, Repr

/-- The `null.Time` of `guregu/null`. -/
structure NullTime where
  Time : Time := {}
  Valid : Bool := false
  deriving DecidableEq, Repr

/-- The `null.Bool` of `guregu/null`. -/
structure NullBool where
  Valid : Bool := false
  Bool : Bool := false
  deriving DecidableEq, Repr

/-- Go `Account`. -/
structure Account where
  ID : Int := 0
  Name : String := ""
  ParentAccountID : NullInt := {}
  RootAccountID : NullInt := {}
  WorkflowState : String := ""
  deriving DecidableEq, Repr

/-- Go `Section`. -/
structure Section where
  ID : Int := 0
  CourseID : Int := 0
  Name : String := ""
  StartAt : NullTime := {}
  EndAt : NullTime := {}
  CreatedAt : Time := {}
  SISSectionID : NullString := {}
  SISCourseID : NullString := {}
  IntegrationID : NullString := {}
  SISImportID : NullString := {}
  TotalStudents : NullInt := {}
  IsNil : Bool := false
  deriving DecidableEq, Repr

/-- Go `Course`. -/
structure Course where
  ID : Int := 0
  CourseCode : String := ""
  Name : String := ""
  SISCourseID : NullString := {}
  GradingStandardID : NullInt := {}
  AccountID : Int := 0
  RootAccountID : Int := 0
  FriendlyName : NullString := {}
  WorkflowState : String := ""
  StartAt : NullTime := {}
  EndAt : NullTime := {}
  IsPublic : Bool := false
  EnrollmentTermID : Int := 0
  Account : Account := {}
  Sections : List Section := []
  IsNil : Bool := false
  deriving DecidableEq, Repr

/-- Go `User`. -/
structure User where
  ID : Int := 0
  Name : String := ""
  CreatedAt : Time := {}
  SortableName : String := ""
  ShortName : String := ""
  SISUserID : String := ""
  IntegrationID : String := ""
  SISImportID : Int := 0
  LoginID : String := ""
  deriving DecidableEq, Repr

/-- The anonymous struct of the field `Grades` of `Enrollment`. -/
structure Grades where
  HtmlUrl : String := ""
  CurrentScore : NullFloat := {}
  CurrentGrade : NullString := {}
  FinalScore : NullFloat := {}
  FinalGrade : NullString := {}
  deriving DecidableEq, Repr

/-- Go `Enrollment`; the field `Type` is spelled `Type_`. -/
structure Enrollment where
  ID : Int := 0
  UserID : Int := 0
  CourseID : Int := 0
  Type_ : String := ""
  CreatedAt : Time := {}
  UpdatedAt : Time := {}
  CourseSectionID : Int := 0
  RootAccountID : Int := 0
  EnrollmentState : String := ""
  Role : String := ""
  RoleID : Int := 0
  SISImportID : Int := 0
  Grades : Grades := {}
  SISAccountID : NullString := {}
  SISCourseID : NullString := {}
  SISSectionID : NullString := {}
  User : User := {}
  IsNil : Bool := false
  deriving DecidableEq, Repr

/-- Go `AssignmentDate`. -/
structure AssignmentDate where
  ID : NullInt := {}
  DueAt : Time := {}
  UnlockAt : Time := {}
  LockAt : Time := {}
  Title : String := ""
  SetType : String := ""
  SetID : NullInt := {}
  Base : Bool := false
  deriving DecidableEq, Repr

/-- The anonymous struct of the elements of `NeedsGradingCountBySection`. -/
structure SectionCount where
  SectionID : Int := 0
  NeedsGradingCount : Int := 0
  deriving DecidableEq, Repr

/-- Go `Assignment`. -/
structure Assignment where
  ID : Int := 0
  CourseID : Int := 0
  Name : String := ""
  DueAt : NullTime := {}
  UnlockAt : NullTime := {}
  LockAt : NullTime := {}
  NeedsGradingCount : Int := 0
  Published : Bool := false
  HtmlUrl : String := ""
  NeedsGradingCountBySection : List SectionCount := []
  AllDates : List AssignmentDate := []
  GradingStandardID : NullInt := {}
  GradingType : String := ""
  OmitFromFinalGrade : Bool := false
  WorkflowState : String := ""
  IsNil : Bool := false
  deriving DecidableEq, Repr

/-- The anonymous struct of the field `Submission` of `AssignmentData`. -/
structure SubmissionData where
  Score : NullFloat := {}
  SubmittedAt : String := ""
  PostedAt : NullString := {}
  deriving DecidableEq, Repr

/-- Go `AssignmentData`. -/
structure AssignmentData where
  AssignmentID : Int := 0
  Title : String := ""
  MaxScore : NullFloat := {}
  MinScore : NullFloat := {}
  PointsPossible : NullFloat := {}
  DueAt : String := ""
  UnlockAt : String := ""
  Submission : SubmissionData := {}
  Status : String := ""
  IsNil : Bool := false
  deriving DecidableEq, Repr

/-- The anonymous struct of the field `Assignment` of `Submission`. -/
structure SubmissionAssignment where
  ID : Int := 0
  PointsPossible : NullFloat := {}
  Name : String := ""
  deriving DecidableEq, Repr

/-- Go `Submission`. -/
structure Submission where
  ID : Int := 0
  UserID : Int := 0
  AssignmentID : Int := 0
  Grade : NullString := {}
  Score : NullFloat := {}
  SubmittedAt : NullString := {}
  Attempt : NullInt := {}
  WorkflowState : String := ""
  GradeMatchesCurrentSubmission : Bool := false
  GradedAt : NullString := {}
  GraderID : NullInt := {}
  Late : Bool := false
  Excused : NullBool := {}
  Assignment : SubmissionAssignment := {}
  IsNil : Bool := false
  deriving DecidableEq, Repr

/-- Go `EnrollmentType`, a string type. -/
abbrev EnrollmentType := String

/-- Go `EnrollmentState`, a string type. -/
abbrev EnrollmentState := String

/-- Go `AssignmentBucket`, a string type. -/
abbrev AssignmentBucket := String

/-- Go `CourseEnrollmentType`, a string type. -/
abbrev CourseEnrollmentType := String

/-- Go `SubmissionWorkflowState`, a string type. -/
abbrev SubmissionWorkflowState := String

def TeacherEnrollmentType : EnrollmentType := "TeacherEnrollment"
def StudentEnrollmentType : EnrollmentType := "StudentEnrollment"
def TaEnrollmentType : EnrollmentType := "TaEnrollment"
def DesignerEnrollmentType : EnrollmentType := "DesignerEnrollment"
def ObserverEnrollmentType : EnrollmentType := "ObserverEnrollment"

def ActiveEnrollmentState : EnrollmentState := "active"
def InactiveEnrollmentState : EnrollmentState := "inactive"
def CompletedEnrollmentState : EnrollmentState := "completed"
def InvitedEnrollmentState : EnrollmentState := "invited"
def RejectedEnrollmentState : EnrollmentState := "rejected"
def DeletedEnrollmentState : EnrollmentState := "deleted"

def UngradedAssignmentBucket : AssignmentBucket := "ungraded"
def AllAssignmentBucket : AssignmentBucket := "all"

/-- Go `GetAllEnrollmentState`. -/
def GetAllEnrollmentState : List EnrollmentState :=
  [ActiveEnrollmentState, InactiveEnrollmentState, CompletedEnrollmentState,
   InvitedEnrollmentState, RejectedEnrollmentState, DeletedEnrollmentState]

/-- Go `slices.Contains` on strings. -/
def slicesContains (s : List String) (v : String) : Bool :=
  s.any fun x => x == v

/-- Go `GetOnlyValidEnrollmentState`: the loop appends each state that is one of
`GetAllEnrollmentState` to the result. -/
def GetOnlyValidEnrollmentState (states : List String) : List EnrollmentState :=
  states.foldl
    (fun result state => if slicesContains GetAllEnrollmentState state then result ++ [state] else result)
    []

/-! ## The environment: network, context, JSON -/

/-- Go `*http.Response`, as far as the gateway reads it: the status code, the value of
`res.Header.Get("Link")`, and the outcome of `io.ReadAll(res.Body)`. -/
structure Response where
  StatusCode : Nat
  Link : String := ""
  Body : String := ""
  ReadErr : Option String := none
  deriving DecidableEq, Repr

/-- The outcome of `c.httpClient.Do(req)`: an error, or a response. -/
inductive HttpResult
  | failure (err : String)
  | response (res : Response)
  deriving DecidableEq, Repr

/-- One GET that was sent, with what came back. -/
structure Exchange where
  url : String
  result : HttpResult
  deriving DecidableEq, Repr

/-- A call of a gateway method, with its arguments (the context apart). -/
inductive Call
  | GetAccountByID (accountID : Int)
  | GetCourseByID (courseID : Int)
  | GetSectionByID (sectionID : Int)
  | GetUserByID (userID : Int)
  | GetEnrollmentsBySectionID (sectionID : Int) (states : List EnrollmentState)
      (types : List EnrollmentType)
  | GetEnrollmentsByUserID (userID : Int) (states : List EnrollmentState)
  | GetAssignmentsByCourseID (courseID : Int) (assignmentSearchTerm : String)
      (bucket : AssignmentBucket) (needsGradingCountBySection : Bool)
  | GetAssignmentsDataOfUserByCourseID (userID courseID : Int)
  | GetCoursesByAccountID (accountID : Int) (courseSearchTerm : String)
      (types : List CourseEnrollmentType)
  | GetCoursesByUserID (userID : Int)
  | GetSectionsByCourseID (courseID : Int)
  | GetSubmissionsByCourseID (courseID studentID : Int)
      (submissionWorkflowState : SubmissionWorkflowState)
  deriving DecidableEq, Repr

/-- What the program has done so far: the GETs it sent (oldest first), how many times it
looked at `ctx.Done()`, the gateway methods it called (oldest first), and whether it has
panicked. -/
structure World where
  log : List Exchange := []
  polls : Nat := 0
  calls : List Call := []
  panicked : Bool := false
  deriving DecidableEq, Repr

/-- Record a gateway call. -/
def World.called (w : World) (c : Call) : World :=
  { w with calls := w.calls ++ [c] }

/-- Go `context.Context`, seen through `select { case <-ctx.Done(): ... default: ... }`.
The looks at the channel are numbered from zero; `ctx n` is `none` when the channel is still
open at look `n`, and `some msg` when it is closed, `msg` being `ctx.Err().Error()`. -/
abbrev Context := Nat → Option String

/-- One look at `ctx.Done()`. -/
def poll (ctx : Context) (w : World) : Option String × World :=
  (ctx w.polls, { w with polls := w.polls + 1 })

/-- What lies outside the repository.  `newRequest` is the error of `http.NewRequest` for
a url (`none` when the request is built); `respond` is the upstream seen through
`c.httpClient.Do`, which may depend on everything sent before; each `unmarshal` is
`json.Unmarshal` into a value of the given type, returning the value left in the target and
the error.  The six list decoders fill a slice of pointers, whose elements may be nil
(`IsNil`), as they are for the JSON text `[null]`. -/
structure Env where
  newRequest : String → Option String
  respond : List Exchange → String → HttpResult
  unmarshalAccount : String → Account × Option String
  unmarshalCourse : String → Course × Option String
  unmarshalSection : String → Section × Option String
  unmarshalUser : String → User × Option String
  unmarshalEnrollments : String → List Enrollment × Option String
  unmarshalAssignments : String → List Assignment × Option String
  unmarshalAssignmentData : String → List AssignmentData × Option String
  unmarshalCourses : String → List Course × Option String
  unmarshalSections : String → List Section × Option String
  unmarshalSubmissions : String → List Submission × Option String

/-- The three results of a gateway method: the value, the status code, the error. -/
structure Reply (α : Type) where
  val : α
  code : Nat
  err : Option String
  deriving DecidableEq, Repr

/-- The outcome of an operation that loops over pages: `none` when the operation did not
return, because the fuel ran out before the loop ended or because it panicked, and in every
case the world as the operation left it. -/
abbrev Run (α : Type) := Option α × World

/-- A read of a field through a nil pointer: the goroutine panics with a nil pointer
dereference, so the function it runs does not return and writes nothing more. -/
def nilDereference {α : Type} (w : World) : Run α :=
  (none, { w with panicked := true })

/-- The pair `http.NewRequest(http.MethodGet, requestUrl, nil)` and `c.httpClient.Do(req)`.
An error of the first sends nothing; otherwise the GET is sent and logged. -/
def send (env : Env) (requestUrl : String) (w : World) : Except String Response × World :=
  match env.newRequest requestUrl with
  | some e => (.error e, w)
  | none =>
    let r := env.respond w.log requestUrl
    let w1 := { w with log := w.log ++ [{ url := requestUrl, result := r }] }
    match r with
    | .failure e => (.error e, w1)
    | .response res => (.ok res, w1)

/-! ## Package `canvas`: the paginated list operations

All eight list methods end in the same `loop:` statement, which differs between them only
in the element type it decodes and in the text of the error for a status other than 200;
`paginate` is that statement. -/

/-- The `loop:` statement of the list methods, started with `requestUrl` and `result`.
One unit of fuel is one iteration. -/
def paginate {α : Type} (env : Env) (unmarshal : String → List α × Option String)
    (ctx : Context) (statusErr : String) :
    Nat → String → List α → World → Run (Reply (Option (List α)))
  | 0, _, _, w => (none, w)
  | fuel + 1, requestUrl, result, w =>
    match poll ctx w with
    | (some e, w1) => (some ⟨none, 408, some e⟩, w1)
    | (none, w1) =>
      match send env requestUrl w1 with
      | (.error e, w2) => (some ⟨none, 500, some e⟩, w2)
      | (.ok res, w2) =>
        if res.StatusCode ≠ 200 then (some ⟨none, res.StatusCode, some statusErr⟩, w2)
        else
          match res.ReadErr with
          | some e => (some ⟨none, 500, some e⟩, w2)
          | none =>
            match unmarshal res.Body with
            | (_, some e) => (some ⟨none, 500, some e⟩, w2)
            | (items, none) =>
              let nextUrl := getNextUrl res.Link
              if nextUrl = "" then (some ⟨some (result ++ items), 200, none⟩, w2)
              else paginate env unmarshal ctx statusErr fuel nextUrl (result ++ items) w2

/-- Go `strconv.Itoa` and the verb `%d`. -/
def Itoa (n : Int) : String := toString n

/-- The request url built by `GetEnrollmentsBySectionID`. -/
def enrollmentsBySectionIDUrl (c : CanvasClient) (sectionID : Int)
    (states : List EnrollmentState) (types : List EnrollmentType) : String :=
  let params : Values :=
    [("per_page", Itoa c.pageSize)] ++ states.map (fun state => ("state[]", state)) ++
      types.map (fun t => ("type[]", t))
  s!"{c.baseUrl}/sections/{Itoa sectionID}/enrollments?{Values.Encode params}"

/-- Go `GetEnrollmentsBySectionID`. -/
def GetEnrollmentsBySectionID (env : Env) (c : CanvasClient) (ctx : Context) (sectionID : Int)
    (states : List EnrollmentState) (types : List EnrollmentType) (fuel : Nat) (w : World) :
    Run (Reply (Option (List Enrollment))) :=
  paginate env env.unmarshalEnrollments ctx
    s!"error fetching enrollments of course section: {Itoa sectionID}" fuel
    (enrollmentsBySectionIDUrl c sectionID states types) []
    (w.called (.GetEnrollmentsBySectionID sectionID states types))

/-- The request url built by `GetEnrollmentsByUserID`. -/
def enrollmentsByUserIDUrl (c : CanvasClient) (userID : Int) (states : List EnrollmentState) :
    String :=
  let params : Values :=
    [("per_page", Itoa c.pageSize)] ++ states.map (fun state => ("state[]", state))
  s!"{c.baseUrl}/users/{Itoa userID}/enrollments?{Values.Encode params}"

/-- Go `GetEnrollmentsByUserID`. -/
def GetEnrollmentsByUserID (env : Env) (c : CanvasClient) (ctx : Context) (userID : Int)
    (states : List EnrollmentState) (fuel : Nat) (w : World) :
    Run (Reply (Option (List Enrollment))) :=
  paginate env env.unmarshalEnrollments ctx
    s!"error fetching enrollments of user: {Itoa userID}" fuel
    (enrollmentsByUserIDUrl c userID states) []
    (w.called (.GetEnrollmentsByUserID userID states))

/-- Go `len(s)`: the number of bytes of the string. -/
def len (s : String) : Nat := s.utf8ByteSize

/-- The `switch length` of the two methods that take a search term: nothing is added for
an empty term, the term is added when it has two bytes or more.  (A term of one byte does
not reach the parameters.) -/
def searchTermParams (searchTerm : String) : Values :=
  if len searchTerm = 0 then [] else [("search_term", searchTerm)]

/-- The query parameters added by `GetAssignmentsByCourseID`, in the order of the calls of
`params.Add`. -/
def assignmentsByCourseIDParams (c : CanvasClient) (assignmentSearchTerm : String)
    (bucket : AssignmentBucket) (needsGradingCountBySection : Bool) : Values :=
  searchTermParams assignmentSearchTerm ++ [("page_size", Itoa c.pageSize)] ++
    (if bucket ≠ AllAssignmentBucket then [("bucket", bucket)] else []) ++
    (if needsGradingCountBySection then
      [("needs_grading_count_by_section", "true"), ("include[]", "all_dates")] else [])

/-- The request url built by `GetAssignmentsByCourseID`. -/
def assignmentsByCourseIDUrl (c : CanvasClient) (courseID : Int) (assignmentSearchTerm : String)
    (bucket : AssignmentBucket) (needsGradingCountBySection : Bool) : String :=
  let params : Values :=
    assignmentsByCourseIDParams c assignmentSearchTerm bucket needsGradingCountBySection
  s!"{c.baseUrl}/courses/{Itoa courseID}/assignments?{Values.Encode params}"

/-- Go `GetAssignmentsByCourseID`. -/
def GetAssignmentsByCourseID (env : Env) (c : CanvasClient) (ctx : Context) (courseID : Int)
    (assignmentSearchTerm : String) (bucket : AssignmentBucket)
    (needsGradingCountBySection : Bool) (fuel : Nat) (w : World) :
    Run (Reply (Option (List Assignment))) :=
  let w0 := w.called
    (.GetAssignmentsByCourseID courseID assignmentSearchTerm bucket needsGradingCountBySection)
  if len assignmentSearchTerm = 1 then
    (some ⟨none, 400, some "assignments search term is less than 2 characters"⟩, w0)
  else
    paginate env env.unmarshalAssignments ctx
      s!"error fetching assignments of course: {Itoa courseID}" fuel
      (assignmentsByCourseIDUrl c courseID assignmentSearchTerm bucket needsGradingCountBySection)
      [] w0

/-- The request url built by `GetAssignmentsDataOfUserByCourseID`. -/
def assignmentsDataOfUserByCourseIDUrl (c : CanvasClient) (userID courseID : Int) : String :=
  let params : Values := [("per_page", Itoa c.pageSize)]
  s!"{c.baseUrl}/courses/{Itoa courseID}/analytics/users/{Itoa userID}/assignments?{Values.Encode params}"

/-- Go `GetAssignmentsDataOfUserByCourseID`. -/
def GetAssignmentsDataOfUserByCourseID (env : Env) (c : CanvasClient) (ctx : Context)
    (userID courseID : Int) (fuel : Nat) (w : World) :
    Run (Reply (Option (List AssignmentData))) :=
  paginate env env.unmarshalAssignmentData ctx
    s!"error fetching assignment results of user: {Itoa userID} and course: {Itoa courseID}" fuel
    (assignmentsDataOfUserByCourseIDUrl c userID courseID) []
    (w.called (.GetAssignmentsDataOfUserByCourseID userID courseID))

/-- The query parameters added by `GetCoursesByAccountID`, in the order of the calls of
`params.Add`. -/
def coursesByAccountIDParams (c : CanvasClient) (courseSearchTerm : String)
    (types : List CourseEnrollmentType) : Values :=
  searchTermParams courseSearchTerm ++
    [("per_page", Itoa c.pageSize), ("include[]", "account")] ++
    types.map (fun t => ("enrollment_type[]", t))

/-- The request url built by `GetCoursesByAccountID`. -/
def coursesByAccountIDUrl (c : CanvasClient) (accountID : Int) (courseSearchTerm : String)
    (types : List CourseEnrollmentType) : String :=
  let params : Values := coursesByAccountIDParams c courseSearchTerm types
  s!"{c.baseUrl}/accounts/{Itoa accountID}/courses?{Values.Encode params}"

/-- Go `GetCoursesByAccountID`. -/
def GetCoursesByAccountID (env : Env) (c : CanvasClient) (ctx : Context) (accountID : Int)
    (courseSearchTerm : String) (types : List CourseEnrollmentType) (fuel : Nat) (w : World) :
    Run (Reply (Option (List Course))) :=
  let w0 := w.called (.GetCoursesByAccountID accountID courseSearchTerm types)
  if len courseSearchTerm = 1 then
    (some ⟨none, 400, some "course search term is less than 2 characters"⟩, w0)
  else
    paginate env env.unmarshalCourses ctx
      s!"error fetching courses of account: {Itoa accountID}" fuel
      (coursesByAccountIDUrl c accountID courseSearchTerm types) [] w0

/-- The request url built by `GetCoursesByUserID`. -/
def coursesByUserIDUrl (c : CanvasClient) (userID : Int) : String :=
  let params : Values :=
    [("per_page", Itoa c.pageSize), ("include[]", "account"), ("include[]", "sections")]
  s!"{c.baseUrl}/users/{Itoa userID}/courses?{Values.Encode params}"

/-- Go `GetCoursesByUserID`. -/
def GetCoursesByUserID (env : Env) (c : CanvasClient) (ctx : Context) (userID : Int)
    (fuel : Nat) (w : World) : Run (Reply (Option (List Course))) :=
  paginate env env.unmarshalCourses ctx
    s!"error fetching courses of user: {Itoa userID}" fuel
    (coursesByUserIDUrl c userID) [] (w.called (.GetCoursesByUserID userID))

/-- The request url built by `GetSectionsByCourseID`. -/
def sectionsByCourseIDUrl (c : CanvasClient) (courseID : Int) : String :=
  let params : Values :=
    [("page", "1"), ("per_page", Itoa c.pageSize), ("include[]", "total_students")]
  s!"{c.baseUrl}/courses/{Itoa courseID}/sections?{Values.Encode params}"

/-- Go `GetSectionsByCourseID`. -/
def GetSectionsByCourseID (env : Env) (c : CanvasClient) (ctx : Context) (courseID : Int)
    (fuel : Nat) (w : World) : Run (Reply (Option (List Section))) :=
  paginate env env.unmarshalSections ctx
    s!"error fetching sections of course: {Itoa courseID}" fuel
    (sectionsByCourseIDUrl c courseID) [] (w.called (.GetSectionsByCourseID courseID))

/-- The request url built by `GetSubmissionsByCourseID`. -/
def submissionsByCourseIDUrl (c : CanvasClient) (courseID studentID : Int)
    (submissionWorkflowState : SubmissionWorkflowState) : String :=
  let params : Values :=
    [("page", "1"), ("per_page", Itoa c.pageSize), ("student_ids[]", Itoa studentID),
     ("include[]", "assignment"), ("workflow_state", submissionWorkflowState)]
  s!"{c.baseUrl}/courses/{Itoa courseID}/students/submissions?{Values.Encode params}"

/-- Go `GetSubmissionsByCourseID`. -/
def GetSubmissionsByCourseID (env : Env) (c : CanvasClient) (ctx : Context)
    (courseID studentID : Int) (submissionWorkflowState : SubmissionWorkflowState)
    (fuel : Nat) (w : World) : Run (Reply (Option (List Submission))) :=
  paginate env env.unmarshalSubmissions ctx
    s!"error fetching submissions of course: {Itoa courseID} and student: {Itoa studentID}" fuel
    (submissionsByCourseIDUrl c courseID studentID submissionWorkflowState) []
    (w.called (.GetSubmissionsByCourseID courseID studentID submissionWorkflowState))

/-! ## Package `canvas`: the get-by-id operations -/

/-- The request url built by `GetAccountByID`. -/
def accountByIDUrl (c : CanvasClient) (accountID : Int) : String :=
  s!"{c.baseUrl}/accounts/{Itoa accountID}"

/-- Go `GetAccountByID`. -/
def GetAccountByID (env : Env) (c : CanvasClient) (accountID : Int) (w : World) :
    Reply Account × World :=
  match send env (accountByIDUrl c accountID) (w.called (.GetAccountByID accountID)) with
  | (.error e, w1) => (⟨{}, 500, some e⟩, w1)
  | (.ok res, w1) =>
    if res.StatusCode ≠ 200 then
      (⟨{}, res.StatusCode, some s!"error fetching account: {Itoa accountID}"⟩, w1)
    else
      match res.ReadErr with
      | some e => (⟨{}, 500, some e⟩, w1)
      | none =>
        match env.unmarshalAccount res.Body with
        | (_, some e) => (⟨{}, 500, some e⟩, w1)
        | (account, none) => (⟨account, 200, none⟩, w1)

/-- The request url built by `GetCourseByID`. -/
def courseByIDUrl (c : CanvasClient) (courseID : Int) : String :=
  let params : Values := [("include[]", "account")]
  s!"{c.baseUrl}/courses/{Itoa courseID}?{Values.Encode params}"

/-- Go `GetCourseByID`.  On a decoding error the course decoded so far is returned. -/
def GetCourseByID (env : Env) (c : CanvasClient) (courseID : Int) (w : World) :
    Reply Course × World :=
  match send env (courseByIDUrl c courseID) (w.called (.GetCourseByID courseID)) with
  | (.error e, w1) => (⟨{}, 500, some e⟩, w1)
  | (.ok res, w1) =>
    if res.StatusCode ≠ 200 then
      (⟨{}, res.StatusCode, some s!"error fetching course: {Itoa courseID}"⟩, w1)
    else
      match res.ReadErr with
      | some e => (⟨{}, 500, some e⟩, w1)
      | none =>
        match env.unmarshalCourse res.Body with
        | (course, some e) => (⟨course, 500, some e⟩, w1)
        | (course, none) => (⟨course, 200, none⟩, w1)

/-- The request url built by `GetSectionByID`. -/
def sectionByIDUrl (c : CanvasClient) (sectionID : Int) : String :=
  s!"{c.baseUrl}/sections/{Itoa sectionID}"

/-- Go `GetSectionByID`.  The body is read before the status is looked at, and the status
returned with the decoded section is `http.StatusInternalServerError`. -/
def GetSectionByID (env : Env) (c : CanvasClient) (sectionID : Int) (w : World) :
    Reply Section × World :=
  match send env (sectionByIDUrl c sectionID) (w.called (.GetSectionByID sectionID)) with
  | (.error e, w1) => (⟨{}, 500, some e⟩, w1)
  | (.ok res, w1) =>
    match res.ReadErr with
    | some e => (⟨{}, 500, some e⟩, w1)
    | none =>
      if res.StatusCode ≠ 200 then
        (⟨{}, res.StatusCode, some s!"error fetching section: {Itoa sectionID}"⟩, w1)
      else
        match env.unmarshalSection res.Body with
        | (_, some e) => (⟨{}, 500, some e⟩, w1)
        | (section_, none) => (⟨section_, 500, none⟩, w1)

/-- The request url built by `GetUserByID`. -/
def userByIDUrl (c : CanvasClient) (userID : Int) : String :=
  s!"{c.baseUrl}/users/{Itoa userID}"

/-- Go `GetUserByID`.  On a decoding error the user decoded so far is returned. -/
def GetUserByID (env : Env) (c : CanvasClient) (userID : Int) (w : World) :
    Reply User × World :=
  match send env (userByIDUrl c userID) (w.called (.GetUserByID userID)) with
  | (.error e, w1) => (⟨{}, 500, some e⟩, w1)
  | (.ok res, w1) =>
    if res.StatusCode ≠ 200 then
      (⟨{}, res.StatusCode, some s!"error fetching user: {Itoa userID}"⟩, w1)
    else
      match res.ReadErr with
      | some e => (⟨{}, 500, some e⟩, w1)
      | none =>
        match env.unmarshalUser res.Body with
        | (user, some e) => (⟨user, 500, some e⟩, w1)
        | (user, none) => (⟨user, 200, none⟩, w1)

/-! ## Package `api`: the report handlers

A handler reads a `Request` and writes to its `http.ResponseWriter`; the writes are
returned in the order they were made. -/

/-- What a handler reads of its `*http.Request`, and the one thing it needs to know of the
response writer: the path parameter (`chi.URLParam`), the values of the query key `state[]`,
the request context, and whether `json.NewEncoder(w).Encode(&results)` returns an error. -/
structure Request where
  urlParam : String
  states : List String := []
  ctx : Context
  encodeErr : Bool := false

/-- One write to the `http.ResponseWriter`: `http.Error(w, msg, code)`, or the rows encoded
by `json.NewEncoder(w).Encode(&results)`. -/
inductive Write (ρ : Type)
  | error (msg : String) (code : Nat)
  | json (rows : List ρ)
  deriving DecidableEq, Repr

/-- The last statement of the three handlers: encode the rows, and on an encoding error
write `error encoding json response`. -/
def encode {ρ : Type} (r : Request) (results : List ρ) : List (Write ρ) :=
  if r.encodeErr then [.error "error encoding json response" 500] else [.json results]

/-- Go `for _, x := range xs { ... }` inside a handler.  The body updates the variables `s`
of the handler and either goes on (`Except.ok`) or leaves the handler (`Except.error`, which
carries what the handler returns; its first component is `none` when a gateway call made by
the body ran out of fuel, or when the body panicked). -/
def forRange {τ σ ε : Type} (body : τ → σ → Except ε σ) : List τ → σ → Except ε σ
  | [], s => .ok s
  | x :: xs, s =>
    match body x s with
    | .error e => .error e
    | .ok s1 => forRange body xs s1

/-- A Go `map[int]V`, as the list of its assignments, the latest first; `List.lookup` is
the comma-ok read `v, ok := m[k]`. -/
abbrev IntMap (V : Type) := List (Int × V)

/-- The assignment `m[k] = v`. -/
def IntMap.set {V : Type} (m : IntMap V) (k : Int) (v : V) : IntMap V :=
  (k, v) :: m

/-- Go `sectionWithTeachers`. -/
structure sectionWithTeachers where
  sectionID : Int := 0
  sisSectionID : String := ""
  teachers : Option (List String) := none
  deriving DecidableEq, Repr

/-- Go `UngradedAssignment`; `Teachers` is `none` for a nil slice. -/
structure UngradedAssignment where
  Account : String := ""
  CourseName : String := ""
  Name : String := ""
  SectionName : String := ""
  CourseID : Int := 0
  NeedingGradingSection : Int := 0
  Teachers : Option (List String) := none
  DueAt : Time := {}
  UnlockAt : Time := {}
  LockAt : Time := {}
  Published : Bool := false
  GradebookURL : String := ""
  deriving DecidableEq, Repr

/-- The variables of `GetUngradedAssignmentsByCourseID` that its loops update: the map
`sectionWithTeachersBySectionID`, the slice `results`, what has been written to `w`, and
the world. -/
structure UngradedState where
  memo : IntMap sectionWithTeachers := []
  results : List UngradedAssignment := []
  out : List (Write UngradedAssignment) := []
  world : World := {}
  deriving DecidableEq, Repr

/-- The map `assignmentDateBySectionID` built from `assignment.AllDates`. -/
def assignmentDateBySectionID (assignment : Assignment) : IntMap AssignmentDate :=
  assignment.AllDates.foldl
    (fun m date =>
      if date.SetID.Valid && date.SetType == "CourseSection" then m.set date.SetID.Int64 date
      else m)
    []

/-- The entry stored for a section whose teacher enrollments were fetched, before the
section itself is looked at: the names of the teachers, and the SIS section id of the first
enrollment when there is one. -/
def sectionEntry (sectionID : Int) (enrollments : List Enrollment) : sectionWithTeachers :=
  { sectionID := sectionID
    teachers := some (enrollments.map fun enrollment => enrollment.User.Name)
    sisSectionID :=
      match enrollments with
      | [] => ""
      | enrollment :: _ => enrollment.SISSectionID.String }

/-- The block under `// no section information at the moment`: when the map has no entry
for the section, fetch its teacher enrollments and, without a SIS section id, the section,
and store the entry.  An error of `GetEnrollmentsBySectionID` is written and the handler
returns; an error of `GetSectionByID` is written and the handler goes on.  The loop that
collects the names of the teachers reads `enrollment.User.Name` of every enrollment, and
panics at a nil one. -/
def resolveSection (env : Env) (c : CanvasClient) (ctx : Context) (fuel : Nat)
    (sec : SectionCount) (s : UngradedState) :
    Except (Run (List (Write UngradedAssignment))) UngradedState :=
  match s.memo.lookup sec.SectionID with
  | some _ => .ok s
  | none =>
    match GetEnrollmentsBySectionID env c ctx sec.SectionID [] [TeacherEnrollmentType] fuel
        s.world with
    | (none, w1) => .error (none, w1)
    | (some ⟨_, code, some _⟩, w1) =>
      .error (some (s.out ++
        [.error s!"error fetching enrollments of section: {Itoa sec.SectionID}" code]), w1)
    | (some ⟨enrollments, _, none⟩, w1) =>
      if (enrollments.getD []).any (fun enrollment => enrollment.IsNil) then
        .error (nilDereference w1)
      else
        let st := sectionEntry sec.SectionID (enrollments.getD [])
        if st.sisSectionID = "" then
          match GetSectionByID env c sec.SectionID w1 with
          | (⟨section_, code, err⟩, w2) =>
            let out :=
              match err with
              | some _ => s.out ++ [.error s!"error fetching section: {Itoa sec.SectionID}" code]
              | none => s.out
            .ok { s with
              memo := s.memo.set sec.SectionID { st with sisSectionID := section_.Name }
              out := out
              world := w2 }
        else
          .ok { s with memo := s.memo.set sec.SectionID st, world := w1 }

/-- The row built for one section of one assignment, from the maps as they are then. -/
def ungradedRow (c : CanvasClient) (course : Course) (courseID : Int) (assignment : Assignment)
    (sec : SectionCount) (memo : IntMap sectionWithTeachers) : UngradedAssignment :=
  let result : UngradedAssignment :=
    { Name := assignment.Name
      CourseID := assignment.CourseID
      NeedingGradingSection := sec.NeedsGradingCount
      Published := assignment.Published
      Account := course.Account.Name
      CourseName := course.Name
      GradebookURL := s!"{c.WebUrl}/courses/{Itoa courseID}/gradebook" }
  let result :=
    match memo.lookup sec.SectionID with
    | some st => { result with SectionName := st.sisSectionID, Teachers := st.teachers }
    | none => result
  match (assignmentDateBySectionID assignment).lookup sec.SectionID with
  | some date => { result with DueAt := date.DueAt, LockAt := date.LockAt, UnlockAt := date.UnlockAt }
  | none => result

/-- The body of `for _, section := range assignment.NeedsGradingCountBySection`. -/
def ungradedSection (env : Env) (c : CanvasClient) (ctx : Context) (fuel : Nat)
    (course : Course) (courseID : Int) (assignment : Assignment) (sec : SectionCount)
    (s : UngradedState) : Except (Run (List (Write UngradedAssignment))) UngradedState :=
  match resolveSection env c ctx fuel sec s with
  | .error r => .error r
  | .ok s1 =>
    .ok { s1 with
      results := s1.results ++ [ungradedRow c course courseID assignment sec s1.memo] }

/-- The body of `for _, assignment := range assignments`: one look at the context, then the
loop over the sections of the assignment, whose range expression
`assignment.NeedsGradingCountBySection` panics for a nil assignment. -/
def ungradedAssignment (env : Env) (c : CanvasClient) (ctx : Context) (fuel : Nat)
    (course : Course) (courseID : Int) (assignment : Assignment) (s : UngradedState) :
    Except (Run (List (Write UngradedAssignment))) UngradedState :=
  match poll ctx s.world with
  | (some e, w1) => .error (some (s.out ++ [.error e 408]), w1)
  | (none, w1) =>
    if assignment.IsNil then .error (nilDereference w1)
    else
      forRange (ungradedSection env c ctx fuel course courseID assignment)
        assignment.NeedsGradingCountBySection { s with world := w1 }

/-- Go `GetUngradedAssignmentsByCourseID`.  After an error of `GetAssignmentsByCourseID`
the handler writes the error and goes on (there is no `return` in that branch). -/
def GetUngradedAssignmentsByCourseID (env : Env) (c : CanvasClient) (r : Request) (fuel : Nat)
    (w : World) : Run (List (Write UngradedAssignment)) :=
  if r.urlParam = "" then (some [.error "course not found" 404], w)
  else
    match Atoi r.urlParam with
    | none => (some [.error "course not found" 404], w)
    | some courseID =>
      if courseID ≤ 0 then (some [.error "course not found" 404], w)
      else
        match GetCourseByID env c courseID w with
        | (⟨_, code, some _⟩, w1) =>
          (some [.error s!"error fetching course: {Itoa courseID}" code], w1)
        | (⟨course, _, none⟩, w1) =>
          match GetAssignmentsByCourseID env c r.ctx courseID "" UngradedAssignmentBucket true
              fuel w1 with
          | (none, w2) => (none, w2)
          | (some ⟨assignments, code, err⟩, w2) =>
            let out : List (Write UngradedAssignment) :=
              match err with
              | some _ => [.error s!"error fetching assignments of course: {Itoa courseID}" code]
              | none => []
            match forRange (ungradedAssignment env c r.ctx fuel course courseID)
                (assignments.getD []) { out := out, world := w2 } with
            | .error run => run
            | .ok s => (some (s.out ++ encode r s.results), s.world)

/-- The map `courseByCourseID` built from the courses of the user. -/
def courseByCourseID (courses : List Course) : IntMap Course :=
  courses.foldl (fun m course => m.set course.ID course) []

/-- The statement `if course, ok := courseByCourseID[id]; ok { ... } else { ... }` of the
two user reports: the course of the map, or else the course fetched with `GetCourseByID`
and stored in the map.  `Except.error` carries the status of a failed fetch. -/
def resolveCourse (env : Env) (c : CanvasClient) (courseID : Int) (courses : IntMap Course)
    (w : World) : Except (Nat × World) (Course × IntMap Course × World) :=
  match courses.lookup courseID with
  | some course => .ok (course, courses, w)
  | none =>
    match GetCourseByID env c courseID w with
    | (⟨_, code, some _⟩, w1) => .error (code, w1)
    | (⟨course, _, none⟩, w1) => .ok (course, courses.set courseID course, w1)

/-- Go `AssignmentResult`. -/
structure AssignmentResult where
  UserSisID : String := ""
  Name : String := ""
  Acccount : String := ""
  CourseName : String := ""
  Section : String := ""
  Title : String := ""
  PointsPossible : NullFloat := {}
  Score : NullFloat := {}
  Discrepancy : String := ""
  SubmittedAt : String := ""
  Status : String := ""
  DueAt : String := ""
  CourseState : String := ""
  EnrollmentRole : String := ""
  EnrollmentState : String := ""
  deriving DecidableEq, Repr

/-- The variables of `GetStudentAssignmentsResultByUserID` that its loops update: the map
`courseByCourseID`, the slice `results`, what has been written to `w`, and the world. -/
structure AssignmentsState where
  courses : IntMap Course := []
  results : List AssignmentResult := []
  out : List (Write AssignmentResult) := []
  world : World := {}
  deriving DecidableEq, Repr

/-- The row of one analytics record, before the fields of the course are filled in. -/
def assignmentResult (user : User) (enrollment : Enrollment) (ad : AssignmentData) :
    AssignmentResult :=
  let result : AssignmentResult :=
    { Title := ad.Title
      PointsPossible := ad.PointsPossible
      DueAt := ad.DueAt
      Score := ad.Submission.Score
      SubmittedAt := ad.Submission.SubmittedAt
      UserSisID := user.SISUserID
      Name := user.Name
      Section := enrollment.SISSectionID.String
      EnrollmentRole := enrollment.Role
      EnrollmentState := enrollment.EnrollmentState
      Status := ad.Status }
  if ad.Submission.Score.Float64 > ad.PointsPossible.Float64 then
    { result with Discrepancy := "ERROR" }
  else result

/-- The body of `for _, ad := range data` of `GetStudentAssignmentsResultByUserID`; its
first statement reads `ad.Title`, which panics for a nil record. -/
def assignmentResultRow (env : Env) (c : CanvasClient) (user : User) (enrollment : Enrollment)
    (ad : AssignmentData) (s : AssignmentsState) :
    Except (Run (List (Write AssignmentResult))) AssignmentsState :=
  if ad.IsNil then .error (nilDereference s.world)
  else
    match resolveCourse env c enrollment.CourseID s.courses s.world with
    | .error (code, w1) =>
      .error (some (s.out ++
        [.error s!"error fetching course: {Itoa enrollment.CourseID}" code]), w1)
    | .ok (course, courses, w1) =>
      .ok { s with
        courses := courses
        results := s.results ++
          [{ assignmentResult user enrollment ad with
              Acccount := course.Account.Name, CourseName := course.Name,
              CourseState := course.WorkflowState }]
        world := w1 }

/-- The body of `for _, enrollment := range enrollments` of
`GetStudentAssignmentsResultByUserID`: one look at the context, then the read of
`enrollment.Role`, which panics for a nil enrollment; an enrollment whose role is not
`StudentEnrollment` is skipped. -/
def assignmentResultEnrollment (env : Env) (c : CanvasClient) (ctx : Context) (fuel : Nat)
    (user : User) (userID : Int) (enrollment : Enrollment) (s : AssignmentsState) :
    Except (Run (List (Write AssignmentResult))) AssignmentsState :=
  match poll ctx s.world with
  | (some e, w1) => .error (some (s.out ++ [.error e 408]), w1)
  | (none, w1) =>
    if enrollment.IsNil then .error (nilDereference w1)
    else if enrollment.Role ≠ StudentEnrollmentType then .ok { s with world := w1 }
    else
      match GetAssignmentsDataOfUserByCourseID env c ctx userID enrollment.CourseID fuel w1 with
      | (none, w2) => .error (none, w2)
      | (some ⟨_, code, some _⟩, w2) =>
        .error (some (s.out ++
          [.error s!"error fetching assignment results of user: {Itoa userID} and course: {Itoa enrollment.CourseID}" code]), w2)
      | (some ⟨data, _, none⟩, w2) =>
        forRange (assignmentResultRow env c user enrollment) (data.getD []) { s with world := w2 }

/-- Go `GetStudentAssignmentsResultByUserID`.  After an error of `GetUserByID` the handler
writes the error and goes on (there is no `return` in that branch).  The loop that fills
`courseByCourseID` reads `course.ID` of every course of the user, and panics at a nil one,
before the enrollments are requested. -/
def GetStudentAssignmentsResultByUserID (env : Env) (c : CanvasClient) (r : Request)
    (fuel : Nat) (w : World) : Run (List (Write AssignmentResult)) :=
  if r.urlParam = "" then (some [.error "user not found" 404], w)
  else
    match Atoi r.urlParam with
    | none => (some [.error "user not found" 404], w)
    | some userID =>
      match GetUserByID env c userID w with
      | (⟨user, code, err⟩, w1) =>
        let out : List (Write AssignmentResult) :=
          match err with
          | some _ => [.error s!"error fetching user: {Itoa userID}" code]
          | none => []
        match GetCoursesByUserID env c r.ctx userID fuel w1 with
        | (none, w2) => (none, w2)
        | (some ⟨_, code, some _⟩, w2) =>
          (some (out ++ [.error s!"error fetching courses of user: {Itoa userID}" code]), w2)
        | (some ⟨courses, _, none⟩, w2) =>
          if (courses.getD []).any (fun course => course.IsNil) then nilDereference w2
          else
            match GetEnrollmentsByUserID env c r.ctx userID
                [ActiveEnrollmentState, CompletedEnrollmentState] fuel w2 with
            | (none, w3) => (none, w3)
            | (some ⟨_, code, some _⟩, w3) =>
              (some (out ++ [.error s!"error fetching enrollments of user: {Itoa userID}" code]), w3)
            | (some ⟨enrollments, _, none⟩, w3) =>
              match forRange (assignmentResultEnrollment env c r.ctx fuel user userID)
                  (enrollments.getD [])
                  { courses := courseByCourseID (courses.getD []), out := out, world := w3 } with
              | .error run => run
              | .ok s => (some (s.out ++ encode r s.results), s.world)

/-- Go `EnrollmentResult`. -/
structure EnrollmentResult where
  SISUserID : String := ""
  StudentName : String := ""
  AccountName : String := ""
  CourseName : String := ""
  SectionName : String := ""
  EnrollmentState : String := ""
  CourseState : String := ""
  CurrentGrade : NullString := {}
  CurrentScore : NullFloat := {}
  EnrollmentRole : String := ""
  GradesURL : String := ""
  deriving DecidableEq, Repr

/-- The variables of `GetStudentEnrollmentsResultByUserID` that its loop updates: the map
`courseByCourseID`, the rows stored in `results` so far, and the world. -/
structure EnrollmentsState where
  courses : IntMap Course := []
  results : List EnrollmentResult := []
  world : World := {}
  deriving DecidableEq, Repr

/-- The row of one enrollment, before the course is resolved. -/
def enrollmentResult (enrollment : Enrollment) : EnrollmentResult :=
  { SISUserID := enrollment.User.SISUserID
    StudentName := enrollment.User.Name
    CurrentGrade := enrollment.Grades.CurrentGrade
    CurrentScore := enrollment.Grades.CurrentScore
    GradesURL := enrollment.Grades.HtmlUrl
    EnrollmentState := enrollment.EnrollmentState
    EnrollmentRole := enrollment.Role
    SectionName := enrollment.SISSectionID.String }

/-- The body of `for i, enrollment := range enrollments` of
`GetStudentEnrollmentsResultByUserID`; the row of enrollment `i` is stored at index `i`.
Its first statement reads `enrollment.User`, which panics for a nil enrollment. -/
def enrollmentResultRow (env : Env) (c : CanvasClient) (enrollment : Enrollment)
    (s : EnrollmentsState) : Except (Run (List (Write EnrollmentResult))) EnrollmentsState :=
  if enrollment.IsNil then .error (nilDereference s.world)
  else
    match resolveCourse env c enrollment.CourseID s.courses s.world with
    | .error (code, w1) =>
      .error (some [.error s!"error fetching course: {Itoa enrollment.CourseID}" code], w1)
    | .ok (course, courses, w1) =>
      let result : EnrollmentResult :=
        { enrollmentResult enrollment with
          CourseName := course.Name, CourseState := course.WorkflowState,
          AccountName := course.Account.Name }
      if result.SectionName = "" then
        match GetSectionByID env c enrollment.CourseSectionID w1 with
        | (⟨_, code, some _⟩, w2) =>
          .error (some [.error s!"error fetching section: {Itoa enrollment.CourseSectionID}" code], w2)
        | (⟨section_, _, none⟩, w2) =>
          .ok { courses := courses
                results := s.results ++ [{ result with SectionName := section_.Name }]
                world := w2 }
      else
        .ok { courses := courses, results := s.results ++ [result], world := w1 }

/-- Go `GetStudentEnrollmentsResultByUserID`.  The loop that fills `courseByCourseID` reads
`course.ID` of every course of the user, and panics at a nil one. -/
def GetStudentEnrollmentsResultByUserID (env : Env) (c : CanvasClient) (r : Request)
    (fuel : Nat) (w : World) : Run (List (Write EnrollmentResult)) :=
  if r.urlParam = "" then (some [.error "user not found" 404], w)
  else
    match Atoi r.urlParam with
    | none => (some [.error "user not found" 404], w)
    | some userID =>
      let states := GetOnlyValidEnrollmentState r.states
      match GetEnrollmentsByUserID env c r.ctx userID states fuel w with
      | (none, w1) => (none, w1)
      | (some ⟨_, code, some _⟩, w1) =>
        (some [.error s!"error fetching enrollments of user: {Itoa userID}" code], w1)
      | (some ⟨enrollments, _, none⟩, w1) =>
        match GetCoursesByUserID env c r.ctx userID fuel w1 with
        | (none, w2) => (none, w2)
        | (some ⟨_, code, some _⟩, w2) =>
          (some [.error s!"error fetching courses of user: {Itoa userID}" code], w2)
        | (some ⟨courses, _, none⟩, w2) =>
          if (courses.getD []).any (fun course => course.IsNil) then nilDereference w2
          else
            match forRange (enrollmentResultRow env c) (enrollments.getD [])
                { courses := courseByCourseID (courses.getD []), world := w2 } with
            | .error run => run
            | .ok s => (some (encode r s.results), s.world)

/-! ## The eight list operations as one family -/

/-- A call of one of the eight paginated list methods of the gateway, with its arguments. -/
inductive ListOp
  | GetEnrollmentsBySectionID (sectionID : Int) (states : List EnrollmentState)
      (types : List EnrollmentType)
  | GetEnrollmentsByUserID (userID : Int) (states : List EnrollmentState)
  | GetAssignmentsByCourseID (courseID : Int) (assignmentSearchTerm : String)
      (bucket : AssignmentBucket) (needsGradingCountBySection : Bool)
  | GetAssignmentsDataOfUserByCourseID (userID courseID : Int)
  | GetCoursesByAccountID (accountID : Int) (courseSearchTerm : String)
      (types : List CourseEnrollmentType)
  | GetCoursesByUserID (userID : Int)
  | GetSectionsByCourseID (courseID : Int)
  | GetSubmissionsByCourseID (courseID studentID : Int)
      (submissionWorkflowState : SubmissionWorkflowState)
  deriving DecidableEq, Repr

/-- The element type of the slice the method returns. -/
def ListOp.Item : ListOp → Type
  | .GetEnrollmentsBySectionID _ _ _ => Enrollment
  | .GetEnrollmentsByUserID _ _ => Enrollment
  | .GetAssignmentsByCourseID _ _ _ _ => Assignment
  | .GetAssignmentsDataOfUserByCourseID _ _ => AssignmentData
  | .GetCoursesByAccountID _ _ _ => Course
  | .GetCoursesByUserID _ => Course
  | .GetSectionsByCourseID _ => Section
  | .GetSubmissionsByCourseID _ _ _ => Submission

/-- The decoder the method applies to the body of a page. -/
def ListOp.unmarshal (env : Env) : (op : ListOp) → String → List op.Item × Option String
  | .GetEnrollmentsBySectionID _ _ _ => env.unmarshalEnrollments
  | .GetEnrollmentsByUserID _ _ => env.unmarshalEnrollments
  | .GetAssignmentsByCourseID _ _ _ _ => env.unmarshalAssignments
  | .GetAssignmentsDataOfUserByCourseID _ _ => env.unmarshalAssignmentData
  | .GetCoursesByAccountID _ _ _ => env.unmarshalCourses
  | .GetCoursesByUserID _ => env.unmarshalCourses
  | .GetSectionsByCourseID _ => env.unmarshalSections
  | .GetSubmissionsByCourseID _ _ _ => env.unmarshalSubmissions

/-- The request url the method builds from its arguments. -/
def ListOp.requestUrl (c : CanvasClient) : ListOp → String
  | .GetEnrollmentsBySectionID sectionID states types =>
    enrollmentsBySectionIDUrl c sectionID states types
  | .GetEnrollmentsByUserID userID states => enrollmentsByUserIDUrl c userID states
  | .GetAssignmentsByCourseID courseID term bucket flag =>
    assignmentsByCourseIDUrl c courseID term bucket flag
  | .GetAssignmentsDataOfUserByCourseID userID courseID =>
    assignmentsDataOfUserByCourseIDUrl c userID courseID
  | .GetCoursesByAccountID accountID term types => coursesByAccountIDUrl c accountID term types
  | .GetCoursesByUserID userID => coursesByUserIDUrl c userID
  | .GetSectionsByCourseID courseID => sectionsByCourseIDUrl c courseID
  | .GetSubmissionsByCourseID courseID studentID state =>
    submissionsByCourseIDUrl c courseID studentID state

/-- The search term of the two methods that take one. -/
def ListOp.searchTerm : ListOp → Option String
  | .GetAssignmentsByCourseID _ term _ _ => some term
  | .GetCoursesByAccountID _ term _ => some term
  | _ => none

/-- Run the method. -/
def ListOp.run (env : Env) (c : CanvasClient) (ctx : Context) :
    (op : ListOp) → Nat → World → Run (Reply (Option (List op.Item)))
  | .GetEnrollmentsBySectionID sectionID states types =>
    CanvasReports.GetEnrollmentsBySectionID env c ctx sectionID states types
  | .GetEnrollmentsByUserID userID states => CanvasReports.GetEnrollmentsByUserID env c ctx userID states
  | .GetAssignmentsByCourseID courseID term bucket flag =>
    CanvasReports.GetAssignmentsByCourseID env c ctx courseID term bucket flag
  | .GetAssignmentsDataOfUserByCourseID userID courseID =>
    CanvasReports.GetAssignmentsDataOfUserByCourseID env c ctx userID courseID
  | .GetCoursesByAccountID accountID term types =>
    CanvasReports.GetCoursesByAccountID env c ctx accountID term types
  | .GetCoursesByUserID userID => CanvasReports.GetCoursesByUserID env c ctx userID
  | .GetSectionsByCourseID courseID => CanvasReports.GetSectionsByCourseID env c ctx courseID
  | .GetSubmissionsByCourseID courseID studentID state =>
    CanvasReports.GetSubmissionsByCourseID env c ctx courseID studentID state

/-! ## The vocabulary of the specification -/

/-- The entry, once trimmed, has the form `<u>; rel="next"`, with no line feed in `u`. -/
def IsNextEntry (entry u : List Char) : Prop :=
  TrimSpace entry = '<' :: (u ++ nextTail) ∧ '\n' ∉ u

/-- The Link header has a comma-separated entry of the form `<u>; rel="next"`. -/
def HasNextEntry (linkHeader : String) : Prop :=
  ∃ entry ∈ Split linkHeader.data ',', ∃ u : List Char, IsNextEntry entry u

/-- The GETs sent between two worlds, oldest first. -/
def exchangesSince (w w' : World) : List Exchange :=
  w'.log.drop w.log.length

/-- The gateway calls made between two worlds, oldest first. -/
def callsSince (w w' : World) : List Call :=
  w'.calls.drop w.calls.length

/-- The value of the Link header of the response of an exchange. -/
def Exchange.link (x : Exchange) : String :=
  match x.result with
  | .response res => res.Link
  | .failure _ => ""

/-- The exchange was answered with status 200 and a body that reads and decodes to `items`. -/
def Exchange.IsPage {α : Type} (unmarshal : String → List α × Option String) (x : Exchange)
    (items : List α) : Prop :=
  match x.result with
  | .response res =>
    res.StatusCode = 200 ∧ res.ReadErr = none ∧ unmarshal res.Body = (items, none)
  | .failure _ => False

/-- The exchange was answered with the status `s`. -/
def Exchange.HasStatus (x : Exchange) (s : Nat) : Prop :=
  match x.result with
  | .response res => res.StatusCode = s
  | .failure _ => False

/-- The upstream answered the first `pages.length` GETs of the list with status 200 and
bodies that decode to `pages`, in this order; the Link header of every page but the last has
a next entry, and the Link header of the last page has none. -/
def PagesAnswered {α : Type} (unmarshal : String → List α × Option String) :
    List Exchange → List (List α) → Prop
  | x :: _, [page] => x.IsPage unmarshal page ∧ ¬ HasNextEntry x.link
  | x :: xs, page :: page2 :: pages =>
    x.IsPage unmarshal page ∧ HasNextEntry x.link ∧ PagesAnswered unmarshal xs (page2 :: pages)
  | _, _ => False

/-- The upstream answered the first `k - 1` GETs of the list with status 200, a body that
decodes and a Link header with a next entry, and GET number `k` with the status `s`. -/
def PagesThenStatus {α : Type} (unmarshal : String → List α × Option String) :
    List Exchange → Nat → Nat → Prop
  | x :: _, 1, s => x.HasStatus s
  | x :: xs, k + 2, s =>
    (∃ items, x.IsPage unmarshal items) ∧ HasNextEntry x.link ∧
      PagesThenStatus unmarshal xs (k + 1) s
  | _, _, _ => False

/-- The first GET of the list went to `url` and every later one to the next url of the
Link header of the response before it. -/
def UrlsFollow : String → List Exchange → Prop
  | _, [] => True
  | url, x :: xs => x.url = url ∧ UrlsFollow (getNextUrl x.link) xs

/-- The upstream, asked after the GETs of `log`, serves the pages `pages` from `url` on: the
request for `url` can be built and is answered with status 200 and a body that is read and
decodes to the first page; when other pages follow, the Link header of the answer has a next
entry and its next url is not empty, and the upstream, asked after this GET, serves the other
pages from that next url on; the Link header of the answer with the last page has no next
entry.  This says what the upstream would answer, whether or not it is asked. -/
def ServesPages {α : Type} (env : Env) (unmarshal : String → List α × Option String) :
    List Exchange → String → List (List α) → Prop
  | _, _, [] => False
  | log, url, [page] =>
    ∃ res : Response, env.newRequest url = none ∧ env.respond log url = .response res ∧
      res.StatusCode = 200 ∧ res.ReadErr = none ∧ unmarshal res.Body = (page, none) ∧
      ¬ HasNextEntry res.Link
  | log, url, page :: page2 :: pages =>
    ∃ res : Response, env.newRequest url = none ∧ env.respond log url = .response res ∧
      res.StatusCode = 200 ∧ res.ReadErr = none ∧ unmarshal res.Body = (page, none) ∧
      HasNextEntry res.Link ∧ getNextUrl res.Link ≠ "" ∧
      ServesPages env unmarshal (log ++ [⟨url, .response res⟩]) (getNextUrl res.Link)
        (page2 :: pages)

/-- The upstream, asked after the GETs of `log`, serves `k - 1` pages from `url` on, each
with status 200, a body that is read and decodes, and a Link header with a next entry whose
next url is not empty, and answers the GET number `k` with the status `s`. -/
def ServesThenStatus {α : Type} (env : Env) (unmarshal : String → List α × Option String) :
    List Exchange → String → Nat → Nat → Prop
  | _, _, 0, _ => False
  | log, url, 1, s =>
    ∃ res : Response, env.newRequest url = none ∧ env.respond log url = .response res ∧
      res.StatusCode = s
  | log, url, k + 2, s =>
    ∃ res : Response, env.newRequest url = none ∧ env.respond log url = .response res ∧
      res.StatusCode = 200 ∧ res.ReadErr = none ∧
      (∃ items, unmarshal res.Body = (items, none)) ∧
      HasNextEntry res.Link ∧ getNextUrl res.Link ≠ "" ∧
      ServesThenStatus env unmarshal (log ++ [⟨url, .response res⟩]) (getNextUrl res.Link)
        (k + 1) s

/-- A decimal integer: an optional sign and one or more ASCII digits. -/
def IsDecimalInteger (s : String) : Prop :=
  ∃ sign digits : List Char, s.data = sign ++ digits ∧ (sign = [] ∨ sign = ['+'] ∨ sign = ['-']) ∧
    digits ≠ [] ∧ ∀ d ∈ digits, isDigit d = true

/-- The integer a decimal integer denotes. -/
def decimalValue (s : String) : Int :=
  match s.data with
  | '-' :: digits => - (digitsValue digits : Int)
  | '+' :: digits => (digitsValue digits : Int)
  | digits => (digitsValue digits : Int)

/-- How many of the calls are `GetEnrollmentsBySectionID` for the section. -/
def enrollmentLookups (sectionID : Int) (calls : List Call) : Nat :=
  calls.countP fun call =>
    match call with
    | .GetEnrollmentsBySectionID i _ _ => i == sectionID
    | _ => false

/-- How many of the calls are `GetSectionByID` for the section. -/
def sectionLookups (sectionID : Int) (calls : List Call) : Nat :=
  calls.countP fun call =>
    match call with
    | .GetSectionByID i => i == sectionID
    | _ => false

/-- The calls agree with the map of the sections: the enrollments of a section with an entry
were fetched once and the section itself at most once, and a section without an entry was
never looked up. -/
def Memoized (calls : List Call) (memo : IntMap sectionWithTeachers) : Prop :=
  ∀ id : Int,
    (memo.lookup id = none → enrollmentLookups id calls = 0 ∧ sectionLookups id calls = 0) ∧
      (memo.lookup id ≠ none → enrollmentLookups id calls = 1 ∧ sectionLookups id calls ≤ 1)

/-- A step of the course report from `s` to `s'` keeps the entries of the map of the
sections, and keeps the calls in agreement with the map. -/
def MemoStep (s s' : UngradedState) : Prop :=
  (∀ j, s.memo.lookup j ≠ none → s'.memo.lookup j ≠ none) ∧
    ∀ base cs, s.world.calls = base ++ cs → Memoized cs s.memo →
      ∃ cs', s'.world.calls = base ++ cs' ∧ Memoized cs' s'.memo

/-- The pairs (assignment, section) the course report goes through: the assignments in the
order of the list, and under each assignment the entries of its needs-grading-by-section
list in their order. -/
def sectionPairs (assignments : List Assignment) : List (Assignment × SectionCount) :=
  assignments.flatMap fun assignment =>
    assignment.NeedsGradingCountBySection.map fun sec => (assignment, sec)

/-- The date entry has the set type `CourseSection` and a set id that is present and equal
to the section id. -/
def appliesToSection (sectionID : Int) (date : AssignmentDate) : Bool :=
  date.SetID.Valid && date.SetType == "CourseSection" && date.SetID.Int64 == sectionID

/-- The row is the one the course report builds for the pair (assignment, section), from
some state of the map of the sections. -/
def IsUngradedRowOf (c : CanvasClient) (course : Course) (courseID : Int)
    (p : Assignment × SectionCount) (row : UngradedAssignment) : Prop :=
  ∃ memo : IntMap sectionWithTeachers, row = ungradedRow c course courseID p.1 p.2 memo

/-- The calls the course report makes for a section succeed, in whatever world they are
made: `GetEnrollmentsBySectionID` for the teachers of the section returns without an error
a slice without a nil pointer, and when the enrollments it returns give no SIS section id,
the call of `GetSectionByID` that follows returns without an error. -/
def SectionResolves (env : Env) (c : CanvasClient) (ctx : Context) (fuel : Nat)
    (sectionID : Int) : Prop :=
  ∀ w : World, ∃ enrollments code w1,
    GetEnrollmentsBySectionID env c ctx sectionID [] [TeacherEnrollmentType] fuel w =
        (some ⟨enrollments, code, none⟩, w1) ∧
      (∀ enrollment ∈ enrollments.getD [], enrollment.IsNil = false) ∧
      ((sectionEntry sectionID (enrollments.getD [])).sisSectionID = "" →
        (GetSectionByID env c sectionID w1).1.err = none)

/-- The call of `GetAssignmentsDataOfUserByCourseID` for the user and the course returns
the analytics records `data` without an error, in whatever world it is made. -/
def AnalyticsAnswered (env : Env) (c : CanvasClient) (ctx : Context) (fuel : Nat)
    (userID courseID : Int) (data : List AssignmentData) : Prop :=
  ∀ w : World, ∃ code w1,
    GetAssignmentsDataOfUserByCourseID env c ctx userID courseID fuel w =
      (some ⟨some data, code, none⟩, w1)

/-- The call of `GetCourseByID` for the course returns without an error, in whatever world
it is made. -/
def CourseResolves (env : Env) (c : CanvasClient) (courseID : Int) : Prop :=
  ∀ w : World, (GetCourseByID env c courseID w).1.err = none

/-- Where the entry `st` of the map of the sections comes from: a call of
`GetEnrollmentsBySectionID` for the section, with no state filter and the type filter
`TeacherEnrollment`, returned the enrollments without an error; the teachers of the entry
are the user names of these enrollments, in their order, in a slice that is not nil; and the
name of the entry is the SIS section id of the first of these enrollments when that is not
empty, and otherwise the name of the section returned by the call of `GetSectionByID` made
right after, which returned without an error if `clean` holds. -/
def SectionOrigin (env : Env) (c : CanvasClient) (ctx : Context) (fuel : Nat) (clean : Prop)
    (sectionID : Int) (st : sectionWithTeachers) : Prop :=
  ∃ (w0 : World) (enrollments : Option (List Enrollment)) (code : Nat) (w1 : World),
    GetEnrollmentsBySectionID env c ctx sectionID [] [TeacherEnrollmentType] fuel w0 =
        (some ⟨enrollments, code, none⟩, w1) ∧
      st.teachers = some ((enrollments.getD []).map fun e => e.User.Name) ∧
      if (sectionEntry sectionID (enrollments.getD [])).sisSectionID = "" then
        st.sisSectionID = (GetSectionByID env c sectionID w1).1.val.Name ∧
          (clean → (GetSectionByID env c sectionID w1).1.err = none)
      else st.sisSectionID = (sectionEntry sectionID (enrollments.getD [])).sisSectionID

/-- The row is the one the course report builds for the pair (assignment, section) from a
map of the sections whose entry for the section comes from the calls described by
`SectionOrigin`. -/
def UngradedRowFrom (env : Env) (c : CanvasClient) (ctx : Context) (fuel : Nat)
    (course : Course) (courseID : Int) (clean : Prop) (p : Assignment × SectionCount)
    (row : UngradedAssignment) : Prop :=
  ∃ (memo : IntMap sectionWithTeachers) (st : sectionWithTeachers),
    memo.lookup p.2.SectionID = some st ∧
      SectionOrigin env c ctx fuel clean p.2.SectionID st ∧
      row = ungradedRow c course courseID p.1 p.2 memo

/-- How many of the calls are `GetCourseByID` for the course. -/
def courseLookups (courseID : Int) (calls : List Call) : Nat :=
  calls.countP fun call =>
    match call with
    | .GetCourseByID i => i == courseID
    | _ => false

/-- Where the course used for a course id comes from: the map built from the course list of
the user when it has an entry for the id, and otherwise a call of `GetCourseByID` for the
id that returned without an error. -/
def CourseOrigin (env : Env) (c : CanvasClient) (courses0 : IntMap Course) (courseID : Int)
    (course : Course) : Prop :=
  courses0.lookup courseID = some course ∨
    (courses0.lookup courseID = none ∧
      ∃ w0 : World, (GetCourseByID env c courseID w0).1.err = none ∧
        (GetCourseByID env c courseID w0).1.val = course)

/-- The calls agree with the map of the courses: no course was fetched twice, a course
without an entry was never fetched, and a course of the course list of the user was never
fetched. -/
def CourseCallsMemo (courses0 courses : IntMap Course) (calls : List Call) : Prop :=
  ∀ id : Int, courseLookups id calls ≤ 1 ∧
    (courses.lookup id = none → courseLookups id calls = 0) ∧
    (courses0.lookup id ≠ none → courseLookups id calls = 0)

/-- The map of the courses of a user report and the world, at some point of its loop: every
entry of the map comes from where `CourseOrigin` says, the entries of the map built from the
course list of the user are still there, and the calls made since `base` agree with the
map. -/
def CoursesInv (env : Env) (c : CanvasClient) (courses0 : IntMap Course) (base : List Call)
    (courses : IntMap Course) (w : World) : Prop :=
  (∀ k cv, courses.lookup k = some cv → CourseOrigin env c courses0 k cv) ∧
    (∀ k cv, courses0.lookup k = some cv → courses.lookup k = some cv) ∧
    ∃ cs, w.calls = base ++ cs ∧ CourseCallsMemo courses0 courses cs

/-- The call of `GetSectionByID` for the section returns without an error, in whatever world
it is made. -/
def SectionFound (env : Env) (c : CanvasClient) (sectionID : Int) : Prop :=
  ∀ w : World, (GetSectionByID env c sectionID w).1.err = none

/-- The writes hold no encoded rows: each of them is a call of `http.Error`. -/
def OnlyErrors {ρ : Type} (out : List (Write ρ)) : Prop :=
  ∀ rows, Write.json rows ∉ out

/-- The section ids of the calls of `GetSectionByID` among the calls, in their order. -/
def sectionCalls (calls : List Call) : List Int :=
  calls.filterMap fun call =>
    match call with
    | .GetSectionByID i => some i
    | _ => none

/-- The (user, course) pairs of the calls of `GetAssignmentsDataOfUserByCourseID` among the
calls, in their order. -/
def analyticsCalls (calls : List Call) : List (Int × Int) :=
  calls.filterMap fun call =>
    match call with
    | .GetAssignmentsDataOfUserByCourseID u i => some (u, i)
    | _ => none

/-- The state filters of the calls of `GetEnrollmentsByUserID` among the calls, in their
order. -/
def enrollmentStateFilters (calls : List Call) : List (List EnrollmentState) :=
  calls.filterMap fun call =>
    match call with
    | .GetEnrollmentsByUserID _ states => some states
    | _ => none

/-- The entries of the query parameters under the key `bucket`. -/
def bucketParams (params : Values) : Values :=
  params.filter fun p => p.1 == "bucket"

/-- The entries of the query parameters under the key `search_term`. -/
def searchTermValues (params : Values) : List String :=
  (params.filter fun p => p.1 == "search_term").map fun p => p.2

/-- The transport call for `url` made in the world `w` succeeds with the response `res`:
the request is built and the upstream answers it. -/
def Answered (env : Env) (url : String) (w : World) (res : Response) : Prop :=
  env.newRequest url = none ∧ env.respond w.log url = .response res

/-- The response has status 200 and a body that is read and decodes to `v`. -/
def Response.Decodes {α : Type} (unmarshal : String → α × Option String) (res : Response)
    (v : α) : Prop :=
  res.StatusCode = 200 ∧ res.ReadErr = none ∧ unmarshal res.Body = (v, none)

/-- What is said of a get-by-id operation that answered `reply` to a call made in the world
`w`: its error is nil exactly when the transport call succeeded with status 200 and a body
that was read and decoded; and when the upstream answered with a status other than 200 (and
with a body that could be read, for an operation that reads the body first), the reply
carries that status and the zero value `zero`. -/
def GetByIDContract {α : Type} (env : Env) (url : String)
    (unmarshal : String → α × Option String) (zero : α) (readsBodyFirst : Bool) (w : World)
    (reply : Reply α) : Prop :=
  (reply.err = none ↔ ∃ res v, Answered env url w res ∧ res.Decodes unmarshal v) ∧
    ∀ res, Answered env url w res → res.StatusCode ≠ 200 →
      (readsBodyFirst = true → res.ReadErr = none) →
      reply.code = res.StatusCode ∧ reply.val = zero

/-- The row of the assignment report for the analytics record `ad` of the enrollment, with
the fields of some course filled in. -/
def IsAssignmentResultOf (user : User) (enrollment : Enrollment) (ad : AssignmentData)
    (row : AssignmentResult) : Prop :=
  ∃ course : Course,
    row = { assignmentResult user enrollment ad with
      Acccount := course.Account.Name, CourseName := course.Name,
      CourseState := course.WorkflowState }

/-- The rows the assignment report appends for one enrollment: none when the role is not
`StudentEnrollment`; otherwise one for each analytics record returned, without an error, by a
call of `GetAssignmentsDataOfUserByCourseID` for the user and the course of the enrollment,
in the order of the records. -/
def IsAnalyticsBlockOf (env : Env) (c : CanvasClient) (ctx : Context) (fuel : Nat)
    (user : User) (userID : Int) (enrollment : Enrollment) (block : List AssignmentResult) :
    Prop :=
  if enrollment.Role = StudentEnrollmentType then
    ∃ data code w0 w1,
      GetAssignmentsDataOfUserByCourseID env c ctx userID enrollment.CourseID fuel w0 =
          (some ⟨data, code, none⟩, w1) ∧
        List.Forall₂ (IsAssignmentResultOf user enrollment) (data.getD []) block
  else block = []

/-- The section name of a row of the enrollment report: the SIS section id of the enrollment
when it is not empty, and otherwise the name of the section that a call of `GetSectionByID`
for the `course_section_id` of the enrollment returned without an error. -/
def HasSectionNameOf (env : Env) (c : CanvasClient) (enrollment : Enrollment)
    (row : EnrollmentResult) : Prop :=
  if enrollment.SISSectionID.String = "" then
    ∃ w : World, (GetSectionByID env c enrollment.CourseSectionID w).1.err = none ∧
      row.SectionName = (GetSectionByID env c enrollment.CourseSectionID w).1.val.Name
  else row.SectionName = enrollment.SISSectionID.String

/-- The row of the enrollment report is built from the enrollment: its fields are those of
the enrollment, its course name, course state and account name are those of a course that
comes from where `CourseOrigin` says, and its section name is as `HasSectionNameOf` says. -/
def EnrollmentRowFrom (env : Env) (c : CanvasClient) (courses0 : IntMap Course)
    (enrollment : Enrollment) (row : EnrollmentResult) : Prop :=
  ∃ course : Course, CourseOrigin env c courses0 enrollment.CourseID course ∧
    HasSectionNameOf env c enrollment row ∧
    row = { enrollmentResult enrollment with
      CourseName := course.Name, CourseState := course.WorkflowState,
      AccountName := course.Account.Name, SectionName := row.SectionName }

/-- The enrollments whose role is exactly `StudentEnrollment`. -/
def studentEnrollments (enrollments : List Enrollment) : List Enrollment :=
  enrollments.filter fun enrollment => enrollment.Role == StudentEnrollmentType

/-! ## A small upstream for the examples -/

/-- The client of the examples. -/
def exampleClient : CanvasClient :=
  { baseUrl := "https://canvas.example.com/api/v1", accessToken := "token", pageSize := 100,
    WebUrl := getWebUrl "https://canvas.example.com/api/v1" }

/-- A response with status 200. -/
def ok200 (link body : String) : HttpResult :=
  .response { StatusCode := 200, Link := link, Body := body }

/-- A response with another status and an empty body. -/
def status (code : Nat) : HttpResult :=
  .response { StatusCode := code }

/-- The upstream of the examples, which answers by url.  User 42 has two pages of active
enrollments and a course list whose second page is refused; the user record itself is not
found.  Course 7 exists but its assignments are refused; course 8 has two assignments over
the sections 1 and 2; course 9 has one assignment over section 3, which no section lookup
finds. -/
def exampleRespond (url : String) : HttpResult :=
  if url = "https://canvas.example.com/api/v1/users/42/enrollments?per_page=100&state%5B%5D=active" then
    ok200 "<https://canvas.example.com/api/v1/users/42/enrollments?page=1>; rel=\"current\", <https://canvas.example.com/api/v1/users/42/enrollments?page=2>; rel=\"next\"" "enrollments-42-1"
  else if url = "https://canvas.example.com/api/v1/users/42/enrollments?page=2" then
    ok200 "<https://canvas.example.com/api/v1/users/42/enrollments?page=1>; rel=\"first\"" "enrollments-42-2"
  else if url = "https://canvas.example.com/api/v1/users/42/courses?include%5B%5D=account&include%5B%5D=sections&per_page=100" then
    ok200 "<https://canvas.example.com/api/v1/users/42/courses?page=2>; rel=\"next\"" "courses-42-1"
  else if url = "https://canvas.example.com/api/v1/users/42/courses?page=2" then status 503
  else if url = "https://canvas.example.com/api/v1/courses/7?include%5B%5D=account" then
    ok200 "" "course-7"
  else if url = "https://canvas.example.com/api/v1/courses/7/assignments?bucket=ungraded&include%5B%5D=all_dates&needs_grading_count_by_section=true&page_size=100" then
    status 500
  else if url = "https://canvas.example.com/api/v1/courses/8?include%5B%5D=account" then
    ok200 "" "course-8"
  else if url = "https://canvas.example.com/api/v1/courses/8/assignments?bucket=ungraded&include%5B%5D=all_dates&needs_grading_count_by_section=true&page_size=100" then
    ok200 "" "assignments-8"
  else if url = "https://canvas.example.com/api/v1/courses/9?include%5B%5D=account" then
    ok200 "" "course-9"
  else if url = "https://canvas.example.com/api/v1/courses/9/assignments?bucket=ungraded&include%5B%5D=all_dates&needs_grading_count_by_section=true&page_size=100" then
    ok200 "" "assignments-9"
  else if url = "https://canvas.example.com/api/v1/sections/1/enrollments?per_page=100&type%5B%5D=TeacherEnrollment" then
    ok200 "" "teachers-1"
  else if url = "https://canvas.example.com/api/v1/sections/2/enrollments?per_page=100&type%5B%5D=TeacherEnrollment" then
    ok200 "" "teachers-none"
  else if url = "https://canvas.example.com/api/v1/sections/3/enrollments?per_page=100&type%5B%5D=TeacherEnrollment" then
    ok200 "" "teachers-none"
  else if url = "https://canvas.example.com/api/v1/sections/2" then ok200 "" "section-2"
  else status 404

/-- The first enrollment of user 42 in the examples. -/
def exampleEnrollment1 : Enrollment :=
  { ID := 1, UserID := 42, CourseID := 8, CourseSectionID := 1, Role := "StudentEnrollment",
    EnrollmentState := "active" }

/-- The second enrollment of user 42 in the examples. -/
def exampleEnrollment2 : Enrollment :=
  { ID := 2, UserID := 42, CourseID := 9, CourseSectionID := 3, Role := "StudentEnrollment",
    EnrollmentState := "active" }

/-- The teacher enrollment of section 1 in the examples. -/
def exampleTeacher : Enrollment :=
  { ID := 3, UserID := 5, CourseID := 8, CourseSectionID := 1, Role := "TeacherEnrollment",
    SISSectionID := { String := "SIS-1", Valid := true }, User := { ID := 5, Name := "Ann" } }

/-- The assignments of course 8 in the examples: both sections under both assignments. -/
def exampleAssignments8 : List Assignment :=
  [{ ID := 1, CourseID := 8, Name := "Essay",
     NeedsGradingCountBySection := [⟨1, 3⟩, ⟨2, 4⟩] },
   { ID := 2, CourseID := 8, Name := "Quiz",
     NeedsGradingCountBySection := [⟨2, 1⟩, ⟨1, 2⟩] }]

/-- The assignments of course 9 in the examples. -/
def exampleAssignments9 : List Assignment :=
  [{ ID := 3, CourseID := 9, Name := "Lab", NeedsGradingCountBySection := [⟨3, 1⟩] }]

/-- The environment of the examples: every request can be built, the upstream is
`exampleRespond`, and the decoders know the bodies it serves. -/
def exampleEnv : Env where
  newRequest := fun _ => none
  respond := fun _ url => exampleRespond url
  unmarshalAccount := fun _ => ({}, none)
  unmarshalCourse := fun body =>
    if body = "course-8" then ({ ID := 8, Name := "Algebra", Account := { Name := "Maths" } }, none)
    else if body = "course-9" then ({ ID := 9, Name := "Botany" }, none)
    else ({ ID := 7, Name := "Latin" }, none)
  unmarshalSection := fun _ => ({ ID := 2, CourseID := 8, Name := "Section two" }, none)
  unmarshalUser := fun _ => ({}, none)
  unmarshalEnrollments := fun body =>
    if body = "enrollments-42-1" then ([exampleEnrollment1], none)
    else if body = "enrollments-42-2" then ([exampleEnrollment2], none)
    else if body = "teachers-1" then ([exampleTeacher], none)
    else ([], none)
  unmarshalAssignments := fun body =>
    if body = "assignments-8" then (exampleAssignments8, none)
    else if body = "assignments-9" then (exampleAssignments9, none)
    else ([], none)
  unmarshalAssignmentData := fun _ => ([], none)
  unmarshalCourses := fun _ => ([], none)
  unmarshalSections := fun _ => ([], none)
  unmarshalSubmissions := fun _ => ([], none)

/-- An upstream whose first page has a next entry with an empty url: every GET is answered
with status 200, the body `page-1` and the Link header `<>; rel="next"`, except the GET of
the empty url, which is answered with `second`. -/
def emptyNextEnv (second : HttpResult) : Env :=
  { exampleEnv with
    respond := fun _ url => if url = "" then second else ok200 "<>; rel=\"next\"" "page-1"
    unmarshalEnrollments := fun body =>
      if body = "page-1" then ([exampleEnrollment1], none) else ([exampleEnrollment2], none) }

/-- A request context that is never cancelled. -/
def background : Context := fun _ => none

/-- A request context that was cancelled before the request was handled. -/
def cancelled : Context := fun _ => some "context canceled"

/-- A second upstream for the examples, in which every call of the reports succeeds.
User 43 has three enrollments: as a student in course 8 (with a SIS section id), as a teacher
and as a student in course 9 (both without one); the course list of the user holds course 8
only.  Course 10 has one assignment over the sections 4 and 5. -/
def reportRespond (url : String) : HttpResult :=
  if url = "https://canvas.example.com/api/v1/users/43" then ok200 "" "user-43"
  else if url = "https://canvas.example.com/api/v1/users/43/courses?include%5B%5D=account&include%5B%5D=sections&per_page=100" then
    ok200 "" "courses-43"
  else if url = "https://canvas.example.com/api/v1/users/43/enrollments?per_page=100&state%5B%5D=active&state%5B%5D=completed" then
    ok200 "" "enrollments-43"
  else if url = "https://canvas.example.com/api/v1/users/43/enrollments?per_page=100" then
    ok200 "" "enrollments-43"
  else if url = "https://canvas.example.com/api/v1/courses/8/analytics/users/43/assignments?per_page=100" then
    ok200 "" "analytics-43-8"
  else if url = "https://canvas.example.com/api/v1/courses/9/analytics/users/43/assignments?per_page=100" then
    ok200 "" "analytics-43-9"
  else if url = "https://canvas.example.com/api/v1/courses/9?include%5B%5D=account" then
    ok200 "" "course-9"
  else if url = "https://canvas.example.com/api/v1/sections/3" then ok200 "" "section-3"
  else if url = "https://canvas.example.com/api/v1/accounts/1" then ok200 "" "account-1"
  else if url = "https://canvas.example.com/api/v1/courses/10?include%5B%5D=account" then
    ok200 "" "course-10"
  else if url = "https://canvas.example.com/api/v1/courses/10/assignments?bucket=ungraded&include%5B%5D=all_dates&needs_grading_count_by_section=true&page_size=100" then
    ok200 "" "assignments-10"
  else if url = "https://canvas.example.com/api/v1/sections/4/enrollments?per_page=100&type%5B%5D=TeacherEnrollment" then
    ok200 "" "teachers"
  else if url = "https://canvas.example.com/api/v1/sections/5/enrollments?per_page=100&type%5B%5D=TeacherEnrollment" then
    ok200 "" "teachers"
  else status 404

/-- The enrollments of user 43 in the examples. -/
def exampleEnrollments43 : List Enrollment :=
  [{ ID := 11, UserID := 43, CourseID := 8, CourseSectionID := 1, Role := "StudentEnrollment",
     EnrollmentState := "active", SISSectionID := { String := "SIS-1", Valid := true } },
   { ID := 12, UserID := 43, CourseID := 9, CourseSectionID := 3, Role := "TeacherEnrollment",
     EnrollmentState := "active" },
   { ID := 13, UserID := 43, CourseID := 9, CourseSectionID := 3, Role := "StudentEnrollment",
     EnrollmentState := "completed" }]

/-- The analytics records of user 43 in course 8: a score above the points possible, and a
score below them. -/
def exampleAnalytics8 : List AssignmentData :=
  [{ AssignmentID := 1, Title := "Essay", PointsPossible := { Float64 := 90, Valid := true },
     Submission := { Score := { Float64 := 95, Valid := true } } },
   { AssignmentID := 2, Title := "Quiz", PointsPossible := { Float64 := 90, Valid := true },
     Submission := { Score := { Float64 := 85, Valid := true } } }]

/-- The analytics records of user 43 in course 9. -/
def exampleAnalytics9 : List AssignmentData :=
  [{ AssignmentID := 3, Title := "Lab", PointsPossible := { Float64 := 10, Valid := true } }]

/-- The assignment of course 10 in the examples.  Its dates hold two `CourseSection` entries
for section 4, and for section 5 a `Group` entry and nothing else. -/
def exampleAssignments10 : List Assignment :=
  [{ ID := 4, CourseID := 10, Name := "Project", Published := true,
     NeedsGradingCountBySection := [⟨4, 2⟩, ⟨5, 1⟩],
     AllDates :=
      [{ SetType := "CourseSection", SetID := { Int64 := 4, Valid := true },
         DueAt := ⟨100⟩, UnlockAt := ⟨90⟩, LockAt := ⟨110⟩ },
       { SetType := "CourseSection", SetID := { Int64 := 4, Valid := true },
         DueAt := ⟨200⟩, UnlockAt := ⟨190⟩, LockAt := ⟨210⟩ },
       { SetType := "Group", SetID := { Int64 := 5, Valid := true },
         DueAt := ⟨300⟩, UnlockAt := ⟨290⟩, LockAt := ⟨310⟩ },
       { SetType := "ADHOC", DueAt := ⟨400⟩, UnlockAt := ⟨390⟩, LockAt := ⟨410⟩ }] }]

/-- The environment of the second upstream. -/
def reportEnv : Env where
  newRequest := fun _ => none
  respond := fun _ url => reportRespond url
  unmarshalAccount := fun _ => ({ ID := 1, Name := "Science" }, none)
  unmarshalCourse := fun body =>
    if body = "course-9" then ({ ID := 9, Name := "Botany" }, none)
    else ({ ID := 10, Name := "Chemistry", Account := { Name := "Science" } }, none)
  unmarshalSection := fun _ => ({ ID := 3, CourseID := 9, Name := "Section three" }, none)
  unmarshalUser := fun _ => ({ ID := 43, Name := "Bob", SISUserID := "S43" }, none)
  unmarshalEnrollments := fun body =>
    if body = "enrollments-43" then (exampleEnrollments43, none)
    else ([exampleTeacher], none)
  unmarshalAssignments := fun _ => (exampleAssignments10, none)
  unmarshalAssignmentData := fun body =>
    if body = "analytics-43-8" then (exampleAnalytics8, none) else (exampleAnalytics9, none)
  unmarshalCourses := fun _ =>
    ([{ ID := 8, Name := "Algebra", Account := { Name := "Maths" } }], none)
  unmarshalSections := fun _ => ([], none)
  unmarshalSubmissions := fun _ => ([], none)

/-- The rows of the course report for course 10 of the second upstream. -/
def exampleRows10 : List UngradedAssignment :=
  [{ Account := "Science", CourseName := "Chemistry", Name := "Project", SectionName := "SIS-1",
     CourseID := 10, NeedingGradingSection := 2, Teachers := some ["Ann"],
     DueAt := ⟨200⟩, UnlockAt := ⟨190⟩, LockAt := ⟨210⟩, Published := true,
     GradebookURL := "https://canvas.example.com/courses/10/gradebook" },
   { Account := "Science", CourseName := "Chemistry", Name := "Project", SectionName := "SIS-1",
     CourseID := 10, NeedingGradingSection := 1, Teachers := some ["Ann"],
     Published := true,
     GradebookURL := "https://canvas.example.com/courses/10/gradebook" }]

/-- The rows of the assignment report for user 43 of the second upstream. -/
def exampleResults43 : List AssignmentResult :=
  [{ UserSisID := "S43", Name := "Bob", Acccount := "Maths", CourseName := "Algebra",
     Section := "SIS-1", Title := "Essay", PointsPossible := { Float64 := 90, Valid := true },
     Score := { Float64 := 95, Valid := true }, Discrepancy := "ERROR",
     EnrollmentRole := "StudentEnrollment", EnrollmentState := "active" },
   { UserSisID := "S43", Name := "Bob", Acccount := "Maths", CourseName := "Algebra",
     Section := "SIS-1", Title := "Quiz", PointsPossible := { Float64 := 90, Valid := true },
     Score := { Float64 := 85, Valid := true },
     EnrollmentRole := "StudentEnrollment", EnrollmentState := "active" },
   { UserSisID := "S43", Name := "Bob", CourseName := "Botany", Title := "Lab",
     PointsPossible := { Float64 := 10, Valid := true },
     EnrollmentRole := "StudentEnrollment", EnrollmentState := "completed" }]

/-- The rows of the enrollment report for user 43 of the second upstream. -/
def exampleEnrollmentRows43 : List EnrollmentResult :=
  [{ AccountName := "Maths", CourseName := "Algebra", SectionName := "SIS-1",
     EnrollmentState := "active", EnrollmentRole := "StudentEnrollment" },
   { CourseName := "Botany", SectionName := "Section three", EnrollmentState := "active",
     EnrollmentRole := "TeacherEnrollment" },
   { CourseName := "Botany", SectionName := "Section three", EnrollmentState := "completed",
     EnrollmentRole := "StudentEnrollment" }]

/-- A client whose base url has no `.com`. -/
def localClient : CanvasClient :=
  { baseUrl := "http://localhost:3000/api/v1", accessToken := "token", pageSize := 10,
    WebUrl := getWebUrl "http://localhost:3000/api/v1" }

/-- An upstream that answers every GET with status 200; every course has one assignment
over section 6, whose teacher is the teacher of the examples. -/
def localEnv : Env :=
  { exampleEnv with
    respond := fun _ _ => ok200 "" ""
    unmarshalCourse := fun _ => ({ ID := 5, Name := "Drama" }, none)
    unmarshalEnrollments := fun _ => ([exampleTeacher], none)
    unmarshalAssignments := fun _ =>
      ([{ ID := 6, CourseID := 5, Name := "Play", NeedsGradingCountBySection := [⟨6, 1⟩] }],
        none) }

/-- The rows of the course report for course 8 of the first upstream. -/
def exampleRows8 : List UngradedAssignment :=
  [{ Account := "Maths", CourseName := "Algebra", Name := "Essay", SectionName := "SIS-1",
     CourseID := 8, NeedingGradingSection := 3, Teachers := some ["Ann"],
     GradebookURL := "https://canvas.example.com/courses/8/gradebook" },
   { Account := "Maths", CourseName := "Algebra", Name := "Essay",
     SectionName := "Section two", CourseID := 8, NeedingGradingSection := 4,
     Teachers := some [],
     GradebookURL := "https://canvas.example.com/courses/8/gradebook" },
   { Account := "Maths", CourseName := "Algebra", Name := "Quiz",
     SectionName := "Section two", CourseID := 8, NeedingGradingSection := 1,
     Teachers := some [],
     GradebookURL := "https://canvas.example.com/courses/8/gradebook" },
   { Account := "Maths", CourseName := "Algebra", Name := "Quiz", SectionName := "SIS-1",
     CourseID := 8, NeedingGradingSection := 2, Teachers := some ["Ann"],
     GradebookURL := "https://canvas.example.com/courses/8/gradebook" }]

/-- The row of the course report for course 5 of the upstream of `localEnv`. -/
def exampleRows5 : List UngradedAssignment :=
  [{ CourseName := "Drama", Name := "Play", SectionName := "SIS-1", CourseID := 5,
     NeedingGradingSection := 1, Teachers := some ["Ann"],
     GradebookURL := "/courses/5/gradebook" }]

/-- The second upstream with the JSON text `[null]` as the body of every list of
assignments: it decodes without an error to a slice that holds one nil pointer. -/
def nullAssignmentsEnv : Env :=
  { reportEnv with unmarshalAssignments := fun _ => ([{ IsNil := true }], none) }

/-- The second upstream with the JSON text `[null]` as the body of every list of
enrollments. -/
def nullEnrollmentsEnv : Env :=
  { reportEnv with unmarshalEnrollments := fun _ => ([{ IsNil := true }], none) }

/-- The second upstream with the JSON text `[null]` as the body of every list of courses. -/
def nullCoursesEnv : Env :=
  { reportEnv with unmarshalCourses := fun _ => ([{ IsNil := true }], none) }

/-- The second upstream with the JSON text `[null]` as the body of every list of analytics
records. -/
def nullAnalyticsEnv : Env :=
  { reportEnv with unmarshalAssignmentData := fun _ => ([{ IsNil := true }], none) }

/-- An upstream that answers every GET with status 404 and a body that breaks off while it
is read. -/
def truncatedEnv : Env :=
  { exampleEnv with
    respond := fun _ _ => .response { StatusCode := 404, ReadErr := some "unexpected EOF" } }

/-! # Theorems -/

/-! ## Lemmas on the Link header -/

theorem TrimSpace_decompose (s : List Char) :
    ∃ ws1 ws2 : List Char, s = ws1 ++ TrimSpace s ++ ws2 ∧ (∀ c ∈ ws1, isSpace c = true) := by
  refine ⟨s.takeWhile isSpace, ((s.dropWhile isSpace).reverse.takeWhile isSpace).reverse, ?_, ?_⟩
  · have h1 : s = s.takeWhile isSpace ++ s.dropWhile isSpace :=
      (List.takeWhile_append_dropWhile isSpace s).symm
    have h2 : s.dropWhile isSpace =
        TrimSpace s ++ ((s.dropWhile isSpace).reverse.takeWhile isSpace).reverse := by
      have h3 := List.takeWhile_append_dropWhile isSpace (s.dropWhile isSpace).reverse
      have h4 := congrArg List.reverse h3
      simp only [List.reverse_append, List.reverse_reverse] at h4
      exact h4.symm
    rw [List.append_assoc, ← h2]
    exact h1
  · intro c hc
    exact (List.mem_takeWhile_imp hc)

/-- The index of a character that does not occur before its first listed occurrence. -/
theorem indexFrom_single (c : Char) (pre r : List Char) (i : Nat) (h : c ∉ pre) :
    indexFrom [c] (pre ++ c :: r) i = ((i + pre.length : Nat) : Int) := by
  induction pre generalizing i with
  | nil => simp [indexFrom, startsWith]
  | cons x xs ih =>
    have hx : c ≠ x := fun e => h (by simp [e])
    have hxs : c ∉ xs := fun e => h (by simp [e])
    have hb : (c == x) = false := by simpa using hx
    simp only [List.cons_append, indexFrom, startsWith, hb, Bool.false_and, Bool.false_eq_true,
      if_false]
    have := ih (i + 1) hxs
    show indexFrom [c] (xs ++ c :: r) (i + 1) = _
    rw [this]
    simp only [List.length_cons]
    congr 1
    omega

/-- What the regular expression of `getNextUrl` accepts. -/
theorem nextRegExMatch_iff (t : List Char) :
    nextRegExMatch t = true ↔ ∃ u : List Char, t = '<' :: (u ++ nextTail) ∧ '\n' ∉ u := by
  constructor
  · intro h
    cases t with
    | nil => simp [nextRegExMatch] at h
    | cons c rest =>
      simp only [nextRegExMatch, Bool.and_eq_true, beq_iff_eq, decide_eq_true_eq,
        List.all_eq_true, bne_iff_ne, ne_eq] at h
      obtain ⟨⟨⟨hc, hlen⟩, hdrop⟩, hall⟩ := h
      refine ⟨rest.take (rest.length - nextTail.length), ?_, ?_⟩
      · rw [hc]
        congr 1
        have := (List.take_append_drop (rest.length - nextTail.length) rest).symm
        rw [hdrop] at this
        exact this
      · intro hmem
        exact hall _ hmem rfl
  · rintro ⟨u, rfl, hu⟩
    have hlen : (u ++ nextTail).length - nextTail.length = u.length := by
      simp [List.length_append]
    simp only [nextRegExMatch, hlen, Bool.and_eq_true, beq_iff_eq, decide_eq_true_eq,
      List.all_eq_true, bne_iff_ne, ne_eq, List.drop_left, List.take_left]
    refine ⟨⟨⟨trivial, ?_⟩, trivial⟩, ?_⟩
    · simp [List.length_append]
    · intro x hx hxe
      exact hu (hxe ▸ hx)

/-- The text of a next entry after its `<` runs up to a first `>`. -/
theorem next_entry_split (u : List Char) :
    ∃ r : List Char, u ++ nextTail = u.takeWhile (fun d => d != '>') ++ '>' :: r := by
  have h := (List.takeWhile_append_dropWhile (fun d => d != '>') u).symm
  cases hd : u.dropWhile (fun d => d != '>') with
  | nil =>
    rw [hd, List.append_nil] at h
    refine ⟨"; rel=\"next\"".data, ?_⟩
    rw [← h]
    rfl
  | cons x xs =>
    have hx : ¬ ((fun d => d != '>') x = true) := by
      have := List.head_dropWhile_not (fun d => d != '>') u (by simp [hd])
      simp only [hd, List.head_cons] at this
      simp [this]
    have hx2 : x = '>' := by simpa using hx
    refine ⟨xs ++ nextTail, ?_⟩
    rw [hd, hx2] at h
    conv_lhs => rw [h]
    simp


/-- What `getNextUrl` cuts out of an entry that the regular expression accepts. -/
theorem slice_next_entry (entry u : List Char)
    (hentry : TrimSpace entry = '<' :: (u ++ nextTail)) :
    Index entry ['<'] ≠ -1 ∧ Index entry ['>'] ≠ -1 ∧ Index entry ['>'] > Index entry ['<'] ∧
      slice entry (Index entry ['<'] + 1) (Index entry ['>']) =
        u.takeWhile (fun d => d != '>') := by
  obtain ⟨ws1, ws2, hdec, hws⟩ := TrimSpace_decompose entry
  obtain ⟨r, hr⟩ := next_entry_split u
  rw [hentry, hr] at hdec
  have hlt : '<' ∉ ws1 := fun hm => by
    have := hws _ hm
    simp [show isSpace '<' = false by decide] at this
  have hgt : '>' ∉ ws1 ++ '<' :: u.takeWhile (fun d => d != '>') := by
    intro hm
    rcases List.mem_append.1 hm with hm | hm
    · have := hws _ hm
      simp [show isSpace '>' = false by decide] at this
    · rcases List.mem_cons.1 hm with hm | hm
      · exact absurd hm (by decide)
      · have := List.mem_takeWhile_imp hm
        simp at this
  have e1 : entry = ws1 ++ '<' :: (u.takeWhile (fun d => d != '>') ++ '>' :: r ++ ws2) := by
    rw [hdec]; simp
  have e2 : entry = (ws1 ++ '<' :: u.takeWhile (fun d => d != '>')) ++ '>' :: (r ++ ws2) := by
    rw [hdec]; simp
  have i1 : Index entry ['<'] = ((0 + ws1.length : Nat) : Int) := by
    unfold Index
    conv_lhs => rw [e1]
    exact indexFrom_single '<' ws1 _ 0 hlt
  have i2 : Index entry ['>'] =
      ((0 + (ws1 ++ '<' :: u.takeWhile (fun d => d != '>')).length : Nat) : Int) := by
    unfold Index
    conv_lhs => rw [e2]
    exact indexFrom_single '>' _ _ 0 hgt
  have hl : (ws1 ++ '<' :: u.takeWhile (fun d => d != '>')).length =
      ws1.length + 1 + (u.takeWhile (fun d => d != '>')).length := by
    simp only [List.length_append, List.length_cons]
    omega
  rw [i1, i2, hl]
  refine ⟨by omega, by omega, by omega, ?_⟩
  unfold slice
  have n1 : (((0 + ws1.length : Nat) : Int) + 1).toNat = ws1.length + 1 := by omega
  have n2 : (((0 + (ws1.length + 1 + (u.takeWhile (fun d => d != '>')).length) : Nat) : Int)).toNat
      - (ws1.length + 1) = (u.takeWhile (fun d => d != '>')).length := by
    omega
  rw [n1, n2]
  have e3 : entry = (ws1 ++ ['<']) ++ (u.takeWhile (fun d => d != '>') ++ ('>' :: r ++ ws2)) := by
    rw [hdec]; simp
  conv_lhs => rw [e3]
  rw [List.drop_left' (by simp), List.take_left]

/-- The loop of `getNextUrl` returns at the first entry the regular expression accepts. -/
theorem getNextUrlLoop_found (before after : List (List Char)) (entry u : List Char)
    (hbefore : ∀ e ∈ before, nextRegExMatch (TrimSpace e) = false)
    (hentry : TrimSpace entry = '<' :: (u ++ nextTail)) (hnl : '\n' ∉ u) :
    getNextUrlLoop (before ++ entry :: after) = String.mk (u.takeWhile (fun d => d != '>')) := by
  induction before with
  | nil =>
    have hm : nextRegExMatch (TrimSpace entry) = true :=
      (nextRegExMatch_iff _).2 ⟨u, hentry, hnl⟩
    obtain ⟨h1, h2, h3, h4⟩ := slice_next_entry entry u hentry
    simp only [List.nil_append, getNextUrlLoop, hm, if_true]
    rw [if_pos ⟨h1, h2, h3⟩, h4]
  | cons e es ih =>
    have he : nextRegExMatch (TrimSpace e) = false := hbefore e (by simp)
    simp only [List.cons_append, getNextUrlLoop, he, Bool.false_eq_true, if_false]
    exact ih (fun x hx => hbefore x (by simp [hx]))

/-- The loop of `getNextUrl` ends with the empty string when no entry is accepted. -/
theorem getNextUrlLoop_none (links : List (List Char))
    (h : ∀ e ∈ links, nextRegExMatch (TrimSpace e) = false) :
    getNextUrlLoop links = "" := by
  induction links with
  | nil => rfl
  | cons e es ih =>
    have he : nextRegExMatch (TrimSpace e) = false := h e (by simp)
    simp only [getNextUrlLoop, he, Bool.false_eq_true, if_false]
    exact ih (fun x hx => h x (by simp [hx]))

theorem not_match_of_no_form (e : List Char)
    (h : ∀ v : List Char, '\n' ∉ v → TrimSpace e ≠ '<' :: (v ++ nextTail)) :
    nextRegExMatch (TrimSpace e) = false := by
  cases hm : nextRegExMatch (TrimSpace e) with
  | false => rfl
  | true =>
    obtain ⟨v, hv, hnl⟩ := (nextRegExMatch_iff _).1 hm
    exact absurd hv (h v hnl)

/-! ## Frames of the pagination loop -/

theorem send_log (env : Env) (url : String) (w : World) :
    ((send env url w).2.log = w.log ∧ ∃ e, (send env url w).1 = .error e) ∨
      (send env url w).2.log = w.log ++ [⟨url, env.respond w.log url⟩] := by
  unfold send
  cases env.newRequest url with
  | some e => left; exact ⟨rfl, e, rfl⟩
  | none =>
    right
    cases env.respond w.log url <;> rfl

theorem send_frame (env : Env) (url : String) (w : World) :
    (send env url w).2.calls = w.calls ∧ (send env url w).2.polls = w.polls := by
  unfold send
  cases env.newRequest url with
  | some e => exact ⟨rfl, rfl⟩
  | none => cases env.respond w.log url <;> exact ⟨rfl, rfl⟩

/-- The loop only appends to the log, and leaves the record of gateway calls alone. -/
theorem paginate_frame {α : Type} (env : Env) (unmarshal : String → List α × Option String)
    (ctx : Context) (statusErr : String) (fuel : Nat) :
    ∀ (url : String) (acc : List α) (w : World),
      (∃ new, (paginate env unmarshal ctx statusErr fuel url acc w).2.log = w.log ++ new) ∧
        (paginate env unmarshal ctx statusErr fuel url acc w).2.calls = w.calls := by
  induction fuel with
  | zero => intro url acc w; exact ⟨⟨[], by simp [paginate]⟩, rfl⟩
  | succ n ih =>
    intro url acc w
    unfold paginate
    simp only [poll]
    cases hc : ctx w.polls with
    | some e => exact ⟨⟨[], by simp⟩, rfl⟩
    | none =>
      simp only
      have hs := send_log env url { w with polls := w.polls + 1 }
      have hf := send_frame env url { w with polls := w.polls + 1 }
      rcases hsend : send env url { w with polls := w.polls + 1 } with ⟨r, w2⟩
      rw [hsend] at hs hf
      simp only at hs hf
      have hlog : ∃ new, w2.log = w.log ++ new := by
        rcases hs with ⟨h, _⟩ | h
        · exact ⟨[], by simp [h]⟩
        · exact ⟨_, h⟩
      cases r with
      | error e => exact ⟨hlog, hf.1⟩
      | ok res =>
        simp only
        split
        · exact ⟨hlog, hf.1⟩
        · split
          · exact ⟨hlog, hf.1⟩
          · split
            · exact ⟨hlog, hf.1⟩
            · split
              · exact ⟨hlog, hf.1⟩
              · obtain ⟨⟨new2, h2⟩, h3⟩ := ih (getNextUrl res.Link) _ w2
                obtain ⟨new1, h1⟩ := hlog
                refine ⟨⟨new1 ++ new2, ?_⟩, ?_⟩
                · rw [h2, h1, List.append_assoc]
                · rw [h3]; exact hf.1

/-- A header without a next entry has no next url. -/
theorem getNextUrl_eq_empty (linkHeader : String) (h : ¬ HasNextEntry linkHeader) :
    getNextUrl linkHeader = "" := by
  unfold getNextUrl
  split
  · rfl
  · apply getNextUrlLoop_none
    intro e he
    apply not_match_of_no_form
    intro v hv heq
    exact h ⟨e, he, v, heq, hv⟩

theorem exchangesSince_self (w : World) : exchangesSince w w = [] := by
  simp [exchangesSince]

theorem exchangesSince_polls (w : World) (n : Nat) (w' : World) :
    exchangesSince { w with polls := n } w' = exchangesSince w w' := rfl

theorem exchangesSince_called (w : World) (c : Call) (w' : World) :
    exchangesSince (w.called c) w' = exchangesSince w w' := rfl

theorem exchangesSince_cons (w w2 w' : World) (x : Exchange) (h2 : w2.log = w.log ++ [x])
    (h' : ∃ new, w'.log = w2.log ++ new) :
    exchangesSince w w' = x :: exchangesSince w2 w' := by
  obtain ⟨new, hn⟩ := h'
  unfold exchangesSince
  rw [hn, h2]
  simp [List.append_assoc]

theorem PagesAnswered_nil {α : Type} (unmarshal : String → List α × Option String)
    (pages : List (List α)) : ¬ PagesAnswered unmarshal [] pages := by
  intro h
  cases pages with
  | nil => simp [PagesAnswered] at h
  | cons p ps => cases ps <;> simp [PagesAnswered] at h

/-- The first exchange of answered pages is a page. -/
theorem PagesAnswered_cons {α : Type} (unmarshal : String → List α × Option String)
    (x : Exchange) (xs : List Exchange) (pages : List (List α))
    (h : PagesAnswered unmarshal (x :: xs) pages) :
    ∃ p ps, pages = p :: ps ∧ x.IsPage unmarshal p ∧
      ((ps = [] ∧ ¬ HasNextEntry x.link) ∨
        (ps ≠ [] ∧ HasNextEntry x.link ∧ PagesAnswered unmarshal xs ps)) := by
  cases pages with
  | nil => simp [PagesAnswered] at h
  | cons p ps =>
    cases ps with
    | nil =>
      simp only [PagesAnswered] at h
      exact ⟨p, [], rfl, h.1, Or.inl ⟨rfl, h.2⟩⟩
    | cons q qs =>
      simp only [PagesAnswered] at h
      exact ⟨p, q :: qs, rfl, h.1, Or.inr ⟨by simp, h.2.1, h.2.2⟩⟩

/-- The loop of the list methods, when the pages it was sent are as the claim describes
them: it stops after the last of them with all their items. -/
theorem paginate_pages {α : Type} (env : Env) (unmarshal : String → List α × Option String)
    (ctx : Context) (statusErr : String) (fuel : Nat) :
    ∀ (pages : List (List α)) (url : String) (acc : List α) (w : World),
      PagesAnswered unmarshal
        (exchangesSince w (paginate env unmarshal ctx statusErr fuel url acc w).2) pages →
      (paginate env unmarshal ctx statusErr fuel url acc w).1 =
          some ⟨some (acc ++ pages.flatten), 200, none⟩ ∧
        (exchangesSince w (paginate env unmarshal ctx statusErr fuel url acc w).2).length =
          pages.length ∧
        UrlsFollow url (exchangesSince w (paginate env unmarshal ctx statusErr fuel url acc w).2) := by
  induction fuel with
  | zero =>
    intro pages url acc w h
    simp only [paginate, exchangesSince_self] at h
    exact absurd h (PagesAnswered_nil _ _)
  | succ n ih =>
    intro pages url acc w
    unfold paginate
    simp only [poll]
    cases hc : ctx w.polls with
    | some e =>
      intro h
      simp only [exchangesSince, List.drop_length] at h
      exact absurd h (PagesAnswered_nil _ _)
    | none =>
      simp only
      have hs := send_log env url { w with polls := w.polls + 1 }
      rcases hsend : send env url { w with polls := w.polls + 1 } with ⟨r, w2⟩
      rw [hsend] at hs
      simp only at hs
      rcases hs with ⟨hlog, e, he⟩ | hlog
      · subst he
        intro h
        simp only [exchangesSince, hlog, List.drop_length] at h
        exact absurd h (PagesAnswered_nil _ _)
      · have hx : ∀ w' : World, (∃ new, w'.log = w2.log ++ new) →
            exchangesSince w w' = ⟨url, env.respond w.log url⟩ :: exchangesSince w2 w' :=
          fun w' h' => exchangesSince_cons w w2 w' _ hlog h'
        have hsent : (send env url { w with polls := w.polls + 1 }).1 =
            match env.respond w.log url with
            | .failure e => .error e
            | .response res => .ok res := by
          unfold send at hsend ⊢
          cases hnr : env.newRequest url with
          | some e =>
            rw [hnr] at hsend
            simp only at hsend
            have := congrArg (fun p => p.2.log) hsend
            simp only at this
            rw [hlog] at this
            simp at this
          | none =>
            simp only
            cases env.respond w.log url <;> rfl
        rw [hsend] at hsent
        simp only at hsent
        cases hr : env.respond w.log url with
        | failure e =>
          rw [hr] at hsent
          subst hsent
          intro h
          rw [hx w2 ⟨[], by simp⟩, hr] at h
          obtain ⟨p, ps, -, hp, -⟩ := PagesAnswered_cons _ _ _ _ h
          simp [Exchange.IsPage] at hp
        | response res =>
          rw [hr] at hsent
          subst hsent
          simp only
          split
          · rename_i hst
            intro h
            rw [hx w2 ⟨[], by simp⟩, hr] at h
            obtain ⟨p, ps, -, hp, -⟩ := PagesAnswered_cons _ _ _ _ h
            simp only [Exchange.IsPage] at hp
            exact absurd hp.1 hst
          · split
            · rename_i e hre
              intro h
              rw [hx w2 ⟨[], by simp⟩, hr] at h
              obtain ⟨p, ps, -, hp, -⟩ := PagesAnswered_cons _ _ _ _ h
              simp only [Exchange.IsPage] at hp
              rw [hre] at hp
              simp at hp
            · split
              · rename_i e hun
                intro h
                rw [hx w2 ⟨[], by simp⟩, hr] at h
                obtain ⟨p, ps, -, hp, -⟩ := PagesAnswered_cons _ _ _ _ h
                simp only [Exchange.IsPage] at hp
                rw [hun] at hp
                simp at hp
              · rename_i items hun
                split
                · rename_i hnext
                  intro h
                  rw [hx w2 ⟨[], by simp⟩, hr] at h
                  obtain ⟨p, ps, rfl, hp, hcase⟩ := PagesAnswered_cons _ _ _ _ h
                  simp only [Exchange.IsPage] at hp
                  rw [hun] at hp
                  have hitems : items = p := by simpa using hp.2.2
                  rcases hcase with ⟨rfl, -⟩ | ⟨-, -, hrest⟩
                  · rw [hx w2 ⟨[], by simp⟩, exchangesSince_self]
                    simp [hitems, UrlsFollow]
                  · rw [exchangesSince_self] at hrest
                    exact absurd hrest (PagesAnswered_nil _ _)
                · rename_i hnext
                  have hfr := (paginate_frame env unmarshal ctx statusErr n
                    (getNextUrl res.Link) (acc ++ items) w2).1
                  intro h
                  rw [hx _ hfr, hr] at h
                  obtain ⟨p, ps, rfl, hp, hcase⟩ := PagesAnswered_cons _ _ _ _ h
                  simp only [Exchange.IsPage] at hp
                  rw [hun] at hp
                  have hitems : items = p := by simpa using hp.2.2
                  rcases hcase with ⟨-, hno⟩ | ⟨-, -, hrest⟩
                  · exact absurd (getNextUrl_eq_empty _ hno) hnext
                  · obtain ⟨h1, h2, h3⟩ := ih ps (getNextUrl res.Link) (acc ++ items) w2 hrest
                    rw [hx _ hfr, hr]
                    refine ⟨?_, ?_, ?_⟩
                    · rw [h1, hitems]; simp
                    · simp [h2]
                    · exact ⟨rfl, h3⟩

theorem PagesThenStatus_nil {α : Type} (unmarshal : String → List α × Option String)
    (k s : Nat) : ¬ PagesThenStatus unmarshal [] k s := by
  intro h
  match k with
  | 0 => simp [PagesThenStatus] at h
  | 1 => simp [PagesThenStatus] at h
  | k + 2 => simp [PagesThenStatus] at h

theorem PagesThenStatus_cons {α : Type} (unmarshal : String → List α × Option String)
    (x : Exchange) (xs : List Exchange) (k s : Nat)
    (h : PagesThenStatus unmarshal (x :: xs) k s) :
    (k = 1 ∧ x.HasStatus s) ∨
      (∃ j, k = j + 2 ∧ (∃ items, x.IsPage unmarshal items) ∧ HasNextEntry x.link ∧
        PagesThenStatus unmarshal xs (j + 1) s) := by
  match k with
  | 0 => simp [PagesThenStatus] at h
  | 1 => simp only [PagesThenStatus] at h; exact Or.inl ⟨rfl, h⟩
  | j + 2 => simp only [PagesThenStatus] at h; exact Or.inr ⟨j, rfl, h⟩

/-- The loop of the list methods, when GET number `k` is answered with a status other
than 200 after `k - 1` pages: it stops there with the nil slice and that status. -/
theorem paginate_abort {α : Type} (env : Env) (unmarshal : String → List α × Option String)
    (ctx : Context) (statusErr : String) (s : Nat) (hs : s ≠ 200) (fuel : Nat) :
    ∀ (k : Nat) (url : String) (acc : List α) (w : World),
      PagesThenStatus unmarshal
        (exchangesSince w (paginate env unmarshal ctx statusErr fuel url acc w).2) k s →
      (paginate env unmarshal ctx statusErr fuel url acc w).1 =
          some ⟨none, s, some statusErr⟩ ∧
        (exchangesSince w (paginate env unmarshal ctx statusErr fuel url acc w).2).length = k := by
  induction fuel with
  | zero =>
    intro k url acc w h
    simp only [paginate, exchangesSince_self] at h
    exact absurd h (PagesThenStatus_nil _ _ _)
  | succ n ih =>
    intro k url acc w
    unfold paginate
    simp only [poll]
    cases hc : ctx w.polls with
    | some e =>
      intro h
      simp only [exchangesSince, List.drop_length] at h
      exact absurd h (PagesThenStatus_nil _ _ _)
    | none =>
      simp only
      have hsl := send_log env url { w with polls := w.polls + 1 }
      rcases hsend : send env url { w with polls := w.polls + 1 } with ⟨r, w2⟩
      rw [hsend] at hsl
      simp only at hsl
      rcases hsl with ⟨hlog, e, he⟩ | hlog
      · subst he
        intro h
        simp only [exchangesSince, hlog, List.drop_length] at h
        exact absurd h (PagesThenStatus_nil _ _ _)
      · have hx : ∀ w' : World, (∃ new, w'.log = w2.log ++ new) →
            exchangesSince w w' = ⟨url, env.respond w.log url⟩ :: exchangesSince w2 w' :=
          fun w' h' => exchangesSince_cons w w2 w' _ hlog h'
        have hsent : (send env url { w with polls := w.polls + 1 }).1 =
            match env.respond w.log url with
            | .failure e => .error e
            | .response res => .ok res := by
          unfold send at hsend ⊢
          cases hnr : env.newRequest url with
          | some e =>
            rw [hnr] at hsend
            simp only at hsend
            have := congrArg (fun p => p.2.log) hsend
            simp only at this
            rw [hlog] at this
            simp at this
          | none =>
            simp only
            cases env.respond w.log url <;> rfl
        rw [hsend] at hsent
        simp only at hsent
        cases hr : env.respond w.log url with
        | failure e =>
          rw [hr] at hsent
          subst hsent
          intro h
          rw [hx w2 ⟨[], by simp⟩, hr] at h
          rcases PagesThenStatus_cons _ _ _ _ _ h with ⟨-, hst⟩ | ⟨j, -, ⟨items, hp⟩, -, -⟩
          · simp [Exchange.HasStatus] at hst
          · simp [Exchange.IsPage] at hp
        | response res =>
          rw [hr] at hsent
          subst hsent
          simp only
          split
          · rename_i hst
            intro h
            rw [hx w2 ⟨[], by simp⟩, hr] at h
            rcases PagesThenStatus_cons _ _ _ _ _ h with ⟨hk, hst2⟩ | ⟨j, -, ⟨items, hp⟩, -, -⟩
            · simp only [Exchange.HasStatus] at hst2
              rw [hx w2 ⟨[], by simp⟩, exchangesSince_self]
              simp [hst2, hk]
            · simp only [Exchange.IsPage] at hp
              exact absurd hp.1 hst
          · rename_i hst
            have h200 : res.StatusCode = 200 := by simpa using hst
            split
            · rename_i e hre
              intro h
              rw [hx w2 ⟨[], by simp⟩, hr] at h
              rcases PagesThenStatus_cons _ _ _ _ _ h with ⟨-, hst2⟩ | ⟨j, -, ⟨items, hp⟩, -, -⟩
              · simp only [Exchange.HasStatus] at hst2
                exact absurd (hst2 ▸ h200) hs
              · simp only [Exchange.IsPage] at hp
                rw [hre] at hp
                simp at hp
            · split
              · rename_i e hun
                intro h
                rw [hx w2 ⟨[], by simp⟩, hr] at h
                rcases PagesThenStatus_cons _ _ _ _ _ h with ⟨-, hst2⟩ | ⟨j, -, ⟨items, hp⟩, -, -⟩
                · simp only [Exchange.HasStatus] at hst2
                  exact absurd (hst2 ▸ h200) hs
                · simp only [Exchange.IsPage] at hp
                  rw [hun] at hp
                  simp at hp
              · rename_i items hun
                split
                · intro h
                  rw [hx w2 ⟨[], by simp⟩, hr] at h
                  rcases PagesThenStatus_cons _ _ _ _ _ h with ⟨-, hst2⟩ | ⟨j, -, -, -, hrest⟩
                  · simp only [Exchange.HasStatus] at hst2
                    exact absurd (hst2 ▸ h200) hs
                  · rw [exchangesSince_self] at hrest
                    exact absurd hrest (PagesThenStatus_nil _ _ _)
                · have hfr := (paginate_frame env unmarshal ctx statusErr n
                    (getNextUrl res.Link) (acc ++ items) w2).1
                  intro h
                  rw [hx _ hfr, hr] at h
                  rcases PagesThenStatus_cons _ _ _ _ _ h with ⟨-, hst2⟩ | ⟨j, hk, -, -, hrest⟩
                  · simp only [Exchange.HasStatus] at hst2
                    exact absurd (hst2 ▸ h200) hs
                  · obtain ⟨h1, h2⟩ := ih (j + 1) (getNextUrl res.Link) (acc ++ items) w2 hrest
                    rw [hx _ hfr]
                    refine ⟨h1, ?_⟩
                    simp [h2, hk]

/-- The loop of the list methods under a context that is closed at its first look: nothing
is sent. -/
theorem paginate_cancelled {α : Type} (env : Env) (unmarshal : String → List α × Option String)
    (ctx : Context) (statusErr : String) (fuel : Nat) (url : String) (acc : List α) (w : World)
    (e : String) (hfuel : 0 < fuel) (hctx : ctx w.polls = some e) :
    paginate env unmarshal ctx statusErr fuel url acc w =
      (some ⟨none, 408, some e⟩, { w with polls := w.polls + 1 }) := by
  cases fuel with
  | zero => omega
  | succ n =>
    unfold paginate
    simp only [poll, hctx]

/-- Every list method is its loop, started at its request url with no items, unless it is
one of the two with a search term and the term has one byte. -/
theorem ListOp.run_eq (env : Env) (c : CanvasClient) (ctx : Context) (op : ListOp)
    (fuel : Nat) (w : World) :
    (∃ call statusErr, op.run env c ctx fuel w =
        paginate env (op.unmarshal env) ctx statusErr fuel (op.requestUrl c) [] (w.called call)) ∨
      (∃ term call msg, op.searchTerm = some term ∧ len term = 1 ∧
        op.run env c ctx fuel w = (some ⟨none, 400, some msg⟩, w.called call)) := by
  cases op with
  | GetEnrollmentsBySectionID a b d => exact Or.inl ⟨_, _, rfl⟩
  | GetEnrollmentsByUserID a b => exact Or.inl ⟨_, _, rfl⟩
  | GetAssignmentsByCourseID a term b d =>
    by_cases h : len term = 1
    · refine Or.inr ⟨term, .GetAssignmentsByCourseID a term b d,
        "assignments search term is less than 2 characters", rfl, h, ?_⟩
      simp only [ListOp.run, CanvasReports.GetAssignmentsByCourseID, h, if_true]
    · refine Or.inl ⟨.GetAssignmentsByCourseID a term b d,
        s!"error fetching assignments of course: {Itoa a}", ?_⟩
      simp only [ListOp.run, CanvasReports.GetAssignmentsByCourseID, h, if_false]
      rfl
  | GetAssignmentsDataOfUserByCourseID a b => exact Or.inl ⟨_, _, rfl⟩
  | GetCoursesByAccountID a term b =>
    by_cases h : len term = 1
    · refine Or.inr ⟨term, .GetCoursesByAccountID a term b,
        "course search term is less than 2 characters", rfl, h, ?_⟩
      simp only [ListOp.run, CanvasReports.GetCoursesByAccountID, h, if_true]
    · refine Or.inl ⟨.GetCoursesByAccountID a term b,
        s!"error fetching courses of account: {Itoa a}", ?_⟩
      simp only [ListOp.run, CanvasReports.GetCoursesByAccountID, h, if_false]
      rfl
  | GetCoursesByUserID a => exact Or.inl ⟨_, _, rfl⟩
  | GetSectionsByCourseID a => exact Or.inl ⟨_, _, rfl⟩
  | GetSubmissionsByCourseID a b d => exact Or.inl ⟨_, _, rfl⟩

/-- The two methods with a search term reject a term of one byte before anything else. -/
theorem ListOp.run_guard (env : Env) (c : CanvasClient) (ctx : Context) (op : ListOp)
    (fuel : Nat) (w : World) (term : String) (ht : op.searchTerm = some term)
    (hl : len term = 1) :
    ∃ call msg, op.run env c ctx fuel w = (some ⟨none, 400, some msg⟩, w.called call) := by
  cases op with
  | GetAssignmentsByCourseID a t b d =>
    simp only [ListOp.searchTerm, Option.some.injEq] at ht
    subst ht
    refine ⟨.GetAssignmentsByCourseID a t b d,
      "assignments search term is less than 2 characters", ?_⟩
    simp only [ListOp.run, CanvasReports.GetAssignmentsByCourseID, hl, if_true]
  | GetCoursesByAccountID a t b =>
    simp only [ListOp.searchTerm, Option.some.injEq] at ht
    subst ht
    refine ⟨.GetCoursesByAccountID a t b, "course search term is less than 2 characters", ?_⟩
    simp only [ListOp.run, CanvasReports.GetCoursesByAccountID, hl, if_true]
  | GetEnrollmentsBySectionID a b d => simp [ListOp.searchTerm] at ht
  | GetEnrollmentsByUserID a b => simp [ListOp.searchTerm] at ht
  | GetAssignmentsDataOfUserByCourseID a b => simp [ListOp.searchTerm] at ht
  | GetCoursesByUserID a => simp [ListOp.searchTerm] at ht
  | GetSectionsByCourseID a => simp [ListOp.searchTerm] at ht
  | GetSubmissionsByCourseID a b d => simp [ListOp.searchTerm] at ht

/-- Whether a header has a next entry can be computed with the regular expression. -/
theorem HasNextEntry_iff (linkHeader : String) :
    HasNextEntry linkHeader ↔
      (Split linkHeader.data ',').any (fun e => nextRegExMatch (TrimSpace e)) = true := by
  unfold HasNextEntry IsNextEntry
  rw [List.any_eq_true]
  constructor
  · rintro ⟨e, he, u, h1, h2⟩
    exact ⟨e, he, (nextRegExMatch_iff _).2 ⟨u, h1, h2⟩⟩
  · rintro ⟨e, he, hm⟩
    obtain ⟨u, h1, h2⟩ := (nextRegExMatch_iff _).1 hm
    exact ⟨e, he, u, h1, h2⟩

/-! ## C1 to C3: the pagination loop -/

set_option maxRecDepth 8192

/-- The loop of the list methods against an upstream that serves `pages`: it sends one GET
for each page and stops after the last with all their items. -/
theorem paginate_serves {α : Type} (env : Env) (unmarshal : String → List α × Option String)
    (ctx : Context) (statusErr : String) :
    ∀ (pages : List (List α)) (fuel : Nat) (url : String) (acc : List α) (w : World),
      pages.length ≤ fuel →
      (∀ i, i < pages.length → ctx (w.polls + i) = none) →
      ServesPages env unmarshal w.log url pages →
      ∃ w' xs, paginate env unmarshal ctx statusErr fuel url acc w =
          (some ⟨some (acc ++ pages.flatten), 200, none⟩, w') ∧
        w'.log = w.log ++ xs ∧ xs.length = pages.length ∧ UrlsFollow url xs ∧
        PagesAnswered unmarshal xs pages := by
  intro pages
  induction pages with
  | nil =>
    intro fuel url acc w _ _ h
    simp [ServesPages] at h
  | cons page rest ih =>
    intro fuel url acc w hfuel hctx hserved
    cases fuel with
    | zero => simp at hfuel
    | succ n =>
      have h0 : ctx w.polls = none := by simpa using hctx 0 (by simp)
      cases rest with
      | nil =>
        simp only [ServesPages] at hserved
        obtain ⟨res, hreq, hresp, h200, hread, hdec, hnone⟩ := hserved
        have hnext : getNextUrl res.Link = "" := getNextUrl_eq_empty _ hnone
        refine ⟨{ w with polls := w.polls + 1, log := w.log ++ [⟨url, .response res⟩] },
          [⟨url, .response res⟩], ?_, rfl, rfl, ⟨rfl, trivial⟩, ⟨h200, hread, hdec⟩, hnone⟩
        unfold paginate
        simp only [poll, h0, send, hreq, hresp, h200, hread, hdec, hnext, ne_eq,
          not_true_eq_false, if_false, if_true, List.flatten, List.append_nil]
      | cons page2 pages =>
        simp only [ServesPages] at hserved
        obtain ⟨res, hreq, hresp, h200, hread, hdec, hhas, hnext, hrest⟩ := hserved
        obtain ⟨w', xs, hrun, hlog, hlen, hurls, hpages⟩ :=
          ih n (getNextUrl res.Link) (acc ++ page)
            { w with polls := w.polls + 1, log := w.log ++ [⟨url, .response res⟩] }
            (by simpa using hfuel)
            (by
              intro i hi
              have := hctx (i + 1) (by simpa using hi)
              simpa [Nat.add_assoc, Nat.add_comm 1 i] using this)
            hrest
        refine ⟨w', ⟨url, .response res⟩ :: xs, ?_, ?_, by simp [hlen], ⟨rfl, hurls⟩,
          ⟨h200, hread, hdec⟩, hhas, hpages⟩
        · unfold paginate
          simp only [poll, h0, send, hreq, hresp, h200, hread, hdec, hnext, ne_eq,
            not_true_eq_false, if_false]
          rw [hrun]
          simp [List.flatten, List.append_assoc]
        · rw [hlog]
          simp [List.append_assoc]

/-- The loop of the list methods against an upstream that serves `k - 1` pages and answers
the GET number `k` with a status other than 200: it stops there with the nil slice and that
status. -/
theorem paginate_serves_status {α : Type} (env : Env)
    (unmarshal : String → List α × Option String) (ctx : Context) (statusErr : String)
    (s : Nat) (hs : s ≠ 200) :
    ∀ (k fuel : Nat) (url : String) (acc : List α) (w : World),
      k ≤ fuel →
      (∀ i, i < k → ctx (w.polls + i) = none) →
      ServesThenStatus env unmarshal w.log url k s →
      ∃ w' xs, paginate env unmarshal ctx statusErr fuel url acc w =
          (some ⟨none, s, some statusErr⟩, w') ∧
        w'.log = w.log ++ xs ∧ xs.length = k ∧ UrlsFollow url xs ∧
        PagesThenStatus unmarshal xs k s := by
  intro k
  induction k with
  | zero =>
    intro fuel url acc w _ _ h
    simp [ServesThenStatus] at h
  | succ j ih =>
    intro fuel url acc w hfuel hctx hserved
    cases fuel with
    | zero => simp at hfuel
    | succ n =>
      have h0 : ctx w.polls = none := by simpa using hctx 0 (by simp)
      cases j with
      | zero =>
        simp only [ServesThenStatus] at hserved
        obtain ⟨res, hreq, hresp, hstatus⟩ := hserved
        have hne : res.StatusCode ≠ 200 := by rw [hstatus]; exact hs
        refine ⟨{ w with polls := w.polls + 1, log := w.log ++ [⟨url, .response res⟩] },
          [⟨url, .response res⟩], ?_, rfl, rfl, ⟨rfl, trivial⟩, hstatus⟩
        unfold paginate
        simp only [poll, h0, send, hreq, hresp, ne_eq, hstatus]
        rw [if_pos hs]
      | succ i =>
        simp only [ServesThenStatus] at hserved
        obtain ⟨res, hreq, hresp, h200, hread, ⟨items, hdec⟩, hhas, hnext, hrest⟩ := hserved
        obtain ⟨w', xs, hrun, hlog, hlen, hurls, hpages⟩ :=
          ih n (getNextUrl res.Link) (acc ++ items)
            { w with polls := w.polls + 1, log := w.log ++ [⟨url, .response res⟩] }
            (by simpa using hfuel)
            (by
              intro m hm
              have := hctx (m + 1) (by simpa using hm)
              simpa [Nat.add_assoc, Nat.add_comm 1 m] using this)
            hrest
        refine ⟨w', ⟨url, .response res⟩ :: xs, ?_, ?_, by simp [hlen], ⟨rfl, hurls⟩,
          ⟨items, h200, hread, hdec⟩, hhas, hpages⟩
        · unfold paginate
          simp only [poll, h0, send, hreq, hresp, h200, hread, hdec, hnext, ne_eq,
            not_true_eq_false, if_false]
          rw [hrun]
        · rw [hlog]
          simp [List.append_assoc]

/-- A method that is its loop, run against an upstream that serves `pages`. -/
theorem ListOp.run_serves (env : Env) (c : CanvasClient) (ctx : Context) (op : ListOp)
    (fuel : Nat) (w : World) (pages : List (List op.Item))
    (hterm : ∀ term, op.searchTerm = some term → len term ≠ 1)
    (hctx : ∀ i, i < pages.length → ctx (w.polls + i) = none)
    (hfuel : pages.length ≤ fuel)
    (hserved : ServesPages env (op.unmarshal env) w.log (op.requestUrl c) pages) :
    ∃ w' xs, op.run env c ctx fuel w = (some ⟨some pages.flatten, 200, none⟩, w') ∧
      exchangesSince w w' = xs ∧ xs.length = pages.length ∧ UrlsFollow (op.requestUrl c) xs ∧
      PagesAnswered (op.unmarshal env) xs pages := by
  rcases ListOp.run_eq env c ctx op fuel w with ⟨call, statusErr, h⟩ | ⟨term, call, msg, ht, hl, -⟩
  · obtain ⟨w', xs, hrun, hlog, hlen, hurls, hpages⟩ :=
      paginate_serves env (op.unmarshal env) ctx statusErr pages fuel (op.requestUrl c) []
        (w.called call) hfuel hctx hserved
    refine ⟨w', xs, ?_, ?_, hlen, hurls, hpages⟩
    · rw [h, hrun]
      simp
    · unfold exchangesSince
      rw [hlog]
      simp [World.called]
  · exact absurd hl (hterm term ht)

/-- A method that is its loop, run against an upstream that refuses the GET number `k`. -/
theorem ListOp.run_serves_status (env : Env) (c : CanvasClient) (ctx : Context) (op : ListOp)
    (fuel : Nat) (w : World) (k s : Nat) (hs : s ≠ 200)
    (hterm : ∀ term, op.searchTerm = some term → len term ≠ 1)
    (hctx : ∀ i, i < k → ctx (w.polls + i) = none)
    (hfuel : k ≤ fuel)
    (hserved : ServesThenStatus env (op.unmarshal env) w.log (op.requestUrl c) k s) :
    ∃ w' xs e, op.run env c ctx fuel w = (some ⟨none, s, some e⟩, w') ∧
      exchangesSince w w' = xs ∧ xs.length = k ∧ UrlsFollow (op.requestUrl c) xs ∧
      PagesThenStatus (op.unmarshal env) xs k s := by
  rcases ListOp.run_eq env c ctx op fuel w with ⟨call, statusErr, h⟩ | ⟨term, call, msg, ht, hl, -⟩
  · obtain ⟨w', xs, hrun, hlog, hlen, hurls, hpages⟩ :=
      paginate_serves_status env (op.unmarshal env) ctx statusErr s hs k fuel (op.requestUrl c)
        [] (w.called call) hfuel hctx hserved
    refine ⟨w', xs, statusErr, ?_, ?_, hlen, hurls, hpages⟩
    · rw [h, hrun]
    · unfold exchangesSince
      rw [hlog]
      simp [World.called]
  · exact absurd hl (hterm term ht)

/-- C1 as stated fails in two cases.  First, a next entry with an empty url: the upstream
answers the first GET of `GetEnrollmentsByUserID` with a page whose Link header is
`<>; rel="next"` and would answer a GET of the empty url with a second page without a next
entry, but the method stops after one GET with the first page only.  Second, a search term
of one byte: the upstream would answer the request url of `GetAssignmentsByCourseID` with
status 200 and a page without a next entry, but the method sends nothing and returns
status 400. -/
theorem pagination_termination_counterexample :
    (HasNextEntry "<>; rel=\"next\"" ∧ getNextUrl "<>; rel=\"next\"" = "" ∧
      (emptyNextEnv (ok200 "" "page-2")).respond []
          (enrollmentsByUserIDUrl exampleClient 42 []) = ok200 "<>; rel=\"next\"" "page-1" ∧
      (emptyNextEnv (ok200 "" "page-2")).respond
          [⟨enrollmentsByUserIDUrl exampleClient 42 [], ok200 "<>; rel=\"next\"" "page-1"⟩] "" =
        ok200 "" "page-2" ∧
      ¬ HasNextEntry "" ∧
      (emptyNextEnv (ok200 "" "page-2")).unmarshalEnrollments "page-1" =
        ([exampleEnrollment1], none) ∧
      (emptyNextEnv (ok200 "" "page-2")).unmarshalEnrollments "page-2" =
        ([exampleEnrollment2], none) ∧
      (GetEnrollmentsByUserID (emptyNextEnv (ok200 "" "page-2")) exampleClient background 42 []
          5 {}).1 = some ⟨some [exampleEnrollment1], 200, none⟩ ∧
      (GetEnrollmentsByUserID (emptyNextEnv (ok200 "" "page-2")) exampleClient background 42 []
          5 {}).2.log.length = 1) ∧
    (ServesPages localEnv localEnv.unmarshalAssignments []
        (assignmentsByCourseIDUrl localClient 5 "a" AllAssignmentBucket false)
        [[{ ID := 6, CourseID := 5, Name := "Play", NeedsGradingCountBySection := [⟨6, 1⟩] }]] ∧
      len "a" = 1 ∧
      (GetAssignmentsByCourseID localEnv localClient background 5 "a" AllAssignmentBucket false
          5 {}).1 =
        some ⟨none, 400, some "assignments search term is less than 2 characters"⟩ ∧
      (GetAssignmentsByCourseID localEnv localClient background 5 "a" AllAssignmentBucket false
          5 {}).2.log = []) := by
  refine ⟨⟨(HasNextEntry_iff _).2 (by decide), by decide, by decide, by decide,
    fun h => absurd ((HasNextEntry_iff _).1 h) (by decide), by decide, by decide, by decide,
    by decide⟩, ?_, by decide, by decide, by decide⟩
  simp only [ServesPages]
  exact ⟨{ StatusCode := 200 }, rfl, rfl, rfl, rfl, rfl,
    fun h => absurd ((HasNextEntry_iff _).1 h) (by decide)⟩

/-- C1, amended (pagination termination).  For every paginated list method of the gateway
that is not called with a search term of one byte, and every N ≥ 1 (the number of `pages`):
if the context is not cancelled at the first N looks, the fuel allows N iterations, and the
upstream serves the N pages from the request url of the method on (each GET is answered with
status 200 and a body that decodes to the page; the Link header of every page but the last
has a next entry and a next url that is not empty, and the Link header of the last page has
no next entry), then the method returns the concatenation of the pages in page order with
status 200 and a nil error, and it sends exactly N GETs, the first to the request url it
built and each later one to the next url of the page before, which are answered with the
N pages. -/
theorem pagination_termination (env : Env) (c : CanvasClient) (ctx : Context) (op : ListOp)
    (fuel : Nat) (w : World) (pages : List (List op.Item))
    (hterm : ∀ term, op.searchTerm = some term → len term ≠ 1)
    (hctx : ∀ i, i < pages.length → ctx (w.polls + i) = none)
    (hfuel : pages.length ≤ fuel)
    (hserved : ServesPages env (op.unmarshal env) w.log (op.requestUrl c) pages) :
    (op.run env c ctx fuel w).1 = some ⟨some pages.flatten, 200, none⟩ ∧
      (exchangesSince w (op.run env c ctx fuel w).2).length = pages.length ∧
      UrlsFollow (op.requestUrl c) (exchangesSince w (op.run env c ctx fuel w).2) ∧
      PagesAnswered (op.unmarshal env) (exchangesSince w (op.run env c ctx fuel w).2) pages := by
  obtain ⟨w', xs, hrun, hxs, hlen, hurls, hpages⟩ :=
    ListOp.run_serves env c ctx op fuel w pages hterm hctx hfuel hserved
  subst hxs
  rw [hrun]
  exact ⟨rfl, hlen, hurls, hpages⟩

/-- C1 at the two pages of active enrollments of user 42. -/
theorem pagination_termination_witness :
    ServesPages exampleEnv (ListOp.unmarshal exampleEnv (.GetEnrollmentsByUserID 42 ["active"]))
        [] (ListOp.requestUrl exampleClient (.GetEnrollmentsByUserID 42 ["active"]))
        [[exampleEnrollment1], [exampleEnrollment2]] ∧
      ((ListOp.run exampleEnv exampleClient background
          (.GetEnrollmentsByUserID 42 ["active"]) 5 {}).1 =
          some ⟨some [[exampleEnrollment1], [exampleEnrollment2]].flatten, 200, none⟩ ∧
        (exchangesSince {} (ListOp.run exampleEnv exampleClient background
          (.GetEnrollmentsByUserID 42 ["active"]) 5 {}).2).length = 2 ∧
        UrlsFollow (ListOp.requestUrl exampleClient (.GetEnrollmentsByUserID 42 ["active"]))
          (exchangesSince {} (ListOp.run exampleEnv exampleClient background
            (.GetEnrollmentsByUserID 42 ["active"]) 5 {}).2) ∧
        PagesAnswered (ListOp.unmarshal exampleEnv (.GetEnrollmentsByUserID 42 ["active"]))
          (exchangesSince {} (ListOp.run exampleEnv exampleClient background
            (.GetEnrollmentsByUserID 42 ["active"]) 5 {}).2)
          [[exampleEnrollment1], [exampleEnrollment2]]) := by
  have h1 : exampleEnv.unmarshalEnrollments "enrollments-42-1" = ([exampleEnrollment1], none) := by
    decide
  have h2 : exampleEnv.unmarshalEnrollments "enrollments-42-2" = ([exampleEnrollment2], none) := by
    decide
  have hyp : ServesPages exampleEnv
      (ListOp.unmarshal exampleEnv (.GetEnrollmentsByUserID 42 ["active"]))
      [] (ListOp.requestUrl exampleClient (.GetEnrollmentsByUserID 42 ["active"]))
      [[exampleEnrollment1], [exampleEnrollment2]] := by
    simp only [ServesPages]
    refine ⟨{ StatusCode := 200, Link := "<https://canvas.example.com/api/v1/users/42/enrollments?page=1>; rel=\"current\", <https://canvas.example.com/api/v1/users/42/enrollments?page=2>; rel=\"next\"", Body := "enrollments-42-1" }, rfl, by decide, rfl, rfl, h1,
      (HasNextEntry_iff _).2 (by decide), by decide, ?_⟩
    refine ⟨{ StatusCode := 200, Link := "<https://canvas.example.com/api/v1/users/42/enrollments?page=1>; rel=\"first\"", Body := "enrollments-42-2" }, rfl, by decide, rfl, rfl, h2, fun h => ?_⟩
    exact absurd ((HasNextEntry_iff _).1 h) (by decide)
  exact ⟨hyp, pagination_termination exampleEnv exampleClient background
    (.GetEnrollmentsByUserID 42 ["active"]) 5 {} _
    (fun term h => by simp [ListOp.searchTerm] at h) (fun _ _ => rfl) (by decide) hyp⟩

/-- C2 as stated fails in three cases.  First, a cancelled context: the upstream would
answer the first GET of `GetCoursesByUserID` with a page and a next entry and the second
with status 503, but under a context that is cancelled the method sends nothing and returns
status 408.  Second, a search term of one byte: the upstream would answer the request url
of `GetAssignmentsByCourseID` with status 404, but the method sends nothing and returns
status 400.  Third, a next entry with an empty url: the upstream answers the first GET with
a page whose Link header is `<>; rel="next"` and would answer a GET of the empty url with
status 503, but the method stops after one GET and returns the first page with
status 200. -/
theorem pagination_abort_counterexample :
    (ServesThenStatus exampleEnv exampleEnv.unmarshalCourses []
        (coursesByUserIDUrl exampleClient 42) 2 503 ∧
      cancelled 0 = some "context canceled" ∧
      GetCoursesByUserID exampleEnv exampleClient cancelled 42 5 {} =
        (some ⟨none, 408, some "context canceled"⟩,
          { polls := 1, calls := [.GetCoursesByUserID 42] })) ∧
    (ServesThenStatus exampleEnv exampleEnv.unmarshalAssignments []
        (assignmentsByCourseIDUrl exampleClient 7 "a" UngradedAssignmentBucket true) 1 404 ∧
      len "a" = 1 ∧
      (GetAssignmentsByCourseID exampleEnv exampleClient background 7 "a"
          UngradedAssignmentBucket true 5 {}).1 =
        some ⟨none, 400, some "assignments search term is less than 2 characters"⟩ ∧
      (GetAssignmentsByCourseID exampleEnv exampleClient background 7 "a"
          UngradedAssignmentBucket true 5 {}).2.log = []) ∧
    (HasNextEntry "<>; rel=\"next\"" ∧
      (emptyNextEnv (status 503)).respond []
          (enrollmentsByUserIDUrl exampleClient 42 []) = ok200 "<>; rel=\"next\"" "page-1" ∧
      (emptyNextEnv (status 503)).respond
          [⟨enrollmentsByUserIDUrl exampleClient 42 [], ok200 "<>; rel=\"next\"" "page-1"⟩] "" =
        status 503 ∧
      (GetEnrollmentsByUserID (emptyNextEnv (status 503)) exampleClient background 42 []
          5 {}).1 = some ⟨some [exampleEnrollment1], 200, none⟩ ∧
      (GetEnrollmentsByUserID (emptyNextEnv (status 503)) exampleClient background 42 []
          5 {}).2.log.length = 1) := by
  refine ⟨⟨?_, rfl, by decide⟩, ⟨?_, by decide, by decide, by decide⟩,
    (HasNextEntry_iff _).2 (by decide), by decide, by decide, by decide, by decide⟩
  · simp only [ServesThenStatus]
    exact ⟨{ StatusCode := 200, Link := "<https://canvas.example.com/api/v1/users/42/courses?page=2>; rel=\"next\"", Body := "courses-42-1" }, rfl, by decide, rfl, rfl, ⟨[], by decide⟩,
      (HasNextEntry_iff _).2 (by decide), by decide, { StatusCode := 503 }, rfl, by decide, rfl⟩
  · simp only [ServesThenStatus]
    exact ⟨{ StatusCode := 404 }, rfl, by decide, rfl⟩

/-- C2, amended (pagination abort).  For every paginated list method that is not called
with a search term of one byte, and every k ≥ 1: if the context is not cancelled at the
first k looks, the fuel allows k iterations, and the upstream serves k - 1 pages from the
request url of the method on (each with status 200, a decodable body and a Link header with
a next entry whose next url is not empty) and answers the GET number k with a status s other
than 200, then the method returns the nil slice, the status s and a non-nil error, and it
sends exactly k GETs, the first to the request url it built and each later one to the next
url of the page before. -/
theorem pagination_abort (env : Env) (c : CanvasClient) (ctx : Context) (op : ListOp)
    (fuel : Nat) (w : World) (k s : Nat) (hs : s ≠ 200)
    (hterm : ∀ term, op.searchTerm = some term → len term ≠ 1)
    (hctx : ∀ i, i < k → ctx (w.polls + i) = none)
    (hfuel : k ≤ fuel)
    (hserved : ServesThenStatus env (op.unmarshal env) w.log (op.requestUrl c) k s) :
    (∃ e, (op.run env c ctx fuel w).1 = some ⟨none, s, some e⟩) ∧
      (exchangesSince w (op.run env c ctx fuel w).2).length = k ∧
      UrlsFollow (op.requestUrl c) (exchangesSince w (op.run env c ctx fuel w).2) ∧
      PagesThenStatus (op.unmarshal env) (exchangesSince w (op.run env c ctx fuel w).2) k s := by
  obtain ⟨w', xs, e, hrun, hxs, hlen, hurls, hpages⟩ :=
    ListOp.run_serves_status env c ctx op fuel w k s hs hterm hctx hfuel hserved
  subst hxs
  rw [hrun]
  exact ⟨⟨e, rfl⟩, hlen, hurls, hpages⟩

/-- C2 at the courses of user 42, whose second page is answered with 503. -/
theorem pagination_abort_witness :
    (503 ≠ 200 ∧
      ServesThenStatus exampleEnv (ListOp.unmarshal exampleEnv (.GetCoursesByUserID 42)) []
        (ListOp.requestUrl exampleClient (.GetCoursesByUserID 42)) 2 503) ∧
      ((∃ e, (ListOp.run exampleEnv exampleClient background (.GetCoursesByUserID 42) 5 {}).1 =
          some ⟨none, 503, some e⟩) ∧
        (exchangesSince {} (ListOp.run exampleEnv exampleClient background
          (.GetCoursesByUserID 42) 5 {}).2).length = 2 ∧
        UrlsFollow (ListOp.requestUrl exampleClient (.GetCoursesByUserID 42))
          (exchangesSince {} (ListOp.run exampleEnv exampleClient background
            (.GetCoursesByUserID 42) 5 {}).2) ∧
        PagesThenStatus (ListOp.unmarshal exampleEnv (.GetCoursesByUserID 42))
          (exchangesSince {} (ListOp.run exampleEnv exampleClient background
            (.GetCoursesByUserID 42) 5 {}).2) 2 503) := by
  have h1 : exampleEnv.unmarshalCourses "courses-42-1" = ([], none) := by decide
  have hyp : ServesThenStatus exampleEnv (ListOp.unmarshal exampleEnv (.GetCoursesByUserID 42))
      [] (ListOp.requestUrl exampleClient (.GetCoursesByUserID 42)) 2 503 := by
    simp only [ServesThenStatus]
    exact ⟨{ StatusCode := 200, Link := "<https://canvas.example.com/api/v1/users/42/courses?page=2>; rel=\"next\"", Body := "courses-42-1" }, rfl, by decide, rfl, rfl, ⟨[], h1⟩,
      (HasNextEntry_iff _).2 (by decide), by decide, { StatusCode := 503 }, rfl, by decide, rfl⟩
  exact ⟨⟨by decide, hyp⟩, pagination_abort exampleEnv exampleClient background
    (.GetCoursesByUserID 42) 5 {} 2 503 (by decide)
    (fun term h => by simp [ListOp.searchTerm] at h) (fun _ _ => rfl) (by decide) hyp⟩

/-- C3 as stated fails: `GetAssignmentsByCourseID` called with the search term `a` under
a cancelled context returns status 400, not 408. -/
theorem cancellation_precedence_counterexample :
    cancelled 0 = some "context canceled" ∧
      (GetAssignmentsByCourseID exampleEnv exampleClient cancelled 7 "a"
        UngradedAssignmentBucket true 1 {}).1 =
        some ⟨none, 400, some "assignments search term is less than 2 characters"⟩ ∧
      (GetAssignmentsByCourseID exampleEnv exampleClient cancelled 7 "a"
        UngradedAssignmentBucket true 1 {}).1 ≠ some ⟨none, 408, some "context canceled"⟩ := by
  decide

/-- C3 (cancellation precedence), amended.  For every paginated list method: if the context
is already cancelled when the method is invoked, the method sends no GET; it returns the nil
slice, status 408 and the error of the context, unless it is one of the two methods with
a search term and the term has exactly one byte, in which case it returns the nil slice,
status 400 and a non-nil error. -/
theorem cancellation_precedence (env : Env) (c : CanvasClient) (ctx : Context) (op : ListOp)
    (fuel : Nat) (w : World) (e : String) (hfuel : 0 < fuel) (hctx : ctx w.polls = some e) :
    exchangesSince w (op.run env c ctx fuel w).2 = [] ∧
      ((∀ term, op.searchTerm = some term → len term ≠ 1) →
        (op.run env c ctx fuel w).1 = some ⟨none, 408, some e⟩) ∧
      ((∃ term, op.searchTerm = some term ∧ len term = 1) →
        ∃ msg, (op.run env c ctx fuel w).1 = some ⟨none, 400, some msg⟩) := by
  refine ⟨?_, ?_, ?_⟩
  · rcases ListOp.run_eq env c ctx op fuel w with ⟨call, statusErr, h⟩ | ⟨term, call, msg, -, -, h⟩
    · rw [h, paginate_cancelled env (op.unmarshal env) ctx statusErr fuel (op.requestUrl c) []
        (w.called call) e hfuel hctx]
      simp [exchangesSince, World.called]
    · rw [h]
      simp [exchangesSince, World.called]
  · intro hall
    rcases ListOp.run_eq env c ctx op fuel w with ⟨call, statusErr, h⟩ | ⟨term, call, msg, ht, hl, -⟩
    · rw [h, paginate_cancelled env (op.unmarshal env) ctx statusErr fuel (op.requestUrl c) []
        (w.called call) e hfuel hctx]
    · exact absurd hl (hall term ht)
  · rintro ⟨term, ht, hl⟩
    obtain ⟨call, msg, h⟩ := ListOp.run_guard env c ctx op fuel w term ht hl
    exact ⟨msg, by rw [h]⟩

/-- C3 amended, at the enrollments of user 42 under a cancelled context. -/
theorem cancellation_precedence_witness :
    (0 < 1 ∧ cancelled (({} : World).polls) = some "context canceled") ∧
      (exchangesSince {} (ListOp.run exampleEnv exampleClient cancelled
          (.GetEnrollmentsByUserID 42 ["active"]) 1 {}).2 = [] ∧
        ((∀ term, ListOp.searchTerm (.GetEnrollmentsByUserID 42 ["active"]) = some term →
            len term ≠ 1) →
          (ListOp.run exampleEnv exampleClient cancelled
            (.GetEnrollmentsByUserID 42 ["active"]) 1 {}).1 =
            some ⟨none, 408, some "context canceled"⟩) ∧
        ((∃ term, ListOp.searchTerm (.GetEnrollmentsByUserID 42 ["active"]) = some term ∧
            len term = 1) →
          ∃ msg, (ListOp.run exampleEnv exampleClient cancelled
            (.GetEnrollmentsByUserID 42 ["active"]) 1 {}).1 = some ⟨none, 400, some msg⟩)) :=
  ⟨⟨by decide, rfl⟩, cancellation_precedence exampleEnv exampleClient cancelled
    (.GetEnrollmentsByUserID 42 ["active"]) 1 {} "context canceled" (by decide) rfl⟩

/-! ## C4 and C5: the Link header -/

/-- C4 as stated fails: in the header below the only entry has the form `<u>; rel="next"`
with `u` the text `https://canvas.example.com/courses?filter=a>b&page=2`, and `getNextUrl`
returns only the part of it before the `>`. -/
theorem next_url_counterexample :
    Split "<https://canvas.example.com/courses?filter=a>b&page=2>; rel=\"next\"".data ',' =
        ["<https://canvas.example.com/courses?filter=a>b&page=2>; rel=\"next\"".data] ∧
      IsNextEntry "<https://canvas.example.com/courses?filter=a>b&page=2>; rel=\"next\"".data
        "https://canvas.example.com/courses?filter=a>b&page=2".data ∧
      getNextUrl "<https://canvas.example.com/courses?filter=a>b&page=2>; rel=\"next\"" =
        "https://canvas.example.com/courses?filter=a" ∧
      getNextUrl "<https://canvas.example.com/courses?filter=a>b&page=2>; rel=\"next\"" ≠
        "https://canvas.example.com/courses?filter=a>b&page=2" := by
  unfold IsNextEntry
  decide

/-- C4 (next url), amended.  For every Link header: if `entry` is the first of its
comma-separated entries that, once trimmed, has the form `<u>; rel="next"` with no line feed
in `u`, then `getNextUrl` returns `u` cut before its first `>`; that is all of `u` when `u`
has no `>`. -/
theorem next_url_of_first_next_entry (linkHeader : String) (before after : List (List Char))
    (entry u : List Char)
    (hsplit : Split linkHeader.data ',' = before ++ entry :: after)
    (hbefore : ∀ e ∈ before, ∀ v : List Char, ¬ IsNextEntry e v)
    (hentry : IsNextEntry entry u) :
    getNextUrl linkHeader = String.mk (u.takeWhile (fun d => d != '>')) ∧
      ('>' ∉ u → getNextUrl linkHeader = String.mk u) := by
  have hne : linkHeader ≠ "" := by
    rintro rfl
    have h1 : Split "".data ',' = [[]] := rfl
    rw [h1] at hsplit
    cases before with
    | nil =>
      simp only [List.nil_append, List.cons.injEq] at hsplit
      have h2 := hentry.1
      rw [← hsplit.1] at h2
      simp [TrimSpace] at h2
    | cons b bs =>
      cases bs <;> simp at hsplit
  have hmain : getNextUrl linkHeader = String.mk (u.takeWhile (fun d => d != '>')) := by
    unfold getNextUrl
    rw [if_neg hne, hsplit]
    apply getNextUrlLoop_found before after entry u _ hentry.1 hentry.2
    intro e he
    apply not_match_of_no_form
    intro v hv heq
    exact hbefore e he v ⟨heq, hv⟩
  refine ⟨hmain, fun hgt => ?_⟩
  rw [hmain]
  congr 1
  rw [List.takeWhile_eq_self_iff]
  intro d hd
  have : d ≠ '>' := fun hh => hgt (hh ▸ hd)
  simpa using this

/-- C4 amended, at a header whose second entry is the first next entry. -/
theorem next_url_of_first_next_entry_witness :
    (Split ("<https://canvas.example.com/api/v1/courses?page=1>; rel=\"current\"," ++
          " <https://canvas.example.com/api/v1/courses?page=2>; rel=\"next\"," ++
          "<https://canvas.example.com/api/v1/courses?page=9>; rel=\"last\"").data ',' =
        ["<https://canvas.example.com/api/v1/courses?page=1>; rel=\"current\"".data] ++
          " <https://canvas.example.com/api/v1/courses?page=2>; rel=\"next\"".data ::
          ["<https://canvas.example.com/api/v1/courses?page=9>; rel=\"last\"".data] ∧
      IsNextEntry " <https://canvas.example.com/api/v1/courses?page=2>; rel=\"next\"".data
        "https://canvas.example.com/api/v1/courses?page=2".data) ∧
      (getNextUrl ("<https://canvas.example.com/api/v1/courses?page=1>; rel=\"current\"," ++
          " <https://canvas.example.com/api/v1/courses?page=2>; rel=\"next\"," ++
          "<https://canvas.example.com/api/v1/courses?page=9>; rel=\"last\"") =
          String.mk ("https://canvas.example.com/api/v1/courses?page=2".data.takeWhile
            (fun d => d != '>')) ∧
        ('>' ∉ "https://canvas.example.com/api/v1/courses?page=2".data →
          getNextUrl ("<https://canvas.example.com/api/v1/courses?page=1>; rel=\"current\"," ++
            " <https://canvas.example.com/api/v1/courses?page=2>; rel=\"next\"," ++
            "<https://canvas.example.com/api/v1/courses?page=9>; rel=\"last\"") =
            String.mk "https://canvas.example.com/api/v1/courses?page=2".data)) := by
  have hsplit : Split ("<https://canvas.example.com/api/v1/courses?page=1>; rel=\"current\"," ++
        " <https://canvas.example.com/api/v1/courses?page=2>; rel=\"next\"," ++
        "<https://canvas.example.com/api/v1/courses?page=9>; rel=\"last\"").data ',' =
      ["<https://canvas.example.com/api/v1/courses?page=1>; rel=\"current\"".data] ++
        " <https://canvas.example.com/api/v1/courses?page=2>; rel=\"next\"".data ::
        ["<https://canvas.example.com/api/v1/courses?page=9>; rel=\"last\"".data] := by
    decide
  have hentry : IsNextEntry
      " <https://canvas.example.com/api/v1/courses?page=2>; rel=\"next\"".data
      "https://canvas.example.com/api/v1/courses?page=2".data := by
    unfold IsNextEntry
    decide
  refine ⟨⟨hsplit, hentry⟩, next_url_of_first_next_entry _ _ _ _ _ hsplit ?_ hentry⟩
  intro e he v hv
  have hm : nextRegExMatch (TrimSpace e) = true := (nextRegExMatch_iff _).2 ⟨v, hv.1, hv.2⟩
  simp only [List.mem_singleton] at he
  subst he
  exact absurd hm (by decide)

/-- C5 (no next url).  For every Link header in which no comma-separated entry, once
trimmed, has the form `<u>; rel="next"`, `getNextUrl` returns the empty string. -/
theorem no_next_url_without_next_entry (linkHeader : String)
    (hnone : ¬ HasNextEntry linkHeader) : getNextUrl linkHeader = "" :=
  getNextUrl_eq_empty linkHeader hnone

/-- C5 at the empty header, at a header whose relations are current, first, last and prev,
and at a header whose relations only contain the word next. -/
theorem no_next_url_without_next_entry_witness :
    (¬ HasNextEntry "" ∧ getNextUrl "" = "") ∧
      (¬ HasNextEntry ("<https://c/a?page=2>; rel=\"current\",<https://c/a?page=1>; rel=\"first\"," ++
          "<https://c/a?page=9>; rel=\"last\",<https://c/a?page=1>; rel=\"prev\"") ∧
        getNextUrl ("<https://c/a?page=2>; rel=\"current\",<https://c/a?page=1>; rel=\"first\"," ++
          "<https://c/a?page=9>; rel=\"last\",<https://c/a?page=1>; rel=\"prev\"") = "") ∧
      (¬ HasNextEntry ("<https://c/a?page=2>; rel=\"nextpage\",<https://c/a?page=3>; rel=\"prev next\"," ++
          "<https://c/a?page=4>; rel=\"next\"; title=\"x\"") ∧
        getNextUrl ("<https://c/a?page=2>; rel=\"nextpage\",<https://c/a?page=3>; rel=\"prev next\"," ++
          "<https://c/a?page=4>; rel=\"next\"; title=\"x\"") = "") := by
  have h1 : ¬ HasNextEntry "" := fun h => absurd ((HasNextEntry_iff _).1 h) (by decide)
  have h2 : ¬ HasNextEntry
      ("<https://c/a?page=2>; rel=\"current\",<https://c/a?page=1>; rel=\"first\"," ++
        "<https://c/a?page=9>; rel=\"last\",<https://c/a?page=1>; rel=\"prev\"") :=
    fun h => absurd ((HasNextEntry_iff _).1 h) (by decide)
  have h3 : ¬ HasNextEntry
      ("<https://c/a?page=2>; rel=\"nextpage\",<https://c/a?page=3>; rel=\"prev next\"," ++
        "<https://c/a?page=4>; rel=\"next\"; title=\"x\"") :=
    fun h => absurd ((HasNextEntry_iff _).1 h) (by decide)
  exact ⟨⟨h1, no_next_url_without_next_entry _ h1⟩, ⟨h2, no_next_url_without_next_entry _ h2⟩,
    ⟨h3, no_next_url_without_next_entry _ h3⟩⟩

/-! ## Frames for the gateway and the handlers -/

theorem callsSince_append (w w' : World) (more : List Call) (h : w'.calls = w.calls ++ more) :
    callsSince w w' = more := by
  simp [callsSince, h]

/-- A loop of the gateway records one call, the one named. -/
theorem paginate_called {α : Type} (env : Env) (unmarshal : String → List α × Option String)
    (ctx : Context) (statusErr : String) (fuel : Nat) (url : String) (w : World) (call : Call) :
    (paginate env unmarshal ctx statusErr fuel url [] (w.called call)).2.calls =
      w.calls ++ [call] := by
  rw [(paginate_frame env unmarshal ctx statusErr fuel url [] (w.called call)).2]
  rfl

theorem GetEnrollmentsByUserID_calls (env : Env) (c : CanvasClient) (ctx : Context)
    (userID : Int) (states : List EnrollmentState) (fuel : Nat) (w : World) :
    (GetEnrollmentsByUserID env c ctx userID states fuel w).2.calls =
      w.calls ++ [.GetEnrollmentsByUserID userID states] :=
  paginate_called _ _ _ _ _ _ _ _

theorem GetEnrollmentsBySectionID_calls (env : Env) (c : CanvasClient) (ctx : Context)
    (sectionID : Int) (states : List EnrollmentState) (types : List EnrollmentType)
    (fuel : Nat) (w : World) :
    (GetEnrollmentsBySectionID env c ctx sectionID states types fuel w).2.calls =
      w.calls ++ [.GetEnrollmentsBySectionID sectionID states types] :=
  paginate_called _ _ _ _ _ _ _ _

theorem GetCoursesByUserID_calls (env : Env) (c : CanvasClient) (ctx : Context)
    (userID : Int) (fuel : Nat) (w : World) :
    (GetCoursesByUserID env c ctx userID fuel w).2.calls =
      w.calls ++ [.GetCoursesByUserID userID] :=
  paginate_called _ _ _ _ _ _ _ _

theorem GetAssignmentsDataOfUserByCourseID_calls (env : Env) (c : CanvasClient) (ctx : Context)
    (userID courseID : Int) (fuel : Nat) (w : World) :
    (GetAssignmentsDataOfUserByCourseID env c ctx userID courseID fuel w).2.calls =
      w.calls ++ [.GetAssignmentsDataOfUserByCourseID userID courseID] :=
  paginate_called _ _ _ _ _ _ _ _

theorem GetAssignmentsByCourseID_calls (env : Env) (c : CanvasClient) (ctx : Context)
    (courseID : Int) (term : String) (bucket : AssignmentBucket) (flag : Bool)
    (fuel : Nat) (w : World) :
    (GetAssignmentsByCourseID env c ctx courseID term bucket flag fuel w).2.calls =
      w.calls ++ [.GetAssignmentsByCourseID courseID term bucket flag] := by
  unfold GetAssignmentsByCourseID
  simp only
  split
  · rfl
  · exact paginate_called _ _ _ _ _ _ _ _

theorem GetCourseByID_calls (env : Env) (c : CanvasClient) (courseID : Int) (w : World) :
    (GetCourseByID env c courseID w).2.calls = w.calls ++ [.GetCourseByID courseID] := by
  have hf := (send_frame env (courseByIDUrl c courseID) (w.called (.GetCourseByID courseID))).1
  unfold GetCourseByID
  rcases hsend : send env (courseByIDUrl c courseID) (w.called (.GetCourseByID courseID))
    with ⟨r, w1⟩
  rw [hsend] at hf
  simp only at hf
  have hw : w1.calls = w.calls ++ [.GetCourseByID courseID] := hf
  cases r with
  | error e => exact hw
  | ok res =>
    simp only
    split
    · exact hw
    · split
      · exact hw
      · split <;> exact hw

theorem GetSectionByID_calls (env : Env) (c : CanvasClient) (sectionID : Int) (w : World) :
    (GetSectionByID env c sectionID w).2.calls = w.calls ++ [.GetSectionByID sectionID] := by
  have hf := (send_frame env (sectionByIDUrl c sectionID)
    (w.called (.GetSectionByID sectionID))).1
  unfold GetSectionByID
  rcases hsend : send env (sectionByIDUrl c sectionID)
    (w.called (.GetSectionByID sectionID)) with ⟨r, w1⟩
  rw [hsend] at hf
  simp only at hf
  have hw : w1.calls = w.calls ++ [.GetSectionByID sectionID] := hf
  cases r with
  | error e => exact hw
  | ok res =>
    simp only
    split
    · exact hw
    · split
      · exact hw
      · split <;> exact hw

theorem GetUserByID_calls (env : Env) (c : CanvasClient) (userID : Int) (w : World) :
    (GetUserByID env c userID w).2.calls = w.calls ++ [.GetUserByID userID] := by
  have hf := (send_frame env (userByIDUrl c userID)
    (w.called (.GetUserByID userID))).1
  unfold GetUserByID
  rcases hsend : send env (userByIDUrl c userID)
    (w.called (.GetUserByID userID)) with ⟨r, w1⟩
  rw [hsend] at hf
  simp only at hf
  have hw : w1.calls = w.calls ++ [.GetUserByID userID] := hf
  cases r with
  | error e => exact hw
  | ok res =>
    simp only
    split
    · exact hw
    · split
      · exact hw
      · split <;> exact hw

/-! ## Loops of the handlers -/

/-- A relation that every pass through the body establishes, and that is reflexive and
transitive, holds between the variables before and after a loop that runs to its end. -/
theorem forRange_ok {τ σ ε : Type} (body : τ → σ → Except ε σ) (R : σ → σ → Prop)
    (hrefl : ∀ s, R s s) (htrans : ∀ a b d, R a b → R b d → R a d)
    (hbody : ∀ x s s', body x s = .ok s' → R s s') :
    ∀ (xs : List τ) (s s' : σ), forRange body xs s = .ok s' → R s s' := by
  intro xs
  induction xs with
  | nil =>
    intro s s' h
    simp only [forRange, Except.ok.injEq] at h
    exact h ▸ hrefl s
  | cons x xs ih =>
    intro s s' h
    simp only [forRange] at h
    cases hb : body x s with
    | error e => rw [hb] at h; simp at h
    | ok s1 =>
      rw [hb] at h
      exact htrans _ _ _ (hbody x s s1 hb) (ih s1 s' h)

/-- What holds of a handler that returns from inside a loop, when it holds of a return from
the body and is carried back over the passes before it. -/
theorem forRange_error {τ σ ε : Type} (body : τ → σ → Except ε σ) (R : σ → σ → Prop)
    (Q : σ → ε → Prop) (hback : ∀ a b e, R a b → Q b e → Q a e)
    (hbody : ∀ x s s', body x s = .ok s' → R s s')
    (hbodyE : ∀ x s e, body x s = .error e → Q s e) :
    ∀ (xs : List τ) (s : σ) (e : ε), forRange body xs s = .error e → Q s e := by
  intro xs
  induction xs with
  | nil => intro s e h; simp [forRange] at h
  | cons x xs ih =>
    intro s e h
    simp only [forRange] at h
    cases hb : body x s with
    | error e1 =>
      rw [hb] at h
      simp only [Except.error.injEq] at h
      exact h ▸ hbodyE x s e1 hb
    | ok s1 =>
      rw [hb] at h
      exact hback _ _ _ (hbody x s s1 hb) (ih s1 e h)

/-- An invariant of the body is an invariant of the loop. -/
theorem forRange_invariant {τ σ ε : Type} (body : τ → σ → Except ε σ) (I : σ → Prop)
    (hbody : ∀ x s s', I s → body x s = .ok s' → I s') :
    ∀ (xs : List τ) (s s' : σ), I s → forRange body xs s = .ok s' → I s' := by
  intro xs
  induction xs with
  | nil =>
    intro s s' hi h
    simp only [forRange, Except.ok.injEq] at h
    exact h ▸ hi
  | cons x xs ih =>
    intro s s' hi h
    simp only [forRange] at h
    cases hb : body x s with
    | error e => rw [hb] at h; simp at h
    | ok s1 =>
      rw [hb] at h
      exact ih s1 s' (hbody x s s1 hi hb) h

/-- What a pass establishes for its element, and no later pass undoes, holds of every
element after the loop. -/
theorem forRange_covers {τ σ ε : Type} (body : τ → σ → Except ε σ) (C : τ → σ → Prop)
    (hbody : ∀ x s s', body x s = .ok s' → C x s')
    (hkeep : ∀ x y s s', C x s → body y s = .ok s' → C x s') :
    ∀ (xs : List τ) (s s' : σ), forRange body xs s = .ok s' → ∀ x ∈ xs, C x s' := by
  intro xs
  induction xs with
  | nil => intro s s' _ x hx; simp at hx
  | cons y ys ih =>
    intro s s' h x hx
    simp only [forRange] at h
    cases hb : body y s with
    | error e => rw [hb] at h; simp at h
    | ok s1 =>
      rw [hb] at h
      rcases List.mem_cons.1 hx with rfl | hx
      · have hc : C x s1 := hbody x s s1 hb
        exact forRange_invariant body (C x) (fun y a b ha hab => hkeep x y a b ha hab) ys s1 s' hc h
      · exact ih s1 s' h x hx

/-- The gateway calls made by `resolveCourse`: none, or one `GetCourseByID`. -/
theorem resolveCourse_calls (env : Env) (c : CanvasClient) (courseID : Int)
    (courses : IntMap Course) (w : World) :
    ∃ more : List Call, (∀ call ∈ more, call = .GetCourseByID courseID) ∧
      (∀ course courses1 w1, resolveCourse env c courseID courses w = .ok (course, courses1, w1) →
        w1.calls = w.calls ++ more) ∧
      (∀ code w1, resolveCourse env c courseID courses w = .error (code, w1) →
        w1.calls = w.calls ++ more) := by
  unfold resolveCourse
  cases courses.lookup courseID with
  | some course =>
    refine ⟨[], by simp, ?_, ?_⟩
    · intro course1 courses1 w1 h
      simp only [Except.ok.injEq, Prod.mk.injEq] at h
      simp [← h.2.2]
    · intro code w1 h
      simp at h
  | none =>
    have h := GetCourseByID_calls env c courseID w
    rcases hg : GetCourseByID env c courseID w with ⟨⟨cv, cc, ce⟩, w1⟩
    rw [hg] at h
    simp only at h
    refine ⟨[.GetCourseByID courseID], by simp, ?_, ?_⟩
    · intro course1 courses1 w2 h2
      cases ce with
      | some e => simp at h2
      | none =>
        simp only [Except.ok.injEq, Prod.mk.injEq] at h2
        rw [← h2.2.2]; exact h
    · intro code w2 h2
      cases ce with
      | none => simp at h2
      | some e =>
        simp only [Except.error.injEq, Prod.mk.injEq] at h2
        rw [← h2.2]; exact h

/-! ## C6: the enrollment state filter -/

theorem GetOnlyValidEnrollmentState_fold (states : List String) (acc : List EnrollmentState) :
    states.foldl
        (fun result state =>
          if slicesContains GetAllEnrollmentState state then result ++ [state] else result) acc =
      acc ++ states.filter (fun s => slicesContains GetAllEnrollmentState s) := by
  induction states generalizing acc with
  | nil => simp
  | cons x xs ih =>
    simp only [List.foldl_cons, List.filter_cons]
    rw [ih]
    split <;> simp

theorem slicesContains_all (s : String) :
    slicesContains GetAllEnrollmentState s =
      decide (s = "active" ∨ s = "inactive" ∨ s = "completed" ∨ s = "invited" ∨
        s = "rejected" ∨ s = "deleted") := by
  simp only [slicesContains, GetAllEnrollmentState, ActiveEnrollmentState,
    InactiveEnrollmentState, CompletedEnrollmentState, InvitedEnrollmentState,
    RejectedEnrollmentState, DeletedEnrollmentState, List.any_cons, List.any_nil,
    Bool.or_false]
  rw [Bool.eq_iff_iff]
  simp only [Bool.or_eq_true, beq_iff_eq, decide_eq_true_eq]
  constructor <;> intro h <;> rcases h with h | h | h | h | h | h <;> simp [h]

theorem Atoi_empty : Atoi "" = none := by decide

/-- The gateway calls made by one pass of the loop of the enrollment report. -/
theorem enrollmentResultRow_calls (env : Env) (c : CanvasClient) (enrollment : Enrollment)
    (s : EnrollmentsState) :
    (∀ s', enrollmentResultRow env c enrollment s = .ok s' →
      ∃ more : List Call, (∀ call ∈ more, ∀ u st, call ≠ Call.GetEnrollmentsByUserID u st) ∧
        s'.world.calls = s.world.calls ++ more) ∧
    (∀ run, enrollmentResultRow env c enrollment s = .error run →
      ∃ more : List Call, (∀ call ∈ more, ∀ u st, call ≠ Call.GetEnrollmentsByUserID u st) ∧
        run.2.calls = s.world.calls ++ more) := by
  obtain ⟨m1, hm1, h1ok, h1err⟩ := resolveCourse_calls env c enrollment.CourseID s.courses s.world
  have hm1' : ∀ call ∈ m1, ∀ u st, call ≠ Call.GetEnrollmentsByUserID u st := by
    intro call hc u st
    rw [hm1 call hc]
    simp
  have hsec : ∀ (w1 : World), w1.calls = s.world.calls ++ m1 →
      ∃ more : List Call, (∀ call ∈ more, ∀ u st, call ≠ Call.GetEnrollmentsByUserID u st) ∧
        (GetSectionByID env c enrollment.CourseSectionID w1).2.calls = s.world.calls ++ more := by
    intro w1 hw1
    refine ⟨m1 ++ [.GetSectionByID enrollment.CourseSectionID], ?_, ?_⟩
    · intro call hc u st
      rcases List.mem_append.1 hc with h | h
      · exact hm1' call h u st
      · simp only [List.mem_singleton] at h
        rw [h]
        simp
    · rw [GetSectionByID_calls, hw1, List.append_assoc]
  constructor
  · intro s' h
    unfold enrollmentResultRow at h
    by_cases hnil : enrollment.IsNil = true
    · rw [if_pos hnil] at h
      cases h
    rw [if_neg hnil] at h
    split at h
    · simp at h
    · rename_i course courses w1 hr
      have hw1 := h1ok _ _ _ hr
      simp only at h
      split at h
      · split at h
        · simp at h
        · rename_i sv sc w2 hs
          simp only [Except.ok.injEq] at h
          obtain ⟨more, hm, hcalls⟩ := hsec w1 hw1
          rw [hs] at hcalls
          exact ⟨more, hm, by rw [← h]; exact hcalls⟩
      · simp only [Except.ok.injEq] at h
        exact ⟨m1, hm1', by rw [← h]; exact hw1⟩
  · intro run h
    unfold enrollmentResultRow at h
    by_cases hnil : enrollment.IsNil = true
    · rw [if_pos hnil] at h
      simp only [Except.error.injEq] at h
      exact ⟨[], by simp, by rw [← h]; simp [nilDereference]⟩
    rw [if_neg hnil] at h
    split at h
    · rename_i code w1 hr
      simp only [Except.error.injEq] at h
      exact ⟨m1, hm1', by rw [← h]; exact h1err _ _ hr⟩
    · rename_i course courses w1 hr
      have hw1 := h1ok _ _ _ hr
      simp only at h
      split at h
      · split at h
        · rename_i sv sc e w2 hs
          simp only [Except.error.injEq] at h
          obtain ⟨more, hm, hcalls⟩ := hsec w1 hw1
          rw [hs] at hcalls
          exact ⟨more, hm, by rw [← h]; exact hcalls⟩
        · simp at h
      · simp at h

/-- The gateway calls made by the loop of the enrollment report. -/
theorem enrollmentResultRows_calls (env : Env) (c : CanvasClient) (enrollments : List Enrollment)
    (s : EnrollmentsState) :
    (∀ s', forRange (enrollmentResultRow env c) enrollments s = .ok s' →
      ∃ more : List Call, (∀ call ∈ more, ∀ u st, call ≠ Call.GetEnrollmentsByUserID u st) ∧
        s'.world.calls = s.world.calls ++ more) ∧
    (∀ run, forRange (enrollmentResultRow env c) enrollments s = .error run →
      ∃ more : List Call, (∀ call ∈ more, ∀ u st, call ≠ Call.GetEnrollmentsByUserID u st) ∧
        run.2.calls = s.world.calls ++ more) := by
  constructor
  · intro s' hf
    exact forRange_ok (enrollmentResultRow env c)
      (fun a b => ∃ more : List Call,
        (∀ call ∈ more, ∀ u st, call ≠ Call.GetEnrollmentsByUserID u st) ∧
          b.world.calls = a.world.calls ++ more)
      (fun a => ⟨[], by simp, by simp⟩)
      (fun a b d ⟨m1, h1, e1⟩ ⟨m2, h2, e2⟩ =>
        ⟨m1 ++ m2, fun call hc => (List.mem_append.1 hc).elim (h1 call) (h2 call), by
          rw [e2, e1, List.append_assoc]⟩)
      (fun x a b hab => (enrollmentResultRow_calls env c x a).1 b hab) enrollments s s' hf
  · intro run hf
    exact forRange_error (enrollmentResultRow env c)
      (fun a b => ∃ more : List Call,
        (∀ call ∈ more, ∀ u st, call ≠ Call.GetEnrollmentsByUserID u st) ∧
          b.world.calls = a.world.calls ++ more)
      (fun a run => ∃ more : List Call,
        (∀ call ∈ more, ∀ u st, call ≠ Call.GetEnrollmentsByUserID u st) ∧
          run.2.calls = a.world.calls ++ more)
      (fun a b run ⟨m1, h1, e1⟩ ⟨m2, h2, e2⟩ =>
        ⟨m1 ++ m2, fun call hc => (List.mem_append.1 hc).elim (h1 call) (h2 call), by
          rw [e2, e1, List.append_assoc]⟩)
      (fun x a b hab => (enrollmentResultRow_calls env c x a).1 b hab)
      (fun x a run hab => (enrollmentResultRow_calls env c x a).2 run hab) enrollments s run hf

/-- C6 (enrollment state filtering).  For every list of strings,
`GetOnlyValidEnrollmentState` returns the inputs that are one of the six enrollment states,
in their order and with their repetitions; for `active, bogus` it returns `active`; and
in every run of `GetStudentEnrollmentsResultByUserID` on a numeric user id the first gateway
call is `GetEnrollmentsByUserID` with that list as its states, and it is the only call of
that method. -/
theorem enrollment_state_filtering (states : List String) :
    GetOnlyValidEnrollmentState states =
        states.filter (fun s => decide (s = "active" ∨ s = "inactive" ∨ s = "completed" ∨
          s = "invited" ∨ s = "rejected" ∨ s = "deleted")) ∧
      GetOnlyValidEnrollmentState ["active", "bogus"] = ["active"] ∧
      ∀ (env : Env) (c : CanvasClient) (r : Request) (fuel : Nat) (w : World) (userID : Int),
        r.states = states → Atoi r.urlParam = some userID →
        ∃ rest : List Call,
          callsSince w (GetStudentEnrollmentsResultByUserID env c r fuel w).2 =
            Call.GetEnrollmentsByUserID userID (GetOnlyValidEnrollmentState states) :: rest ∧
          ∀ call ∈ rest, ∀ u st, call ≠ Call.GetEnrollmentsByUserID u st := by
  refine ⟨?_, by decide, ?_⟩
  · unfold GetOnlyValidEnrollmentState
    rw [GetOnlyValidEnrollmentState_fold]
    simp only [List.nil_append]
    congr 1
    funext s
    exact slicesContains_all s
  · intro env c r fuel w userID hst hid
    have hne : r.urlParam ≠ "" := by
      intro h
      rw [h, Atoi_empty] at hid
      simp at hid
    unfold GetStudentEnrollmentsResultByUserID
    rw [if_neg hne, hid, hst]
    simp only
    have h1 := GetEnrollmentsByUserID_calls env c r.ctx userID
      (GetOnlyValidEnrollmentState states) fuel w
    rcases he : GetEnrollmentsByUserID env c r.ctx userID
      (GetOnlyValidEnrollmentState states) fuel w with ⟨r1, w1⟩
    rw [he] at h1
    simp only at h1
    cases r1 with
    | none => exact ⟨[], callsSince_append _ _ _ h1, by simp⟩
    | some rep =>
      obtain ⟨ev, ec, ee⟩ := rep
      cases ee with
      | some e => exact ⟨[], callsSince_append _ _ _ h1, by simp⟩
      | none =>
        simp only
        have h2 := GetCoursesByUserID_calls env c r.ctx userID fuel w1
        rcases hc : GetCoursesByUserID env c r.ctx userID fuel w1 with ⟨r2, w2⟩
        rw [hc] at h2
        simp only at h2
        have h12 : w2.calls = w.calls ++
            [Call.GetEnrollmentsByUserID userID (GetOnlyValidEnrollmentState states),
             Call.GetCoursesByUserID userID] := by
          rw [h2, h1]; simp
        have hnot : ∀ u st, Call.GetCoursesByUserID userID ≠ Call.GetEnrollmentsByUserID u st := by
          intro u st; simp
        cases r2 with
        | none =>
          refine ⟨[.GetCoursesByUserID userID], callsSince_append _ _ _ h12, ?_⟩
          intro call hcall u st
          simp only [List.mem_singleton] at hcall
          rw [hcall]; exact hnot u st
        | some rep2 =>
          obtain ⟨cv, cc, ce⟩ := rep2
          cases ce with
          | some e =>
            refine ⟨[.GetCoursesByUserID userID], callsSince_append _ _ _ h12, ?_⟩
            intro call hcall u st
            simp only [List.mem_singleton] at hcall
            rw [hcall]; exact hnot u st
          | none =>
            simp only
            by_cases hnil : ((cv.getD []).any fun course => course.IsNil) = true
            · rw [if_pos hnil]
              refine ⟨[.GetCoursesByUserID userID], callsSince_append _ _ _ h12, ?_⟩
              intro call hcall u st
              simp only [List.mem_singleton] at hcall
              rw [hcall]; exact hnot u st
            rw [if_neg hnil]
            obtain ⟨hrowsOk, hrowsErr⟩ := enrollmentResultRows_calls env c (ev.getD [])
              { courses := courseByCourseID (cv.getD []), world := w2 }
            have hrest : ∀ more : List Call,
                (∀ call ∈ more, ∀ u st, call ≠ Call.GetEnrollmentsByUserID u st) →
                ∀ call ∈ Call.GetCoursesByUserID userID :: more,
                  ∀ u st, call ≠ Call.GetEnrollmentsByUserID u st := by
              intro more hm call hcall u st
              rcases List.mem_cons.1 hcall with h | h
              · rw [h]; exact hnot u st
              · exact hm call h u st
            cases hf : forRange (enrollmentResultRow env c) (ev.getD [])
                { courses := courseByCourseID (cv.getD []), world := w2 } with
            | error run =>
              obtain ⟨more, hm, hrows⟩ := hrowsErr run hf
              simp only at hrows ⊢
              refine ⟨.GetCoursesByUserID userID :: more, callsSince_append _ _ _ ?_,
                hrest more hm⟩
              rw [hrows, h12]; simp
            | ok s' =>
              obtain ⟨more, hm, hrows⟩ := hrowsOk s' hf
              simp only at hrows ⊢
              refine ⟨.GetCoursesByUserID userID :: more, callsSince_append _ _ _ ?_,
                hrest more hm⟩
              rw [hrows, h12]; simp

/-- C6 at the request `state[]=active&state[]=bogus` for user 42. -/
theorem enrollment_state_filtering_witness :
    (({ urlParam := "42", states := ["active", "bogus"], ctx := background } : Request).states =
        ["active", "bogus"] ∧
      Atoi ({ urlParam := "42", states := ["active", "bogus"], ctx := background } :
        Request).urlParam = some 42) ∧
      ∃ rest : List Call,
        callsSince {} (GetStudentEnrollmentsResultByUserID exampleEnv exampleClient
          { urlParam := "42", states := ["active", "bogus"], ctx := background } 5 {}).2 =
          Call.GetEnrollmentsByUserID 42 (GetOnlyValidEnrollmentState ["active", "bogus"]) ::
            rest ∧
        ∀ call ∈ rest, ∀ u st, call ≠ Call.GetEnrollmentsByUserID u st :=
  ⟨⟨rfl, by decide⟩,
    (enrollment_state_filtering ["active", "bogus"]).2.2 exampleEnv exampleClient
      { urlParam := "42", states := ["active", "bogus"], ctx := background } 5 {} 42 rfl
      (by decide)⟩

/-! ## C7: path identifiers of the course report -/

theorem atoiDigits_some (neg : Bool) (digits : List Char) (n : Int)
    (h : atoiDigits neg digits = some n) :
    digits ≠ [] ∧ (∀ d ∈ digits, isDigit d = true) ∧
      n = if neg then - (digitsValue digits : Int) else (digitsValue digits : Int) := by
  unfold atoiDigits at h
  by_cases hc : (digits.isEmpty || !(digits.all isDigit)) = true
  · rw [if_pos hc] at h
    simp at h
  · rw [if_neg hc] at h
    simp only [Bool.or_eq_true, List.isEmpty_iff, Bool.not_eq_true', not_or,
      Bool.not_eq_false] at hc
    dsimp only at h
    by_cases hr : (if neg then - (digitsValue digits : Int) else (digitsValue digits : Int)) <
        -(2 : Int) ^ 63 ∨
        (2 : Int) ^ 63 - 1 < (if neg then - (digitsValue digits : Int) else (digitsValue digits : Int))
    · rw [if_pos hr] at h
      simp at h
    · rw [if_neg hr] at h
      simp only [Option.some.injEq] at h
      exact ⟨hc.1, fun d hd => List.all_eq_true.1 hc.2 d hd, h.symm⟩

/-- What `Atoi` accepts is a decimal integer, and it returns the integer it denotes. -/
theorem Atoi_some (s : String) (n : Int) (h : Atoi s = some n) :
    IsDecimalInteger s ∧ n = decimalValue s := by
  unfold Atoi at h
  unfold IsDecimalInteger decimalValue
  split at h
  · rename_i r hdata
    obtain ⟨hne, hall, hn⟩ := atoiDigits_some _ _ _ h
    rw [hdata]
    exact ⟨⟨['-'], r, rfl, by simp, hne, hall⟩, by simpa using hn⟩
  · rename_i r hdata
    obtain ⟨hne, hall, hn⟩ := atoiDigits_some _ _ _ h
    rw [hdata]
    exact ⟨⟨['+'], r, rfl, by simp, hne, hall⟩, by simpa using hn⟩
  · rename_i hminus hplus
    obtain ⟨hne, hall, hn⟩ := atoiDigits_some _ _ _ h
    exact ⟨⟨[], s.data, by simp, by simp, hne, hall⟩, by simpa using hn⟩

/-- C7 (invalid course id).  For every `course_id` path parameter that is empty, is not
a decimal integer, or is a decimal integer that is zero or negative,
`GetUngradedAssignmentsByCourseID` answers `course not found` with status 404 and leaves
the world as it was: no GET is sent, no gateway method is called, the context is not looked
at. -/
theorem invalid_course_id_rejected (env : Env) (c : CanvasClient) (r : Request) (fuel : Nat)
    (w : World)
    (hinvalid : r.urlParam = "" ∨ ¬ IsDecimalInteger r.urlParam ∨
      (IsDecimalInteger r.urlParam ∧ decimalValue r.urlParam ≤ 0)) :
    GetUngradedAssignmentsByCourseID env c r fuel w =
      (some [.error "course not found" 404], w) := by
  unfold GetUngradedAssignmentsByCourseID
  by_cases hempty : r.urlParam = ""
  · rw [if_pos hempty]
  · rw [if_neg hempty]
    cases hAtoi : Atoi r.urlParam with
    | none => rfl
    | some courseID =>
      obtain ⟨hdec, hval⟩ := Atoi_some _ _ hAtoi
      simp only
      rcases hinvalid with h | h | h
      · exact absurd h hempty
      · exact absurd hdec h
      · rw [if_pos (by rw [hval]; exact h.2)]

/-- C7 at the three path identifiers of the specification: `0`, `-5` and `abc`. -/
theorem invalid_course_id_rejected_witness :
    ((IsDecimalInteger "0" ∧ decimalValue "0" ≤ 0) ∧
        GetUngradedAssignmentsByCourseID exampleEnv exampleClient
          { urlParam := "0", ctx := background } 5 {} =
          (some [.error "course not found" 404], {})) ∧
      ((IsDecimalInteger "-5" ∧ decimalValue "-5" ≤ 0) ∧
        GetUngradedAssignmentsByCourseID exampleEnv exampleClient
          { urlParam := "-5", ctx := background } 5 {} =
          (some [.error "course not found" 404], {})) ∧
      (¬ IsDecimalInteger "abc" ∧
        GetUngradedAssignmentsByCourseID exampleEnv exampleClient
          { urlParam := "abc", ctx := background } 5 {} =
          (some [.error "course not found" 404], {})) := by
  have h0 : IsDecimalInteger "0" ∧ decimalValue "0" ≤ 0 :=
    ⟨⟨[], ['0'], rfl, Or.inl rfl, by simp, by decide⟩, by decide⟩
  have h5 : IsDecimalInteger "-5" ∧ decimalValue "-5" ≤ 0 :=
    ⟨⟨['-'], ['5'], rfl, Or.inr (Or.inr rfl), by simp, by decide⟩, by decide⟩
  have habc : ¬ IsDecimalInteger "abc" := by
    rintro ⟨sign, digits, hdata, hsign, hne, hall⟩
    have hd : "abc".data = ['a', 'b', 'c'] := rfl
    rw [hd] at hdata
    rcases hsign with rfl | rfl | rfl
    · simp only [List.nil_append] at hdata
      have := hall 'a' (by rw [← hdata]; simp)
      exact absurd this (by decide)
    · simp at hdata
    · simp at hdata
  exact ⟨⟨h0, invalid_course_id_rejected _ _ _ _ _ (Or.inr (Or.inr h0))⟩,
    ⟨h5, invalid_course_id_rejected _ _ _ _ _ (Or.inr (Or.inr h5))⟩,
    ⟨habc, invalid_course_id_rejected _ _ _ _ _ (Or.inr (Or.inl habc))⟩⟩

/-! ## C8 and C9: what the handlers do with a non-positive user id and after an error -/

set_option maxRecDepth 8192

/-- C8 on the code.  `GetStudentEnrollmentsResultByUserID` called with the user id `0` and
`GetStudentAssignmentsResultByUserID` called with the user id `-5` do not answer 404: each
calls the gateway, which sends a GET for that user, and the handler answers with what the
upstream said (here 404 for every such url, after one GET and after two). -/
theorem nonpositive_user_id_reaches_upstream :
    GetStudentEnrollmentsResultByUserID exampleEnv exampleClient
        { urlParam := "0", ctx := background } 5 {} =
      (some [.error "error fetching enrollments of user: 0" 404],
        { log := [⟨"https://canvas.example.com/api/v1/users/0/enrollments?per_page=100",
                    status 404⟩],
          polls := 1,
          calls := [.GetEnrollmentsByUserID 0 []] }) ∧
    GetStudentAssignmentsResultByUserID exampleEnv exampleClient
        { urlParam := "-5", ctx := background } 5 {} =
      (some [.error "error fetching user: -5" 404,
             .error "error fetching courses of user: -5" 404],
        { log := [⟨"https://canvas.example.com/api/v1/users/-5", status 404⟩,
                   ⟨"https://canvas.example.com/api/v1/users/-5/courses?include%5B%5D=account&include%5B%5D=sections&per_page=100",
                    status 404⟩],
          polls := 1,
          calls := [.GetUserByID (-5), .GetCoursesByUserID (-5)] }) := by
  decide

/-- C9 on the code.  Three gateway errors after which the handler goes on.  In the course
report an error of `GetAssignmentsByCourseID` (course 7) is followed by an encoded empty
array, and an error of `GetSectionByID` (course 9, section 3) is followed by an encoded row;
in the assignment report an error of `GetUserByID` (user 42) is followed by further GETs and
a second error. -/
theorem handler_goes_on_after_error :
    (GetUngradedAssignmentsByCourseID exampleEnv exampleClient
        { urlParam := "7", ctx := background } 5 {}).1 =
      some [.error "error fetching assignments of course: 7" 500, .json []] ∧
    (GetUngradedAssignmentsByCourseID exampleEnv exampleClient
        { urlParam := "9", ctx := background } 5 {}).1 =
      some [.error "error fetching section: 3" 404,
            .json [{ Account := "", CourseName := "Botany", Name := "Lab", SectionName := "",
                     CourseID := 9, NeedingGradingSection := 1, Teachers := some [],
                     GradebookURL := "https://canvas.example.com/courses/9/gradebook" }]] ∧
    (GetStudentAssignmentsResultByUserID exampleEnv exampleClient
        { urlParam := "42", ctx := background } 5 {}).1 =
      some [.error "error fetching user: 42" 404,
            .error "error fetching courses of user: 42" 503] ∧
    ((GetStudentAssignmentsResultByUserID exampleEnv exampleClient
        { urlParam := "42", ctx := background } 5 {}).2.log.map fun x => x.url) =
      ["https://canvas.example.com/api/v1/users/42",
       "https://canvas.example.com/api/v1/users/42/courses?include%5B%5D=account&include%5B%5D=sections&per_page=100",
       "https://canvas.example.com/api/v1/users/42/courses?page=2"] := by
  decide

/-! ## C10: the sections are memoized -/

theorem enrollmentLookups_append (id : Int) (cs ds : List Call) :
    enrollmentLookups id (cs ++ ds) = enrollmentLookups id cs + enrollmentLookups id ds := by
  simp [enrollmentLookups, List.countP_append]

theorem sectionLookups_append (id : Int) (cs ds : List Call) :
    sectionLookups id (cs ++ ds) = sectionLookups id cs + sectionLookups id ds := by
  simp [sectionLookups, List.countP_append]

theorem lookup_set {V : Type} (m : IntMap V) (k j : Int) (v : V) :
    (m.set k v).lookup j = if j = k then some v else m.lookup j := by
  unfold IntMap.set
  rw [List.lookup_cons]
  by_cases h : j = k
  · simp [h]
  · have : (j == k) = false := by simpa using h
    simp [h, this]

/-- After `resolveSection` the section has an entry, no entry is lost, and the calls still
agree with the map. -/
theorem resolveSection_ok (env : Env) (c : CanvasClient) (ctx : Context) (fuel : Nat)
    (sec : SectionCount) (s s' : UngradedState) (h : resolveSection env c ctx fuel sec s = .ok s') :
    s'.memo.lookup sec.SectionID ≠ none ∧
      (∀ j, s.memo.lookup j ≠ none → s'.memo.lookup j ≠ none) ∧
      (∀ base cs, s.world.calls = base ++ cs → Memoized cs s.memo →
        ∃ cs', s'.world.calls = base ++ cs' ∧ Memoized cs' s'.memo) := by
  unfold resolveSection at h
  split at h
  · rename_i v hv
    simp only [Except.ok.injEq] at h
    subst h
    exact ⟨by simp [hv], fun j hj => hj, fun base cs hb hm => ⟨cs, hb, hm⟩⟩
  · rename_i hnone
    have hcalls := GetEnrollmentsBySectionID_calls env c ctx sec.SectionID []
      [TeacherEnrollmentType] fuel s.world
    split at h
    · simp at h
    · simp at h
    · rename_i enrollments code w1 hget
      rw [hget] at hcalls
      simp only at hcalls h
      have hkeep : ∀ (v : sectionWithTeachers) (j : Int), s.memo.lookup j ≠ none →
          (s.memo.set sec.SectionID v).lookup j ≠ none := by
        intro v j hj
        rw [lookup_set]
        split
        · simp
        · exact hj
      have hnew : ∀ v : sectionWithTeachers,
          (s.memo.set sec.SectionID v).lookup sec.SectionID ≠ none := by
        intro v
        rw [lookup_set]
        simp
      have hinv : ∀ (v : sectionWithTeachers) (extra : List Call),
          enrollmentLookups sec.SectionID extra = 1 → sectionLookups sec.SectionID extra ≤ 1 →
          (∀ j, j ≠ sec.SectionID →
            enrollmentLookups j extra = 0 ∧ sectionLookups j extra = 0) →
          ∀ cs, Memoized cs s.memo → Memoized (cs ++ extra) (s.memo.set sec.SectionID v) := by
        intro v extra he hs hother cs hm j
        rw [lookup_set, enrollmentLookups_append, sectionLookups_append]
        by_cases hj : j = sec.SectionID
        · subst hj
          have h0 := (hm sec.SectionID).1 hnone
          simp only [if_true]
          refine ⟨fun hh => by simp at hh, fun _ => ?_⟩
          rw [h0.1, h0.2, he]
          exact ⟨by omega, by omega⟩
        · simp only [if_neg hj]
          have ho := hother j hj
          rw [ho.1, ho.2]
          simpa using hm j
      have hE : ∀ j : Int, enrollmentLookups j
          [Call.GetEnrollmentsBySectionID sec.SectionID [] [TeacherEnrollmentType]] =
          if j = sec.SectionID then 1 else 0 := by
        intro j
        by_cases hj : j = sec.SectionID
        · simp [enrollmentLookups, hj]
        · have : ¬ sec.SectionID = j := fun e => hj e.symm
          simp [enrollmentLookups, hj, this]
      have hS : ∀ j : Int, sectionLookups j [Call.GetSectionByID sec.SectionID] =
          if j = sec.SectionID then 1 else 0 := by
        intro j
        by_cases hj : j = sec.SectionID
        · simp [sectionLookups, hj]
        · have : ¬ sec.SectionID = j := fun e => hj e.symm
          simp [sectionLookups, hj, this]
      have hE0 : ∀ j : Int, enrollmentLookups j [Call.GetSectionByID sec.SectionID] = 0 := by
        intro j; simp [enrollmentLookups]
      have hS0 : ∀ j : Int, sectionLookups j
          [Call.GetEnrollmentsBySectionID sec.SectionID [] [TeacherEnrollmentType]] = 0 := by
        intro j; simp [sectionLookups]
      split at h
      · cases h
      split at h
      · have hsc := GetSectionByID_calls env c sec.SectionID w1
        rcases hsec : GetSectionByID env c sec.SectionID w1 with ⟨⟨sv, sc, se⟩, w2⟩
        rw [hsec] at hsc h
        simp only [Except.ok.injEq] at hsc h
        subst h
        refine ⟨hnew _, hkeep _, ?_⟩
        intro base cs hb hm
        refine ⟨cs ++ ([Call.GetEnrollmentsBySectionID sec.SectionID [] [TeacherEnrollmentType]] ++
          [Call.GetSectionByID sec.SectionID]), ?_, ?_⟩
        · show w2.calls = _
          rw [hsc, hcalls, hb]
          simp
        · apply hinv _ _ _ _ _ cs hm
          · rw [enrollmentLookups_append, hE, hE0]; simp
          · rw [sectionLookups_append, hS, hS0]; simp
          · intro j hj
            rw [enrollmentLookups_append, sectionLookups_append, hE, hE0, hS, hS0]
            simp [hj]
      · simp only [Except.ok.injEq] at h
        subst h
        refine ⟨hnew _, hkeep _, ?_⟩
        intro base cs hb hm
        refine ⟨cs ++ [Call.GetEnrollmentsBySectionID sec.SectionID [] [TeacherEnrollmentType]],
          ?_, ?_⟩
        · show w1.calls = _
          rw [hcalls, hb]
          simp
        · apply hinv _ _ _ _ _ cs hm
          · rw [hE]; simp
          · rw [hS0]; omega
          · intro j hj
            rw [hE, hS0]
            simp [hj]

theorem MemoStep_refl (s : UngradedState) : MemoStep s s :=
  ⟨fun _ h => h, fun _ cs hb hm => ⟨cs, hb, hm⟩⟩

theorem MemoStep_trans (a b d : UngradedState) (h1 : MemoStep a b) (h2 : MemoStep b d) :
    MemoStep a d :=
  ⟨fun j hj => h2.1 j (h1.1 j hj), fun base cs hb hm => by
    obtain ⟨cs1, hb1, hm1⟩ := h1.2 base cs hb hm
    exact h2.2 base cs1 hb1 hm1⟩

theorem error_ne_json {ρ : Type} (out : List (Write ρ)) (msg : String) (code : Nat)
    (rows : List ρ) : out ++ [Write.error msg code] ≠ [Write.json rows] := by
  intro h
  cases out with
  | nil => simp at h
  | cons x xs =>
    cases xs <;> simp at h

/-- One pass over a section of an assignment. -/
theorem ungradedSection_ok (env : Env) (c : CanvasClient) (ctx : Context) (fuel : Nat)
    (course : Course) (courseID : Int) (assignment : Assignment) (sec : SectionCount)
    (s s' : UngradedState)
    (h : ungradedSection env c ctx fuel course courseID assignment sec s = .ok s') :
    s'.memo.lookup sec.SectionID ≠ none ∧ MemoStep s s' := by
  unfold ungradedSection at h
  split at h
  · simp at h
  · rename_i s1 hres
    simp only [Except.ok.injEq] at h
    subst h
    obtain ⟨h1, h2, h3⟩ := resolveSection_ok env c ctx fuel sec s s1 hres
    exact ⟨h1, h2, h3⟩

theorem resolveSection_error (env : Env) (c : CanvasClient) (ctx : Context) (fuel : Nat)
    (sec : SectionCount) (s : UngradedState) (run : Run (List (Write UngradedAssignment)))
    (h : resolveSection env c ctx fuel sec s = .error run) :
    ∀ rows, run.1 ≠ some [Write.json rows] := by
  unfold resolveSection at h
  cases hl : s.memo.lookup sec.SectionID with
  | some v => rw [hl] at h; simp at h
  | none =>
    rw [hl] at h
    simp only at h
    rcases hg : GetEnrollmentsBySectionID env c ctx sec.SectionID [] [TeacherEnrollmentType] fuel
      s.world with ⟨r1, w1⟩
    rw [hg] at h
    cases r1 with
    | none =>
      simp only [Except.error.injEq] at h
      subst h
      intro rows; simp
    | some rep =>
      obtain ⟨ev, ec, ee⟩ := rep
      cases ee with
      | some e =>
        simp only [Except.error.injEq] at h
        subst h
        intro rows hh
        simp only [Option.some.injEq] at hh
        exact error_ne_json _ _ _ _ hh
      | none =>
        simp only at h
        split at h
        · simp only [Except.error.injEq] at h
          subst h
          intro _
          simp [nilDereference]
        by_cases hsis : (sectionEntry sec.SectionID (ev.getD [])).sisSectionID = ""
        · rw [if_pos hsis] at h
          rcases GetSectionByID env c sec.SectionID w1 with ⟨⟨sv, sc, se⟩, w2⟩
          simp at h
        · rw [if_neg hsis] at h
          simp at h

theorem ungradedSection_error (env : Env) (c : CanvasClient) (ctx : Context) (fuel : Nat)
    (course : Course) (courseID : Int) (assignment : Assignment) (sec : SectionCount)
    (s : UngradedState) (run : Run (List (Write UngradedAssignment)))
    (h : ungradedSection env c ctx fuel course courseID assignment sec s = .error run) :
    ∀ rows, run.1 ≠ some [Write.json rows] := by
  unfold ungradedSection at h
  cases hres : resolveSection env c ctx fuel sec s with
  | error r =>
    rw [hres] at h
    simp only [Except.error.injEq] at h
    subst h
    exact resolveSection_error env c ctx fuel sec s r hres
  | ok s1 =>
    rw [hres] at h
    simp at h

/-- One pass over an assignment. -/
theorem ungradedAssignment_ok (env : Env) (c : CanvasClient) (ctx : Context) (fuel : Nat)
    (course : Course) (courseID : Int) (assignment : Assignment) (s s' : UngradedState)
    (h : ungradedAssignment env c ctx fuel course courseID assignment s = .ok s') :
    (∀ sec ∈ assignment.NeedsGradingCountBySection, s'.memo.lookup sec.SectionID ≠ none) ∧
      MemoStep s s' := by
  unfold ungradedAssignment at h
  simp only [poll] at h
  split at h
  · simp at h
  · rename_i w1 hp
    simp only [Prod.mk.injEq] at hp
    split at h
    · cases h
    have hstep0 : MemoStep s { s with world := w1 } := by
      refine ⟨fun _ hj => hj, fun base cs hb hm => ⟨cs, ?_, hm⟩⟩
      show w1.calls = _
      rw [← hp.2]
      exact hb
    refine ⟨?_, ?_⟩
    · exact forRange_covers (ungradedSection env c ctx fuel course courseID assignment)
        (fun sec st => st.memo.lookup sec.SectionID ≠ none)
        (fun x a b hab => (ungradedSection_ok env c ctx fuel course courseID assignment x a b hab).1)
        (fun x y a b hx hab =>
          (ungradedSection_ok env c ctx fuel course courseID assignment y a b hab).2.1 _ hx)
        _ _ _ h
    · exact MemoStep_trans _ _ _ hstep0
        (forRange_ok (ungradedSection env c ctx fuel course courseID assignment) MemoStep
          MemoStep_refl MemoStep_trans
          (fun x a b hab =>
            (ungradedSection_ok env c ctx fuel course courseID assignment x a b hab).2)
          _ _ _ h)

theorem ungradedAssignment_error (env : Env) (c : CanvasClient) (ctx : Context) (fuel : Nat)
    (course : Course) (courseID : Int) (assignment : Assignment) (s : UngradedState)
    (run : Run (List (Write UngradedAssignment)))
    (h : ungradedAssignment env c ctx fuel course courseID assignment s = .error run) :
    ∀ rows, run.1 ≠ some [Write.json rows] := by
  unfold ungradedAssignment at h
  simp only [poll] at h
  split at h
  · simp only [Except.error.injEq] at h
    subst h
    intro rows hh
    simp only [Option.some.injEq] at hh
    exact error_ne_json _ _ _ _ hh
  · split at h
    · simp only [Except.error.injEq] at h
      subst h
      intro _
      simp [nilDereference]
    exact forRange_error (ungradedSection env c ctx fuel course courseID assignment)
      (fun _ _ => True) (fun _ run => ∀ rows, run.1 ≠ some [Write.json rows])
      (fun _ _ _ _ hq => hq) (fun _ _ _ _ => trivial)
      (fun x a e hae => ungradedSection_error env c ctx fuel course courseID assignment x a e hae)
      _ _ _ h

theorem lookups_cons_other (id : Int) (call : Call) (cs : List Call)
    (h1 : ∀ i a b, call ≠ Call.GetEnrollmentsBySectionID i a b)
    (h2 : ∀ i, call ≠ Call.GetSectionByID i) :
    enrollmentLookups id (call :: cs) = enrollmentLookups id cs ∧
      sectionLookups id (call :: cs) = sectionLookups id cs := by
  cases call <;> simp_all [enrollmentLookups, sectionLookups]

/-- The loops of the course report, started after the calls for the course and for its
assignments: when the handler then writes nothing but the encoded rows, every section of
every assignment was looked up once. -/
theorem ungraded_loops_memoize (env : Env) (c : CanvasClient) (r : Request) (fuel : Nat)
    (w w2 w' : World) (courseID : Int) (cv : Course) (assignments : List Assignment)
    (out0 : List (Write UngradedAssignment)) (rows : List UngradedAssignment)
    (hc2 : w2.calls = w.calls ++ [Call.GetCourseByID courseID,
      Call.GetAssignmentsByCourseID courseID "" UngradedAssignmentBucket true])
    (hrun : (match forRange (ungradedAssignment env c r.ctx fuel cv courseID) assignments
          { out := out0, world := w2 } with
        | .error run => run
        | .ok s => (some (s.out ++ encode r s.results), s.world)) = (some [.json rows], w')) :
    ∀ assignment ∈ assignments, ∀ sec ∈ assignment.NeedsGradingCountBySection,
      enrollmentLookups sec.SectionID (callsSince w w') = 1 ∧
        sectionLookups sec.SectionID (callsSince w w') ≤ 1 := by
  cases hloop : forRange (ungradedAssignment env c r.ctx fuel cv courseID) assignments
      { out := out0, world := w2 } with
  | error run =>
    rw [hloop] at hrun
    simp only at hrun
    have hq := forRange_error (ungradedAssignment env c r.ctx fuel cv courseID)
      (fun _ _ => True) (fun _ run => ∀ rows, run.1 ≠ some [Write.json rows])
      (fun _ _ _ _ hq => hq) (fun _ _ _ _ => trivial)
      (fun x a e hae => ungradedAssignment_error env c r.ctx fuel cv courseID x a e hae)
      _ _ _ hloop
    rw [hrun] at hq
    exact absurd rfl (hq rows)
  | ok s =>
    rw [hloop] at hrun
    simp only [Prod.mk.injEq] at hrun
    have hw' : s.world = w' := hrun.2
    have hstep := forRange_ok (ungradedAssignment env c r.ctx fuel cv courseID) MemoStep
      MemoStep_refl MemoStep_trans
      (fun x a b hab => (ungradedAssignment_ok env c r.ctx fuel cv courseID x a b hab).2)
      _ _ _ hloop
    have hcov := forRange_covers (ungradedAssignment env c r.ctx fuel cv courseID)
      (fun a st => ∀ sec ∈ a.NeedsGradingCountBySection, st.memo.lookup sec.SectionID ≠ none)
      (fun x a b hab => (ungradedAssignment_ok env c r.ctx fuel cv courseID x a b hab).1)
      (fun x y a b hx hab sec hsec =>
        (ungradedAssignment_ok env c r.ctx fuel cv courseID y a b hab).2.1 _ (hx sec hsec))
      _ _ _ hloop
    obtain ⟨cs, hcs, hmemo⟩ := hstep.2 w2.calls [] (by simp)
      (fun id => ⟨fun _ => by simp [enrollmentLookups, sectionLookups],
        fun h => absurd (by simp) h⟩)
    have hsince : callsSince w w' = Call.GetCourseByID courseID ::
        Call.GetAssignmentsByCourseID courseID "" UngradedAssignmentBucket true :: cs := by
      apply callsSince_append
      rw [← hw', hcs, hc2]
      simp
    intro assignment ha sec hsec
    have hin := hcov assignment ha sec hsec
    have hcount := (hmemo sec.SectionID).2 hin
    rw [hsince]
    have e1 := lookups_cons_other sec.SectionID (Call.GetCourseByID courseID)
      (Call.GetAssignmentsByCourseID courseID "" UngradedAssignmentBucket true :: cs)
      (by intro i a b; simp) (by intro i; simp)
    have e2 := lookups_cons_other sec.SectionID
      (Call.GetAssignmentsByCourseID courseID "" UngradedAssignmentBucket true) cs
      (by intro i a b; simp) (by intro i; simp)
    rw [e1.1, e1.2, e2.1, e2.2]
    exact hcount

/-- C10 (section memoization).  In a run of `GetUngradedAssignmentsByCourseID` that writes
nothing but the encoded rows, for every section id in the needs-grading-by-section list of
any of the assignments the handler iterates over, however often it occurs there,
`GetEnrollmentsBySectionID` was called for that section exactly once and `GetSectionByID`
at most once.  The assignments are those returned by the call of `GetAssignmentsByCourseID`
the handler makes after `GetCourseByID`. -/
theorem section_memoization (env : Env) (c : CanvasClient) (r : Request) (fuel : Nat)
    (w : World) (courseID : Int) (course : Reply Course) (w1 : World)
    (assignments : Reply (Option (List Assignment))) (w2 : World)
    (rows : List UngradedAssignment) (w' : World)
    (hid : Atoi r.urlParam = some courseID)
    (hcourse : GetCourseByID env c courseID w = (course, w1))
    (hassignments : GetAssignmentsByCourseID env c r.ctx courseID "" UngradedAssignmentBucket
      true fuel w1 = (some assignments, w2))
    (hrun : GetUngradedAssignmentsByCourseID env c r fuel w = (some [.json rows], w')) :
    ∀ assignment ∈ assignments.val.getD [], ∀ sec ∈ assignment.NeedsGradingCountBySection,
      enrollmentLookups sec.SectionID (callsSince w w') = 1 ∧
        sectionLookups sec.SectionID (callsSince w w') ≤ 1 := by
  have hne : r.urlParam ≠ "" := by
    intro h
    rw [h, Atoi_empty] at hid
    simp at hid
  have hc1 : w1.calls = w.calls ++ [Call.GetCourseByID courseID] := by
    have := GetCourseByID_calls env c courseID w
    rw [hcourse] at this
    exact this
  have hc2 : w2.calls = w.calls ++ [Call.GetCourseByID courseID,
      Call.GetAssignmentsByCourseID courseID "" UngradedAssignmentBucket true] := by
    have := GetAssignmentsByCourseID_calls env c r.ctx courseID "" UngradedAssignmentBucket
      true fuel w1
    rw [hassignments] at this
    simp only at this
    rw [this, hc1]
    simp
  unfold GetUngradedAssignmentsByCourseID at hrun
  rw [if_neg hne, hid] at hrun
  simp only at hrun
  by_cases hpos : courseID ≤ 0
  · rw [if_pos hpos] at hrun
    simp at hrun
  · rw [if_neg hpos, hcourse] at hrun
    obtain ⟨cv, cc, ce⟩ := course
    cases ce with
    | some e => simp at hrun
    | none =>
      simp only at hrun
      rw [hassignments] at hrun
      obtain ⟨av, ac, ae⟩ := assignments
      simp only at hrun
      cases ae with
      | some e => exact ungraded_loops_memoize env c r fuel w w2 w' courseID cv _ _ rows hc2 hrun
      | none => exact ungraded_loops_memoize env c r fuel w w2 w' courseID cv _ _ rows hc2 hrun

/-- C10 at course 8, whose two assignments both list the sections 1 and 2. -/
theorem section_memoization_witness :
    (Atoi ({ urlParam := "8", ctx := background } : Request).urlParam = some 8 ∧
      GetCourseByID exampleEnv exampleClient 8 {} =
        ((GetCourseByID exampleEnv exampleClient 8 {}).1,
          (GetCourseByID exampleEnv exampleClient 8 {}).2) ∧
      GetAssignmentsByCourseID exampleEnv exampleClient background 8 ""
          UngradedAssignmentBucket true 5 (GetCourseByID exampleEnv exampleClient 8 {}).2 =
        (some ⟨some exampleAssignments8, 200, none⟩,
          (GetAssignmentsByCourseID exampleEnv exampleClient background 8 ""
            UngradedAssignmentBucket true 5 (GetCourseByID exampleEnv exampleClient 8 {}).2).2) ∧
      GetUngradedAssignmentsByCourseID exampleEnv exampleClient
          { urlParam := "8", ctx := background } 5 {} =
        (some [.json
          [{ Account := "Maths", CourseName := "Algebra", Name := "Essay", SectionName := "SIS-1",
             CourseID := 8, NeedingGradingSection := 3, Teachers := some ["Ann"],
             GradebookURL := "https://canvas.example.com/courses/8/gradebook" },
           { Account := "Maths", CourseName := "Algebra", Name := "Essay",
             SectionName := "Section two", CourseID := 8, NeedingGradingSection := 4,
             Teachers := some [],
             GradebookURL := "https://canvas.example.com/courses/8/gradebook" },
           { Account := "Maths", CourseName := "Algebra", Name := "Quiz",
             SectionName := "Section two", CourseID := 8, NeedingGradingSection := 1,
             Teachers := some [],
             GradebookURL := "https://canvas.example.com/courses/8/gradebook" },
           { Account := "Maths", CourseName := "Algebra", Name := "Quiz", SectionName := "SIS-1",
             CourseID := 8, NeedingGradingSection := 2, Teachers := some ["Ann"],
             GradebookURL := "https://canvas.example.com/courses/8/gradebook" }]],
          (GetUngradedAssignmentsByCourseID exampleEnv exampleClient
            { urlParam := "8", ctx := background } 5 {}).2)) ∧
      ∀ assignment ∈ exampleAssignments8, ∀ sec ∈ assignment.NeedsGradingCountBySection,
        enrollmentLookups sec.SectionID (callsSince {}
          (GetUngradedAssignmentsByCourseID exampleEnv exampleClient
            { urlParam := "8", ctx := background } 5 {}).2) = 1 ∧
        sectionLookups sec.SectionID (callsSince {}
          (GetUngradedAssignmentsByCourseID exampleEnv exampleClient
            { urlParam := "8", ctx := background } 5 {}).2) ≤ 1 := by
  have h1 : Atoi ({ urlParam := "8", ctx := background } : Request).urlParam = some 8 := by
    decide
  have h3 : GetAssignmentsByCourseID exampleEnv exampleClient background 8 ""
      UngradedAssignmentBucket true 5 (GetCourseByID exampleEnv exampleClient 8 {}).2 =
      (some ⟨some exampleAssignments8, 200, none⟩,
        (GetAssignmentsByCourseID exampleEnv exampleClient background 8 ""
          UngradedAssignmentBucket true 5 (GetCourseByID exampleEnv exampleClient 8 {}).2).2) := by
    decide
  have h4 : GetUngradedAssignmentsByCourseID exampleEnv exampleClient
      { urlParam := "8", ctx := background } 5 {} =
      (some [.json
        [{ Account := "Maths", CourseName := "Algebra", Name := "Essay", SectionName := "SIS-1",
           CourseID := 8, NeedingGradingSection := 3, Teachers := some ["Ann"],
           GradebookURL := "https://canvas.example.com/courses/8/gradebook" },
         { Account := "Maths", CourseName := "Algebra", Name := "Essay",
           SectionName := "Section two", CourseID := 8, NeedingGradingSection := 4,
           Teachers := some [],
           GradebookURL := "https://canvas.example.com/courses/8/gradebook" },
         { Account := "Maths", CourseName := "Algebra", Name := "Quiz",
           SectionName := "Section two", CourseID := 8, NeedingGradingSection := 1,
           Teachers := some [],
           GradebookURL := "https://canvas.example.com/courses/8/gradebook" },
         { Account := "Maths", CourseName := "Algebra", Name := "Quiz", SectionName := "SIS-1",
           CourseID := 8, NeedingGradingSection := 2, Teachers := some ["Ann"],
           GradebookURL := "https://canvas.example.com/courses/8/gradebook" }]],
        (GetUngradedAssignmentsByCourseID exampleEnv exampleClient
          { urlParam := "8", ctx := background } 5 {}).2) := by
    decide
  exact ⟨⟨h1, rfl, h3, h4⟩,
    section_memoization exampleEnv exampleClient { urlParam := "8", ctx := background } 5 {} 8
      _ _ ⟨some exampleAssignments8, 200, none⟩ _ _ _ h1 rfl h3 h4⟩

/-! ## C15 and C16: the search term and the bucket of the assignment list -/

/-- The first GET a run of the loop sends, when it sends one, goes to the url the loop was
started with. -/
theorem paginate_first_url {α : Type} (env : Env) (unmarshal : String → List α × Option String)
    (ctx : Context) (statusErr : String) (fuel : Nat) (url : String) (acc : List α) (w : World) :
    ((exchangesSince w (paginate env unmarshal ctx statusErr fuel url acc w).2).head?.map
        fun x => x.url) = none ∨
      ((exchangesSince w (paginate env unmarshal ctx statusErr fuel url acc w).2).head?.map
        fun x => x.url) = some url := by
  have key : (paginate env unmarshal ctx statusErr fuel url acc w).2.log = w.log ∨
      ∃ r new, (paginate env unmarshal ctx statusErr fuel url acc w).2.log =
        w.log ++ ⟨url, r⟩ :: new := by
    cases fuel with
    | zero => left; rfl
    | succ n =>
      unfold paginate
      simp only [poll]
      cases hc : ctx w.polls with
      | some e => left; rfl
      | none =>
        simp only
        have hs := send_log env url { w with polls := w.polls + 1 }
        rcases hsend : send env url { w with polls := w.polls + 1 } with ⟨r, w2⟩
        rw [hsend] at hs
        simp only at hs
        rcases hs with ⟨h, e, he⟩ | h
        · subst he
          left; exact h
        · have hw2 : ∃ r new, w2.log = w.log ++ ⟨url, r⟩ :: new := ⟨_, [], h⟩
          cases r with
          | error e => right; exact hw2
          | ok res =>
            simp only
            split
            · right; exact hw2
            · split
              · right; exact hw2
              · split
                · right; exact hw2
                · split
                  · right; exact hw2
                  · rename_i items _ _
                    obtain ⟨⟨new2, h2⟩, _⟩ := paginate_frame env unmarshal ctx statusErr n
                      (getNextUrl res.Link) (acc ++ items) w2
                    right
                    exact ⟨env.respond w.log url, new2, by rw [h2, h]; simp⟩
  rcases key with h | ⟨r, new, h⟩
  · left; simp [exchangesSince, h]
  · right; simp [exchangesSince, h]

theorem searchTermValues_append (a b : Values) :
    searchTermValues (a ++ b) = searchTermValues a ++ searchTermValues b := by
  simp [searchTermValues]

theorem searchTermValues_searchTermParams (term : String) :
    searchTermValues (searchTermParams term) = if len term = 0 then [] else [term] := by
  unfold searchTermParams
  split <;> simp [searchTermValues]

theorem searchTermValues_map (key : String) (hkey : (key == "search_term") = false)
    (xs : List String) : searchTermValues (xs.map fun t => (key, t)) = [] := by
  induction xs with
  | nil => rfl
  | cons x xs ih =>
    simp only [searchTermValues, List.map_cons, List.filter_cons, hkey] at ih ⊢
    simpa using ih

theorem exchangesSince_to_called (w : World) (call : Call) :
    exchangesSince w (w.called call) = [] := by
  simp [exchangesSince, World.called]

/-- C15 on the code.  The empty search term is shorter than two characters, yet
`GetAssignmentsByCourseID` does not reject it: it sends a GET without a `search_term`
parameter and returns the assignments with status 200 and a nil error (this is how the
course report calls it), and `GetCoursesByAccountID` sends a GET as well.  The term `é` is
one character of two bytes, and is sent as `search_term=%C3%A9`. -/
theorem search_term_counterexample :
    GetAssignmentsByCourseID exampleEnv exampleClient background 8 "" UngradedAssignmentBucket
        true 5 {} =
      (some ⟨some exampleAssignments8, 200, none⟩,
        { log := [⟨"https://canvas.example.com/api/v1/courses/8/assignments?bucket=ungraded&include%5B%5D=all_dates&needs_grading_count_by_section=true&page_size=100",
                    ok200 "" "assignments-8"⟩],
          polls := 1,
          calls := [.GetAssignmentsByCourseID 8 "" UngradedAssignmentBucket true] }) ∧
    GetCoursesByAccountID exampleEnv exampleClient background 1 "" [] 5 {} =
      (some ⟨none, 404, some "error fetching courses of account: 1"⟩,
        { log := [⟨"https://canvas.example.com/api/v1/accounts/1/courses?include%5B%5D=account&per_page=100",
                    status 404⟩],
          polls := 1,
          calls := [.GetCoursesByAccountID 1 "" []] }) ∧
    "é".length = 1 ∧
    GetAssignmentsByCourseID exampleEnv exampleClient background 8 "é" AllAssignmentBucket
        false 5 {} =
      (some ⟨none, 404, some "error fetching assignments of course: 8"⟩,
        { log := [⟨"https://canvas.example.com/api/v1/courses/8/assignments?page_size=100&search_term=%C3%A9",
                    status 404⟩],
          polls := 1,
          calls := [.GetAssignmentsByCourseID 8 "é" AllAssignmentBucket false] }) := by
  decide

/-- C15, amended.  `GetAssignmentsByCourseID` and `GetCoursesByAccountID` reject a search
term of exactly one byte: they return a nil list, status 400 and a non-nil error, and the
world is the one they were called in but for the record of the call, so no GET is sent.
With any other term they run their loop from the url built from their query parameters;
these hold no `search_term` entry for the empty term and the single entry
`search_term = term` for a term of two bytes or more, and the first GET of the run, when
there is one, goes to that url. -/
theorem search_term_guard (env : Env) (c : CanvasClient) (ctx : Context) (id : Int)
    (term : String) (bucket : AssignmentBucket) (flag : Bool) (types : List CourseEnrollmentType)
    (fuel : Nat) (w : World) :
    (GetAssignmentsByCourseID env c ctx id term bucket flag fuel w =
        if len term = 1 then
          (some ⟨none, 400, some "assignments search term is less than 2 characters"⟩,
            w.called (.GetAssignmentsByCourseID id term bucket flag))
        else
          paginate env env.unmarshalAssignments ctx
            s!"error fetching assignments of course: {Itoa id}" fuel
            (assignmentsByCourseIDUrl c id term bucket flag) []
            (w.called (.GetAssignmentsByCourseID id term bucket flag))) ∧
    (GetCoursesByAccountID env c ctx id term types fuel w =
        if len term = 1 then
          (some ⟨none, 400, some "course search term is less than 2 characters"⟩,
            w.called (.GetCoursesByAccountID id term types))
        else
          paginate env env.unmarshalCourses ctx
            s!"error fetching courses of account: {Itoa id}" fuel
            (coursesByAccountIDUrl c id term types) []
            (w.called (.GetCoursesByAccountID id term types))) ∧
    exchangesSince w (w.called (.GetAssignmentsByCourseID id term bucket flag)) = [] ∧
    exchangesSince w (w.called (.GetCoursesByAccountID id term types)) = [] ∧
    searchTermValues (assignmentsByCourseIDParams c term bucket flag) =
      (if len term = 0 then [] else [term]) ∧
    searchTermValues (coursesByAccountIDParams c term types) =
      (if len term = 0 then [] else [term]) ∧
    assignmentsByCourseIDUrl c id term bucket flag =
      s!"{c.baseUrl}/courses/{Itoa id}/assignments?{Values.Encode (assignmentsByCourseIDParams c term bucket flag)}" ∧
    coursesByAccountIDUrl c id term types =
      s!"{c.baseUrl}/accounts/{Itoa id}/courses?{Values.Encode (coursesByAccountIDParams c term types)}" ∧
    (((exchangesSince w (GetAssignmentsByCourseID env c ctx id term bucket flag fuel w).2).head?.map
          fun x => x.url) = none ∨
      ((exchangesSince w (GetAssignmentsByCourseID env c ctx id term bucket flag fuel w).2).head?.map
          fun x => x.url) = some (assignmentsByCourseIDUrl c id term bucket flag)) ∧
    (((exchangesSince w (GetCoursesByAccountID env c ctx id term types fuel w).2).head?.map
          fun x => x.url) = none ∨
      ((exchangesSince w (GetCoursesByAccountID env c ctx id term types fuel w).2).head?.map
          fun x => x.url) = some (coursesByAccountIDUrl c id term types)) := by
  have hA : searchTermValues (assignmentsByCourseIDParams c term bucket flag) =
      (if len term = 0 then [] else [term]) := by
    unfold assignmentsByCourseIDParams
    rw [searchTermValues_append, searchTermValues_append, searchTermValues_append,
      searchTermValues_searchTermParams]
    have h1 : searchTermValues [("page_size", Itoa c.pageSize)] = [] := by
      simp [searchTermValues]
    have h2 : searchTermValues
        (if bucket ≠ AllAssignmentBucket then [("bucket", bucket)] else []) = [] := by
      split <;> simp [searchTermValues]
    have h3 : searchTermValues
        (if flag = true then
          [("needs_grading_count_by_section", "true"), ("include[]", "all_dates")] else []) =
        [] := by
      split <;> simp [searchTermValues]
    rw [h1, h2, h3]
    simp
  have hC : searchTermValues (coursesByAccountIDParams c term types) =
      (if len term = 0 then [] else [term]) := by
    unfold coursesByAccountIDParams
    rw [searchTermValues_append, searchTermValues_append, searchTermValues_searchTermParams,
      searchTermValues_map "enrollment_type[]" (by decide)]
    have h1 : searchTermValues [("per_page", Itoa c.pageSize), ("include[]", "account")] =
        [] := by
      simp [searchTermValues]
    rw [h1]
    simp
  have hE : ∀ call, exchangesSince w (w.called call) = [] := exchangesSince_to_called w
  refine ⟨rfl, rfl, hE _, hE _, hA, hC, rfl, rfl, ?_, ?_⟩
  · unfold GetAssignmentsByCourseID
    simp only
    split
    · left
      show ((exchangesSince w (w.called _)).head?.map fun x => x.url) = none
      rw [exchangesSince_to_called]
      rfl
    · have h := paginate_first_url env env.unmarshalAssignments ctx
        s!"error fetching assignments of course: {Itoa id}" fuel
        (assignmentsByCourseIDUrl c id term bucket flag) []
        (w.called (.GetAssignmentsByCourseID id term bucket flag))
      rw [exchangesSince_called] at h
      exact h
  · unfold GetCoursesByAccountID
    simp only
    split
    · left
      show ((exchangesSince w (w.called _)).head?.map fun x => x.url) = none
      rw [exchangesSince_to_called]
      rfl
    · have h := paginate_first_url env env.unmarshalCourses ctx
        s!"error fetching courses of account: {Itoa id}" fuel
        (coursesByAccountIDUrl c id term types) []
        (w.called (.GetCoursesByAccountID id term types))
      rw [exchangesSince_called] at h
      exact h

theorem bucketParams_append (a b : Values) :
    bucketParams (a ++ b) = bucketParams a ++ bucketParams b := by
  simp [bucketParams]

/-- C16 (the bucket parameter).  The query parameters `GetAssignmentsByCourseID` builds hold
no entry under the key `bucket` when the bucket argument is `all`, and exactly one, whose
value is the bucket string, for every other bucket argument; the request url is the path
followed by the encoding of these parameters, and the first GET of a run, when there is one,
goes to that url.  For course 8 of the examples the url is spelled out for the two cases. -/
theorem bucket_parameter (env : Env) (c : CanvasClient) (ctx : Context) (courseID : Int)
    (term : String) (bucket : AssignmentBucket) (flag : Bool) (fuel : Nat) (w : World) :
    bucketParams (assignmentsByCourseIDParams c term bucket flag) =
      (if bucket = AllAssignmentBucket then [] else [("bucket", bucket)]) ∧
    assignmentsByCourseIDUrl c courseID term bucket flag =
      s!"{c.baseUrl}/courses/{Itoa courseID}/assignments?{Values.Encode (assignmentsByCourseIDParams c term bucket flag)}" ∧
    (((exchangesSince w
          (GetAssignmentsByCourseID env c ctx courseID term bucket flag fuel w).2).head?.map
          fun x => x.url) = none ∨
      ((exchangesSince w
          (GetAssignmentsByCourseID env c ctx courseID term bucket flag fuel w).2).head?.map
          fun x => x.url) = some (assignmentsByCourseIDUrl c courseID term bucket flag)) ∧
    assignmentsByCourseIDUrl exampleClient 8 "" AllAssignmentBucket false =
      "https://canvas.example.com/api/v1/courses/8/assignments?page_size=100" ∧
    assignmentsByCourseIDUrl exampleClient 8 "" UngradedAssignmentBucket false =
      "https://canvas.example.com/api/v1/courses/8/assignments?bucket=ungraded&page_size=100" := by
  refine ⟨?_, rfl, ?_, by decide, by decide⟩
  · unfold assignmentsByCourseIDParams
    rw [bucketParams_append, bucketParams_append, bucketParams_append]
    have h0 : bucketParams (searchTermParams term) = [] := by
      unfold searchTermParams
      split <;> simp [bucketParams]
    have h1 : bucketParams [("page_size", Itoa c.pageSize)] = [] := by
      simp [bucketParams]
    have h3 : bucketParams
        (if flag = true then
          [("needs_grading_count_by_section", "true"), ("include[]", "all_dates")] else []) =
        [] := by
      split <;> simp [bucketParams]
    rw [h0, h1, h3]
    by_cases hb : bucket = AllAssignmentBucket
    · simp [hb, bucketParams]
    · simp [hb, bucketParams]
  · unfold GetAssignmentsByCourseID
    simp only
    split
    · left
      show ((exchangesSince w (w.called _)).head?.map fun x => x.url) = none
      rw [exchangesSince_to_called]
      rfl
    · have h := paginate_first_url env env.unmarshalAssignments ctx
        s!"error fetching assignments of course: {Itoa courseID}" fuel
        (assignmentsByCourseIDUrl c courseID term bucket flag) []
        (w.called (.GetAssignmentsByCourseID courseID term bucket flag))
      rw [exchangesSince_called] at h
      exact h

/-! ## C17 and C18: the get-by-id operations -/

theorem GetAccountByID_contract (env : Env) (c : CanvasClient) (accountID : Int) (w : World) :
    GetByIDContract env (accountByIDUrl c accountID) env.unmarshalAccount {} false w
      (GetAccountByID env c accountID w).1 := by
  unfold GetByIDContract Answered Response.Decodes GetAccountByID send
  simp only [World.called]
  cases hreq : env.newRequest (accountByIDUrl c accountID) with
  | some e => simp
  | none =>
    cases hres : env.respond w.log (accountByIDUrl c accountID) with
    | failure e => simp
    | response res =>
      by_cases hs : res.StatusCode = 200
      · cases hr : res.ReadErr with
        | some e => simp [hs, hr]
        | none =>
          rcases hu : env.unmarshalAccount res.Body with ⟨v, ue⟩
          cases ue <;> simp [hs, hr, hu]
      · simp [hs]

theorem GetCourseByID_contract (env : Env) (c : CanvasClient) (courseID : Int) (w : World) :
    GetByIDContract env (courseByIDUrl c courseID) env.unmarshalCourse {} false w
      (GetCourseByID env c courseID w).1 := by
  unfold GetByIDContract Answered Response.Decodes GetCourseByID send
  simp only [World.called]
  cases hreq : env.newRequest (courseByIDUrl c courseID) with
  | some e => simp
  | none =>
    cases hres : env.respond w.log (courseByIDUrl c courseID) with
    | failure e => simp
    | response res =>
      by_cases hs : res.StatusCode = 200
      · cases hr : res.ReadErr with
        | some e => simp [hs, hr]
        | none =>
          rcases hu : env.unmarshalCourse res.Body with ⟨v, ue⟩
          cases ue <;> simp [hs, hr, hu]
      · simp [hs]

theorem GetSectionByID_contract (env : Env) (c : CanvasClient) (sectionID : Int) (w : World) :
    GetByIDContract env (sectionByIDUrl c sectionID) env.unmarshalSection {} true w
      (GetSectionByID env c sectionID w).1 := by
  unfold GetByIDContract Answered Response.Decodes GetSectionByID send
  simp only [World.called]
  cases hreq : env.newRequest (sectionByIDUrl c sectionID) with
  | some e => simp
  | none =>
    cases hres : env.respond w.log (sectionByIDUrl c sectionID) with
    | failure e => simp
    | response res =>
      cases hr : res.ReadErr with
      | some e => simp [hr]
      | none =>
        by_cases hs : res.StatusCode = 200
        · rcases hu : env.unmarshalSection res.Body with ⟨v, ue⟩
          cases ue <;> simp [hs, hr, hu]
        · simp [hs, hr]

theorem GetUserByID_contract (env : Env) (c : CanvasClient) (userID : Int) (w : World) :
    GetByIDContract env (userByIDUrl c userID) env.unmarshalUser {} false w
      (GetUserByID env c userID w).1 := by
  unfold GetByIDContract Answered Response.Decodes GetUserByID send
  simp only [World.called]
  cases hreq : env.newRequest (userByIDUrl c userID) with
  | some e => simp
  | none =>
    cases hres : env.respond w.log (userByIDUrl c userID) with
    | failure e => simp
    | response res =>
      by_cases hs : res.StatusCode = 200
      · cases hr : res.ReadErr with
        | some e => simp [hs, hr]
        | none =>
          rcases hu : env.unmarshalUser res.Body with ⟨v, ue⟩
          cases ue <;> simp [hs, hr, hu]
      · simp [hs]

/-- C17 (a slip of `GetSectionByID`).  The upstream answers every GET with status 404 and
a body that breaks off while it is read.  `GetAccountByID`, `GetCourseByID` and `GetUserByID`
look at the status first and return the zero value with status 404 and an error, as the
claim says; `GetSectionByID` reads the body before it looks at the status and returns
status 500. -/
theorem section_body_read_before_status :
    Answered truncatedEnv (sectionByIDUrl exampleClient 3) {}
      { StatusCode := 404, ReadErr := some "unexpected EOF" } ∧
    (GetSectionByID truncatedEnv exampleClient 3 {}).1 = ⟨{}, 500, some "unexpected EOF"⟩ ∧
    (GetAccountByID truncatedEnv exampleClient 3 {}).1 =
      ⟨{}, 404, some "error fetching account: 3"⟩ ∧
    (GetCourseByID truncatedEnv exampleClient 3 {}).1 =
      ⟨{}, 404, some "error fetching course: 3"⟩ ∧
    (GetUserByID truncatedEnv exampleClient 3 {}).1 =
      ⟨{}, 404, some "error fetching user: 3"⟩ := by
  refine ⟨⟨rfl, rfl⟩, by decide, by decide, by decide, by decide⟩

/-- What the four get-by-id operations return.  For each of `GetAccountByID`,
`GetCourseByID`, `GetSectionByID` and `GetUserByID`, called in any world against any
upstream: the returned error is nil if and only if the request was built, the upstream
answered it, the status was 200 and the body was read and decoded as the entity; and when the upstream answered with a status `s` other than
200, the returned status is `s` and the returned entity is the zero value, which for
`GetSectionByID` holds when the body of that answer could be read. -/
theorem get_by_id_contract (env : Env) (c : CanvasClient) (id : Int) (w : World) :
    GetByIDContract env (accountByIDUrl c id) env.unmarshalAccount {} false w
      (GetAccountByID env c id w).1 ∧
    GetByIDContract env (courseByIDUrl c id) env.unmarshalCourse {} false w
      (GetCourseByID env c id w).1 ∧
    GetByIDContract env (sectionByIDUrl c id) env.unmarshalSection {} true w
      (GetSectionByID env c id w).1 ∧
    GetByIDContract env (userByIDUrl c id) env.unmarshalUser {} false w
      (GetUserByID env c id w).1 :=
  ⟨GetAccountByID_contract env c id w, GetCourseByID_contract env c id w,
    GetSectionByID_contract env c id w, GetUserByID_contract env c id w⟩

/-- The get-by-id operations at section 1 of the first upstream of the examples, which
answers 404 with an empty body that reads, and at section 3 of the second, which answers
200. -/
theorem get_by_id_contract_witness :
    ((GetSectionByID exampleEnv exampleClient 1 {}).1.code = 404 ∧
      (GetSectionByID exampleEnv exampleClient 1 {}).1.val = {}) ∧
    (GetSectionByID reportEnv exampleClient 3 {}).1.err = none :=
  ⟨(get_by_id_contract exampleEnv exampleClient 1 {}).2.2.1.2 { StatusCode := 404 }
      ⟨rfl, by decide⟩ (by decide) (fun _ => rfl),
    (get_by_id_contract reportEnv exampleClient 3 {}).2.2.1.1.2
      ⟨{ StatusCode := 200, Body := "section-3" },
        { ID := 3, CourseID := 9, Name := "Section three" },
        ⟨rfl, by decide⟩, rfl, rfl, rfl⟩⟩

/-- C18 (the status of a section that was found).  When the upstream answers the GET of a
get-by-id operation with status 200 and a body that is read and decodes, `GetSectionByID`
returns the decoded section with a nil error and the status 500, and `GetAccountByID`,
`GetCourseByID` and `GetUserByID` return the decoded entity with a nil error and the
status 200. -/
theorem section_status_on_success (env : Env) (c : CanvasClient) (w : World)
    (accountID courseID sectionID userID : Int) (resA resC resS resU : Response)
    (account : Account) (course : Course) (section_ : Section) (user : User)
    (hA : Answered env (accountByIDUrl c accountID) w resA)
    (hdA : resA.Decodes env.unmarshalAccount account)
    (hC : Answered env (courseByIDUrl c courseID) w resC)
    (hdC : resC.Decodes env.unmarshalCourse course)
    (hS : Answered env (sectionByIDUrl c sectionID) w resS)
    (hdS : resS.Decodes env.unmarshalSection section_)
    (hU : Answered env (userByIDUrl c userID) w resU)
    (hdU : resU.Decodes env.unmarshalUser user) :
    (GetSectionByID env c sectionID w).1 = ⟨section_, 500, none⟩ ∧
    (GetAccountByID env c accountID w).1 = ⟨account, 200, none⟩ ∧
    (GetCourseByID env c courseID w).1 = ⟨course, 200, none⟩ ∧
    (GetUserByID env c userID w).1 = ⟨user, 200, none⟩ := by
  obtain ⟨hA1, hA2⟩ := hA
  obtain ⟨hC1, hC2⟩ := hC
  obtain ⟨hS1, hS2⟩ := hS
  obtain ⟨hU1, hU2⟩ := hU
  obtain ⟨hA3, hA4, hA5⟩ := hdA
  obtain ⟨hC3, hC4, hC5⟩ := hdC
  obtain ⟨hS3, hS4, hS5⟩ := hdS
  obtain ⟨hU3, hU4, hU5⟩ := hdU
  refine ⟨?_, ?_, ?_, ?_⟩
  · unfold GetSectionByID send
    simp [World.called, hS1, hS2, hS3, hS4, hS5]
  · unfold GetAccountByID send
    simp [World.called, hA1, hA2, hA3, hA4, hA5]
  · unfold GetCourseByID send
    simp [World.called, hC1, hC2, hC3, hC4, hC5]
  · unfold GetUserByID send
    simp [World.called, hU1, hU2, hU3, hU4, hU5]

/-- C18 at the second upstream of the examples, which knows account 1, course 9, section 3
and user 43. -/
theorem section_status_on_success_witness :
    (GetSectionByID reportEnv exampleClient 3 {}).1 =
        ⟨{ ID := 3, CourseID := 9, Name := "Section three" }, 500, none⟩ ∧
    (GetAccountByID reportEnv exampleClient 1 {}).1 = ⟨{ ID := 1, Name := "Science" }, 200, none⟩ ∧
    (GetCourseByID reportEnv exampleClient 9 {}).1 = ⟨{ ID := 9, Name := "Botany" }, 200, none⟩ ∧
    (GetUserByID reportEnv exampleClient 43 {}).1 =
      ⟨{ ID := 43, Name := "Bob", SISUserID := "S43" }, 200, none⟩ :=
  section_status_on_success reportEnv exampleClient {} 1 9 3 43
    { StatusCode := 200, Body := "account-1" } { StatusCode := 200, Body := "course-9" }
    { StatusCode := 200, Body := "section-3" } { StatusCode := 200, Body := "user-43" }
    _ _ _ _
    ⟨rfl, by decide⟩ ⟨rfl, rfl, rfl⟩ ⟨rfl, by decide⟩ ⟨rfl, rfl, by decide⟩
    ⟨rfl, by decide⟩ ⟨rfl, rfl, rfl⟩ ⟨rfl, by decide⟩ ⟨rfl, rfl, rfl⟩

/-! ## Rows written by the loops of the handlers -/

/-- When every pass of the body appends a block of rows that is as `B` says for the element,
the loop appends the blocks of its elements, in their order. -/
theorem forRange_blocks {τ σ ε ρ : Type} (body : τ → σ → Except ε σ) (res : σ → List ρ)
    (B : τ → List ρ → Prop)
    (hbody : ∀ x s s', body x s = .ok s' → ∃ block, res s' = res s ++ block ∧ B x block) :
    ∀ (xs : List τ) (s s' : σ), forRange body xs s = .ok s' →
      ∃ blocks, res s' = res s ++ blocks.flatten ∧ List.Forall₂ B xs blocks := by
  intro xs
  induction xs with
  | nil =>
    intro s s' h
    simp only [forRange, Except.ok.injEq] at h
    subst h
    exact ⟨[], by simp, List.Forall₂.nil⟩
  | cons x xs ih =>
    intro s s' h
    simp only [forRange] at h
    cases hb : body x s with
    | error e => rw [hb] at h; simp at h
    | ok s1 =>
      rw [hb] at h
      obtain ⟨block, h1, h2⟩ := hbody x s s1 hb
      obtain ⟨blocks, h3, h4⟩ := ih s1 s' h
      refine ⟨block :: blocks, ?_, List.Forall₂.cons h2 h4⟩
      rw [h3, h1]
      simp

theorem forall2_flatten {τ υ ρ : Type} (R : υ → ρ → Prop) (f : τ → List υ) :
    ∀ (xs : List τ) (blocks : List (List ρ)),
      List.Forall₂ (fun x block => List.Forall₂ R (f x) block) xs blocks →
      List.Forall₂ R (xs.flatMap f) blocks.flatten := by
  intro xs blocks h
  induction h with
  | nil => simp
  | cons h1 _ ih =>
    simp only [List.flatMap_cons, List.flatten_cons]
    exact List.rel_append h1 ih

/-- A loop whose body goes on from every state that satisfies `I`, and keeps `I`, runs to
its end. -/
theorem forRange_total {τ σ ε : Type} (body : τ → σ → Except ε σ) (I : σ → Prop) :
    ∀ (xs : List τ), (∀ x ∈ xs, ∀ s, I s → ∃ s', body x s = .ok s' ∧ I s') →
      ∀ s, I s → ∃ s', forRange body xs s = .ok s' ∧ I s' := by
  intro xs
  induction xs with
  | nil => intro _ s hs; exact ⟨s, rfl, hs⟩
  | cons x xs ih =>
    intro hb s hs
    obtain ⟨s1, h1, hi1⟩ := hb x (by simp) s hs
    obtain ⟨s2, h2, hi2⟩ := ih (fun y hy => hb y (by simp [hy])) s1 hi1
    refine ⟨s2, ?_, hi2⟩
    simp only [forRange, h1]
    exact h2

theorem OnlyErrors_nil {ρ : Type} : OnlyErrors ([] : List (Write ρ)) := by
  intro rows h
  simp at h

theorem OnlyErrors_error {ρ : Type} (out : List (Write ρ)) (msg : String) (code : Nat)
    (h : OnlyErrors out) : OnlyErrors (out ++ [Write.error msg code]) := by
  intro rows hr
  simp only [List.mem_append, List.mem_singleton] at hr
  rcases hr with hr | hr
  · exact h rows hr
  · simp at hr

/-- The encoded rows among the last writes of a handler are the rows it collected. -/
theorem json_mem_encode {ρ : Type} (r : Request) (out : List (Write ρ)) (results rows : List ρ)
    (hout : OnlyErrors out) (h : Write.json rows ∈ out ++ encode r results) :
    rows = results := by
  simp only [List.mem_append] at h
  rcases h with h | h
  · exact absurd h (hout rows)
  · unfold encode at h
    split at h
    · simp at h
    · simpa using h

theorem sectionPairs_mem (assignments : List Assignment) (p : Assignment × SectionCount) :
    p ∈ sectionPairs assignments ↔
      p.1 ∈ assignments ∧ p.2 ∈ p.1.NeedsGradingCountBySection := by
  unfold sectionPairs
  simp only [List.mem_flatMap, List.mem_map]
  constructor
  · rintro ⟨a, ha, sec, hsec, rfl⟩
    exact ⟨ha, hsec⟩
  · rintro ⟨h1, h2⟩
    exact ⟨p.1, h1, p.2, h2, rfl⟩

theorem sectionPairs_length (assignments : List Assignment) :
    (sectionPairs assignments).length =
      (assignments.map fun a => a.NeedsGradingCountBySection.length).sum := by
  induction assignments with
  | nil => rfl
  | cons a as ih =>
    simp only [sectionPairs, List.flatMap_cons, List.length_append, List.length_map,
      List.map_cons, List.sum_cons] at ih ⊢
    rw [ih]

/-! ## C11, C12 and C19: the rows of the course report -/

theorem resolveSection_rows (env : Env) (c : CanvasClient) (ctx : Context) (fuel : Nat)
    (sec : SectionCount) (s s' : UngradedState)
    (h : resolveSection env c ctx fuel sec s = .ok s') :
    s'.results = s.results ∧ (OnlyErrors s.out → OnlyErrors s'.out) := by
  unfold resolveSection at h
  cases hl : s.memo.lookup sec.SectionID with
  | some v =>
    rw [hl] at h
    simp only [Except.ok.injEq] at h
    subst h
    exact ⟨rfl, id⟩
  | none =>
    rw [hl] at h
    simp only at h
    rcases hg : GetEnrollmentsBySectionID env c ctx sec.SectionID [] [TeacherEnrollmentType] fuel
      s.world with ⟨r1, w1⟩
    rw [hg] at h
    cases r1 with
    | none => simp at h
    | some rep =>
      obtain ⟨ev, ec, ee⟩ := rep
      cases ee with
      | some e => simp at h
      | none =>
        simp only at h
        split at h
        · cases h
        by_cases hsis : (sectionEntry sec.SectionID (ev.getD [])).sisSectionID = ""
        · rw [if_pos hsis] at h
          rcases hs : GetSectionByID env c sec.SectionID w1 with ⟨⟨sv, sc, se⟩, w2⟩
          rw [hs] at h
          simp only [Except.ok.injEq] at h
          subst h
          refine ⟨rfl, fun ho => ?_⟩
          cases se with
          | some e => exact OnlyErrors_error _ _ _ ho
          | none => exact ho
        · rw [if_neg hsis] at h
          simp only [Except.ok.injEq] at h
          subst h
          exact ⟨rfl, id⟩

theorem resolveSection_aborts (env : Env) (c : CanvasClient) (ctx : Context) (fuel : Nat)
    (sec : SectionCount) (s : UngradedState) (run : Run (List (Write UngradedAssignment)))
    (h : resolveSection env c ctx fuel sec s = .error run) (ho : OnlyErrors s.out) :
    ∀ o, run.1 = some o → OnlyErrors o := by
  unfold resolveSection at h
  cases hl : s.memo.lookup sec.SectionID with
  | some v => rw [hl] at h; simp at h
  | none =>
    rw [hl] at h
    simp only at h
    rcases hg : GetEnrollmentsBySectionID env c ctx sec.SectionID [] [TeacherEnrollmentType] fuel
      s.world with ⟨r1, w1⟩
    rw [hg] at h
    cases r1 with
    | none =>
      simp only [Except.error.injEq] at h
      subst h
      intro o hh
      simp at hh
    | some rep =>
      obtain ⟨ev, ec, ee⟩ := rep
      cases ee with
      | some e =>
        simp only [Except.error.injEq] at h
        subst h
        intro o hh
        simp only [Option.some.injEq] at hh
        subst hh
        exact OnlyErrors_error _ _ _ ho
      | none =>
        simp only at h
        split at h
        · simp only [Except.error.injEq] at h
          subst h
          intro _
          simp [nilDereference]
        by_cases hsis : (sectionEntry sec.SectionID (ev.getD [])).sisSectionID = ""
        · rw [if_pos hsis] at h
          rcases GetSectionByID env c sec.SectionID w1 with ⟨⟨sv, sc, se⟩, w2⟩
          simp at h
        · rw [if_neg hsis] at h
          simp at h

theorem ungradedSection_rows (env : Env) (c : CanvasClient) (ctx : Context) (fuel : Nat)
    (course : Course) (courseID : Int) (assignment : Assignment) (sec : SectionCount)
    (s s' : UngradedState)
    (h : ungradedSection env c ctx fuel course courseID assignment sec s = .ok s') :
    s'.results = s.results ++ [ungradedRow c course courseID assignment sec s'.memo] ∧
      (OnlyErrors s.out → OnlyErrors s'.out) := by
  unfold ungradedSection at h
  cases hres : resolveSection env c ctx fuel sec s with
  | error r => rw [hres] at h; simp at h
  | ok s1 =>
    rw [hres] at h
    simp only [Except.ok.injEq] at h
    subst h
    obtain ⟨h1, h2⟩ := resolveSection_rows env c ctx fuel sec s s1 hres
    exact ⟨by simp [h1], h2⟩

theorem ungradedSection_aborts (env : Env) (c : CanvasClient) (ctx : Context) (fuel : Nat)
    (course : Course) (courseID : Int) (assignment : Assignment) (sec : SectionCount)
    (s : UngradedState) (run : Run (List (Write UngradedAssignment)))
    (h : ungradedSection env c ctx fuel course courseID assignment sec s = .error run)
    (ho : OnlyErrors s.out) : ∀ o, run.1 = some o → OnlyErrors o := by
  unfold ungradedSection at h
  cases hres : resolveSection env c ctx fuel sec s with
  | error r =>
    rw [hres] at h
    simp only [Except.error.injEq] at h
    subst h
    exact resolveSection_aborts env c ctx fuel sec s r hres ho
  | ok s1 =>
    rw [hres] at h
    simp at h

theorem flatMap_pair {α β : Type} (a : α) (xs : List β) :
    (xs.flatMap fun x => [(a, x)]) = xs.map fun x => (a, x) := by
  induction xs with
  | nil => rfl
  | cons x xs ih => simp only [List.flatMap_cons, List.map_cons, ih]; rfl

theorem ungradedAssignment_rows (env : Env) (c : CanvasClient) (ctx : Context) (fuel : Nat)
    (course : Course) (courseID : Int) (assignment : Assignment) (s s' : UngradedState)
    (h : ungradedAssignment env c ctx fuel course courseID assignment s = .ok s') :
    (∃ block, s'.results = s.results ++ block ∧
      List.Forall₂ (IsUngradedRowOf c course courseID)
        (assignment.NeedsGradingCountBySection.map fun sec => (assignment, sec)) block) ∧
      (OnlyErrors s.out → OnlyErrors s'.out) := by
  unfold ungradedAssignment at h
  simp only [poll] at h
  cases hc : ctx s.world.polls with
  | some e => rw [hc] at h; simp at h
  | none =>
    rw [hc] at h
    simp only at h
    split at h
    · cases h
    constructor
    · obtain ⟨blocks, h1, h2⟩ := forRange_blocks
        (ungradedSection env c ctx fuel course courseID assignment) (fun st => st.results)
        (fun sec block =>
          List.Forall₂ (IsUngradedRowOf c course courseID) [(assignment, sec)] block)
        (fun sec a b hab => by
          obtain ⟨hr, _⟩ := ungradedSection_rows env c ctx fuel course courseID assignment sec a b hab
          exact ⟨_, hr, List.Forall₂.cons ⟨_, rfl⟩ List.Forall₂.nil⟩)
        _ _ _ h
      refine ⟨blocks.flatten, h1, ?_⟩
      have h3 := forall2_flatten (IsUngradedRowOf c course courseID)
        (fun sec => [(assignment, sec)]) _ _ h2
      rw [flatMap_pair] at h3
      exact h3
    · have hk := forRange_ok (ungradedSection env c ctx fuel course courseID assignment)
        (fun a b => OnlyErrors a.out → OnlyErrors b.out) (fun _ => id)
        (fun _ _ _ h1 h2 => h2 ∘ h1)
        (fun sec a b hab =>
          (ungradedSection_rows env c ctx fuel course courseID assignment sec a b hab).2)
        _ _ _ h
      exact hk

theorem ungradedAssignment_aborts (env : Env) (c : CanvasClient) (ctx : Context) (fuel : Nat)
    (course : Course) (courseID : Int) (assignment : Assignment) (s : UngradedState)
    (run : Run (List (Write UngradedAssignment)))
    (h : ungradedAssignment env c ctx fuel course courseID assignment s = .error run)
    (ho : OnlyErrors s.out) : ∀ o, run.1 = some o → OnlyErrors o := by
  unfold ungradedAssignment at h
  simp only [poll] at h
  cases hc : ctx s.world.polls with
  | some e =>
    rw [hc] at h
    simp only [Except.error.injEq] at h
    subst h
    intro o hh
    simp only [Option.some.injEq] at hh
    subst hh
    exact OnlyErrors_error _ _ _ ho
  | none =>
    rw [hc] at h
    simp only at h
    split at h
    · simp only [Except.error.injEq] at h
      subst h
      intro _
      simp [nilDereference]
    exact forRange_error (ungradedSection env c ctx fuel course courseID assignment)
      (fun a b => OnlyErrors a.out → OnlyErrors b.out)
      (fun st run => OnlyErrors st.out → ∀ o, run.1 = some o → OnlyErrors o)
      (fun _ _ _ hab hq ha => hq (hab ha))
      (fun sec a b hab =>
        (ungradedSection_rows env c ctx fuel course courseID assignment sec a b hab).2)
      (fun sec a e hae =>
        ungradedSection_aborts env c ctx fuel course courseID assignment sec a e hae)
      _ _ _ h ho

/-- The loops of the course report: the rows it encodes, when it does, are those of the
pairs (assignment, section), in their order. -/
theorem ungraded_loops_rows (env : Env) (c : CanvasClient) (r : Request) (fuel : Nat)
    (w2 w' : World) (courseID : Int) (course : Course) (assignments : List Assignment)
    (out0 out : List (Write UngradedAssignment)) (rows : List UngradedAssignment)
    (hout0 : OnlyErrors out0)
    (hrun : (match forRange (ungradedAssignment env c r.ctx fuel course courseID) assignments
          { out := out0, world := w2 } with
        | .error run => run
        | .ok s => (some (s.out ++ encode r s.results), s.world)) = (some out, w'))
    (hrows : Write.json rows ∈ out) :
    List.Forall₂ (IsUngradedRowOf c course courseID) (sectionPairs assignments) rows := by
  cases hloop : forRange (ungradedAssignment env c r.ctx fuel course courseID) assignments
      { out := out0, world := w2 } with
  | error run =>
    rw [hloop] at hrun
    simp only at hrun
    have hq := forRange_error (ungradedAssignment env c r.ctx fuel course courseID)
      (fun a b => OnlyErrors a.out → OnlyErrors b.out)
      (fun st run => OnlyErrors st.out → ∀ o, run.1 = some o → OnlyErrors o)
      (fun _ _ _ hab hq ha => hq (hab ha))
      (fun x a b hab => (ungradedAssignment_rows env c r.ctx fuel course courseID x a b hab).2)
      (fun x a e hae => ungradedAssignment_aborts env c r.ctx fuel course courseID x a e hae)
      _ _ _ hloop hout0 out (by rw [hrun])
    exact absurd hrows (hq rows)
  | ok s =>
    rw [hloop] at hrun
    simp only [Prod.mk.injEq, Option.some.injEq] at hrun
    have hso : OnlyErrors s.out := forRange_ok (ungradedAssignment env c r.ctx fuel course courseID)
      (fun a b => OnlyErrors a.out → OnlyErrors b.out) (fun _ => id)
      (fun _ _ _ h1 h2 => h2 ∘ h1)
      (fun x a b hab => (ungradedAssignment_rows env c r.ctx fuel course courseID x a b hab).2)
      _ _ _ hloop hout0
    rw [← hrun.1] at hrows
    have hr := json_mem_encode r s.out s.results rows hso hrows
    obtain ⟨blocks, h1, h2⟩ := forRange_blocks
      (ungradedAssignment env c r.ctx fuel course courseID) (fun st => st.results)
      (fun (a : Assignment) block => List.Forall₂ (IsUngradedRowOf c course courseID)
        (a.NeedsGradingCountBySection.map fun sec => (a, sec)) block)
      (fun x a b hab => (ungradedAssignment_rows env c r.ctx fuel course courseID x a b hab).1)
      _ _ _ hloop
    have h3 := forall2_flatten (IsUngradedRowOf c course courseID)
      (fun (a : Assignment) => a.NeedsGradingCountBySection.map fun sec => (a, sec)) _ _ h2
    simp only [List.nil_append] at h1
    rw [hr, h1]
    exact h3

/-- The course report: the rows it encodes, when it does, are those of the pairs
(assignment, section) of the assignments it was given, in their order. -/
theorem ungraded_report_rows (env : Env) (c : CanvasClient) (r : Request) (fuel : Nat)
    (w : World) (courseID : Int) (course : Reply Course) (w1 : World)
    (assignments : Reply (Option (List Assignment))) (w2 : World)
    (out : List (Write UngradedAssignment)) (rows : List UngradedAssignment) (w' : World)
    (hid : Atoi r.urlParam = some courseID)
    (hcourse : GetCourseByID env c courseID w = (course, w1))
    (hassignments : GetAssignmentsByCourseID env c r.ctx courseID "" UngradedAssignmentBucket
      true fuel w1 = (some assignments, w2))
    (hrun : GetUngradedAssignmentsByCourseID env c r fuel w = (some out, w'))
    (hrows : Write.json rows ∈ out) :
    List.Forall₂ (IsUngradedRowOf c course.val courseID)
      (sectionPairs (assignments.val.getD [])) rows := by
  have hne : r.urlParam ≠ "" := by
    intro h
    rw [h, Atoi_empty] at hid
    simp at hid
  unfold GetUngradedAssignmentsByCourseID at hrun
  rw [if_neg hne, hid] at hrun
  simp only at hrun
  by_cases hpos : courseID ≤ 0
  · rw [if_pos hpos] at hrun
    simp only [Prod.mk.injEq, Option.some.injEq] at hrun
    rw [← hrun.1] at hrows
    simp at hrows
  · rw [if_neg hpos, hcourse] at hrun
    obtain ⟨cv, cc, ce⟩ := course
    cases ce with
    | some e =>
      simp only [Prod.mk.injEq, Option.some.injEq] at hrun
      rw [← hrun.1] at hrows
      simp at hrows
    | none =>
      simp only at hrun
      rw [hassignments] at hrun
      obtain ⟨av, ac, ae⟩ := assignments
      simp only at hrun
      cases ae with
      | some e =>
        exact ungraded_loops_rows env c r fuel w2 w' courseID cv _ _ out rows
          (OnlyErrors_error [] _ _ OnlyErrors_nil) hrun hrows
      | none =>
        exact ungraded_loops_rows env c r fuel w2 w' courseID cv _ _ out rows
          OnlyErrors_nil hrun hrows

/-- The entry the map of the dates holds for a section is the last entry of `all_dates`
that applies to the section. -/
theorem dates_fold_lookup (S : Int) :
    ∀ (dates : List AssignmentDate) (m : IntMap AssignmentDate),
      (dates.foldl
        (fun m date =>
          if date.SetID.Valid && date.SetType == "CourseSection" then m.set date.SetID.Int64 date
          else m) m).lookup S =
        ((dates.filter (appliesToSection S)).getLast?).or (m.lookup S) := by
  intro dates
  induction dates with
  | nil => intro m; simp
  | cons d ds ih =>
    intro m
    simp only [List.foldl_cons]
    rw [ih]
    cases hg : (d.SetID.Valid && d.SetType == "CourseSection") with
    | false =>
      have ha : appliesToSection S d = false := by
        unfold appliesToSection
        rw [hg]
        rfl
      simp [List.filter_cons, ha]
    | true =>
      simp only [if_true]
      rw [lookup_set]
      by_cases hk : S = d.SetID.Int64
      · have ha : appliesToSection S d = true := by
          unfold appliesToSection
          rw [hg]
          simp [hk]
        rw [List.filter_cons, if_pos ha, if_pos hk, List.getLast?_cons]
        cases (List.filter (appliesToSection S) ds).getLast? <;> simp
      · have ha : appliesToSection S d = false := by
          unfold appliesToSection
          rw [hg]
          have : ¬ d.SetID.Int64 = S := fun e => hk e.symm
          simp [this]
        rw [List.filter_cons, if_neg hk]
        simp [ha]

theorem assignmentDateBySectionID_lookup (assignment : Assignment) (S : Int) :
    (assignmentDateBySectionID assignment).lookup S =
      (assignment.AllDates.filter (appliesToSection S)).getLast? := by
  unfold assignmentDateBySectionID
  rw [dates_fold_lookup]
  simp

/-- The fields of a row that come from its assignment and from its section entry. -/
theorem ungradedRow_fields (c : CanvasClient) (course : Course) (courseID : Int)
    (assignment : Assignment) (sec : SectionCount) (memo : IntMap sectionWithTeachers) :
    (ungradedRow c course courseID assignment sec memo).Name = assignment.Name ∧
      (ungradedRow c course courseID assignment sec memo).CourseID = assignment.CourseID ∧
      (ungradedRow c course courseID assignment sec memo).Published = assignment.Published ∧
      (ungradedRow c course courseID assignment sec memo).NeedingGradingSection =
        sec.NeedsGradingCount := by
  unfold ungradedRow
  cases memo.lookup sec.SectionID <;>
    cases (assignmentDateBySectionID assignment).lookup sec.SectionID <;> simp

/-- The three timestamps of a row are those of the last date entry that applies to its
section, and the zero timestamp when no entry does. -/
theorem ungradedRow_dates (c : CanvasClient) (course : Course) (courseID : Int)
    (assignment : Assignment) (sec : SectionCount) (memo : IntMap sectionWithTeachers) :
    (∀ d, (assignment.AllDates.filter (appliesToSection sec.SectionID)).getLast? = some d →
      (ungradedRow c course courseID assignment sec memo).DueAt = d.DueAt ∧
      (ungradedRow c course courseID assignment sec memo).UnlockAt = d.UnlockAt ∧
      (ungradedRow c course courseID assignment sec memo).LockAt = d.LockAt) ∧
    ((assignment.AllDates.filter (appliesToSection sec.SectionID)).getLast? = none →
      (ungradedRow c course courseID assignment sec memo).DueAt = {} ∧
      (ungradedRow c course courseID assignment sec memo).UnlockAt = {} ∧
      (ungradedRow c course courseID assignment sec memo).LockAt = {}) := by
  rw [← assignmentDateBySectionID_lookup]
  unfold ungradedRow
  constructor
  · intro d hd
    rw [hd]
    cases memo.lookup sec.SectionID <;> simp
  · intro hd
    rw [hd]
    cases memo.lookup sec.SectionID <;> simp

/-- C11 on the code.  The assignment of course 10 has two date entries with the set type
`CourseSection` and the set id 4, due at 100 and at 200, and section 4 is in its list of
sections: the row of (assignment, 4) is due at 200, so it does not carry the timestamps of
the first of the two entries. -/
theorem section_dates_counterexample :
    (GetAssignmentsByCourseID reportEnv exampleClient background 10 "" UngradedAssignmentBucket
        true 5 (GetCourseByID reportEnv exampleClient 10 {}).2).1 =
      some ⟨some exampleAssignments10, 200, none⟩ ∧
    (exampleAssignments10.map fun a => a.NeedsGradingCountBySection) = [[⟨4, 2⟩, ⟨5, 1⟩]] ∧
    (exampleAssignments10.map fun a => a.AllDates.head?) =
      [some { SetType := "CourseSection", SetID := { Int64 := 4, Valid := true },
              DueAt := ⟨100⟩, UnlockAt := ⟨90⟩, LockAt := ⟨110⟩ }] ∧
    (GetUngradedAssignmentsByCourseID reportEnv exampleClient
        { urlParam := "10", ctx := background } 5 {}).1 = some [.json exampleRows10] ∧
    (exampleRows10.map fun row => (row.NeedingGradingSection, row.DueAt, row.UnlockAt, row.LockAt)) =
      [(2, ⟨200⟩, ⟨190⟩, ⟨210⟩), (1, ⟨0⟩, ⟨0⟩, ⟨0⟩)] := by
  decide

/-- C11, amended.  In a run of `GetUngradedAssignmentsByCourseID` that encodes rows, the rows
pair off, in order, with the pairs (assignment, section) of the assignments returned by
`GetAssignmentsByCourseID`; and when `d` is the last entry of the assignment's `all_dates`
with set type `CourseSection` and a set id that is present and equal to the section id, the
row of the pair has the due, unlock and lock timestamps of `d`.  (When only one entry
applies to the section, `d` is that entry.) -/
theorem section_dates_applied (env : Env) (c : CanvasClient) (r : Request) (fuel : Nat)
    (w : World) (courseID : Int) (course : Reply Course) (w1 : World)
    (assignments : Reply (Option (List Assignment))) (w2 : World)
    (out : List (Write UngradedAssignment)) (rows : List UngradedAssignment) (w' : World)
    (hid : Atoi r.urlParam = some courseID)
    (hcourse : GetCourseByID env c courseID w = (course, w1))
    (hassignments : GetAssignmentsByCourseID env c r.ctx courseID "" UngradedAssignmentBucket
      true fuel w1 = (some assignments, w2))
    (hrun : GetUngradedAssignmentsByCourseID env c r fuel w = (some out, w'))
    (hrows : Write.json rows ∈ out) :
    List.Forall₂
      (fun (p : Assignment × SectionCount) (row : UngradedAssignment) =>
        ∀ d, (p.1.AllDates.filter fun date =>
              date.SetID.Valid && date.SetType == "CourseSection" &&
                date.SetID.Int64 == p.2.SectionID).getLast? = some d →
          row.DueAt = d.DueAt ∧ row.UnlockAt = d.UnlockAt ∧ row.LockAt = d.LockAt)
      (sectionPairs (assignments.val.getD [])) rows := by
  have h := ungraded_report_rows env c r fuel w courseID course w1 assignments w2 out rows w'
    hid hcourse hassignments hrun hrows
  refine h.imp ?_
  rintro p row ⟨memo, rfl⟩ d hd
  exact (ungradedRow_dates c course.val courseID p.1 p.2 memo).1 d hd

/-- C11 at course 10 of the second upstream: the row of section 4 has the timestamps of the
second `CourseSection` entry for section 4, the last one. -/
theorem section_dates_applied_witness :
    (GetUngradedAssignmentsByCourseID reportEnv exampleClient
        { urlParam := "10", ctx := background } 5 {}).1 = some [.json exampleRows10] ∧
    List.Forall₂
      (fun (p : Assignment × SectionCount) (row : UngradedAssignment) =>
        ∀ d, (p.1.AllDates.filter fun date =>
              date.SetID.Valid && date.SetType == "CourseSection" &&
                date.SetID.Int64 == p.2.SectionID).getLast? = some d →
          row.DueAt = d.DueAt ∧ row.UnlockAt = d.UnlockAt ∧ row.LockAt = d.LockAt)
      (sectionPairs exampleAssignments10) exampleRows10 := by
  have h4 : GetUngradedAssignmentsByCourseID reportEnv exampleClient
      { urlParam := "10", ctx := background } 5 {} =
      (some [.json exampleRows10],
        (GetUngradedAssignmentsByCourseID reportEnv exampleClient
          { urlParam := "10", ctx := background } 5 {}).2) := by
    decide
  have h3 : GetAssignmentsByCourseID reportEnv exampleClient background 10 ""
      UngradedAssignmentBucket true 5 (GetCourseByID reportEnv exampleClient 10 {}).2 =
      (some ⟨some exampleAssignments10, 200, none⟩,
        (GetAssignmentsByCourseID reportEnv exampleClient background 10 ""
          UngradedAssignmentBucket true 5 (GetCourseByID reportEnv exampleClient 10 {}).2).2) := by
    decide
  exact ⟨by rw [h4],
    section_dates_applied reportEnv exampleClient { urlParam := "10", ctx := background } 5 {}
      10 _ _ ⟨some exampleAssignments10, 200, none⟩ _ _ exampleRows10 _ (by decide) rfl h3 h4
      (by simp)⟩

/-- C12 (dates of other sets).  In a run of `GetUngradedAssignmentsByCourseID` that encodes
rows, the rows pair off, in order, with the pairs (assignment, section) of the assignments
returned by `GetAssignmentsByCourseID`; and when no entry of the assignment's `all_dates`
has the set type `CourseSection` together with a set id that is present and equal to the
section id, the due, unlock and lock timestamps of the row of the pair are the zero
timestamp, whatever other entries the assignment carries.  When there are such entries, the
timestamps are those of the last of them, so that an entry of another set type, or with an
absent or another set id, contributes to the row in neither case. -/
theorem other_dates_ignored (env : Env) (c : CanvasClient) (r : Request) (fuel : Nat)
    (w : World) (courseID : Int) (course : Reply Course) (w1 : World)
    (assignments : Reply (Option (List Assignment))) (w2 : World)
    (out : List (Write UngradedAssignment)) (rows : List UngradedAssignment) (w' : World)
    (hid : Atoi r.urlParam = some courseID)
    (hcourse : GetCourseByID env c courseID w = (course, w1))
    (hassignments : GetAssignmentsByCourseID env c r.ctx courseID "" UngradedAssignmentBucket
      true fuel w1 = (some assignments, w2))
    (hrun : GetUngradedAssignmentsByCourseID env c r fuel w = (some out, w'))
    (hrows : Write.json rows ∈ out) :
    List.Forall₂
      (fun (p : Assignment × SectionCount) (row : UngradedAssignment) =>
        ((∀ d ∈ p.1.AllDates,
          ¬ (d.SetType = "CourseSection" ∧ d.SetID.Valid = true ∧
              d.SetID.Int64 = p.2.SectionID)) →
          row.DueAt = {} ∧ row.UnlockAt = {} ∧ row.LockAt = {}) ∧
        ∀ d, (p.1.AllDates.filter fun date =>
              date.SetID.Valid && date.SetType == "CourseSection" &&
                date.SetID.Int64 == p.2.SectionID).getLast? = some d →
          row.DueAt = d.DueAt ∧ row.UnlockAt = d.UnlockAt ∧ row.LockAt = d.LockAt)
      (sectionPairs (assignments.val.getD [])) rows := by
  have h := ungraded_report_rows env c r fuel w courseID course w1 assignments w2 out rows w'
    hid hcourse hassignments hrun hrows
  refine h.imp ?_
  rintro p row ⟨memo, rfl⟩
  refine ⟨fun hno => ?_, fun d hd => (ungradedRow_dates c course.val courseID p.1 p.2 memo).1 d hd⟩
  apply (ungradedRow_dates c course.val courseID p.1 p.2 memo).2
  have hnil : p.1.AllDates.filter (appliesToSection p.2.SectionID) = [] := by
    rw [List.filter_eq_nil_iff]
    intro d hd ha
    apply hno d hd
    unfold appliesToSection at ha
    simp only [Bool.and_eq_true, beq_iff_eq] at ha
    exact ⟨ha.1.2, ha.1.1, ha.2⟩
  rw [hnil]
  rfl

/-- C12 at course 10 of the second upstream: section 5 has a `Group` entry with the set
id 5 and no `CourseSection` entry, and the timestamps of its row are zero. -/
theorem other_dates_ignored_witness :
    (GetUngradedAssignmentsByCourseID reportEnv exampleClient
        { urlParam := "10", ctx := background } 5 {}).1 = some [.json exampleRows10] ∧
    List.Forall₂
      (fun (p : Assignment × SectionCount) (row : UngradedAssignment) =>
        ((∀ d ∈ p.1.AllDates,
          ¬ (d.SetType = "CourseSection" ∧ d.SetID.Valid = true ∧
              d.SetID.Int64 = p.2.SectionID)) →
          row.DueAt = {} ∧ row.UnlockAt = {} ∧ row.LockAt = {}) ∧
        ∀ d, (p.1.AllDates.filter fun date =>
              date.SetID.Valid && date.SetType == "CourseSection" &&
                date.SetID.Int64 == p.2.SectionID).getLast? = some d →
          row.DueAt = d.DueAt ∧ row.UnlockAt = d.UnlockAt ∧ row.LockAt = d.LockAt)
      (sectionPairs exampleAssignments10) exampleRows10 := by
  have h4 : GetUngradedAssignmentsByCourseID reportEnv exampleClient
      { urlParam := "10", ctx := background } 5 {} =
      (some [.json exampleRows10],
        (GetUngradedAssignmentsByCourseID reportEnv exampleClient
          { urlParam := "10", ctx := background } 5 {}).2) := by
    decide
  have h3 : GetAssignmentsByCourseID reportEnv exampleClient background 10 ""
      UngradedAssignmentBucket true 5 (GetCourseByID reportEnv exampleClient 10 {}).2 =
      (some ⟨some exampleAssignments10, 200, none⟩,
        (GetAssignmentsByCourseID reportEnv exampleClient background 10 ""
          UngradedAssignmentBucket true 5 (GetCourseByID reportEnv exampleClient 10 {}).2).2) := by
    decide
  exact ⟨by rw [h4],
    other_dates_ignored reportEnv exampleClient { urlParam := "10", ctx := background } 5 {}
      10 _ _ ⟨some exampleAssignments10, 200, none⟩ _ _ exampleRows10 _ (by decide) rfl h3 h4
      (by simp)⟩

/-! ## C19: one row for each pair of an assignment and a section -/

/-- A run of the loop of the list methods whose first GET is answered with status 200, a
body that decodes, and no next url. -/
theorem paginate_one_page {α : Type} (env : Env) (unmarshal : String → List α × Option String)
    (ctx : Context) (statusErr : String) (fuel : Nat) (url : String) (w : World)
    (res : Response) (items : List α) (hfuel : 0 < fuel) (hctx : ctx w.polls = none)
    (hans : Answered env url w res) (hdec : res.Decodes unmarshal items)
    (hnext : getNextUrl res.Link = "") :
    paginate env unmarshal ctx statusErr fuel url [] w =
      (some ⟨some items, 200, none⟩,
        { w with polls := w.polls + 1, log := w.log ++ [⟨url, .response res⟩] }) := by
  obtain ⟨n, rfl⟩ : ∃ n, fuel = n + 1 := ⟨fuel - 1, by omega⟩
  obtain ⟨h1, h2⟩ := hans
  obtain ⟨h3, h4, h5⟩ := hdec
  unfold paginate
  simp [poll, send, hctx, h1, h2, h3, h4, h5, hnext]

/-- A slice without a nil pointer passes the loops that read its elements. -/
theorem any_not_of_forall {α : Type} (p : α → Bool) (xs : List α)
    (h : ∀ x ∈ xs, p x = false) : ¬ (xs.any p = true) := by
  simp only [List.any_eq_true, not_exists, not_and]
  intro x hx
  rw [h x hx]
  simp

theorem resolveSection_total (env : Env) (c : CanvasClient) (ctx : Context) (fuel : Nat)
    (sec : SectionCount) (h : SectionResolves env c ctx fuel sec.SectionID)
    (s : UngradedState) :
    ∃ s', resolveSection env c ctx fuel sec s = .ok s' ∧ s'.out = s.out := by
  unfold resolveSection
  cases hl : s.memo.lookup sec.SectionID with
  | some v => exact ⟨s, rfl, rfl⟩
  | none =>
    obtain ⟨enrollments, code, w1, hg, hnil, hsec⟩ := h s.world
    simp only [hg]
    rw [if_neg (any_not_of_forall _ _ hnil)]
    by_cases hsis : (sectionEntry sec.SectionID (enrollments.getD [])).sisSectionID = ""
    · rw [if_pos hsis]
      have he := hsec hsis
      rcases hs : GetSectionByID env c sec.SectionID w1 with ⟨⟨sv, sc, se⟩, w2⟩
      rw [hs] at he
      simp only at he
      subst he
      exact ⟨_, rfl, rfl⟩
    · rw [if_neg hsis]
      exact ⟨_, rfl, rfl⟩

theorem ungradedSection_total (env : Env) (c : CanvasClient) (ctx : Context) (fuel : Nat)
    (course : Course) (courseID : Int) (assignment : Assignment) (sec : SectionCount)
    (h : SectionResolves env c ctx fuel sec.SectionID) (s : UngradedState) :
    ∃ s', ungradedSection env c ctx fuel course courseID assignment sec s = .ok s' ∧
      s'.out = s.out := by
  obtain ⟨s1, h1, h2⟩ := resolveSection_total env c ctx fuel sec h s
  unfold ungradedSection
  rw [h1]
  exact ⟨_, rfl, h2⟩

theorem ungradedAssignment_total (env : Env) (c : CanvasClient) (ctx : Context) (fuel : Nat)
    (course : Course) (courseID : Int) (assignment : Assignment)
    (hctx : ∀ n, ctx n = none) (hnil : assignment.IsNil = false)
    (h : ∀ sec ∈ assignment.NeedsGradingCountBySection,
      SectionResolves env c ctx fuel sec.SectionID)
    (s : UngradedState) :
    ∃ s', ungradedAssignment env c ctx fuel course courseID assignment s = .ok s' ∧
      s'.out = s.out := by
  unfold ungradedAssignment
  simp only [poll, hctx]
  rw [if_neg (by simp [hnil])]
  exact forRange_total (ungradedSection env c ctx fuel course courseID assignment)
    (fun st => st.out = s.out) _
    (fun sec hsec st hst => by
      obtain ⟨s1, h1, h2⟩ :=
        ungradedSection_total env c ctx fuel course courseID assignment sec (h sec hsec) st
      exact ⟨s1, h1, h2.trans hst⟩)
    _ rfl

/-- C19 as stated fails: every upstream call succeeds, and a list is the JSON text
`[null]`.  With such a list of assignments of course 10, `GetCourseByID` and
`GetAssignmentsByCourseID` return without an error, the latter a slice with one nil pointer,
and the handler panics when it reads the needs-grading-by-section list of that assignment,
after two GETs.  With such a list of teacher enrollments, the handler panics when it reads
the user name of the enrollment, after three GETs.  In both runs no row is written. -/
theorem ungraded_rows_per_pair_counterexample :
    ((GetCourseByID nullAssignmentsEnv exampleClient 10 {}).1.err = none ∧
      (GetAssignmentsByCourseID nullAssignmentsEnv exampleClient background 10 ""
          UngradedAssignmentBucket true 5
          (GetCourseByID nullAssignmentsEnv exampleClient 10 {}).2).1 =
        some ⟨some [{ IsNil := true }], 200, none⟩ ∧
      (GetUngradedAssignmentsByCourseID nullAssignmentsEnv exampleClient
          { urlParam := "10", ctx := background } 5 {}).1 = none ∧
      (GetUngradedAssignmentsByCourseID nullAssignmentsEnv exampleClient
          { urlParam := "10", ctx := background } 5 {}).2.panicked = true ∧
      (GetUngradedAssignmentsByCourseID nullAssignmentsEnv exampleClient
          { urlParam := "10", ctx := background } 5 {}).2.log.length = 2) ∧
    ((GetEnrollmentsBySectionID nullEnrollmentsEnv exampleClient background 4 []
          [TeacherEnrollmentType] 5 {}).1 = some ⟨some [{ IsNil := true }], 200, none⟩ ∧
      (GetUngradedAssignmentsByCourseID nullEnrollmentsEnv exampleClient
          { urlParam := "10", ctx := background } 5 {}).1 = none ∧
      (GetUngradedAssignmentsByCourseID nullEnrollmentsEnv exampleClient
          { urlParam := "10", ctx := background } 5 {}).2.panicked = true ∧
      (GetUngradedAssignmentsByCourseID nullEnrollmentsEnv exampleClient
          { urlParam := "10", ctx := background } 5 {}).2.log.length = 3) := by
  decide

/-- C19, amended (one row for each pair).  When the course id is a positive integer,
`GetCourseByID` and `GetAssignmentsByCourseID` return without an error, no element of the
list of the assignments is a nil pointer, the calls made for every section of every
assignment succeed and return no nil pointer either, the context is never cancelled and the
rows can be encoded, then
`GetUngradedAssignmentsByCourseID` writes the encoded rows and nothing else; the number of
rows is the sum over the assignments of the length of the needs-grading-by-section list; and
the rows pair off, in order, with the pairs (assignment, section), assignments in the order
of the list and sections in the order of the list of the assignment, each row carrying the
name, the course id and the published flag of its assignment and the needs-grading count of
its section entry. -/
theorem ungraded_rows_per_pair (env : Env) (c : CanvasClient) (r : Request) (fuel : Nat)
    (w : World) (courseID : Int) (course : Course) (code1 : Nat) (w1 : World)
    (assignments : Option (List Assignment)) (code2 : Nat) (w2 : World)
    (hid : Atoi r.urlParam = some courseID) (hpos : 0 < courseID)
    (hcourse : GetCourseByID env c courseID w = (⟨course, code1, none⟩, w1))
    (hassignments : GetAssignmentsByCourseID env c r.ctx courseID "" UngradedAssignmentBucket
      true fuel w1 = (some ⟨assignments, code2, none⟩, w2))
    (hnil : ∀ assignment ∈ assignments.getD [], assignment.IsNil = false)
    (hsections : ∀ p ∈ sectionPairs (assignments.getD []),
      SectionResolves env c r.ctx fuel p.2.SectionID)
    (hctx : ∀ n, r.ctx n = none) (henc : r.encodeErr = false) :
    ∃ rows w', GetUngradedAssignmentsByCourseID env c r fuel w = (some [.json rows], w') ∧
      rows.length =
        ((assignments.getD []).map fun a => a.NeedsGradingCountBySection.length).sum ∧
      List.Forall₂
        (fun (p : Assignment × SectionCount) (row : UngradedAssignment) =>
          row.Name = p.1.Name ∧ row.CourseID = p.1.CourseID ∧ row.Published = p.1.Published ∧
            row.NeedingGradingSection = p.2.NeedsGradingCount)
        (sectionPairs (assignments.getD [])) rows := by
  have hne : r.urlParam ≠ "" := by
    intro h
    rw [h, Atoi_empty] at hid
    simp at hid
  obtain ⟨s, hloop, hout⟩ := forRange_total (ungradedAssignment env c r.ctx fuel course courseID)
    (fun st => st.out = []) (assignments.getD [])
    (fun a ha st hst => by
      obtain ⟨s1, h1, h2⟩ := ungradedAssignment_total env c r.ctx fuel course courseID a hctx
        (hnil a ha)
        (fun sec hsec => hsections (a, sec) ((sectionPairs_mem _ _).2 ⟨ha, hsec⟩)) st
      exact ⟨s1, h1, h2.trans hst⟩)
    { out := [], world := w2 } rfl
  have hrun : GetUngradedAssignmentsByCourseID env c r fuel w =
      (some [.json s.results], s.world) := by
    unfold GetUngradedAssignmentsByCourseID
    rw [if_neg hne, hid]
    simp only
    rw [if_neg (by omega), hcourse]
    simp only
    rw [hassignments]
    simp only
    rw [hloop]
    simp only [hout, encode, henc, List.nil_append]
    rfl
  have hrows := ungraded_report_rows env c r fuel w courseID ⟨course, code1, none⟩ w1
    ⟨assignments, code2, none⟩ w2 _ s.results _ hid hcourse hassignments hrun (by simp)
  refine ⟨s.results, s.world, hrun, ?_, ?_⟩
  · rw [← sectionPairs_length]
    exact hrows.length_eq.symm
  · refine hrows.imp ?_
    rintro p row ⟨memo, rfl⟩
    exact ungradedRow_fields c course courseID p.1 p.2 memo

/-- The first upstream of the examples answers the calls for section 1, whose teacher has a
SIS section id. -/
theorem exampleEnv_section1 : SectionResolves exampleEnv exampleClient background 5 1 := by
  intro w
  have hg : GetEnrollmentsBySectionID exampleEnv exampleClient background 1 []
      [TeacherEnrollmentType] 5 w = _ :=
    paginate_one_page exampleEnv exampleEnv.unmarshalEnrollments background _ 5 _ _
      { StatusCode := 200, Body := "teachers-1" } [exampleTeacher] (by decide) rfl
      ⟨rfl, (by decide : exampleRespond
        (enrollmentsBySectionIDUrl exampleClient 1 [] [TeacherEnrollmentType]) =
          .response { StatusCode := 200, Body := "teachers-1" })⟩
      ⟨rfl, rfl, by decide⟩ (by decide)
  refine ⟨some [exampleTeacher], 200, _, hg, by decide, ?_⟩
  intro h
  exact absurd h (by decide)

/-- The first upstream of the examples answers the calls for section 2, which has no
teacher and is looked up itself. -/
theorem exampleEnv_section2 : SectionResolves exampleEnv exampleClient background 5 2 := by
  intro w
  have hg : GetEnrollmentsBySectionID exampleEnv exampleClient background 2 []
      [TeacherEnrollmentType] 5 w = _ :=
    paginate_one_page exampleEnv exampleEnv.unmarshalEnrollments background _ 5 _ _
      { StatusCode := 200, Body := "teachers-none" } [] (by decide) rfl
      ⟨rfl, (by decide : exampleRespond
        (enrollmentsBySectionIDUrl exampleClient 2 [] [TeacherEnrollmentType]) =
          .response { StatusCode := 200, Body := "teachers-none" })⟩
      ⟨rfl, rfl, by decide⟩ (by decide)
  refine ⟨some [], 200, _, hg, by decide, ?_⟩
  intro _
  exact (GetSectionByID_contract exampleEnv exampleClient 2 _).1.2
    ⟨{ StatusCode := 200, Body := "section-2" }, _,
      ⟨rfl, (by decide : exampleRespond (sectionByIDUrl exampleClient 2) =
        .response { StatusCode := 200, Body := "section-2" })⟩, rfl, rfl, rfl⟩

/-- C19 at course 8 of the first upstream, whose two assignments both list the sections 1
and 2: four rows, in the order Essay 1, Essay 2, Quiz 2, Quiz 1. -/
theorem ungraded_rows_per_pair_witness :
    (∀ assignment ∈ exampleAssignments8, assignment.IsNil = false) ∧
    (∀ p ∈ sectionPairs exampleAssignments8,
      SectionResolves exampleEnv exampleClient background 5 p.2.SectionID) ∧
    ∃ rows w', GetUngradedAssignmentsByCourseID exampleEnv exampleClient
        { urlParam := "8", ctx := background } 5 {} = (some [.json rows], w') ∧
      rows.length = (exampleAssignments8.map fun a => a.NeedsGradingCountBySection.length).sum ∧
      List.Forall₂
        (fun (p : Assignment × SectionCount) (row : UngradedAssignment) =>
          row.Name = p.1.Name ∧ row.CourseID = p.1.CourseID ∧ row.Published = p.1.Published ∧
            row.NeedingGradingSection = p.2.NeedsGradingCount)
        (sectionPairs exampleAssignments8) rows := by
  have hs : ∀ p ∈ sectionPairs exampleAssignments8,
      SectionResolves exampleEnv exampleClient background 5 p.2.SectionID := by
    intro p hp
    have hp' : p.2.SectionID = 1 ∨ p.2.SectionID = 2 := by
      have hmem : p ∈ [(exampleAssignments8.get ⟨0, by decide⟩, (⟨1, 3⟩ : SectionCount)),
          (exampleAssignments8.get ⟨0, by decide⟩, ⟨2, 4⟩),
          (exampleAssignments8.get ⟨1, by decide⟩, ⟨2, 1⟩),
          (exampleAssignments8.get ⟨1, by decide⟩, ⟨1, 2⟩)] := hp
      simp only [List.mem_cons, List.mem_singleton, List.not_mem_nil, or_false] at hmem
      rcases hmem with h | h | h | h <;> rw [h] <;> simp
    rcases hp' with h | h
    · rw [h]; exact exampleEnv_section1
    · rw [h]; exact exampleEnv_section2
  have h3 : GetAssignmentsByCourseID exampleEnv exampleClient background 8 ""
      UngradedAssignmentBucket true 5 (GetCourseByID exampleEnv exampleClient 8 {}).2 =
      (some ⟨some exampleAssignments8, 200, none⟩,
        (GetAssignmentsByCourseID exampleEnv exampleClient background 8 ""
          UngradedAssignmentBucket true 5 (GetCourseByID exampleEnv exampleClient 8 {}).2).2) := by
    decide
  have h2 : GetCourseByID exampleEnv exampleClient 8 {} =
      (⟨{ ID := 8, Name := "Algebra", Account := { Name := "Maths" } }, 200, none⟩,
        (GetCourseByID exampleEnv exampleClient 8 {}).2) := by
    decide
  exact ⟨by decide, hs,
    ungraded_rows_per_pair exampleEnv exampleClient { urlParam := "8", ctx := background } 5 {}
      8 _ _ _ (some exampleAssignments8) _ _ (by decide) (by decide) h2 h3 (by decide) hs
      (fun _ => rfl) rfl⟩

/-! ## C13 and C20: the rows of the assignment report -/

theorem forall2_mem_right {α β : Type} (R : α → β → Prop) :
    ∀ (xs : List α) (ys : List β), List.Forall₂ R xs ys → ∀ y ∈ ys, ∃ x ∈ xs, R x y := by
  intro xs ys h
  induction h with
  | nil => intro y hy; simp at hy
  | cons h1 _ ih =>
    intro y hy
    rcases List.mem_cons.1 hy with rfl | hy
    · exact ⟨_, by simp, h1⟩
    · obtain ⟨x, hx, hr⟩ := ih y hy
      exact ⟨x, by simp [hx], hr⟩

theorem flatMap_single {α : Type} (xs : List α) : (xs.flatMap fun x => [x]) = xs := by
  induction xs with
  | nil => rfl
  | cons x xs ih => simp only [List.flatMap_cons, ih]; rfl

theorem assignmentResultRow_rows (env : Env) (c : CanvasClient) (user : User)
    (enrollment : Enrollment) (ad : AssignmentData) (s s' : AssignmentsState)
    (h : assignmentResultRow env c user enrollment ad s = .ok s') :
    (∃ row, s'.results = s.results ++ [row] ∧ IsAssignmentResultOf user enrollment ad row) ∧
      s'.out = s.out := by
  unfold assignmentResultRow at h
  by_cases hnil : ad.IsNil = true
  · rw [if_pos hnil] at h
    cases h
  rw [if_neg hnil] at h
  cases hres : resolveCourse env c enrollment.CourseID s.courses s.world with
  | error e =>
    rw [hres] at h
    obtain ⟨code, w1⟩ := e
    simp at h
  | ok v =>
    rw [hres] at h
    obtain ⟨course, courses, w1⟩ := v
    simp only [Except.ok.injEq] at h
    subst h
    exact ⟨⟨_, rfl, course, rfl⟩, rfl⟩

theorem assignmentResultRow_aborts (env : Env) (c : CanvasClient) (user : User)
    (enrollment : Enrollment) (ad : AssignmentData) (s : AssignmentsState)
    (run : Run (List (Write AssignmentResult)))
    (h : assignmentResultRow env c user enrollment ad s = .error run) (ho : OnlyErrors s.out) :
    ∀ o, run.1 = some o → OnlyErrors o := by
  unfold assignmentResultRow at h
  by_cases hnil : ad.IsNil = true
  · rw [if_pos hnil] at h
    simp only [Except.error.injEq] at h
    subst h
    intro _
    simp [nilDereference]
  rw [if_neg hnil] at h
  cases hres : resolveCourse env c enrollment.CourseID s.courses s.world with
  | error e =>
    rw [hres] at h
    obtain ⟨code, w1⟩ := e
    simp only [Except.error.injEq] at h
    subst h
    intro o hh
    simp only [Option.some.injEq] at hh
    subst hh
    exact OnlyErrors_error _ _ _ ho
  | ok v =>
    rw [hres] at h
    obtain ⟨course, courses, w1⟩ := v
    simp at h

/-- The rows one pass over an enrollment appends: none when the role is not
`StudentEnrollment`, and otherwise one for each analytics record returned by the call of
`GetAssignmentsDataOfUserByCourseID` the pass makes, in their order. -/
theorem assignmentResultEnrollment_rows (env : Env) (c : CanvasClient) (ctx : Context)
    (fuel : Nat) (user : User) (userID : Int) (enrollment : Enrollment)
    (s s' : AssignmentsState)
    (h : assignmentResultEnrollment env c ctx fuel user userID enrollment s = .ok s') :
    (∃ block, s'.results = s.results ++ block ∧
      IsAnalyticsBlockOf env c ctx fuel user userID enrollment block) ∧
      s'.out = s.out := by
  unfold IsAnalyticsBlockOf
  unfold assignmentResultEnrollment at h
  simp only [poll] at h
  cases hc : ctx s.world.polls with
  | some e => rw [hc] at h; simp at h
  | none =>
    rw [hc] at h
    simp only at h
    by_cases hnil : enrollment.IsNil = true
    · rw [if_pos hnil] at h
      cases h
    rw [if_neg hnil] at h
    by_cases hrole : enrollment.Role = StudentEnrollmentType
    · rw [if_neg (not_not.2 hrole)] at h
      simp only [if_pos hrole]
      rcases hg : GetAssignmentsDataOfUserByCourseID env c ctx userID enrollment.CourseID fuel
        { s.world with polls := s.world.polls + 1 } with ⟨r1, w2⟩
      rw [hg] at h
      cases r1 with
      | none => simp at h
      | some rep =>
        obtain ⟨dv, dc, de⟩ := rep
        cases de with
        | some e => simp at h
        | none =>
          simp only at h
          obtain ⟨blocks, h1, h2⟩ := forRange_blocks
            (assignmentResultRow env c user enrollment) (fun st => st.results)
            (fun ad block => List.Forall₂ (IsAssignmentResultOf user enrollment) [ad] block)
            (fun ad a b hab => by
              obtain ⟨⟨row, hr, hrow⟩, _⟩ := assignmentResultRow_rows env c user enrollment ad a b hab
              exact ⟨[row], hr, List.Forall₂.cons hrow List.Forall₂.nil⟩)
            _ _ _ h
          have h3 := forall2_flatten (IsAssignmentResultOf user enrollment)
            (fun ad => [ad]) _ _ h2
          rw [flatMap_single] at h3
          have hout := forRange_ok (assignmentResultRow env c user enrollment)
            (fun a b => b.out = a.out) (fun _ => rfl) (fun _ _ _ h1 h2 => h2.trans h1)
            (fun ad a b hab => (assignmentResultRow_rows env c user enrollment ad a b hab).2)
            _ _ _ h
          exact ⟨⟨blocks.flatten, h1, dv, dc, _, w2, hg, h3⟩, hout⟩
    · rw [if_pos hrole] at h
      simp only [if_neg hrole]
      simp only [Except.ok.injEq] at h
      subst h
      exact ⟨⟨[], by simp, rfl⟩, rfl⟩

theorem assignmentResultEnrollment_aborts (env : Env) (c : CanvasClient) (ctx : Context)
    (fuel : Nat) (user : User) (userID : Int) (enrollment : Enrollment) (s : AssignmentsState)
    (run : Run (List (Write AssignmentResult)))
    (h : assignmentResultEnrollment env c ctx fuel user userID enrollment s = .error run)
    (ho : OnlyErrors s.out) : ∀ o, run.1 = some o → OnlyErrors o := by
  unfold assignmentResultEnrollment at h
  simp only [poll] at h
  cases hc : ctx s.world.polls with
  | some e =>
    rw [hc] at h
    simp only [Except.error.injEq] at h
    subst h
    intro o hh
    simp only [Option.some.injEq] at hh
    subst hh
    exact OnlyErrors_error _ _ _ ho
  | none =>
    rw [hc] at h
    simp only at h
    by_cases hnil : enrollment.IsNil = true
    · rw [if_pos hnil] at h
      simp only [Except.error.injEq] at h
      subst h
      intro _
      simp [nilDereference]
    rw [if_neg hnil] at h
    by_cases hrole : enrollment.Role = StudentEnrollmentType
    · rw [if_neg (not_not.2 hrole)] at h
      rcases hg : GetAssignmentsDataOfUserByCourseID env c ctx userID enrollment.CourseID fuel
        { s.world with polls := s.world.polls + 1 } with ⟨r1, w2⟩
      rw [hg] at h
      cases r1 with
      | none =>
        simp only [Except.error.injEq] at h
        subst h
        intro o hh
        simp at hh
      | some rep =>
        obtain ⟨dv, dc, de⟩ := rep
        cases de with
        | some e =>
          simp only [Except.error.injEq] at h
          subst h
          intro o hh
          simp only [Option.some.injEq] at hh
          subst hh
          exact OnlyErrors_error _ _ _ ho
        | none =>
          simp only at h
          exact forRange_error (assignmentResultRow env c user enrollment)
            (fun a b => b.out = a.out)
            (fun st run => OnlyErrors st.out → ∀ o, run.1 = some o → OnlyErrors o)
            (fun a b e hab hq ha => hq (by rw [hab]; exact ha))
            (fun ad a b hab => (assignmentResultRow_rows env c user enrollment ad a b hab).2)
            (fun ad a e hae => assignmentResultRow_aborts env c user enrollment ad a e hae)
            _ _ _ h ho
    · rw [if_pos hrole] at h
      simp at h

/-- The loop of the assignment report: the rows it encodes, when it does, are the blocks of
the enrollments, in their order. -/
theorem assignment_loop_rows (env : Env) (c : CanvasClient) (r : Request) (fuel : Nat)
    (w3 w' : World) (user : User) (userID : Int) (enrollments : List Enrollment)
    (courses0 : IntMap Course)
    (out0 out : List (Write AssignmentResult)) (rows : List AssignmentResult)
    (hout0 : OnlyErrors out0)
    (hrun : (match forRange (assignmentResultEnrollment env c r.ctx fuel user userID) enrollments
          { courses := courses0, out := out0, world := w3 } with
        | .error run => run
        | .ok s => (some (s.out ++ encode r s.results), s.world)) = (some out, w'))
    (hrows : Write.json rows ∈ out) :
    ∃ blocks, rows = blocks.flatten ∧
      List.Forall₂ (IsAnalyticsBlockOf env c r.ctx fuel user userID) enrollments blocks := by
  cases hloop : forRange (assignmentResultEnrollment env c r.ctx fuel user userID) enrollments
      { courses := courses0, out := out0, world := w3 } with
  | error run =>
    rw [hloop] at hrun
    simp only at hrun
    have hq := forRange_error (assignmentResultEnrollment env c r.ctx fuel user userID)
      (fun a b => b.out = a.out)
      (fun st run => OnlyErrors st.out → ∀ o, run.1 = some o → OnlyErrors o)
      (fun a b e hab hq ha => hq (by rw [hab]; exact ha))
      (fun x a b hab => (assignmentResultEnrollment_rows env c r.ctx fuel user userID x a b hab).2)
      (fun x a e hae => assignmentResultEnrollment_aborts env c r.ctx fuel user userID x a e hae)
      _ _ _ hloop hout0 out (by rw [hrun])
    exact absurd hrows (hq rows)
  | ok s =>
    rw [hloop] at hrun
    simp only [Prod.mk.injEq, Option.some.injEq] at hrun
    have hso : s.out = out0 := forRange_ok (assignmentResultEnrollment env c r.ctx fuel user userID)
      (fun a b => b.out = a.out) (fun _ => rfl) (fun _ _ _ h1 h2 => h2.trans h1)
      (fun x a b hab => (assignmentResultEnrollment_rows env c r.ctx fuel user userID x a b hab).2)
      _ _ _ hloop
    rw [← hrun.1] at hrows
    have hr := json_mem_encode r s.out s.results rows (by rw [hso]; exact hout0) hrows
    obtain ⟨blocks, h1, h2⟩ := forRange_blocks
      (assignmentResultEnrollment env c r.ctx fuel user userID) (fun st => st.results)
      (IsAnalyticsBlockOf env c r.ctx fuel user userID)
      (fun x a b hab => (assignmentResultEnrollment_rows env c r.ctx fuel user userID x a b hab).1)
      _ _ _ hloop
    simp only [List.nil_append] at h1
    exact ⟨blocks, by rw [hr, h1], h2⟩

/-- The assignment report: when it encodes rows, the three calls before its loop returned
without a fatal error, and the rows are the blocks of the enrollments it was given. -/
theorem assignment_report_blocks (env : Env) (c : CanvasClient) (r : Request) (fuel : Nat)
    (w : World) (userID : Int) (out : List (Write AssignmentResult))
    (rows : List AssignmentResult) (w' : World)
    (hid : Atoi r.urlParam = some userID)
    (hrun : GetStudentAssignmentsResultByUserID env c r fuel w = (some out, w'))
    (hrows : Write.json rows ∈ out) :
    ∃ user w1 courses code1 w2 enrollments code2 w3,
      GetUserByID env c userID w = (user, w1) ∧
      GetCoursesByUserID env c r.ctx userID fuel w1 = (some ⟨courses, code1, none⟩, w2) ∧
      GetEnrollmentsByUserID env c r.ctx userID
          [ActiveEnrollmentState, CompletedEnrollmentState] fuel w2 =
        (some ⟨enrollments, code2, none⟩, w3) ∧
      ∃ blocks, rows = blocks.flatten ∧
        List.Forall₂ (IsAnalyticsBlockOf env c r.ctx fuel user.val userID)
          (enrollments.getD []) blocks := by
  have hne : r.urlParam ≠ "" := by
    intro h
    rw [h, Atoi_empty] at hid
    simp at hid
  unfold GetStudentAssignmentsResultByUserID at hrun
  rw [if_neg hne, hid] at hrun
  simp only at hrun
  rcases hu : GetUserByID env c userID w with ⟨⟨uv, uc, ue⟩, w1⟩
  rw [hu] at hrun
  simp only at hrun
  have hout0 : OnlyErrors (match ue with
      | some _ => [Write.error s!"error fetching user: {Itoa userID}" uc]
      | none => ([] : List (Write AssignmentResult))) := by
    cases ue with
    | some e => exact OnlyErrors_error [] _ _ OnlyErrors_nil
    | none => exact OnlyErrors_nil
  rcases hc : GetCoursesByUserID env c r.ctx userID fuel w1 with ⟨r2, w2⟩
  rw [hc] at hrun
  cases r2 with
  | none => simp at hrun
  | some rep2 =>
    obtain ⟨cv, cc, ce⟩ := rep2
    cases ce with
    | some e =>
      simp only [Prod.mk.injEq, Option.some.injEq] at hrun
      rw [← hrun.1] at hrows
      exact absurd hrows (OnlyErrors_error _ _ _ hout0 rows)
    | none =>
      simp only at hrun
      split at hrun
      · simp [nilDereference] at hrun
      rcases he : GetEnrollmentsByUserID env c r.ctx userID
        [ActiveEnrollmentState, CompletedEnrollmentState] fuel w2 with ⟨r3, w3⟩
      rw [he] at hrun
      cases r3 with
      | none => simp at hrun
      | some rep3 =>
        obtain ⟨ev, ec, ee⟩ := rep3
        cases ee with
        | some e =>
          simp only [Prod.mk.injEq, Option.some.injEq] at hrun
          rw [← hrun.1] at hrows
          exact absurd hrows (OnlyErrors_error _ _ _ hout0 rows)
        | none =>
          simp only at hrun
          exact ⟨⟨uv, uc, ue⟩, w1, cv, cc, w2, ev, ec, w3, rfl, hc, he,
            assignment_loop_rows env c r fuel w3 w' uv userID _ _ _ out rows hout0 hrun hrows⟩

/-- The discrepancy marker of the row of an analytics record. -/
theorem assignmentResult_discrepancy (user : User) (enrollment : Enrollment)
    (ad : AssignmentData) (row : AssignmentResult)
    (h : IsAssignmentResultOf user enrollment ad row) :
    row.Score = ad.Submission.Score ∧ row.PointsPossible = ad.PointsPossible ∧
      (row.Discrepancy = "ERROR" ↔ ad.Submission.Score.Float64 > ad.PointsPossible.Float64) ∧
      (¬ ad.Submission.Score.Float64 > ad.PointsPossible.Float64 → row.Discrepancy = "") := by
  obtain ⟨course, rfl⟩ := h
  unfold assignmentResult
  by_cases hgt : ad.Submission.Score.Float64 > ad.PointsPossible.Float64
  · rw [if_pos hgt]
    simp [hgt]
  · rw [if_neg hgt]
    simp only [hgt, iff_false, not_false_eq_true, true_implies, and_true, true_and]
    decide

/-- C13 (the discrepancy marker).  Every row that a run of
`GetStudentAssignmentsResultByUserID` encodes was built from a record `ad` that a call of
`GetAssignmentsDataOfUserByCourseID` for this user returned; it carries the submission score
and the points possible of `ad`, and its discrepancy field is `ERROR` if and only if the
score is greater than the points possible, and the empty string otherwise.  A record with
score 95 and 90 points possible gives `ERROR`, one with score 85 and 90 points possible
gives the empty string. -/
theorem discrepancy_marker (env : Env) (c : CanvasClient) (r : Request) (fuel : Nat)
    (w : World) (userID : Int) (out : List (Write AssignmentResult))
    (rows : List AssignmentResult) (w' : World)
    (hid : Atoi r.urlParam = some userID)
    (hrun : GetStudentAssignmentsResultByUserID env c r fuel w = (some out, w'))
    (hrows : Write.json rows ∈ out) :
    (∀ row ∈ rows, ∃ (courseID : Int) (data : Option (List AssignmentData)) (code : Nat)
        (w0 w1 : World) (ad : AssignmentData),
      GetAssignmentsDataOfUserByCourseID env c r.ctx userID courseID fuel w0 =
          (some ⟨data, code, none⟩, w1) ∧
        ad ∈ data.getD [] ∧
        row.Score = ad.Submission.Score ∧ row.PointsPossible = ad.PointsPossible ∧
        (row.Discrepancy = "ERROR" ↔
          ad.Submission.Score.Float64 > ad.PointsPossible.Float64) ∧
        (¬ ad.Submission.Score.Float64 > ad.PointsPossible.Float64 → row.Discrepancy = "")) ∧
    (∀ (user : User) (enrollment : Enrollment),
      (assignmentResult user enrollment
          { PointsPossible := { Float64 := 90, Valid := true },
            Submission := { Score := { Float64 := 95, Valid := true } } }).Discrepancy =
        "ERROR" ∧
      (assignmentResult user enrollment
          { PointsPossible := { Float64 := 90, Valid := true },
            Submission := { Score := { Float64 := 85, Valid := true } } }).Discrepancy = "") := by
  constructor
  · obtain ⟨user, w1, courses, code1, w2, enrollments, code2, w3, _, _, _, blocks, hflat, hblocks⟩ :=
      assignment_report_blocks env c r fuel w userID out rows w' hid hrun hrows
    intro row hrow
    rw [hflat, List.mem_flatten] at hrow
    obtain ⟨block, hblock, hrb⟩ := hrow
    obtain ⟨e, _, hB⟩ := forall2_mem_right _ _ _ hblocks block hblock
    unfold IsAnalyticsBlockOf at hB
    by_cases hrole : e.Role = StudentEnrollmentType
    · rw [if_pos hrole] at hB
      obtain ⟨data, code, w0, w1', hg, hf⟩ := hB
      obtain ⟨ad, had, hrel⟩ := forall2_mem_right _ _ _ hf row hrb
      exact ⟨e.CourseID, data, code, w0, w1', ad, hg, had,
        assignmentResult_discrepancy user.val e ad row hrel⟩
    · rw [if_neg hrole] at hB
      rw [hB] at hrb
      simp at hrb
  · intro user enrollment
    constructor
    · unfold assignmentResult
      rw [if_pos (by norm_num)]
    · unfold assignmentResult
      rw [if_neg (by norm_num)]

/-- C13 at user 43 of the second upstream: the Essay scored 95 of 90 and is marked, the
Quiz scored 85 of 90 and is not. -/
theorem discrepancy_marker_witness :
    (GetStudentAssignmentsResultByUserID reportEnv exampleClient
        { urlParam := "43", ctx := background } 5 {}).1 = some [.json exampleResults43] ∧
    (exampleResults43.map fun row =>
        (row.Title, row.Score.Float64, row.PointsPossible.Float64, row.Discrepancy)) =
      [("Essay", 95, 90, "ERROR"), ("Quiz", 85, 90, ""), ("Lab", 0, 10, "")] ∧
    ∀ row ∈ exampleResults43, ∃ (courseID : Int) (data : Option (List AssignmentData))
        (code : Nat) (w0 w1 : World) (ad : AssignmentData),
      GetAssignmentsDataOfUserByCourseID reportEnv exampleClient background 43 courseID 5 w0 =
          (some ⟨data, code, none⟩, w1) ∧
        ad ∈ data.getD [] ∧
        row.Score = ad.Submission.Score ∧ row.PointsPossible = ad.PointsPossible ∧
        (row.Discrepancy = "ERROR" ↔
          ad.Submission.Score.Float64 > ad.PointsPossible.Float64) ∧
        (¬ ad.Submission.Score.Float64 > ad.PointsPossible.Float64 → row.Discrepancy = "") := by
  have h4 : GetStudentAssignmentsResultByUserID reportEnv exampleClient
      { urlParam := "43", ctx := background } 5 {} =
      (some [.json exampleResults43],
        (GetStudentAssignmentsResultByUserID reportEnv exampleClient
          { urlParam := "43", ctx := background } 5 {}).2) := by
    decide
  exact ⟨by rw [h4], by decide,
    (discrepancy_marker reportEnv exampleClient { urlParam := "43", ctx := background } 5 {} 43
      _ exampleResults43 _ (by decide) h4 (by simp)).1⟩

theorem forall2_imp_mem {α β : Type} (R S : α → β → Prop) :
    ∀ (xs : List α) (ys : List β), List.Forall₂ R xs ys →
      (∀ x ∈ xs, ∀ y, R x y → S x y) → List.Forall₂ S xs ys := by
  intro xs ys h
  induction h with
  | nil => intro _; exact List.Forall₂.nil
  | cons h1 _ ih =>
    intro himp
    exact List.Forall₂.cons (himp _ (by simp) _ h1)
      (ih fun x hx y hxy => himp x (by simp [hx]) y hxy)

theorem analyticsCalls_append (a b : List Call) :
    analyticsCalls (a ++ b) = analyticsCalls a ++ analyticsCalls b := by
  simp [analyticsCalls, List.filterMap_append]

theorem enrollmentStateFilters_append (a b : List Call) :
    enrollmentStateFilters (a ++ b) = enrollmentStateFilters a ++ enrollmentStateFilters b := by
  simp [enrollmentStateFilters, List.filterMap_append]

theorem sectionCalls_append (a b : List Call) :
    sectionCalls (a ++ b) = sectionCalls a ++ sectionCalls b := by
  simp [sectionCalls, List.filterMap_append]

/-- Calls of `GetCourseByID` are no calls for analytics, for enrollments of a user, or for a
section. -/
theorem course_calls_only (courseID : Int) :
    ∀ more : List Call, (∀ call ∈ more, call = Call.GetCourseByID courseID) →
      analyticsCalls more = [] ∧ enrollmentStateFilters more = [] ∧ sectionCalls more = [] := by
  intro more
  induction more with
  | nil => intro _; exact ⟨rfl, rfl, rfl⟩
  | cons x xs ih =>
    intro h
    obtain ⟨h1, h2, h3⟩ := ih fun call hc => h call (by simp [hc])
    have hx : x = Call.GetCourseByID courseID := h x (by simp)
    subst hx
    refine ⟨?_, ?_, ?_⟩
    · simpa [analyticsCalls] using h1
    · simpa [enrollmentStateFilters] using h2
    · simpa [sectionCalls] using h3

theorem assignmentResultRow_calls (env : Env) (c : CanvasClient) (user : User)
    (enrollment : Enrollment) (ad : AssignmentData) (s s' : AssignmentsState)
    (h : assignmentResultRow env c user enrollment ad s = .ok s') :
    ∃ more, s'.world.calls = s.world.calls ++ more ∧ analyticsCalls more = [] ∧
      enrollmentStateFilters more = [] := by
  obtain ⟨more, hm, hok, _⟩ := resolveCourse_calls env c enrollment.CourseID s.courses s.world
  unfold assignmentResultRow at h
  by_cases hnil : ad.IsNil = true
  · rw [if_pos hnil] at h
    cases h
  rw [if_neg hnil] at h
  cases hres : resolveCourse env c enrollment.CourseID s.courses s.world with
  | error e =>
    rw [hres] at h
    obtain ⟨code, w1⟩ := e
    simp at h
  | ok v =>
    rw [hres] at h
    obtain ⟨course, courses, w1⟩ := v
    simp only [Except.ok.injEq] at h
    subst h
    obtain ⟨h1, h2, _⟩ := course_calls_only enrollment.CourseID more hm
    exact ⟨more, hok course courses w1 hres, h1, h2⟩

theorem assignmentResultEnrollment_calls (env : Env) (c : CanvasClient) (ctx : Context)
    (fuel : Nat) (user : User) (userID : Int) (enrollment : Enrollment)
    (s s' : AssignmentsState)
    (h : assignmentResultEnrollment env c ctx fuel user userID enrollment s = .ok s') :
    ∃ more, s'.world.calls = s.world.calls ++ more ∧
      analyticsCalls more =
        (if enrollment.Role = StudentEnrollmentType then [(userID, enrollment.CourseID)]
          else []) ∧
      enrollmentStateFilters more = [] := by
  unfold assignmentResultEnrollment at h
  simp only [poll] at h
  cases hc : ctx s.world.polls with
  | some e => rw [hc] at h; simp at h
  | none =>
    rw [hc] at h
    simp only at h
    by_cases hnil : enrollment.IsNil = true
    · rw [if_pos hnil] at h
      cases h
    rw [if_neg hnil] at h
    by_cases hrole : enrollment.Role = StudentEnrollmentType
    · rw [if_neg (not_not.2 hrole)] at h
      rw [if_pos hrole]
      have hcalls := GetAssignmentsDataOfUserByCourseID_calls env c ctx userID
        enrollment.CourseID fuel { s.world with polls := s.world.polls + 1 }
      rcases hg : GetAssignmentsDataOfUserByCourseID env c ctx userID enrollment.CourseID fuel
        { s.world with polls := s.world.polls + 1 } with ⟨r1, w2⟩
      rw [hg] at h hcalls
      simp only at hcalls
      cases r1 with
      | none => simp at h
      | some rep =>
        obtain ⟨dv, dc, de⟩ := rep
        cases de with
        | some e => simp at h
        | none =>
          simp only at h
          obtain ⟨more, h1, h2, h3⟩ := forRange_ok (assignmentResultRow env c user enrollment)
            (fun a b => ∃ more, b.world.calls = a.world.calls ++ more ∧
              analyticsCalls more = [] ∧ enrollmentStateFilters more = [])
            (fun _ => ⟨[], by simp, rfl, rfl⟩)
            (fun a b d ⟨m1, h1, h2, h3⟩ ⟨m2, h4, h5, h6⟩ =>
              ⟨m1 ++ m2, by rw [h4, h1, List.append_assoc],
                by rw [analyticsCalls_append, h2, h5]; rfl,
                by rw [enrollmentStateFilters_append, h3, h6]; rfl⟩)
            (fun ad a b hab => assignmentResultRow_calls env c user enrollment ad a b hab)
            _ _ _ h
          refine ⟨Call.GetAssignmentsDataOfUserByCourseID userID enrollment.CourseID :: more,
            ?_, ?_, ?_⟩
          · rw [h1]
            show w2.calls ++ more = _
            rw [hcalls]
            simp
          · show analyticsCalls ([_] ++ more) = _
            rw [analyticsCalls_append, h2]
            rfl
          · show enrollmentStateFilters ([_] ++ more) = _
            rw [enrollmentStateFilters_append, h3]
            rfl
    · rw [if_pos hrole] at h
      rw [if_neg hrole]
      simp only [Except.ok.injEq] at h
      subst h
      exact ⟨[], by simp, rfl, rfl⟩

/-- The calls for analytics that the loop of the assignment report makes when it runs to
its end: one for each enrollment whose role is `StudentEnrollment`, in their order. -/
theorem assignment_loop_calls (env : Env) (c : CanvasClient) (ctx : Context) (fuel : Nat)
    (user : User) (userID : Int) :
    ∀ (enrollments : List Enrollment) (s s' : AssignmentsState),
      forRange (assignmentResultEnrollment env c ctx fuel user userID) enrollments s = .ok s' →
      ∃ more, s'.world.calls = s.world.calls ++ more ∧
        analyticsCalls more =
          (studentEnrollments enrollments).map (fun e => (userID, e.CourseID)) ∧
        enrollmentStateFilters more = [] := by
  intro enrollments
  induction enrollments with
  | nil =>
    intro s s' h
    simp only [forRange, Except.ok.injEq] at h
    subst h
    exact ⟨[], by simp, rfl, rfl⟩
  | cons e es ih =>
    intro s s' h
    simp only [forRange] at h
    cases hb : assignmentResultEnrollment env c ctx fuel user userID e s with
    | error err => rw [hb] at h; simp at h
    | ok s1 =>
      rw [hb] at h
      obtain ⟨m1, h1, h2, h3⟩ :=
        assignmentResultEnrollment_calls env c ctx fuel user userID e s s1 hb
      obtain ⟨m2, h4, h5, h6⟩ := ih s1 s' h
      refine ⟨m1 ++ m2, by rw [h4, h1, List.append_assoc], ?_, ?_⟩
      · rw [analyticsCalls_append, h2, h5]
        unfold studentEnrollments
        by_cases hrole : e.Role = StudentEnrollmentType
        · simp [List.filter_cons, hrole]
        · simp [List.filter_cons, hrole]
      · rw [enrollmentStateFilters_append, h3, h6]
        rfl

theorem resolveCourse_total (env : Env) (c : CanvasClient) (courseID : Int)
    (courses : IntMap Course) (w : World)
    (h : courses.lookup courseID = none → CourseResolves env c courseID) :
    ∃ course courses1 w1, resolveCourse env c courseID courses w = .ok (course, courses1, w1) ∧
      ∀ k, courses.lookup k ≠ none → courses1.lookup k ≠ none := by
  unfold resolveCourse
  cases hl : courses.lookup courseID with
  | some course => exact ⟨course, courses, w, rfl, fun _ hk => hk⟩
  | none =>
    have he := h hl w
    rcases hg : GetCourseByID env c courseID w with ⟨⟨cv, cc, ce⟩, w1⟩
    rw [hg] at he
    simp only at he
    subst he
    refine ⟨cv, courses.set courseID cv, w1, rfl, ?_⟩
    intro k hk
    rw [lookup_set]
    split
    · simp
    · exact hk

theorem assignmentResultRow_total (env : Env) (c : CanvasClient) (user : User)
    (enrollment : Enrollment) (ad : AssignmentData) (s : AssignmentsState)
    (hnil : ad.IsNil = false)
    (h : s.courses.lookup enrollment.CourseID = none → CourseResolves env c enrollment.CourseID) :
    ∃ s', assignmentResultRow env c user enrollment ad s = .ok s' ∧ s'.out = s.out ∧
      ∀ k, s.courses.lookup k ≠ none → s'.courses.lookup k ≠ none := by
  obtain ⟨course, courses1, w1, hres, hk⟩ :=
    resolveCourse_total env c enrollment.CourseID s.courses s.world h
  unfold assignmentResultRow
  rw [if_neg (by simp [hnil]), hres]
  exact ⟨_, rfl, rfl, hk⟩

theorem assignmentResultEnrollment_total (env : Env) (c : CanvasClient) (ctx : Context)
    (fuel : Nat) (user : User) (userID : Int) (enrollment : Enrollment)
    (courses0 : IntMap Course) (out0 : List (Write AssignmentResult))
    (data : List AssignmentData) (hctx : ∀ n, ctx n = none)
    (hnil : enrollment.IsNil = false)
    (h : enrollment.Role = StudentEnrollmentType →
      AnalyticsAnswered env c ctx fuel userID enrollment.CourseID data ∧
        (∀ ad ∈ data, ad.IsNil = false) ∧
        (courses0.lookup enrollment.CourseID = none →
          CourseResolves env c enrollment.CourseID))
    (s : AssignmentsState)
    (hs : s.out = out0 ∧ ∀ k, courses0.lookup k ≠ none → s.courses.lookup k ≠ none) :
    ∃ s', assignmentResultEnrollment env c ctx fuel user userID enrollment s = .ok s' ∧
      (s'.out = out0 ∧ ∀ k, courses0.lookup k ≠ none → s'.courses.lookup k ≠ none) := by
  unfold assignmentResultEnrollment
  simp only [poll, hctx]
  rw [if_neg (by simp [hnil])]
  by_cases hrole : enrollment.Role = StudentEnrollmentType
  · rw [if_neg (not_not.2 hrole)]
    obtain ⟨hdata, hdnil, hcourse⟩ := h hrole
    obtain ⟨code, w2, hg⟩ := hdata { s.world with polls := s.world.polls + 1 }
    rw [hg]
    simp only
    exact forRange_total (assignmentResultRow env c user enrollment)
      (fun st => st.out = out0 ∧ ∀ k, courses0.lookup k ≠ none → st.courses.lookup k ≠ none) _
      (fun ad had st hst => by
        obtain ⟨s1, h1, h2, h3⟩ := assignmentResultRow_total env c user enrollment ad st
          (hdnil ad had)
          (fun hnone => hcourse (by
            by_contra hne
            exact hst.2 _ hne hnone))
        exact ⟨s1, h1, h2.trans hst.1, fun k hk => h3 k (hst.2 k hk)⟩)
      _ hs
  · rw [if_pos hrole]
    exact ⟨_, rfl, hs⟩

theorem studentEnrollments_flatMap {β : Type} (f : Enrollment → List β)
    (enrollments : List Enrollment) :
    (enrollments.flatMap fun e => if e.Role = StudentEnrollmentType then f e else []) =
      (studentEnrollments enrollments).flatMap f := by
  unfold studentEnrollments
  induction enrollments with
  | nil => rfl
  | cons e es ih =>
    by_cases hrole : e.Role = StudentEnrollmentType
    · simp only [List.flatMap_cons, List.filter_cons, hrole, if_true, beq_self_eq_true, ih]
    · have hb : (e.Role == StudentEnrollmentType) = false := by simpa using hrole
      simp only [List.flatMap_cons, List.filter_cons, hrole, if_false, hb, ih,
        List.nil_append, Bool.false_eq_true]

theorem mem_studentEnrollments (enrollments : List Enrollment) (e : Enrollment) :
    e ∈ studentEnrollments enrollments ↔ e ∈ enrollments ∧ e.Role = StudentEnrollmentType := by
  simp [studentEnrollments]

/-- C20 as stated fails: every upstream call succeeds, and a list is the JSON text
`[null]`.  With such a course list of user 43, `GetUserByID` and `GetCoursesByUserID` return
without an error, the latter a slice with one nil pointer, and the handler panics when it
reads the id of that course to fill its map, after two GETs.  With such an enrollment list
it panics when it reads the role of the enrollment, after three GETs, and with such a list
of analytics records when it reads the title of the record, after four GETs.  In the three
runs no row is written. -/
theorem assignment_rows_of_students_counterexample :
    ((GetUserByID nullCoursesEnv exampleClient 43 {}).1.err = none ∧
      (GetCoursesByUserID nullCoursesEnv exampleClient background 43 5
          (GetUserByID nullCoursesEnv exampleClient 43 {}).2).1 =
        some ⟨some [{ IsNil := true }], 200, none⟩ ∧
      (GetStudentAssignmentsResultByUserID nullCoursesEnv exampleClient
          { urlParam := "43", ctx := background } 5 {}).1 = none ∧
      (GetStudentAssignmentsResultByUserID nullCoursesEnv exampleClient
          { urlParam := "43", ctx := background } 5 {}).2.panicked = true ∧
      (GetStudentAssignmentsResultByUserID nullCoursesEnv exampleClient
          { urlParam := "43", ctx := background } 5 {}).2.log.length = 2) ∧
    ((GetEnrollmentsByUserID nullEnrollmentsEnv exampleClient background 43
          [ActiveEnrollmentState, CompletedEnrollmentState] 5 {}).1 =
        some ⟨some [{ IsNil := true }], 200, none⟩ ∧
      (GetStudentAssignmentsResultByUserID nullEnrollmentsEnv exampleClient
          { urlParam := "43", ctx := background } 5 {}).1 = none ∧
      (GetStudentAssignmentsResultByUserID nullEnrollmentsEnv exampleClient
          { urlParam := "43", ctx := background } 5 {}).2.panicked = true ∧
      (GetStudentAssignmentsResultByUserID nullEnrollmentsEnv exampleClient
          { urlParam := "43", ctx := background } 5 {}).2.log.length = 3) ∧
    ((GetAssignmentsDataOfUserByCourseID nullAnalyticsEnv exampleClient background 43 8 5
          {}).1 = some ⟨some [{ IsNil := true }], 200, none⟩ ∧
      (GetStudentAssignmentsResultByUserID nullAnalyticsEnv exampleClient
          { urlParam := "43", ctx := background } 5 {}).1 = none ∧
      (GetStudentAssignmentsResultByUserID nullAnalyticsEnv exampleClient
          { urlParam := "43", ctx := background } 5 {}).2.panicked = true ∧
      (GetStudentAssignmentsResultByUserID nullAnalyticsEnv exampleClient
          { urlParam := "43", ctx := background } 5 {}).2.log.length = 4) := by
  decide

/-- C20, amended (the rows of the assignment report).  When the user id is an integer,
`GetUserByID`, `GetCoursesByUserID` and `GetEnrollmentsByUserID` return without an error,
no element of the course list and of the enrollment list is a nil pointer, for every
enrollment with the role `StudentEnrollment` the call for its analytics returns the records
`data e`, none of them a nil pointer, and its course is in the course list of the user or
can be fetched, the context is
never cancelled and the rows can be encoded, then `GetStudentAssignmentsResultByUserID`
writes the encoded rows and nothing else; the rows pair off, in order, with the analytics
records of the enrollments whose role is exactly `StudentEnrollment`, enrollments in upstream
order; the calls for analytics are those for these enrollments, one each, in order; and the
one call of `GetEnrollmentsByUserID` has the state filter active, completed. -/
theorem assignment_rows_of_students (env : Env) (c : CanvasClient) (r : Request) (fuel : Nat)
    (w : World) (userID : Int) (user : User) (code0 : Nat) (w1 : World)
    (courses : Option (List Course)) (code1 : Nat) (w2 : World)
    (enrollments : Option (List Enrollment)) (code2 : Nat) (w3 : World)
    (data : Enrollment → List AssignmentData)
    (hid : Atoi r.urlParam = some userID)
    (huser : GetUserByID env c userID w = (⟨user, code0, none⟩, w1))
    (hcourses : GetCoursesByUserID env c r.ctx userID fuel w1 =
      (some ⟨courses, code1, none⟩, w2))
    (henrollments : GetEnrollmentsByUserID env c r.ctx userID
      [ActiveEnrollmentState, CompletedEnrollmentState] fuel w2 =
        (some ⟨enrollments, code2, none⟩, w3))
    (hcnil : ∀ course ∈ courses.getD [], course.IsNil = false)
    (henil : ∀ e ∈ enrollments.getD [], e.IsNil = false)
    (hdata : ∀ e ∈ studentEnrollments (enrollments.getD []),
      AnalyticsAnswered env c r.ctx fuel userID e.CourseID (data e) ∧
        (∀ ad ∈ data e, ad.IsNil = false) ∧
        ((courseByCourseID (courses.getD [])).lookup e.CourseID = none →
          CourseResolves env c e.CourseID))
    (hctx : ∀ n, r.ctx n = none) (henc : r.encodeErr = false) :
    ∃ rows w', GetStudentAssignmentsResultByUserID env c r fuel w = (some [.json rows], w') ∧
      List.Forall₂
        (fun (p : Enrollment × AssignmentData) (row : AssignmentResult) =>
          IsAssignmentResultOf user p.1 p.2 row)
        ((studentEnrollments (enrollments.getD [])).flatMap fun e =>
          (data e).map fun ad => (e, ad)) rows ∧
      analyticsCalls (callsSince w w') =
        (studentEnrollments (enrollments.getD [])).map (fun e => (userID, e.CourseID)) ∧
      enrollmentStateFilters (callsSince w w') =
        [[ActiveEnrollmentState, CompletedEnrollmentState]] := by
  have hne : r.urlParam ≠ "" := by
    intro h
    rw [h, Atoi_empty] at hid
    simp at hid
  obtain ⟨s, hloop, hout, _⟩ := forRange_total
    (assignmentResultEnrollment env c r.ctx fuel user userID)
    (fun st => st.out = [] ∧
      ∀ k, (courseByCourseID (courses.getD [])).lookup k ≠ none → st.courses.lookup k ≠ none)
    (enrollments.getD [])
    (fun e he st hst =>
      assignmentResultEnrollment_total env c r.ctx fuel user userID e
        (courseByCourseID (courses.getD [])) [] (data e) hctx (henil e he)
        (fun hrole => hdata e ((mem_studentEnrollments _ _).2 ⟨he, hrole⟩)) st hst)
    { courses := courseByCourseID (courses.getD []), out := [], world := w3 }
    ⟨rfl, fun _ hk => hk⟩
  have hrun : GetStudentAssignmentsResultByUserID env c r fuel w =
      (some [.json s.results], s.world) := by
    unfold GetStudentAssignmentsResultByUserID
    rw [if_neg hne, hid]
    simp only
    rw [huser]
    simp only
    rw [hcourses]
    simp only
    rw [if_neg (any_not_of_forall _ _ hcnil), henrollments]
    simp only
    rw [hloop]
    simp only [hout, encode, henc, List.nil_append]
    rfl
  obtain ⟨user', w1', courses', code1', w2', enrollments', code2', w3', hu', hc', he',
      blocks, hflat, hblocks⟩ :=
    assignment_report_blocks env c r fuel w userID _ s.results _ hid hrun (by simp)
  rw [huser] at hu'
  simp only [Prod.mk.injEq] at hu'
  obtain ⟨hu1, hu2⟩ := hu'
  subst hu1 hu2
  rw [hcourses] at hc'
  simp only [Prod.mk.injEq, Option.some.injEq, Reply.mk.injEq] at hc'
  obtain ⟨⟨hc1, _⟩, hc2⟩ := hc'
  subst hc2
  rw [henrollments] at he'
  simp only [Prod.mk.injEq, Option.some.injEq, Reply.mk.injEq] at he'
  obtain ⟨⟨he1, _⟩, he2⟩ := he'
  subst he1 he2
  refine ⟨s.results, s.world, hrun, ?_, ?_, ?_⟩
  · have hb := forall2_imp_mem _
      (fun (e : Enrollment) (block : List AssignmentResult) =>
        List.Forall₂
          (fun (p : Enrollment × AssignmentData) (row : AssignmentResult) =>
            IsAssignmentResultOf user p.1 p.2 row)
          (if e.Role = StudentEnrollmentType then (data e).map fun ad => (e, ad) else [])
          block)
      _ _ hblocks
      (fun e he block hB => by
        unfold IsAnalyticsBlockOf at hB
        by_cases hrole : e.Role = StudentEnrollmentType
        · rw [if_pos hrole] at hB ⊢
          obtain ⟨data', code, w0, w1', hg, hf⟩ := hB
          obtain ⟨code', w1b, hg'⟩ :=
            (hdata e ((mem_studentEnrollments _ _).2 ⟨he, hrole⟩)).1 w0
          rw [hg'] at hg
          simp only [Prod.mk.injEq, Option.some.injEq, Reply.mk.injEq] at hg
          rw [← hg.1.1] at hf
          rw [List.forall₂_map_left_iff]
          exact hf
        · rw [if_neg hrole] at hB ⊢
          rw [hB]
          exact List.Forall₂.nil)
    have h3 := forall2_flatten
      (fun (p : Enrollment × AssignmentData) (row : AssignmentResult) =>
        IsAssignmentResultOf user p.1 p.2 row)
      (fun (e : Enrollment) =>
        if e.Role = StudentEnrollmentType then (data e).map fun ad => (e, ad) else [])
      _ _ hb
    rw [studentEnrollments_flatMap] at h3
    rw [hflat]
    exact h3
  · obtain ⟨more, h1, h2, _⟩ :=
      assignment_loop_calls env c r.ctx fuel user userID _ _ _ hloop
    have hw1 := GetUserByID_calls env c userID w
    rw [huser] at hw1
    have hw2 := GetCoursesByUserID_calls env c r.ctx userID fuel w1
    rw [hcourses] at hw2
    have hw3 := GetEnrollmentsByUserID_calls env c r.ctx userID
      [ActiveEnrollmentState, CompletedEnrollmentState] fuel w2
    rw [henrollments] at hw3
    simp only at hw1 hw2 hw3 h1
    have hsince : callsSince w s.world =
        [Call.GetUserByID userID, Call.GetCoursesByUserID userID,
          Call.GetEnrollmentsByUserID userID
            [ActiveEnrollmentState, CompletedEnrollmentState]] ++ more := by
      apply callsSince_append
      rw [h1, hw3, hw2, hw1]
      simp
    rw [hsince, analyticsCalls_append, h2]
    rfl
  · obtain ⟨more, h1, _, h3⟩ :=
      assignment_loop_calls env c r.ctx fuel user userID _ _ _ hloop
    have hw1 := GetUserByID_calls env c userID w
    rw [huser] at hw1
    have hw2 := GetCoursesByUserID_calls env c r.ctx userID fuel w1
    rw [hcourses] at hw2
    have hw3 := GetEnrollmentsByUserID_calls env c r.ctx userID
      [ActiveEnrollmentState, CompletedEnrollmentState] fuel w2
    rw [henrollments] at hw3
    simp only at hw1 hw2 hw3 h1
    have hsince : callsSince w s.world =
        [Call.GetUserByID userID, Call.GetCoursesByUserID userID,
          Call.GetEnrollmentsByUserID userID
            [ActiveEnrollmentState, CompletedEnrollmentState]] ++ more := by
      apply callsSince_append
      rw [h1, hw3, hw2, hw1]
      simp
    rw [hsince, enrollmentStateFilters_append, h3]
    rfl

/-- The second upstream of the examples answers the analytics of user 43 in course 8. -/
theorem reportEnv_analytics8 :
    AnalyticsAnswered reportEnv exampleClient background 5 43 8 exampleAnalytics8 := by
  intro w
  have hg : GetAssignmentsDataOfUserByCourseID reportEnv exampleClient background 43 8 5 w = _ :=
    paginate_one_page reportEnv reportEnv.unmarshalAssignmentData background _ 5 _ _
      { StatusCode := 200, Body := "analytics-43-8" } exampleAnalytics8 (by decide) rfl
      ⟨rfl, (by decide : reportRespond (assignmentsDataOfUserByCourseIDUrl exampleClient 43 8) =
        .response { StatusCode := 200, Body := "analytics-43-8" })⟩
      ⟨rfl, rfl, by decide⟩ (by decide)
  exact ⟨200, _, hg⟩

/-- The second upstream of the examples answers the analytics of user 43 in course 9. -/
theorem reportEnv_analytics9 :
    AnalyticsAnswered reportEnv exampleClient background 5 43 9 exampleAnalytics9 := by
  intro w
  have hg : GetAssignmentsDataOfUserByCourseID reportEnv exampleClient background 43 9 5 w = _ :=
    paginate_one_page reportEnv reportEnv.unmarshalAssignmentData background _ 5 _ _
      { StatusCode := 200, Body := "analytics-43-9" } exampleAnalytics9 (by decide) rfl
      ⟨rfl, (by decide : reportRespond (assignmentsDataOfUserByCourseIDUrl exampleClient 43 9) =
        .response { StatusCode := 200, Body := "analytics-43-9" })⟩
      ⟨rfl, rfl, by decide⟩ (by decide)
  exact ⟨200, _, hg⟩

/-- The second upstream of the examples knows course 9. -/
theorem reportEnv_course9 : CourseResolves reportEnv exampleClient 9 := by
  intro w
  exact (GetCourseByID_contract reportEnv exampleClient 9 w).1.2
    ⟨{ StatusCode := 200, Body := "course-9" }, _,
      ⟨rfl, (by decide : reportRespond (courseByIDUrl exampleClient 9) =
        .response { StatusCode := 200, Body := "course-9" })⟩, rfl, rfl, rfl⟩

/-- C20 at user 43 of the second upstream: a student enrollment in course 8 with two
analytics records, a teacher enrollment in course 9, which is skipped, and a student
enrollment in course 9 with one record. -/
theorem assignment_rows_of_students_witness :
    ((∀ e ∈ exampleEnrollments43, e.IsNil = false) ∧
      (∀ ad ∈ exampleAnalytics8 ++ exampleAnalytics9, ad.IsNil = false) ∧
      AnalyticsAnswered reportEnv exampleClient background 5 43 8 exampleAnalytics8 ∧
      AnalyticsAnswered reportEnv exampleClient background 5 43 9 exampleAnalytics9 ∧
      CourseResolves reportEnv exampleClient 9) ∧
    ∃ rows w', GetStudentAssignmentsResultByUserID reportEnv exampleClient
        { urlParam := "43", ctx := background } 5 {} = (some [.json rows], w') ∧
      List.Forall₂
        (fun (p : Enrollment × AssignmentData) (row : AssignmentResult) =>
          IsAssignmentResultOf { ID := 43, Name := "Bob", SISUserID := "S43" } p.1 p.2 row)
        ((studentEnrollments exampleEnrollments43).flatMap fun e =>
          (if e.CourseID = 8 then exampleAnalytics8 else exampleAnalytics9).map
            fun ad => (e, ad)) rows ∧
      analyticsCalls (callsSince {} w') =
        (studentEnrollments exampleEnrollments43).map (fun e => ((43 : Int), e.CourseID)) ∧
      enrollmentStateFilters (callsSince {} w') =
        [[ActiveEnrollmentState, CompletedEnrollmentState]] := by
  have hu : GetUserByID reportEnv exampleClient 43 {} =
      (⟨{ ID := 43, Name := "Bob", SISUserID := "S43" }, 200, none⟩,
        (GetUserByID reportEnv exampleClient 43 {}).2) := by
    decide
  have hc : GetCoursesByUserID reportEnv exampleClient background 43 5
      (GetUserByID reportEnv exampleClient 43 {}).2 =
      (some ⟨some [{ ID := 8, Name := "Algebra", Account := { Name := "Maths" } }], 200, none⟩,
        (GetCoursesByUserID reportEnv exampleClient background 43 5
          (GetUserByID reportEnv exampleClient 43 {}).2).2) := by
    decide
  have he : GetEnrollmentsByUserID reportEnv exampleClient background 43
      [ActiveEnrollmentState, CompletedEnrollmentState] 5
      (GetCoursesByUserID reportEnv exampleClient background 43 5
        (GetUserByID reportEnv exampleClient 43 {}).2).2 =
      (some ⟨some exampleEnrollments43, 200, none⟩,
        (GetEnrollmentsByUserID reportEnv exampleClient background 43
          [ActiveEnrollmentState, CompletedEnrollmentState] 5
          (GetCoursesByUserID reportEnv exampleClient background 43 5
            (GetUserByID reportEnv exampleClient 43 {}).2).2).2) := by
    decide
  have hd : ∀ e ∈ studentEnrollments exampleEnrollments43,
      AnalyticsAnswered reportEnv exampleClient background 5 43 e.CourseID
          (if e.CourseID = 8 then exampleAnalytics8 else exampleAnalytics9) ∧
        (∀ ad ∈ (if e.CourseID = 8 then exampleAnalytics8 else exampleAnalytics9),
          ad.IsNil = false) ∧
        ((courseByCourseID [{ ID := 8, Name := "Algebra", Account := { Name := "Maths" } }]).lookup
            e.CourseID = none →
          CourseResolves reportEnv exampleClient e.CourseID) := by
    intro e hmem
    have hmem' : e ∈ [exampleEnrollments43.get ⟨0, by decide⟩,
        exampleEnrollments43.get ⟨2, by decide⟩] := hmem
    simp only [List.mem_cons, List.mem_singleton, List.not_mem_nil, or_false] at hmem'
    rcases hmem' with h | h
    · rw [h]
      exact ⟨reportEnv_analytics8, by decide, fun hn => absurd hn (by decide)⟩
    · rw [h]
      exact ⟨reportEnv_analytics9, by decide, fun _ => reportEnv_course9⟩
  exact ⟨⟨by decide, by decide, reportEnv_analytics8, reportEnv_analytics9, reportEnv_course9⟩,
    assignment_rows_of_students reportEnv exampleClient { urlParam := "43", ctx := background }
      5 {} 43 _ _ _ _ _ _ (some exampleEnrollments43) _ _
      (fun e => if e.CourseID = 8 then exampleAnalytics8 else exampleAnalytics9)
      (by decide) hu hc he (by decide) (by decide) hd (fun _ => rfl) rfl⟩

/-! ## C14: the section name of a row of the enrollment report -/

/-- One pass of the loop of the enrollment report that goes on: it appends one row, and it
calls `GetSectionByID` once, for the section of the enrollment, when the SIS section id is
empty, and not at all otherwise. -/
theorem enrollmentResultRow_section (env : Env) (c : CanvasClient) (enrollment : Enrollment)
    (s s' : EnrollmentsState) (h : enrollmentResultRow env c enrollment s = .ok s') :
    ∃ row more, s'.results = s.results ++ [row] ∧ s'.world.calls = s.world.calls ++ more ∧
      sectionCalls more =
        (if enrollment.SISSectionID.String = "" then [enrollment.CourseSectionID] else []) ∧
      HasSectionNameOf env c enrollment row := by
  obtain ⟨m1, hm1, hok, _⟩ := resolveCourse_calls env c enrollment.CourseID s.courses s.world
  obtain ⟨_, _, hs1⟩ := course_calls_only enrollment.CourseID m1 hm1
  unfold HasSectionNameOf
  unfold enrollmentResultRow at h
  by_cases hnil : enrollment.IsNil = true
  · rw [if_pos hnil] at h
    cases h
  rw [if_neg hnil] at h
  cases hres : resolveCourse env c enrollment.CourseID s.courses s.world with
  | error e =>
    rw [hres] at h
    obtain ⟨code, w1⟩ := e
    simp at h
  | ok v =>
    rw [hres] at h
    obtain ⟨course, courses, w1⟩ := v
    have hw1 := hok course courses w1 hres
    simp only at h
    by_cases hsis : enrollment.SISSectionID.String = ""
    · have hsis' : (enrollmentResult enrollment).SectionName = "" := hsis
      rw [if_pos hsis'] at h
      simp only [if_pos hsis]
      have hcalls := GetSectionByID_calls env c enrollment.CourseSectionID w1
      rcases hg : GetSectionByID env c enrollment.CourseSectionID w1 with ⟨⟨sv, sc, se⟩, w2⟩
      rw [hg] at h hcalls
      simp only at hcalls
      cases se with
      | some e => simp at h
      | none =>
        simp only [Except.ok.injEq] at h
        subst h
        refine ⟨_, m1 ++ [Call.GetSectionByID enrollment.CourseSectionID], rfl, ?_, ?_,
          w1, ?_, ?_⟩
        · show w2.calls = _
          rw [hcalls, hw1, List.append_assoc]
        · rw [sectionCalls_append, hs1]
          rfl
        · rw [hg]
        · rw [hg]
    · have hsis' : ¬ (enrollmentResult enrollment).SectionName = "" := hsis
      rw [if_neg hsis'] at h
      simp only [if_neg hsis]
      simp only [Except.ok.injEq] at h
      subst h
      exact ⟨_, m1, rfl, hw1, hs1, rfl⟩

/-- One pass of the loop of the enrollment report that leaves the handler: it writes an
error, and it has called `GetSectionByID` at most once, and only for the section of an
enrollment with an empty SIS section id. -/
theorem enrollmentResultRow_aborts (env : Env) (c : CanvasClient) (enrollment : Enrollment)
    (s : EnrollmentsState) (run : Run (List (Write EnrollmentResult)))
    (h : enrollmentResultRow env c enrollment s = .error run) :
    (∀ o, run.1 = some o → OnlyErrors o) ∧
      ∃ more, run.2.calls = s.world.calls ++ more ∧
        (sectionCalls more = [] ∨
          (enrollment.SISSectionID.String = "" ∧
            sectionCalls more = [enrollment.CourseSectionID])) := by
  obtain ⟨m1, hm1, hok, herr⟩ := resolveCourse_calls env c enrollment.CourseID s.courses s.world
  obtain ⟨_, _, hs1⟩ := course_calls_only enrollment.CourseID m1 hm1
  unfold enrollmentResultRow at h
  by_cases hnil : enrollment.IsNil = true
  · rw [if_pos hnil] at h
    simp only [Except.error.injEq] at h
    subst h
    exact ⟨by intro _; simp [nilDereference], [], by simp [nilDereference], Or.inl rfl⟩
  rw [if_neg hnil] at h
  cases hres : resolveCourse env c enrollment.CourseID s.courses s.world with
  | error e =>
    rw [hres] at h
    obtain ⟨code, w1⟩ := e
    have hw1 := herr code w1 hres
    simp only [Except.error.injEq] at h
    subst h
    refine ⟨?_, m1, hw1, Or.inl hs1⟩
    intro o hh
    simp only [Option.some.injEq] at hh
    subst hh
    exact OnlyErrors_error [] _ _ OnlyErrors_nil
  | ok v =>
    rw [hres] at h
    obtain ⟨course, courses, w1⟩ := v
    have hw1 := hok course courses w1 hres
    simp only at h
    by_cases hsis : enrollment.SISSectionID.String = ""
    · have hsis' : (enrollmentResult enrollment).SectionName = "" := hsis
      rw [if_pos hsis'] at h
      have hcalls := GetSectionByID_calls env c enrollment.CourseSectionID w1
      rcases hg : GetSectionByID env c enrollment.CourseSectionID w1 with ⟨⟨sv, sc, se⟩, w2⟩
      rw [hg] at h hcalls
      simp only at hcalls
      cases se with
      | none => simp at h
      | some e =>
        simp only [Except.error.injEq] at h
        subst h
        refine ⟨?_, m1 ++ [Call.GetSectionByID enrollment.CourseSectionID], ?_, Or.inr ⟨hsis, ?_⟩⟩
        · intro o hh
          simp only [Option.some.injEq] at hh
          subst hh
          exact OnlyErrors_error [] _ _ OnlyErrors_nil
        · show w2.calls = _
          rw [hcalls, hw1, List.append_assoc]
        · rw [sectionCalls_append, hs1]
          rfl
    · have hsis' : ¬ (enrollmentResult enrollment).SectionName = "" := hsis
      rw [if_neg hsis'] at h
      simp at h

/-- The loop of the enrollment report, when it runs to its end: one row for each
enrollment, and one call of `GetSectionByID` for each enrollment with an empty SIS section
id, in their order. -/
theorem enrollment_loop_sections (env : Env) (c : CanvasClient) :
    ∀ (enrollments : List Enrollment) (s s' : EnrollmentsState),
      forRange (enrollmentResultRow env c) enrollments s = .ok s' →
      ∃ rows more, s'.results = s.results ++ rows ∧ s'.world.calls = s.world.calls ++ more ∧
        sectionCalls more =
          (enrollments.filter fun e => e.SISSectionID.String == "").map
            (fun e => e.CourseSectionID) ∧
        List.Forall₂ (HasSectionNameOf env c) enrollments rows := by
  intro enrollments
  induction enrollments with
  | nil =>
    intro s s' h
    simp only [forRange, Except.ok.injEq] at h
    subst h
    exact ⟨[], [], by simp, by simp, rfl, List.Forall₂.nil⟩
  | cons e es ih =>
    intro s s' h
    simp only [forRange] at h
    cases hb : enrollmentResultRow env c e s with
    | error err => rw [hb] at h; simp at h
    | ok s1 =>
      rw [hb] at h
      obtain ⟨row, m1, h1, h2, h3, h4⟩ := enrollmentResultRow_section env c e s s1 hb
      obtain ⟨rows, m2, h5, h6, h7, h8⟩ := ih s1 s' h
      refine ⟨row :: rows, m1 ++ m2, ?_, ?_, ?_, List.Forall₂.cons h4 h8⟩
      · rw [h5, h1]; simp
      · rw [h6, h2, List.append_assoc]
      · rw [sectionCalls_append, h3, h7]
        by_cases hsis : e.SISSectionID.String = ""
        · simp [List.filter_cons, hsis]
        · simp [List.filter_cons, hsis]

/-- C14 (the fallback section name).  In a run of `GetStudentEnrollmentsResultByUserID` that
encodes rows, the rows pair off, in order, with the enrollments returned by
`GetEnrollmentsByUserID`; the calls of `GetSectionByID` of the run are exactly one for each
enrollment whose SIS section id is empty, for the `course_section_id` of that enrollment, in
the order of the enrollments, so none is made for an enrollment with a SIS section id; the
section name of the row of an enrollment with a SIS section id is that id, and the section
name of the row of an enrollment without one is the name of the section that such a call,
which returned without an error, gave.  A pass of the loop that leaves the handler with an
error has made at most one call of `GetSectionByID`, and none for an enrollment with a SIS
section id. -/
theorem section_name_fallback (env : Env) (c : CanvasClient) (r : Request) (fuel : Nat)
    (w : World) (userID : Int) (out : List (Write EnrollmentResult))
    (rows : List EnrollmentResult) (w' : World)
    (hid : Atoi r.urlParam = some userID)
    (hrun : GetStudentEnrollmentsResultByUserID env c r fuel w = (some out, w'))
    (hrows : Write.json rows ∈ out) :
    (∃ enrollments code w1,
      GetEnrollmentsByUserID env c r.ctx userID (GetOnlyValidEnrollmentState r.states) fuel w =
          (some ⟨enrollments, code, none⟩, w1) ∧
        sectionCalls (callsSince w w') =
          ((enrollments.getD []).filter fun e => e.SISSectionID.String == "").map
            (fun e => e.CourseSectionID) ∧
        List.Forall₂ (HasSectionNameOf env c) (enrollments.getD []) rows) ∧
    ∀ (enrollment : Enrollment) (s : EnrollmentsState) (run : Run (List (Write EnrollmentResult))),
      enrollmentResultRow env c enrollment s = .error run →
        ∃ more, run.2.calls = s.world.calls ++ more ∧
          (sectionCalls more = [] ∨
            (enrollment.SISSectionID.String = "" ∧
              sectionCalls more = [enrollment.CourseSectionID])) := by
  refine ⟨?_, fun e s run h => (enrollmentResultRow_aborts env c e s run h).2⟩
  have hne : r.urlParam ≠ "" := by
    intro h
    rw [h, Atoi_empty] at hid
    simp at hid
  unfold GetStudentEnrollmentsResultByUserID at hrun
  rw [if_neg hne, hid] at hrun
  simp only at hrun
  have hc1 := GetEnrollmentsByUserID_calls env c r.ctx userID
    (GetOnlyValidEnrollmentState r.states) fuel w
  rcases he : GetEnrollmentsByUserID env c r.ctx userID (GetOnlyValidEnrollmentState r.states)
    fuel w with ⟨r1, w1⟩
  rw [he] at hrun hc1
  simp only at hc1
  cases r1 with
  | none => simp at hrun
  | some rep1 =>
    obtain ⟨ev, ec, ee⟩ := rep1
    cases ee with
    | some e =>
      simp only [Prod.mk.injEq, Option.some.injEq] at hrun
      rw [← hrun.1] at hrows
      simp at hrows
    | none =>
      simp only at hrun
      have hc2 := GetCoursesByUserID_calls env c r.ctx userID fuel w1
      rcases hc : GetCoursesByUserID env c r.ctx userID fuel w1 with ⟨r2, w2⟩
      rw [hc] at hrun hc2
      simp only at hc2
      cases r2 with
      | none => simp at hrun
      | some rep2 =>
        obtain ⟨cv, cc, ce⟩ := rep2
        cases ce with
        | some e =>
          simp only [Prod.mk.injEq, Option.some.injEq] at hrun
          rw [← hrun.1] at hrows
          simp at hrows
        | none =>
          simp only at hrun
          split at hrun
          · simp [nilDereference] at hrun
          cases hloop : forRange (enrollmentResultRow env c) (ev.getD [])
              { courses := courseByCourseID (cv.getD []), world := w2 } with
          | error run =>
            rw [hloop] at hrun
            simp only at hrun
            have hq := forRange_error (enrollmentResultRow env c) (fun _ _ => True)
              (fun _ run => ∀ o, run.1 = some o → OnlyErrors o)
              (fun _ _ _ _ hq => hq) (fun _ _ _ _ => trivial)
              (fun x a e hae => (enrollmentResultRow_aborts env c x a e hae).1)
              _ _ _ hloop out (by rw [hrun])
            exact absurd hrows (hq rows)
          | ok s =>
            rw [hloop] at hrun
            simp only [Prod.mk.injEq, Option.some.injEq] at hrun
            obtain ⟨rows', more, h1, h2, h3, h4⟩ :=
              enrollment_loop_sections env c _ _ _ hloop
            rw [← hrun.1] at hrows
            have hr := json_mem_encode r [] s.results rows OnlyErrors_nil
              (by simpa using hrows)
            simp only [List.nil_append] at h1
            refine ⟨ev, ec, w1, rfl, ?_, ?_⟩
            · have hsince : callsSince w w' =
                  [Call.GetEnrollmentsByUserID userID (GetOnlyValidEnrollmentState r.states),
                    Call.GetCoursesByUserID userID] ++ more := by
                apply callsSince_append
                rw [← hrun.2, h2]
                show w2.calls ++ more = _
                rw [hc2, hc1]
                simp
              rw [hsince, sectionCalls_append, h3]
              rfl
            · rw [hr, h1]
              exact h4

/-- C14 at user 43 of the second upstream: the first enrollment has the SIS section id
`SIS-1`, the other two have none and are both in section 3, which is looked up twice. -/
theorem section_name_fallback_witness :
    (GetStudentEnrollmentsResultByUserID reportEnv exampleClient
        { urlParam := "43", ctx := background } 5 {}).1 =
      some [.json exampleEnrollmentRows43] ∧
    sectionCalls (callsSince {}
        (GetStudentEnrollmentsResultByUserID reportEnv exampleClient
          { urlParam := "43", ctx := background } 5 {}).2) = [3, 3] ∧
    (exampleEnrollmentRows43.map fun row => row.SectionName) =
      ["SIS-1", "Section three", "Section three"] ∧
    ∃ enrollments code w1,
      GetEnrollmentsByUserID reportEnv exampleClient background 43
          (GetOnlyValidEnrollmentState []) 5 {} = (some ⟨enrollments, code, none⟩, w1) ∧
        sectionCalls (callsSince {}
            (GetStudentEnrollmentsResultByUserID reportEnv exampleClient
              { urlParam := "43", ctx := background } 5 {}).2) =
          ((enrollments.getD []).filter fun e => e.SISSectionID.String == "").map
            (fun e => e.CourseSectionID) ∧
        List.Forall₂ (HasSectionNameOf reportEnv exampleClient) (enrollments.getD [])
          exampleEnrollmentRows43 := by
  have h4 : GetStudentEnrollmentsResultByUserID reportEnv exampleClient
      { urlParam := "43", ctx := background } 5 {} =
      (some [.json exampleEnrollmentRows43],
        (GetStudentEnrollmentsResultByUserID reportEnv exampleClient
          { urlParam := "43", ctx := background } 5 {}).2) := by
    decide
  exact ⟨by rw [h4], by decide, by decide,
    (section_name_fallback reportEnv exampleClient { urlParam := "43", ctx := background } 5 {}
      43 _ exampleEnrollmentRows43 _ (by decide) h4 (by simp)).1⟩

/-! ## C26: the web url and the gradebook url -/

theorem startsWith_iff (p s : List Char) : startsWith p s = true ↔ ∃ r, s = p ++ r := by
  induction p generalizing s with
  | nil => simp [startsWith]
  | cons a p ih =>
    cases s with
    | nil => simp [startsWith]
    | cons b s =>
      simp only [startsWith, Bool.and_eq_true, beq_iff_eq, ih, List.cons_append,
        List.cons.injEq]
      constructor
      · rintro ⟨rfl, r, rfl⟩
        exact ⟨r, rfl, rfl⟩
      · rintro ⟨r, rfl, rfl⟩
        exact ⟨rfl, r, rfl⟩

/-- The search of `strings.Index` for a non-empty `substr`: either `substr` does not occur
in `s` and the result is `-1`, or the result is the position of its first occurrence. -/
theorem indexFrom_spec (substr : List Char) (hsub : substr ≠ []) :
    ∀ (s : List Char) (i : Nat),
      ((∀ a b, s ≠ a ++ substr ++ b) ∧ indexFrom substr s i = -1) ∨
        ∃ pre rest, s = pre ++ substr ++ rest ∧
          (∀ a b, s = a ++ substr ++ b → pre.length ≤ a.length) ∧
          indexFrom substr s i = ((i + pre.length : Nat) : Int) := by
  intro s
  induction s with
  | nil =>
    intro i
    left
    constructor
    · intro a b h
      have := congrArg List.length h
      simp only [List.length_nil, List.length_append] at this
      have hl : 0 < substr.length := List.length_pos.2 hsub
      omega
    · cases substr with
      | nil => exact absurd rfl hsub
      | cons x xs => simp [indexFrom, startsWith]
  | cons c cs ih =>
    intro i
    by_cases hst : startsWith substr (c :: cs) = true
    · right
      obtain ⟨r, hr⟩ := (startsWith_iff _ _).1 hst
      refine ⟨[], r, by simpa using hr, fun a b _ => by simp, ?_⟩
      simp [indexFrom, hst]
    · have hidx : indexFrom substr (c :: cs) i = indexFrom substr cs (i + 1) := by
        simp [indexFrom, hst]
      have hhead : ∀ a b, c :: cs = a ++ substr ++ b → ∃ a1, a = c :: a1 ∧ cs = a1 ++ substr ++ b := by
        intro a b h
        cases a with
        | nil =>
          exfalso
          apply hst
          exact (startsWith_iff _ _).2 ⟨b, by simpa using h⟩
        | cons x a1 =>
          simp only [List.cons_append, List.cons.injEq] at h
          exact ⟨a1, by rw [h.1], h.2⟩
      rcases ih (i + 1) with ⟨hno, hm⟩ | ⟨pre, rest, hs, hmin, hi⟩
      · left
        refine ⟨?_, by rw [hidx, hm]⟩
        intro a b h
        obtain ⟨a1, _, h1⟩ := hhead a b h
        exact hno a1 b h1
      · right
        refine ⟨c :: pre, rest, by simp [hs], ?_, ?_⟩
        · intro a b h
          obtain ⟨a1, rfl, h1⟩ := hhead a b h
          have := hmin a1 b h1
          simp only [List.length_cons]
          omega
        · rw [hidx, hi]
          simp only [List.length_cons]
          congr 1
          omega

/-- What `getWebUrl` returns: the empty string for a base url without `.com`, and otherwise
the base url up to the end of the first `.com`. -/
theorem getWebUrl_spec (baseUrl : String) :
    ((∀ a b, baseUrl.data ≠ a ++ ".com".data ++ b) ∧ getWebUrl baseUrl = "") ∨
      ∃ pre rest, baseUrl.data = pre ++ ".com".data ++ rest ∧
        (∀ a b, baseUrl.data = a ++ ".com".data ++ b → pre.length ≤ a.length) ∧
        getWebUrl baseUrl = String.mk (pre ++ ".com".data) := by
  rcases indexFrom_spec ".com".data (by decide) baseUrl.data 0 with
    ⟨hno, hm⟩ | ⟨pre, rest, hs, hmin, hi⟩
  · left
    refine ⟨hno, ?_⟩
    unfold getWebUrl Index
    simp [hm]
  · right
    refine ⟨pre, rest, hs, hmin, ?_⟩
    unfold getWebUrl Index
    simp only [hi]
    have hne : ((0 + pre.length : Nat) : Int) ≠ -1 := by omega
    rw [if_pos hne]
    congr 1
    unfold slice
    have h1 : (((0 + pre.length : Nat) : Int) + 4).toNat - (0 : Int).toNat = pre.length + 4 := by
      simp
      omega
    rw [h1, hs]
    simp only [Int.toNat_zero, List.drop_zero]
    have hl : pre.length + 4 = (pre ++ ".com".data).length := by
      simp
    rw [hl, List.take_left']
    rfl

theorem ungradedRow_gradebook (c : CanvasClient) (course : Course) (courseID : Int)
    (assignment : Assignment) (sec : SectionCount) (memo : IntMap sectionWithTeachers) :
    (ungradedRow c course courseID assignment sec memo).GradebookURL =
      c.WebUrl ++ "/courses/" ++ Itoa courseID ++ "/gradebook" := by
  unfold ungradedRow
  cases memo.lookup sec.SectionID <;>
    cases (assignmentDateBySectionID assignment).lookup sec.SectionID <;> rfl

/-! ## Where the rows of the course report come from -/

/-- A loop whose passes keep an invariant, move the state along a preorder, and append
blocks of rows that stand in a relation to the elements which later states do not undo:
the loop keeps the invariant and appends the blocks of its elements, in their order. -/
theorem forRange_rows_inv {τ υ σ ε ρ : Type} (body : τ → σ → Except ε σ) (res : σ → List ρ)
    (Inv : σ → Prop) (le : σ → σ → Prop) (R : σ → υ → ρ → Prop) (f : τ → List υ)
    (hrefl : ∀ s, le s s) (htrans : ∀ a b d, le a b → le b d → le a d)
    (hR : ∀ a b x y, le a b → R a x y → R b x y)
    (hbody : ∀ x s s', Inv s → body x s = .ok s' →
      Inv s' ∧ le s s' ∧ ∃ block, res s' = res s ++ block ∧ List.Forall₂ (R s') (f x) block) :
    ∀ (xs : List τ) (s s' : σ), Inv s → forRange body xs s = .ok s' →
      Inv s' ∧ le s s' ∧
        ∃ block, res s' = res s ++ block ∧ List.Forall₂ (R s') (xs.flatMap f) block := by
  intro xs
  induction xs with
  | nil =>
    intro s s' hi h
    simp only [forRange, Except.ok.injEq] at h
    subst h
    exact ⟨hi, hrefl s, [], by simp, by simp⟩
  | cons x xs ih =>
    intro s s' hi h
    simp only [forRange] at h
    cases hb : body x s with
    | error e => rw [hb] at h; simp at h
    | ok s1 =>
      rw [hb] at h
      obtain ⟨hi1, hle1, block1, hr1, hf1⟩ := hbody x s s1 hi hb
      obtain ⟨hi2, hle2, block2, hr2, hf2⟩ := ih s1 s' hi1 h
      refine ⟨hi2, htrans _ _ _ hle1 hle2, block1 ++ block2, ?_, ?_⟩
      · rw [hr2, hr1, List.append_assoc]
      · simp only [List.flatMap_cons]
        exact List.rel_append (hf1.imp fun x y hxy => hR _ _ x y hle2 hxy) hf2

theorem SectionOrigin_mono (env : Env) (c : CanvasClient) (ctx : Context) (fuel : Nat)
    (clean1 clean2 : Prop) (h : clean2 → clean1) (sectionID : Int) (st : sectionWithTeachers)
    (ho : SectionOrigin env c ctx fuel clean1 sectionID st) :
    SectionOrigin env c ctx fuel clean2 sectionID st := by
  obtain ⟨w0, enrollments, code, w1, hg, ht, hn⟩ := ho
  refine ⟨w0, enrollments, code, w1, hg, ht, ?_⟩
  by_cases hsis : (sectionEntry sectionID (enrollments.getD [])).sisSectionID = ""
  · rw [if_pos hsis] at hn ⊢
    exact ⟨hn.1, fun hc => hn.2 (h hc)⟩
  · rw [if_neg hsis] at hn ⊢
    exact hn

theorem UngradedRowFrom_mono (env : Env) (c : CanvasClient) (ctx : Context) (fuel : Nat)
    (course : Course) (courseID : Int) (clean1 clean2 : Prop) (h : clean2 → clean1)
    (p : Assignment × SectionCount) (row : UngradedAssignment)
    (ho : UngradedRowFrom env c ctx fuel course courseID clean1 p row) :
    UngradedRowFrom env c ctx fuel course courseID clean2 p row := by
  obtain ⟨memo, st, hl, hs, hr⟩ := ho
  exact ⟨memo, st, hl, SectionOrigin_mono env c ctx fuel clean1 clean2 h _ _ hs, hr⟩

/-- After `resolveSection` every entry of the map of the sections comes from the calls
described by `SectionOrigin`, with the handler's writes so far as the mark of a clean run. -/
theorem resolveSection_origin (env : Env) (c : CanvasClient) (ctx : Context) (fuel : Nat)
    (sec : SectionCount) (s s' : UngradedState)
    (hinv : ∀ id st, s.memo.lookup id = some st →
      SectionOrigin env c ctx fuel (s.out = []) id st)
    (h : resolveSection env c ctx fuel sec s = .ok s') :
    (∀ id st, s'.memo.lookup id = some st →
        SectionOrigin env c ctx fuel (s'.out = []) id st) ∧
      (s'.out = [] → s.out = []) ∧ s'.results = s.results := by
  unfold resolveSection at h
  cases hl : s.memo.lookup sec.SectionID with
  | some v =>
    rw [hl] at h
    simp only [Except.ok.injEq] at h
    subst h
    exact ⟨hinv, id, rfl⟩
  | none =>
    rw [hl] at h
    simp only at h
    rcases hg : GetEnrollmentsBySectionID env c ctx sec.SectionID [] [TeacherEnrollmentType] fuel
      s.world with ⟨r1, w1⟩
    rw [hg] at h
    cases r1 with
    | none => simp at h
    | some rep =>
      obtain ⟨ev, ec, ee⟩ := rep
      cases ee with
      | some e => simp at h
      | none =>
        simp only at h
        split at h
        · cases h
        by_cases hsis : (sectionEntry sec.SectionID (ev.getD [])).sisSectionID = ""
        · rw [if_pos hsis] at h
          rcases hs : GetSectionByID env c sec.SectionID w1 with ⟨⟨sv, sc, se⟩, w2⟩
          rw [hs] at h
          simp only [Except.ok.injEq] at h
          subst h
          have hclean : (match se with
              | some _ => s.out ++
                  [Write.error s!"error fetching section: {Itoa sec.SectionID}" sc]
              | none => s.out) = [] → s.out = [] ∧ se = none := by
            cases se with
            | some e => intro hh; simp at hh
            | none => intro hh; exact ⟨hh, rfl⟩
          refine ⟨?_, fun hh => (hclean hh).1, rfl⟩
          intro id st hst
          simp only at hst
          rw [lookup_set] at hst
          by_cases hid : id = sec.SectionID
          · rw [if_pos hid] at hst
            simp only [Option.some.injEq] at hst
            subst hst
            subst hid
            refine ⟨s.world, ev, ec, w1, hg, rfl, ?_⟩
            rw [if_pos hsis, hs]
            exact ⟨rfl, fun hh => (hclean hh).2⟩
          · rw [if_neg hid] at hst
            exact SectionOrigin_mono env c ctx fuel _ _ (fun hh => (hclean hh).1) _ _
              (hinv id st hst)
        · rw [if_neg hsis] at h
          simp only [Except.ok.injEq] at h
          subst h
          refine ⟨?_, id, rfl⟩
          intro id st hst
          simp only at hst
          rw [lookup_set] at hst
          by_cases hid : id = sec.SectionID
          · rw [if_pos hid] at hst
            simp only [Option.some.injEq] at hst
            subst hst
            subst hid
            refine ⟨s.world, ev, ec, w1, hg, rfl, ?_⟩
            rw [if_neg hsis]
          · rw [if_neg hid] at hst
            exact hinv id st hst

theorem ungradedSection_origin (env : Env) (c : CanvasClient) (ctx : Context) (fuel : Nat)
    (course : Course) (courseID : Int) (assignment : Assignment) (sec : SectionCount)
    (s s' : UngradedState)
    (hinv : ∀ id st, s.memo.lookup id = some st →
      SectionOrigin env c ctx fuel (s.out = []) id st)
    (h : ungradedSection env c ctx fuel course courseID assignment sec s = .ok s') :
    (∀ id st, s'.memo.lookup id = some st →
        SectionOrigin env c ctx fuel (s'.out = []) id st) ∧
      (s'.out = [] → s.out = []) ∧
      ∃ block, s'.results = s.results ++ block ∧
        List.Forall₂ (UngradedRowFrom env c ctx fuel course courseID (s'.out = []))
          [(assignment, sec)] block := by
  unfold ungradedSection at h
  cases hres : resolveSection env c ctx fuel sec s with
  | error r => rw [hres] at h; simp at h
  | ok s1 =>
    rw [hres] at h
    simp only [Except.ok.injEq] at h
    subst h
    obtain ⟨h1, h2, h3⟩ := resolveSection_origin env c ctx fuel sec s s1 hinv hres
    have hsome := (resolveSection_ok env c ctx fuel sec s s1 hres).1
    cases hl : s1.memo.lookup sec.SectionID with
    | none => exact absurd hl hsome
    | some st =>
      refine ⟨h1, h2, [ungradedRow c course courseID assignment sec s1.memo], ?_, ?_⟩
      · simp [h3]
      · exact List.Forall₂.cons ⟨s1.memo, st, hl, h1 _ _ hl, rfl⟩ List.Forall₂.nil

theorem ungradedAssignment_origin (env : Env) (c : CanvasClient) (ctx : Context) (fuel : Nat)
    (course : Course) (courseID : Int) (assignment : Assignment) (s s' : UngradedState)
    (hinv : ∀ id st, s.memo.lookup id = some st →
      SectionOrigin env c ctx fuel (s.out = []) id st)
    (h : ungradedAssignment env c ctx fuel course courseID assignment s = .ok s') :
    (∀ id st, s'.memo.lookup id = some st →
        SectionOrigin env c ctx fuel (s'.out = []) id st) ∧
      (s'.out = [] → s.out = []) ∧
      ∃ block, s'.results = s.results ++ block ∧
        List.Forall₂ (UngradedRowFrom env c ctx fuel course courseID (s'.out = []))
          (assignment.NeedsGradingCountBySection.map fun sec => (assignment, sec)) block := by
  unfold ungradedAssignment at h
  simp only [poll] at h
  cases hc : ctx s.world.polls with
  | some e => rw [hc] at h; simp at h
  | none =>
    rw [hc] at h
    simp only at h
    split at h
    · cases h
    have hk := forRange_rows_inv (ungradedSection env c ctx fuel course courseID assignment)
      (fun st => st.results)
      (fun st => ∀ id e, st.memo.lookup id = some e →
        SectionOrigin env c ctx fuel (st.out = []) id e)
      (fun a b => b.out = [] → a.out = [])
      (fun st => UngradedRowFrom env c ctx fuel course courseID (st.out = []))
      (fun sec => [(assignment, sec)])
      (fun _ => id) (fun _ _ _ h1 h2 => h1 ∘ h2)
      (fun a b x y hab hxy => UngradedRowFrom_mono env c ctx fuel course courseID _ _ hab x y hxy)
      (fun sec a b ha hab =>
        ungradedSection_origin env c ctx fuel course courseID assignment sec a b ha hab)
      assignment.NeedsGradingCountBySection
      { s with world := { s.world with polls := s.world.polls + 1 } } s' hinv h
    rw [flatMap_pair] at hk
    exact hk

theorem encode_length {ρ : Type} (r : Request) (results : List ρ) :
    (encode r results).length = 1 := by
  unfold encode
  split <;> rfl

/-- The loops of the course report: the rows it encodes, when it does, come from where
`UngradedRowFrom` says. -/
theorem ungraded_loops_origin (env : Env) (c : CanvasClient) (r : Request) (fuel : Nat)
    (w2 w' : World) (courseID : Int) (course : Course) (assignments : List Assignment)
    (out0 out : List (Write UngradedAssignment)) (rows : List UngradedAssignment)
    (hout0 : OnlyErrors out0)
    (hrun : (match forRange (ungradedAssignment env c r.ctx fuel course courseID) assignments
          { out := out0, world := w2 } with
        | .error run => run
        | .ok s => (some (s.out ++ encode r s.results), s.world)) = (some out, w'))
    (hrows : Write.json rows ∈ out) :
    List.Forall₂ (UngradedRowFrom env c r.ctx fuel course courseID (out = [.json rows]))
      (sectionPairs assignments) rows := by
  cases hloop : forRange (ungradedAssignment env c r.ctx fuel course courseID) assignments
      { out := out0, world := w2 } with
  | error run =>
    rw [hloop] at hrun
    simp only at hrun
    have hq := forRange_error (ungradedAssignment env c r.ctx fuel course courseID)
      (fun a b => OnlyErrors a.out → OnlyErrors b.out)
      (fun st run => OnlyErrors st.out → ∀ o, run.1 = some o → OnlyErrors o)
      (fun _ _ _ hab hq ha => hq (hab ha))
      (fun x a b hab => (ungradedAssignment_rows env c r.ctx fuel course courseID x a b hab).2)
      (fun x a e hae => ungradedAssignment_aborts env c r.ctx fuel course courseID x a e hae)
      _ _ _ hloop hout0 out (by rw [hrun])
    exact absurd hrows (hq rows)
  | ok s =>
    rw [hloop] at hrun
    simp only [Prod.mk.injEq, Option.some.injEq] at hrun
    have hso : OnlyErrors s.out := forRange_ok (ungradedAssignment env c r.ctx fuel course courseID)
      (fun a b => OnlyErrors a.out → OnlyErrors b.out) (fun _ => id)
      (fun _ _ _ h1 h2 => h2 ∘ h1)
      (fun x a b hab => (ungradedAssignment_rows env c r.ctx fuel course courseID x a b hab).2)
      _ _ _ hloop hout0
    have hout := hrun.1
    rw [← hout] at hrows
    have hr := json_mem_encode r s.out s.results rows hso hrows
    obtain ⟨_, _, block, h1, h2⟩ := forRange_rows_inv
      (ungradedAssignment env c r.ctx fuel course courseID) (fun st => st.results)
      (fun st => ∀ id e, st.memo.lookup id = some e →
        SectionOrigin env c r.ctx fuel (st.out = []) id e)
      (fun a b => b.out = [] → a.out = [])
      (fun st => UngradedRowFrom env c r.ctx fuel course courseID (st.out = []))
      (fun (a : Assignment) => a.NeedsGradingCountBySection.map fun sec => (a, sec))
      (fun _ => id) (fun _ _ _ h1 h2 => h1 ∘ h2)
      (fun a b x y hab hxy =>
        UngradedRowFrom_mono env c r.ctx fuel course courseID _ _ hab x y hxy)
      (fun x a b ha hab =>
        ungradedAssignment_origin env c r.ctx fuel course courseID x a b ha hab)
      assignments { out := out0, world := w2 } s
      (fun id e he => by simp at he) hloop
    simp only [List.nil_append] at h1
    have hclean : out = [Write.json rows] → s.out = [] := by
      intro hh
      have hlen := congrArg List.length hout
      rw [hh] at hlen
      simp only [List.length_append, encode_length, List.length_singleton] at hlen
      exact List.length_eq_zero.1 (by omega)
    have hrb : rows = block := hr.trans h1
    unfold sectionPairs
    rw [hrb] at hclean ⊢
    exact h2.imp fun x y hxy =>
      UngradedRowFrom_mono env c r.ctx fuel course courseID _ _ hclean x y hxy

/-- The course report: when it encodes rows, the course was found, the call for the
assignments returned, and the rows come from where `UngradedRowFrom` says. -/
theorem ungraded_report_origin (env : Env) (c : CanvasClient) (r : Request) (fuel : Nat)
    (w : World) (courseID : Int) (out : List (Write UngradedAssignment))
    (rows : List UngradedAssignment) (w' : World)
    (hid : Atoi r.urlParam = some courseID)
    (hrun : GetUngradedAssignmentsByCourseID env c r fuel w = (some out, w'))
    (hrows : Write.json rows ∈ out) :
    ∃ course code1 w1 assignments code2 err2 w2,
      GetCourseByID env c courseID w = (⟨course, code1, none⟩, w1) ∧
      GetAssignmentsByCourseID env c r.ctx courseID "" UngradedAssignmentBucket true fuel w1 =
        (some ⟨assignments, code2, err2⟩, w2) ∧
      List.Forall₂ (UngradedRowFrom env c r.ctx fuel course courseID (out = [.json rows]))
        (sectionPairs (assignments.getD [])) rows := by
  have hne : r.urlParam ≠ "" := by
    intro h
    rw [h, Atoi_empty] at hid
    simp at hid
  unfold GetUngradedAssignmentsByCourseID at hrun
  rw [if_neg hne, hid] at hrun
  simp only at hrun
  by_cases hpos : courseID ≤ 0
  · rw [if_pos hpos] at hrun
    simp only [Prod.mk.injEq, Option.some.injEq] at hrun
    rw [← hrun.1] at hrows
    simp at hrows
  · rw [if_neg hpos] at hrun
    rcases hc : GetCourseByID env c courseID w with ⟨⟨cv, cc, ce⟩, w1⟩
    rw [hc] at hrun
    cases ce with
    | some e =>
      simp only [Prod.mk.injEq, Option.some.injEq] at hrun
      rw [← hrun.1] at hrows
      simp at hrows
    | none =>
      simp only at hrun
      rcases ha : GetAssignmentsByCourseID env c r.ctx courseID "" UngradedAssignmentBucket true
        fuel w1 with ⟨r2, w2⟩
      rw [ha] at hrun
      cases r2 with
      | none => simp at hrun
      | some rep =>
        obtain ⟨av, ac, ae⟩ := rep
        simp only at hrun
        refine ⟨cv, cc, w1, av, ac, ae, w2, rfl, ha, ?_⟩
        cases ae with
        | some e =>
          exact ungraded_loops_origin env c r fuel w2 w' courseID cv _ _ out rows
            (OnlyErrors_error [] _ _ OnlyErrors_nil) hrun hrows
        | none =>
          exact ungraded_loops_origin env c r fuel w2 w' courseID cv _ _ out rows
            OnlyErrors_nil hrun hrows

theorem ungradedRow_section (c : CanvasClient) (course : Course) (courseID : Int)
    (assignment : Assignment) (sec : SectionCount) (memo : IntMap sectionWithTeachers)
    (st : sectionWithTeachers) (h : memo.lookup sec.SectionID = some st) :
    (ungradedRow c course courseID assignment sec memo).SectionName = st.sisSectionID ∧
      (ungradedRow c course courseID assignment sec memo).Teachers = st.teachers := by
  unfold ungradedRow
  rw [h]
  cases (assignmentDateBySectionID assignment).lookup sec.SectionID <;> exact ⟨rfl, rfl⟩

/-- C26 (the web url and the gradebook url).  `getWebUrl` returns the empty string for a
base url that does not contain `.com`, and otherwise the prefix of the base url that ends
with the first occurrence of `.com`.  For a client made by `NewCanvasClient` from the base
url, every row that a run of `GetUngradedAssignmentsByCourseID` encodes has the gradebook url
made of that prefix, `/courses/`, the course id in decimal and `/gradebook`; this is the path
`/courses/<course id>/gradebook` when the base url has no `.com`. -/
theorem gradebook_url (env : Env) (baseUrl accessToken : String) (pageSize : Int)
    (c : CanvasClient) (r : Request) (fuel : Nat) (w : World) (courseID : Int)
    (out : List (Write UngradedAssignment)) (rows : List UngradedAssignment) (w' : World)
    (hclient : NewCanvasClient baseUrl accessToken pageSize = some c)
    (hid : Atoi r.urlParam = some courseID)
    (hrun : GetUngradedAssignmentsByCourseID env c r fuel w = (some out, w'))
    (hrows : Write.json rows ∈ out) :
    (((∀ a b, baseUrl.data ≠ a ++ ".com".data ++ b) ∧ getWebUrl baseUrl = "") ∨
      ∃ pre rest, baseUrl.data = pre ++ ".com".data ++ rest ∧
        (∀ a b, baseUrl.data = a ++ ".com".data ++ b → pre.length ≤ a.length) ∧
        getWebUrl baseUrl = String.mk (pre ++ ".com".data)) ∧
    c.WebUrl = getWebUrl baseUrl ∧
    (∀ row ∈ rows,
      row.GradebookURL = getWebUrl baseUrl ++ "/courses/" ++ Itoa courseID ++ "/gradebook") ∧
    ((∀ a b, baseUrl.data ≠ a ++ ".com".data ++ b) →
      ∀ row ∈ rows, row.GradebookURL = "/courses/" ++ Itoa courseID ++ "/gradebook") := by
  have hweb : c.WebUrl = getWebUrl baseUrl := by
    unfold NewCanvasClient at hclient
    split at hclient
    · simp at hclient
    · split at hclient
      · simp at hclient
      · split at hclient
        · simp at hclient
        · simp only [Option.some.injEq] at hclient
          rw [← hclient]
  have hall : ∀ row ∈ rows,
      row.GradebookURL = getWebUrl baseUrl ++ "/courses/" ++ Itoa courseID ++ "/gradebook" := by
    obtain ⟨course, code1, w1, assignments, code2, err2, w2, _, _, hf⟩ :=
      ungraded_report_origin env c r fuel w courseID out rows w' hid hrun hrows
    intro row hrow
    obtain ⟨p, _, memo, st, _, _, hr⟩ := forall2_mem_right _ _ _ hf row hrow
    rw [hr, ungradedRow_gradebook, hweb]
  refine ⟨getWebUrl_spec baseUrl, hweb, hall, ?_⟩
  intro hno row hrow
  rcases getWebUrl_spec baseUrl with ⟨_, he⟩ | ⟨pre, rest, hs, _, _⟩
  · rw [hall row hrow, he]
    simp
  · exact absurd hs (hno pre rest)

/-- C26 at the client of the examples, whose rows for course 8 point to the host
`https://canvas.example.com`, and at a client for `http://localhost:3000/api/v1`, whose row
for course 5 has the gradebook url `/courses/5/gradebook`. -/
theorem gradebook_url_witness :
    (NewCanvasClient "https://canvas.example.com/api/v1" "token" 100 = some exampleClient ∧
      getWebUrl "https://canvas.example.com/api/v1" = "https://canvas.example.com" ∧
      ∀ row ∈ exampleRows8,
        row.GradebookURL =
          getWebUrl "https://canvas.example.com/api/v1" ++ "/courses/" ++ Itoa 8 ++
            "/gradebook") ∧
    (NewCanvasClient "http://localhost:3000/api/v1" "token" 10 = some localClient ∧
      (∀ a b, "http://localhost:3000/api/v1".data ≠ a ++ ".com".data ++ b) ∧
      ∀ row ∈ exampleRows5, row.GradebookURL = "/courses/" ++ Itoa 5 ++ "/gradebook") := by
  have h8 : GetUngradedAssignmentsByCourseID exampleEnv exampleClient
      { urlParam := "8", ctx := background } 5 {} =
      (some [.json exampleRows8],
        (GetUngradedAssignmentsByCourseID exampleEnv exampleClient
          { urlParam := "8", ctx := background } 5 {}).2) := by
    decide
  have h5 : GetUngradedAssignmentsByCourseID localEnv localClient
      { urlParam := "5", ctx := background } 5 {} =
      (some [.json exampleRows5],
        (GetUngradedAssignmentsByCourseID localEnv localClient
          { urlParam := "5", ctx := background } 5 {}).2) := by
    decide
  have hno : ∀ a b, "http://localhost:3000/api/v1".data ≠ a ++ ".com".data ++ b := by
    rcases getWebUrl_spec "http://localhost:3000/api/v1" with ⟨h, _⟩ | ⟨pre, rest, _, _, he⟩
    · exact h
    · exfalso
      have hd : getWebUrl "http://localhost:3000/api/v1" = "" := by decide
      rw [hd] at he
      have hl := congrArg String.length he
      simp at hl
  exact ⟨⟨by decide, by decide,
      (gradebook_url exampleEnv "https://canvas.example.com/api/v1" "token" 100 exampleClient
        { urlParam := "8", ctx := background } 5 {} 8 _ exampleRows8 _ (by decide) (by decide)
        h8 (by simp)).2.2.1⟩,
    ⟨by decide, hno,
      (gradebook_url localEnv "http://localhost:3000/api/v1" "token" 10 localClient
        { urlParam := "5", ctx := background } 5 {} 5 _ exampleRows5 _ (by decide) (by decide)
        h5 (by simp)).2.2.2 hno⟩⟩

/-! ## C23: the teachers of a row of the course report -/

/-- C23 (the teachers of a section).  In a run of `GetUngradedAssignmentsByCourseID` that
encodes rows, the rows pair off, in order, with the pairs (assignment, section) of the
assignments returned by `GetAssignmentsByCourseID`, and the teachers of the row of a pair
are the user names, in upstream order, of the enrollments that a call of
`GetEnrollmentsBySectionID` for the section returned without an error, a call with no state
filter and with the type filter `TeacherEnrollment` only; the list is the empty list when
these enrollments are none, and in no row is it the nil slice, which would be encoded as
null.  The url of such a call carries `per_page` and `type[]=TeacherEnrollment` and nothing
else. -/
theorem teachers_of_section (env : Env) (c : CanvasClient) (r : Request) (fuel : Nat)
    (w : World) (courseID : Int) (out : List (Write UngradedAssignment))
    (rows : List UngradedAssignment) (w' : World)
    (hid : Atoi r.urlParam = some courseID)
    (hrun : GetUngradedAssignmentsByCourseID env c r fuel w = (some out, w'))
    (hrows : Write.json rows ∈ out) :
    (∃ assignments code err w2,
      GetAssignmentsByCourseID env c r.ctx courseID "" UngradedAssignmentBucket true fuel
          (GetCourseByID env c courseID w).2 = (some ⟨assignments, code, err⟩, w2) ∧
        List.Forall₂
          (fun (p : Assignment × SectionCount) (row : UngradedAssignment) =>
            ∃ (w0 : World) (enrollments : Option (List Enrollment)) (code : Nat) (w1 : World),
              GetEnrollmentsBySectionID env c r.ctx p.2.SectionID [] [TeacherEnrollmentType]
                  fuel w0 = (some ⟨enrollments, code, none⟩, w1) ∧
                row.Teachers = some ((enrollments.getD []).map fun e => e.User.Name) ∧
                (enrollments.getD [] = [] → row.Teachers = some []))
          (sectionPairs (assignments.getD [])) rows) ∧
    (∀ row ∈ rows, row.Teachers ≠ none) ∧
    ∀ sectionID : Int,
      enrollmentsBySectionIDUrl c sectionID [] [TeacherEnrollmentType] =
        c.baseUrl ++ "/sections/" ++ Itoa sectionID ++ "/enrollments?" ++
          Values.Encode [("per_page", Itoa c.pageSize), ("type[]", "TeacherEnrollment")] := by
  obtain ⟨course, code1, w1, assignments, code2, err2, w2, hc, ha, hf⟩ :=
    ungraded_report_origin env c r fuel w courseID out rows w' hid hrun hrows
  have hrel : List.Forall₂
      (fun (p : Assignment × SectionCount) (row : UngradedAssignment) =>
        ∃ (w0 : World) (enrollments : Option (List Enrollment)) (code : Nat) (w1 : World),
          GetEnrollmentsBySectionID env c r.ctx p.2.SectionID [] [TeacherEnrollmentType]
              fuel w0 = (some ⟨enrollments, code, none⟩, w1) ∧
            row.Teachers = some ((enrollments.getD []).map fun e => e.User.Name) ∧
            (enrollments.getD [] = [] → row.Teachers = some []))
      (sectionPairs (assignments.getD [])) rows := by
    refine hf.imp ?_
    rintro p row ⟨memo, st, hl, ⟨w0, enrollments, code, w1b, hg, ht, _⟩, hr⟩
    have hT := (ungradedRow_section c course courseID p.1 p.2 memo st hl).2
    refine ⟨w0, enrollments, code, w1b, hg, ?_, ?_⟩
    · rw [hr, hT, ht]
    · intro he
      rw [hr, hT, ht, he]
      rfl
  refine ⟨⟨assignments, code2, err2, w2, ?_, hrel⟩, ?_, ?_⟩
  · rw [hc]
    exact ha
  · intro row hrow
    obtain ⟨p, _, w0, enrollments, code, w1b, _, ht, _⟩ := forall2_mem_right _ _ _ hrel row hrow
    rw [ht]
    simp
  · intro sectionID
    show "" ++ c.baseUrl ++ "/sections/" ++ Itoa sectionID ++ "/enrollments?" ++
      Values.Encode [("per_page", Itoa c.pageSize), ("type[]", "TeacherEnrollment")] ++ "" = _
    rw [String.append_empty, String.empty_append]

/-- C23 at course 8 of the first upstream: section 1 has the teacher Ann, section 2 has no
teacher and its rows carry the empty list. -/
theorem teachers_of_section_witness :
    (GetUngradedAssignmentsByCourseID exampleEnv exampleClient
        { urlParam := "8", ctx := background } 5 {}).1 = some [.json exampleRows8] ∧
    (exampleRows8.map fun row => row.Teachers) =
      [some ["Ann"], some [], some [], some ["Ann"]] ∧
    (∃ assignments code err w2,
      GetAssignmentsByCourseID exampleEnv exampleClient background 8 ""
          UngradedAssignmentBucket true 5 (GetCourseByID exampleEnv exampleClient 8 {}).2 =
        (some ⟨assignments, code, err⟩, w2) ∧
        List.Forall₂
          (fun (p : Assignment × SectionCount) (row : UngradedAssignment) =>
            ∃ (w0 : World) (enrollments : Option (List Enrollment)) (code : Nat) (w1 : World),
              GetEnrollmentsBySectionID exampleEnv exampleClient background p.2.SectionID []
                  [TeacherEnrollmentType] 5 w0 = (some ⟨enrollments, code, none⟩, w1) ∧
                row.Teachers = some ((enrollments.getD []).map fun e => e.User.Name) ∧
                (enrollments.getD [] = [] → row.Teachers = some []))
          (sectionPairs (assignments.getD [])) exampleRows8) ∧
    enrollmentsBySectionIDUrl exampleClient 1 [] [TeacherEnrollmentType] =
      "https://canvas.example.com/api/v1/sections/1/enrollments?per_page=100&type%5B%5D=TeacherEnrollment" := by
  have h8 : GetUngradedAssignmentsByCourseID exampleEnv exampleClient
      { urlParam := "8", ctx := background } 5 {} =
      (some [.json exampleRows8],
        (GetUngradedAssignmentsByCourseID exampleEnv exampleClient
          { urlParam := "8", ctx := background } 5 {}).2) := by
    decide
  exact ⟨by rw [h8], by decide,
    (teachers_of_section exampleEnv exampleClient { urlParam := "8", ctx := background } 5 {}
      8 _ exampleRows8 _ (by decide) h8 (by simp)).1, by decide⟩

/-! ## C22: the roles of the rows of the enrollment report -/

/-- C22 on the code.  User 43 has a student enrollment in course 8, a teacher enrollment in
course 9 and a student enrollment in course 9.  `GetStudentEnrollmentsResultByUserID` asks
for the enrollments with a url that names no role or type, and encodes one row for each of
the three, the second with the role `TeacherEnrollment`.  The assignment report of the same
user, which skips the enrollments whose role is not `StudentEnrollment`, has rows of the
student role only. -/
theorem teacher_enrollment_row_emitted :
    (GetStudentEnrollmentsResultByUserID reportEnv exampleClient
        { urlParam := "43", ctx := background } 5 {}).1 =
      some [.json exampleEnrollmentRows43] ∧
    (exampleEnrollments43.map fun e => e.Role) =
      ["StudentEnrollment", "TeacherEnrollment", "StudentEnrollment"] ∧
    (exampleEnrollmentRows43.map fun row => row.EnrollmentRole) =
      ["StudentEnrollment", "TeacherEnrollment", "StudentEnrollment"] ∧
    ((GetStudentEnrollmentsResultByUserID reportEnv exampleClient
        { urlParam := "43", ctx := background } 5 {}).2.log.map fun x => x.url).head? =
      some "https://canvas.example.com/api/v1/users/43/enrollments?per_page=100" ∧
    (GetStudentAssignmentsResultByUserID reportEnv exampleClient
        { urlParam := "43", ctx := background } 5 {}).1 = some [.json exampleResults43] ∧
    (exampleResults43.map fun row => row.EnrollmentRole) =
      ["StudentEnrollment", "StudentEnrollment", "StudentEnrollment"] := by
  decide

/-! ## C25: a null score or points possible -/

/-- C25 (null compared as zero).  The discrepancy marker is computed from the `Float64`
fields of the score and of the points possible alone, whether they are valid or null, and
the `Float64` of a null value is `0`.  So in every row that a run of
`GetStudentAssignmentsResultByUserID` encodes, built from an analytics record of the user:
when the points possible are null and the score is greater than `0` the marker is `ERROR`,
and when the score is null the marker is `ERROR` if and only if the points possible are
negative.  A score of 5 against null points possible is marked; a null score against -3
points possible is marked, against 10 or against null points possible it is not. -/
theorem null_compared_as_zero (env : Env) (c : CanvasClient) (r : Request) (fuel : Nat)
    (w : World) (userID : Int) (out : List (Write AssignmentResult))
    (rows : List AssignmentResult) (w' : World)
    (hid : Atoi r.urlParam = some userID)
    (hrun : GetStudentAssignmentsResultByUserID env c r fuel w = (some out, w'))
    (hrows : Write.json rows ∈ out) :
    (∀ row ∈ rows, ∃ (courseID : Int) (data : Option (List AssignmentData)) (code : Nat)
        (w0 w1 : World) (ad : AssignmentData),
      GetAssignmentsDataOfUserByCourseID env c r.ctx userID courseID fuel w0 =
          (some ⟨data, code, none⟩, w1) ∧
        ad ∈ data.getD [] ∧
        row.Score = ad.Submission.Score ∧ row.PointsPossible = ad.PointsPossible ∧
        (row.PointsPossible = { Float64 := 0, Valid := false } → 0 < row.Score.Float64 →
          row.Discrepancy = "ERROR") ∧
        (row.Score = { Float64 := 0, Valid := false } →
          (row.Discrepancy = "ERROR" ↔ row.PointsPossible.Float64 < 0))) ∧
    (∀ (user : User) (enrollment : Enrollment) (ad : AssignmentData),
      (assignmentResult user enrollment ad).Discrepancy =
        if ad.Submission.Score.Float64 > ad.PointsPossible.Float64 then "ERROR" else "") ∧
    (∀ (user : User) (enrollment : Enrollment),
      (assignmentResult user enrollment
          { Submission := { Score := { Float64 := 5, Valid := true } } }).Discrepancy =
        "ERROR" ∧
      (assignmentResult user enrollment
          { PointsPossible := { Float64 := -3, Valid := true } }).Discrepancy = "ERROR" ∧
      (assignmentResult user enrollment
          { PointsPossible := { Float64 := 10, Valid := true } }).Discrepancy = "" ∧
      (assignmentResult user enrollment {}).Discrepancy = "") := by
  have hdef : ∀ (user : User) (enrollment : Enrollment) (ad : AssignmentData),
      (assignmentResult user enrollment ad).Discrepancy =
        if ad.Submission.Score.Float64 > ad.PointsPossible.Float64 then "ERROR" else "" := by
    intro user enrollment ad
    unfold assignmentResult
    split <;> rfl
  refine ⟨?_, hdef, ?_⟩
  · obtain ⟨user, w1, courses, code1, w2, enrollments, code2, w3, _, _, _, blocks, hflat, hblocks⟩ :=
      assignment_report_blocks env c r fuel w userID out rows w' hid hrun hrows
    intro row hrow
    rw [hflat, List.mem_flatten] at hrow
    obtain ⟨block, hblock, hrb⟩ := hrow
    obtain ⟨e, _, hB⟩ := forall2_mem_right _ _ _ hblocks block hblock
    unfold IsAnalyticsBlockOf at hB
    by_cases hrole : e.Role = StudentEnrollmentType
    · rw [if_pos hrole] at hB
      obtain ⟨data, code, w0, w1b, hg, hf⟩ := hB
      obtain ⟨ad, had, hrel⟩ := forall2_mem_right _ _ _ hf row hrb
      obtain ⟨hs, hp, hiff, _⟩ := assignmentResult_discrepancy user.val e ad row hrel
      refine ⟨e.CourseID, data, code, w0, w1b, ad, hg, had, hs, hp, ?_, ?_⟩
      · intro hnull hpos
        rw [hiff, ← hs, ← hp, hnull]
        exact hpos
      · intro hnull
        rw [hiff, ← hs, ← hp, hnull]
    · rw [if_neg hrole] at hB
      rw [hB] at hrb
      simp at hrb
  · intro user enrollment
    refine ⟨?_, ?_, ?_, ?_⟩
    · rw [hdef, if_pos (by norm_num)]
    · rw [hdef, if_pos (by norm_num)]
    · rw [hdef, if_neg (by norm_num)]
    · rw [hdef, if_neg (by norm_num)]

/-- C25 at user 43 of the second upstream, whose Lab has 10 points possible and a null
score: its row is not marked. -/
theorem null_compared_as_zero_witness :
    (GetStudentAssignmentsResultByUserID reportEnv exampleClient
        { urlParam := "43", ctx := background } 5 {}).1 = some [.json exampleResults43] ∧
    (exampleResults43.map fun row => (row.Title, row.Score, row.PointsPossible, row.Discrepancy)) =
      [("Essay", { Float64 := 95, Valid := true }, { Float64 := 90, Valid := true }, "ERROR"),
       ("Quiz", { Float64 := 85, Valid := true }, { Float64 := 90, Valid := true }, ""),
       ("Lab", { Float64 := 0, Valid := false }, { Float64 := 10, Valid := true }, "")] ∧
    ∀ row ∈ exampleResults43, ∃ (courseID : Int) (data : Option (List AssignmentData))
        (code : Nat) (w0 w1 : World) (ad : AssignmentData),
      GetAssignmentsDataOfUserByCourseID reportEnv exampleClient background 43 courseID 5 w0 =
          (some ⟨data, code, none⟩, w1) ∧
        ad ∈ data.getD [] ∧
        row.Score = ad.Submission.Score ∧ row.PointsPossible = ad.PointsPossible ∧
        (row.PointsPossible = { Float64 := 0, Valid := false } → 0 < row.Score.Float64 →
          row.Discrepancy = "ERROR") ∧
        (row.Score = { Float64 := 0, Valid := false } →
          (row.Discrepancy = "ERROR" ↔ row.PointsPossible.Float64 < 0)) := by
  have h4 : GetStudentAssignmentsResultByUserID reportEnv exampleClient
      { urlParam := "43", ctx := background } 5 {} =
      (some [.json exampleResults43],
        (GetStudentAssignmentsResultByUserID reportEnv exampleClient
          { urlParam := "43", ctx := background } 5 {}).2) := by
    decide
  exact ⟨by rw [h4], by decide,
    (null_compared_as_zero reportEnv exampleClient { urlParam := "43", ctx := background } 5 {}
      43 _ exampleResults43 _ (by decide) h4 (by simp)).1⟩

/-! ## C21: the rows of the enrollment report and the courses they use -/

theorem courseLookups_append (id : Int) (cs ds : List Call) :
    courseLookups id (cs ++ ds) = courseLookups id cs + courseLookups id ds := by
  simp [courseLookups, List.countP_append]

theorem CourseCallsMemo_other (courses0 courses : IntMap Course) (calls extra : List Call)
    (hextra : ∀ k, courseLookups k extra = 0)
    (h : CourseCallsMemo courses0 courses calls) :
    CourseCallsMemo courses0 courses (calls ++ extra) := by
  intro k
  rw [courseLookups_append, hextra k]
  exact h k

/-- The course that `resolveCourse` gives comes from where `CourseOrigin` says, and the map
and the calls are again as `CoursesInv` says. -/
theorem resolveCourse_origin (env : Env) (c : CanvasClient) (courses0 : IntMap Course)
    (base : List Call) (courseID : Int) (courses : IntMap Course) (w : World)
    (course : Course) (courses1 : IntMap Course) (w1 : World)
    (hinv : CoursesInv env c courses0 base courses w)
    (h : resolveCourse env c courseID courses w = .ok (course, courses1, w1)) :
    CoursesInv env c courses0 base courses1 w1 ∧ CourseOrigin env c courses0 courseID course := by
  obtain ⟨h1, h2, cs, h3, h4⟩ := hinv
  unfold resolveCourse at h
  cases hl : courses.lookup courseID with
  | some cv =>
    rw [hl] at h
    simp only [Except.ok.injEq, Prod.mk.injEq] at h
    obtain ⟨rfl, rfl, rfl⟩ := h
    exact ⟨⟨h1, h2, cs, h3, h4⟩, h1 _ _ hl⟩
  | none =>
    rw [hl] at h
    simp only at h
    have hcalls := GetCourseByID_calls env c courseID w
    rcases hg : GetCourseByID env c courseID w with ⟨⟨cv, cc, ce⟩, w2⟩
    rw [hg] at h hcalls
    simp only at hcalls
    cases ce with
    | some e => simp at h
    | none =>
      simp only [Except.ok.injEq, Prod.mk.injEq] at h
      obtain ⟨rfl, rfl, rfl⟩ := h
      have h0 : courses0.lookup courseID = none := by
        cases h00 : courses0.lookup courseID with
        | none => rfl
        | some c0 =>
          have := h2 _ _ h00
          rw [hl] at this
          simp at this
      have horigin : CourseOrigin env c courses0 courseID cv :=
        Or.inr ⟨h0, w, by rw [hg], by rw [hg]⟩
      refine ⟨⟨?_, ?_, cs ++ [Call.GetCourseByID courseID], ?_, ?_⟩, horigin⟩
      · intro k cv1 hk
        rw [lookup_set] at hk
        by_cases hkid : k = courseID
        · rw [if_pos hkid] at hk
          simp only [Option.some.injEq] at hk
          rw [← hk, hkid]
          exact horigin
        · rw [if_neg hkid] at hk
          exact h1 k cv1 hk
      · intro k cv1 hk
        rw [lookup_set]
        by_cases hkid : k = courseID
        · rw [hkid, h0] at hk
          simp at hk
        · rw [if_neg hkid]
          exact h2 k cv1 hk
      · rw [hcalls, h3, List.append_assoc]
      · intro k
        rw [courseLookups_append, lookup_set]
        obtain ⟨hk1, hk2, hk3⟩ := h4 k
        by_cases hkid : k = courseID
        · have hz : courseLookups k cs = 0 := hk2 (by rw [hkid]; exact hl)
          have hone : courseLookups k [Call.GetCourseByID courseID] = 1 := by
            simp [courseLookups, hkid]
          rw [hz, hone, if_pos hkid]
          refine ⟨by omega, fun hh => by simp at hh, fun hh => ?_⟩
          rw [hkid, h0] at hh
          exact absurd rfl hh
        · have hzero : courseLookups k [Call.GetCourseByID courseID] = 0 := by
            have : ¬ courseID = k := fun e => hkid e.symm
            simp [courseLookups, this]
          rw [hzero, if_neg hkid]
          exact ⟨hk1, hk2, hk3⟩

/-- One pass of the loop of the enrollment report that goes on: it appends the row of the
enrollment, and the map of the courses and the calls stay as `CoursesInv` says. -/
theorem enrollmentResultRow_origin (env : Env) (c : CanvasClient) (courses0 : IntMap Course)
    (base : List Call) (enrollment : Enrollment) (s s' : EnrollmentsState)
    (hinv : CoursesInv env c courses0 base s.courses s.world)
    (h : enrollmentResultRow env c enrollment s = .ok s') :
    CoursesInv env c courses0 base s'.courses s'.world ∧
      ∃ block, s'.results = s.results ++ block ∧
        List.Forall₂ (EnrollmentRowFrom env c courses0) [enrollment] block := by
  unfold enrollmentResultRow at h
  by_cases hnil : enrollment.IsNil = true
  · rw [if_pos hnil] at h
    cases h
  rw [if_neg hnil] at h
  cases hres : resolveCourse env c enrollment.CourseID s.courses s.world with
  | error e =>
    rw [hres] at h
    obtain ⟨code, w1⟩ := e
    simp at h
  | ok v =>
    rw [hres] at h
    obtain ⟨course, courses, w1⟩ := v
    obtain ⟨hinv1, horigin⟩ :=
      resolveCourse_origin env c courses0 base _ _ _ _ _ _ hinv hres
    simp only at h
    by_cases hsis : enrollment.SISSectionID.String = ""
    · have hsis' : (enrollmentResult enrollment).SectionName = "" := hsis
      rw [if_pos hsis'] at h
      have hcalls := GetSectionByID_calls env c enrollment.CourseSectionID w1
      rcases hg : GetSectionByID env c enrollment.CourseSectionID w1 with ⟨⟨sv, sc, se⟩, w2⟩
      rw [hg] at h hcalls
      simp only at hcalls
      cases se with
      | some e => simp at h
      | none =>
        simp only [Except.ok.injEq] at h
        subst h
        obtain ⟨i1, i2, cs, i3, i4⟩ := hinv1
        refine ⟨⟨i1, i2, cs ++ [Call.GetSectionByID enrollment.CourseSectionID], ?_, ?_⟩,
          _, rfl, List.Forall₂.cons ⟨course, horigin, ?_, rfl⟩ List.Forall₂.nil⟩
        · show w2.calls = _
          rw [hcalls, i3, List.append_assoc]
        · exact CourseCallsMemo_other _ _ _ _ (fun k => by simp [courseLookups]) i4
        · unfold HasSectionNameOf
          rw [if_pos hsis]
          exact ⟨w1, by rw [hg], by rw [hg]⟩
    · have hsis' : ¬ (enrollmentResult enrollment).SectionName = "" := hsis
      rw [if_neg hsis'] at h
      simp only [Except.ok.injEq] at h
      subst h
      refine ⟨hinv1, _, rfl, List.Forall₂.cons ⟨course, horigin, ?_, rfl⟩ List.Forall₂.nil⟩
      unfold HasSectionNameOf
      rw [if_neg hsis]
      rfl

/-- The enrollment report: when it encodes rows, it wrote nothing else, the calls for the
enrollments and for the courses of the user returned without an error, the rows are those of
the enrollments, in their order, and no course was fetched twice, or fetched at all when it
is in the course list of the user. -/
theorem enrollment_report_origin (env : Env) (c : CanvasClient) (r : Request) (fuel : Nat)
    (w : World) (userID : Int) (out : List (Write EnrollmentResult))
    (rows : List EnrollmentResult) (w' : World)
    (hid : Atoi r.urlParam = some userID)
    (hrun : GetStudentEnrollmentsResultByUserID env c r fuel w = (some out, w'))
    (hrows : Write.json rows ∈ out) :
    ∃ enrollments code1 w1 courses code2 w2,
      GetEnrollmentsByUserID env c r.ctx userID (GetOnlyValidEnrollmentState r.states) fuel w =
          (some ⟨enrollments, code1, none⟩, w1) ∧
        GetCoursesByUserID env c r.ctx userID fuel w1 = (some ⟨courses, code2, none⟩, w2) ∧
        out = [.json rows] ∧
        List.Forall₂ (EnrollmentRowFrom env c (courseByCourseID (courses.getD [])))
          (enrollments.getD []) rows ∧
        ∀ id : Int, courseLookups id (callsSince w w') ≤ 1 ∧
          ((courseByCourseID (courses.getD [])).lookup id ≠ none →
            courseLookups id (callsSince w w') = 0) := by
  have hne : r.urlParam ≠ "" := by
    intro h
    rw [h, Atoi_empty] at hid
    simp at hid
  unfold GetStudentEnrollmentsResultByUserID at hrun
  rw [if_neg hne, hid] at hrun
  simp only at hrun
  have hc1 := GetEnrollmentsByUserID_calls env c r.ctx userID
    (GetOnlyValidEnrollmentState r.states) fuel w
  rcases he : GetEnrollmentsByUserID env c r.ctx userID (GetOnlyValidEnrollmentState r.states)
    fuel w with ⟨r1, w1⟩
  rw [he] at hrun hc1
  simp only at hc1
  cases r1 with
  | none => simp at hrun
  | some rep1 =>
    obtain ⟨ev, ec, ee⟩ := rep1
    cases ee with
    | some e =>
      simp only [Prod.mk.injEq, Option.some.injEq] at hrun
      rw [← hrun.1] at hrows
      simp at hrows
    | none =>
      simp only at hrun
      have hc2 := GetCoursesByUserID_calls env c r.ctx userID fuel w1
      rcases hc : GetCoursesByUserID env c r.ctx userID fuel w1 with ⟨r2, w2⟩
      rw [hc] at hrun hc2
      simp only at hc2
      cases r2 with
      | none => simp at hrun
      | some rep2 =>
        obtain ⟨cv, cc, ce⟩ := rep2
        cases ce with
        | some e =>
          simp only [Prod.mk.injEq, Option.some.injEq] at hrun
          rw [← hrun.1] at hrows
          simp at hrows
        | none =>
          simp only at hrun
          split at hrun
          · simp [nilDereference] at hrun
          cases hloop : forRange (enrollmentResultRow env c) (ev.getD [])
              { courses := courseByCourseID (cv.getD []), world := w2 } with
          | error run =>
            rw [hloop] at hrun
            simp only at hrun
            have hq := forRange_error (enrollmentResultRow env c) (fun _ _ => True)
              (fun _ run => ∀ o, run.1 = some o → OnlyErrors o)
              (fun _ _ _ _ hq => hq) (fun _ _ _ _ => trivial)
              (fun x a e hae => (enrollmentResultRow_aborts env c x a e hae).1)
              _ _ _ hloop out (by rw [hrun])
            exact absurd hrows (hq rows)
          | ok s =>
            rw [hloop] at hrun
            simp only [Prod.mk.injEq, Option.some.injEq] at hrun
            obtain ⟨hout, hw'⟩ := hrun
            rw [← hout] at hrows
            have hr := json_mem_encode r [] s.results rows OnlyErrors_nil
              (by simpa using hrows)
            have henc : encode r s.results = [Write.json s.results] := by
              unfold encode at hrows ⊢
              split
              · rename_i hb
                rw [if_pos hb] at hrows
                simp at hrows
              · rfl
            obtain ⟨⟨_, _, cs, hcs, hmemo⟩, _, block, hb1, hb2⟩ := forRange_rows_inv
              (enrollmentResultRow env c) (fun st => st.results)
              (fun st => CoursesInv env c (courseByCourseID (cv.getD [])) w2.calls
                st.courses st.world)
              (fun _ _ => True)
              (fun _ => EnrollmentRowFrom env c (courseByCourseID (cv.getD [])))
              (fun e => [e])
              (fun _ => trivial) (fun _ _ _ _ _ => trivial)
              (fun _ _ _ _ _ hxy => hxy)
              (fun x a b ha hab => by
                obtain ⟨h1, h2⟩ := enrollmentResultRow_origin env c _ _ x a b ha hab
                exact ⟨h1, trivial, h2⟩)
              (ev.getD []) { courses := courseByCourseID (cv.getD []), world := w2 } s
              ⟨fun k cv1 hk => Or.inl hk, fun k cv1 hk => hk, [], by simp,
                fun k => ⟨by simp [courseLookups], fun _ => by simp [courseLookups],
                  fun _ => by simp [courseLookups]⟩⟩
              hloop
            rw [flatMap_single] at hb2
            simp only [List.nil_append] at hb1
            refine ⟨ev, ec, w1, cv, cc, w2, rfl, hc, ?_, ?_, ?_⟩
            · rw [← hout, henc, hr]
            · rw [hr, hb1]
              exact hb2
            · have hsince : callsSince w w' =
                  [Call.GetEnrollmentsByUserID userID (GetOnlyValidEnrollmentState r.states),
                    Call.GetCoursesByUserID userID] ++ cs := by
                apply callsSince_append
                rw [← hw', hcs, hc2, hc1]
                simp
              intro id
              have hzero : courseLookups id
                  [Call.GetEnrollmentsByUserID userID (GetOnlyValidEnrollmentState r.states),
                    Call.GetCoursesByUserID userID] = 0 := by
                simp [courseLookups]
              rw [hsince, courseLookups_append, hzero, Nat.zero_add]
              exact ⟨(hmemo id).1, (hmemo id).2.2⟩

theorem enrollmentResultRow_total (env : Env) (c : CanvasClient) (enrollment : Enrollment)
    (s : EnrollmentsState) (hnil : enrollment.IsNil = false)
    (hcourse : s.courses.lookup enrollment.CourseID = none →
      CourseResolves env c enrollment.CourseID)
    (hsec : enrollment.SISSectionID.String = "" →
      SectionFound env c enrollment.CourseSectionID) :
    ∃ s', enrollmentResultRow env c enrollment s = .ok s' ∧
      ∀ k, s.courses.lookup k ≠ none → s'.courses.lookup k ≠ none := by
  obtain ⟨course, courses1, w1, hres, hk⟩ :=
    resolveCourse_total env c enrollment.CourseID s.courses s.world hcourse
  unfold enrollmentResultRow
  rw [if_neg (by simp [hnil]), hres]
  simp only
  by_cases hsis : enrollment.SISSectionID.String = ""
  · have hsis' : (enrollmentResult enrollment).SectionName = "" := hsis
    rw [if_pos hsis']
    have he := hsec hsis w1
    rcases hg : GetSectionByID env c enrollment.CourseSectionID w1 with ⟨⟨sv, sc, se⟩, w2⟩
    rw [hg] at he
    simp only at he
    subst he
    exact ⟨_, rfl, hk⟩
  · have hsis' : ¬ (enrollmentResult enrollment).SectionName = "" := hsis
    rw [if_neg hsis']
    exact ⟨_, rfl, hk⟩

/-- The entry the map of the courses holds for an id is the last course of the list with
that id. -/
theorem courses_fold_lookup (id : Int) :
    ∀ (courses : List Course) (m : IntMap Course),
      (courses.foldl (fun m course => m.set course.ID course) m).lookup id =
        ((courses.filter fun course => course.ID == id).getLast?).or (m.lookup id) := by
  intro courses
  induction courses with
  | nil => intro m; simp
  | cons d ds ih =>
    intro m
    simp only [List.foldl_cons]
    rw [ih, lookup_set]
    by_cases hk : id = d.ID
    · have ha : (d.ID == id) = true := by simp [hk]
      rw [List.filter_cons, if_pos ha, if_pos hk, List.getLast?_cons]
      cases (List.filter (fun course => course.ID == id) ds).getLast? <;> simp
    · have ha : (d.ID == id) = false := by
        have : ¬ d.ID = id := fun e => hk e.symm
        simp [this]
      rw [List.filter_cons, if_neg hk]
      simp [ha]

theorem courseByCourseID_lookup (courses : List Course) (id : Int) :
    (courseByCourseID courses).lookup id =
      (courses.filter fun course => course.ID == id).getLast? := by
  unfold courseByCourseID
  rw [courses_fold_lookup]
  simp

/-- C21 as stated fails: every upstream call succeeds, and a list is the JSON text
`[null]`.  With such an enrollment list of user 43, `GetEnrollmentsByUserID` and
`GetCoursesByUserID` return without an error, the former a slice with one nil pointer, and
the handler panics when it reads the user of that enrollment, after two GETs.  With such
a course list it panics when it reads the id of the course to fill its map, after two GETs
as well.  In both runs no row is written. -/
theorem enrollment_rows_in_order_counterexample :
    ((GetEnrollmentsByUserID nullEnrollmentsEnv exampleClient background 43
          (GetOnlyValidEnrollmentState []) 5 {}).1 =
        some ⟨some [{ IsNil := true }], 200, none⟩ ∧
      (GetCoursesByUserID nullEnrollmentsEnv exampleClient background 43 5
          (GetEnrollmentsByUserID nullEnrollmentsEnv exampleClient background 43
            (GetOnlyValidEnrollmentState []) 5 {}).2).1 =
        some ⟨some [{ ID := 8, Name := "Algebra", Account := { Name := "Maths" } }], 200,
          none⟩ ∧
      (GetStudentEnrollmentsResultByUserID nullEnrollmentsEnv exampleClient
          { urlParam := "43", ctx := background } 5 {}).1 = none ∧
      (GetStudentEnrollmentsResultByUserID nullEnrollmentsEnv exampleClient
          { urlParam := "43", ctx := background } 5 {}).2.panicked = true ∧
      (GetStudentEnrollmentsResultByUserID nullEnrollmentsEnv exampleClient
          { urlParam := "43", ctx := background } 5 {}).2.log.length = 2) ∧
    ((GetCoursesByUserID nullCoursesEnv exampleClient background 43 5
          (GetEnrollmentsByUserID nullCoursesEnv exampleClient background 43
            (GetOnlyValidEnrollmentState []) 5 {}).2).1 =
        some ⟨some [{ IsNil := true }], 200, none⟩ ∧
      (GetStudentEnrollmentsResultByUserID nullCoursesEnv exampleClient
          { urlParam := "43", ctx := background } 5 {}).1 = none ∧
      (GetStudentEnrollmentsResultByUserID nullCoursesEnv exampleClient
          { urlParam := "43", ctx := background } 5 {}).2.panicked = true ∧
      (GetStudentEnrollmentsResultByUserID nullCoursesEnv exampleClient
          { urlParam := "43", ctx := background } 5 {}).2.log.length = 2) := by
  decide

/-- C21, amended (one row for each enrollment).  When the user id is an integer,
`GetEnrollmentsByUserID` and `GetCoursesByUserID` return without an error, no element of
the enrollment list and of the course list is a nil pointer, the course of
every enrollment is in the course list of the user or can be fetched, the section of every
enrollment without a SIS section id can be fetched, and the rows can be encoded, then
`GetStudentEnrollmentsResultByUserID` writes the encoded rows and nothing else; there are as
many rows as enrollments, and row `i` is built from enrollment `i`: its fields are those of
the enrollment and its course name, course state and account name are those of the course
the map of the courses holds for the course id of the enrollment, which is the course of the
course list of the user with that id (the last one, should the list have several) and, when
the list has none, the course returned by a call of `GetCourseByID` for that id.  No course
id has more than one call of `GetCourseByID` in the run, and a course id of the course list
has none. -/
theorem enrollment_rows_in_order (env : Env) (c : CanvasClient) (r : Request) (fuel : Nat)
    (w : World) (userID : Int) (enrollments : Option (List Enrollment)) (code1 : Nat)
    (w1 : World) (courses : Option (List Course)) (code2 : Nat) (w2 : World)
    (hid : Atoi r.urlParam = some userID)
    (henrollments : GetEnrollmentsByUserID env c r.ctx userID
      (GetOnlyValidEnrollmentState r.states) fuel w = (some ⟨enrollments, code1, none⟩, w1))
    (hcourses : GetCoursesByUserID env c r.ctx userID fuel w1 =
      (some ⟨courses, code2, none⟩, w2))
    (henil : ∀ e ∈ enrollments.getD [], e.IsNil = false)
    (hcnil : ∀ course ∈ courses.getD [], course.IsNil = false)
    (hcalls : ∀ e ∈ enrollments.getD [],
      ((courseByCourseID (courses.getD [])).lookup e.CourseID = none →
        CourseResolves env c e.CourseID) ∧
      (e.SISSectionID.String = "" → SectionFound env c e.CourseSectionID))
    (henc : r.encodeErr = false) :
    ∃ rows w', GetStudentEnrollmentsResultByUserID env c r fuel w = (some [.json rows], w') ∧
      rows.length = (enrollments.getD []).length ∧
      List.Forall₂ (EnrollmentRowFrom env c (courseByCourseID (courses.getD [])))
        (enrollments.getD []) rows ∧
      (∀ id : Int, courseLookups id (callsSince w w') ≤ 1 ∧
        ((courseByCourseID (courses.getD [])).lookup id ≠ none →
          courseLookups id (callsSince w w') = 0)) ∧
      ∀ id : Int, (courseByCourseID (courses.getD [])).lookup id =
        ((courses.getD []).filter fun course => course.ID == id).getLast? := by
  have hne : r.urlParam ≠ "" := by
    intro h
    rw [h, Atoi_empty] at hid
    simp at hid
  obtain ⟨s, hloop, _⟩ := forRange_total (enrollmentResultRow env c)
    (fun st => ∀ k, (courseByCourseID (courses.getD [])).lookup k ≠ none →
      st.courses.lookup k ≠ none)
    (enrollments.getD [])
    (fun e he st hst => by
      obtain ⟨s1, h1, h2⟩ := enrollmentResultRow_total env c e st (henil e he)
        (fun hnone => (hcalls e he).1 (by
          by_contra hne0
          exact hst _ hne0 hnone))
        (hcalls e he).2
      exact ⟨s1, h1, fun k hk => h2 k (hst k hk)⟩)
    { courses := courseByCourseID (courses.getD []), world := w2 }
    (fun _ hk => hk)
  have hrun : GetStudentEnrollmentsResultByUserID env c r fuel w =
      (some [.json s.results], s.world) := by
    unfold GetStudentEnrollmentsResultByUserID
    rw [if_neg hne, hid]
    simp only
    rw [henrollments]
    simp only
    rw [hcourses]
    simp only
    rw [if_neg (any_not_of_forall _ _ hcnil), hloop]
    simp only [encode, henc]
    rfl
  obtain ⟨enrollments1, code1b, w1b, courses1, code2b, w2b, he1, hc1, _, hf, hl⟩ :=
    enrollment_report_origin env c r fuel w userID _ s.results _ hid hrun (by simp)
  rw [henrollments] at he1
  simp only [Prod.mk.injEq, Option.some.injEq, Reply.mk.injEq] at he1
  obtain ⟨⟨he2, _⟩, he3⟩ := he1
  subst he2 he3
  rw [hcourses] at hc1
  simp only [Prod.mk.injEq, Option.some.injEq, Reply.mk.injEq] at hc1
  obtain ⟨⟨hc2, _⟩, _⟩ := hc1
  subst hc2
  exact ⟨s.results, s.world, hrun, hf.length_eq.symm, hf, hl,
    fun id => courseByCourseID_lookup _ id⟩

/-- The second upstream of the examples knows section 3. -/
theorem reportEnv_section3 : SectionFound reportEnv exampleClient 3 := by
  intro w
  exact (GetSectionByID_contract reportEnv exampleClient 3 w).1.2
    ⟨{ StatusCode := 200, Body := "section-3" }, _,
      ⟨rfl, (by decide : reportRespond (sectionByIDUrl exampleClient 3) =
        .response { StatusCode := 200, Body := "section-3" })⟩, rfl, rfl, rfl⟩

/-- C21 at user 43 of the second upstream: three enrollments and three rows; course 8 is
in the course list of the user and is not fetched, course 9 is the course of two
enrollments and is fetched once. -/
theorem enrollment_rows_in_order_witness :
    ((∀ e ∈ exampleEnrollments43, e.IsNil = false) ∧
      CourseResolves reportEnv exampleClient 9 ∧ SectionFound reportEnv exampleClient 3) ∧
    (∃ rows w', GetStudentEnrollmentsResultByUserID reportEnv exampleClient
        { urlParam := "43", ctx := background } 5 {} = (some [.json rows], w') ∧
      rows.length = exampleEnrollments43.length ∧
      List.Forall₂
        (EnrollmentRowFrom reportEnv exampleClient
          (courseByCourseID [{ ID := 8, Name := "Algebra", Account := { Name := "Maths" } }]))
        exampleEnrollments43 rows ∧
      (∀ id : Int, courseLookups id (callsSince {} w') ≤ 1 ∧
        ((courseByCourseID
            [{ ID := 8, Name := "Algebra", Account := { Name := "Maths" } }]).lookup id ≠ none →
          courseLookups id (callsSince {} w') = 0)) ∧
      ∀ id : Int,
        (courseByCourseID
          [{ ID := 8, Name := "Algebra", Account := { Name := "Maths" } }]).lookup id =
          (([{ ID := 8, Name := "Algebra", Account := { Name := "Maths" } }] :
            List Course).filter fun course => course.ID == id).getLast?) ∧
    (callsSince {} (GetStudentEnrollmentsResultByUserID reportEnv exampleClient
        { urlParam := "43", ctx := background } 5 {}).2) =
      [.GetEnrollmentsByUserID 43 [], .GetCoursesByUserID 43, .GetCourseByID 9,
        .GetSectionByID 3, .GetSectionByID 3] := by
  have he : GetEnrollmentsByUserID reportEnv exampleClient background 43
      (GetOnlyValidEnrollmentState []) 5 {} =
      (some ⟨some exampleEnrollments43, 200, none⟩,
        (GetEnrollmentsByUserID reportEnv exampleClient background 43
          (GetOnlyValidEnrollmentState []) 5 {}).2) := by
    decide
  have hc : GetCoursesByUserID reportEnv exampleClient background 43 5
      (GetEnrollmentsByUserID reportEnv exampleClient background 43
          (GetOnlyValidEnrollmentState []) 5 {}).2 =
      (some ⟨some [{ ID := 8, Name := "Algebra", Account := { Name := "Maths" } }], 200, none⟩,
        (GetCoursesByUserID reportEnv exampleClient background 43 5
          (GetEnrollmentsByUserID reportEnv exampleClient background 43
            (GetOnlyValidEnrollmentState []) 5 {}).2).2) := by
    decide
  have hcalls : ∀ e ∈ exampleEnrollments43,
      ((courseByCourseID
          [{ ID := 8, Name := "Algebra", Account := { Name := "Maths" } }]).lookup e.CourseID =
          none → CourseResolves reportEnv exampleClient e.CourseID) ∧
      (e.SISSectionID.String = "" → SectionFound reportEnv exampleClient e.CourseSectionID) := by
    intro e hmem
    have hmem' : e ∈ [exampleEnrollments43.get ⟨0, by decide⟩,
        exampleEnrollments43.get ⟨1, by decide⟩, exampleEnrollments43.get ⟨2, by decide⟩] := hmem
    simp only [List.mem_cons, List.mem_singleton, List.not_mem_nil, or_false] at hmem'
    rcases hmem' with h | h | h
    · rw [h]
      exact ⟨fun hn => absurd hn (by decide), fun hn => absurd hn (by decide)⟩
    · rw [h]
      exact ⟨fun _ => reportEnv_course9, fun _ => reportEnv_section3⟩
    · rw [h]
      exact ⟨fun _ => reportEnv_course9, fun _ => reportEnv_section3⟩
  exact ⟨⟨by decide, reportEnv_course9, reportEnv_section3⟩,
    enrollment_rows_in_order reportEnv exampleClient { urlParam := "43", ctx := background } 5
      {} 43 (some exampleEnrollments43) _ _ _ _ _ (by decide) he hc (by decide) (by decide)
      hcalls rfl,
    by decide⟩

/-! ## C24: the section name of the rows of the three reports -/

theorem assignmentResultRow_no_sections (env : Env) (c : CanvasClient) (user : User)
    (enrollment : Enrollment) (ad : AssignmentData) (s s' : AssignmentsState)
    (h : assignmentResultRow env c user enrollment ad s = .ok s') :
    ∃ more, s'.world.calls = s.world.calls ++ more ∧ sectionCalls more = [] := by
  obtain ⟨more, hm, hok, _⟩ := resolveCourse_calls env c enrollment.CourseID s.courses s.world
  unfold assignmentResultRow at h
  by_cases hnil : ad.IsNil = true
  · rw [if_pos hnil] at h
    cases h
  rw [if_neg hnil] at h
  cases hres : resolveCourse env c enrollment.CourseID s.courses s.world with
  | error e =>
    rw [hres] at h
    obtain ⟨code, w1⟩ := e
    simp at h
  | ok v =>
    rw [hres] at h
    obtain ⟨course, courses, w1⟩ := v
    simp only [Except.ok.injEq] at h
    subst h
    exact ⟨more, hok course courses w1 hres, (course_calls_only enrollment.CourseID more hm).2.2⟩

theorem assignmentResultEnrollment_no_sections (env : Env) (c : CanvasClient) (ctx : Context)
    (fuel : Nat) (user : User) (userID : Int) (enrollment : Enrollment)
    (s s' : AssignmentsState)
    (h : assignmentResultEnrollment env c ctx fuel user userID enrollment s = .ok s') :
    ∃ more, s'.world.calls = s.world.calls ++ more ∧ sectionCalls more = [] := by
  unfold assignmentResultEnrollment at h
  simp only [poll] at h
  cases hc : ctx s.world.polls with
  | some e => rw [hc] at h; simp at h
  | none =>
    rw [hc] at h
    simp only at h
    by_cases hnil : enrollment.IsNil = true
    · rw [if_pos hnil] at h
      cases h
    rw [if_neg hnil] at h
    by_cases hrole : enrollment.Role = StudentEnrollmentType
    · rw [if_neg (not_not.2 hrole)] at h
      have hcalls := GetAssignmentsDataOfUserByCourseID_calls env c ctx userID
        enrollment.CourseID fuel { s.world with polls := s.world.polls + 1 }
      rcases hg : GetAssignmentsDataOfUserByCourseID env c ctx userID enrollment.CourseID fuel
        { s.world with polls := s.world.polls + 1 } with ⟨r1, w2⟩
      rw [hg] at h hcalls
      simp only at hcalls
      cases r1 with
      | none => simp at h
      | some rep =>
        obtain ⟨dv, dc, de⟩ := rep
        cases de with
        | some e => simp at h
        | none =>
          simp only at h
          obtain ⟨more, h1, h2⟩ := forRange_ok (assignmentResultRow env c user enrollment)
            (fun a b => ∃ more, b.world.calls = a.world.calls ++ more ∧ sectionCalls more = [])
            (fun _ => ⟨[], by simp, rfl⟩)
            (fun a b d ⟨m1, h1, h2⟩ ⟨m2, h4, h5⟩ =>
              ⟨m1 ++ m2, by rw [h4, h1, List.append_assoc],
                by rw [sectionCalls_append, h2, h5]; rfl⟩)
            (fun ad a b hab => assignmentResultRow_no_sections env c user enrollment ad a b hab)
            _ _ _ h
          refine ⟨Call.GetAssignmentsDataOfUserByCourseID userID enrollment.CourseID :: more,
            ?_, ?_⟩
          · rw [h1]
            show w2.calls ++ more = _
            rw [hcalls]
            simp
          · show sectionCalls ([_] ++ more) = _
            rw [sectionCalls_append, h2]
            rfl
    · rw [if_pos hrole] at h
      simp only [Except.ok.injEq] at h
      subst h
      exact ⟨[], by simp, rfl⟩

/-- The loop of the assignment report, when the handler then encodes rows, has made no call
of `GetSectionByID`. -/
theorem assignment_loop_no_sections (env : Env) (c : CanvasClient) (r : Request) (fuel : Nat)
    (w3 w' : World) (user : User) (userID : Int) (enrollments : List Enrollment)
    (courses0 : IntMap Course)
    (out0 out : List (Write AssignmentResult)) (rows : List AssignmentResult)
    (hout0 : OnlyErrors out0)
    (hrun : (match forRange (assignmentResultEnrollment env c r.ctx fuel user userID) enrollments
          { courses := courses0, out := out0, world := w3 } with
        | .error run => run
        | .ok s => (some (s.out ++ encode r s.results), s.world)) = (some out, w'))
    (hrows : Write.json rows ∈ out) :
    ∃ more, w'.calls = w3.calls ++ more ∧ sectionCalls more = [] := by
  cases hloop : forRange (assignmentResultEnrollment env c r.ctx fuel user userID) enrollments
      { courses := courses0, out := out0, world := w3 } with
  | error run =>
    rw [hloop] at hrun
    simp only at hrun
    have hq := forRange_error (assignmentResultEnrollment env c r.ctx fuel user userID)
      (fun a b => b.out = a.out)
      (fun st run => OnlyErrors st.out → ∀ o, run.1 = some o → OnlyErrors o)
      (fun a b e hab hq ha => hq (by rw [hab]; exact ha))
      (fun x a b hab => (assignmentResultEnrollment_rows env c r.ctx fuel user userID x a b hab).2)
      (fun x a e hae => assignmentResultEnrollment_aborts env c r.ctx fuel user userID x a e hae)
      _ _ _ hloop hout0 out (by rw [hrun])
    exact absurd hrows (hq rows)
  | ok s =>
    rw [hloop] at hrun
    simp only [Prod.mk.injEq, Option.some.injEq] at hrun
    obtain ⟨more, h1, h2⟩ := forRange_ok
      (assignmentResultEnrollment env c r.ctx fuel user userID)
      (fun a b => ∃ more, b.world.calls = a.world.calls ++ more ∧ sectionCalls more = [])
      (fun _ => ⟨[], by simp, rfl⟩)
      (fun a b d ⟨m1, h1, h2⟩ ⟨m2, h4, h5⟩ =>
        ⟨m1 ++ m2, by rw [h4, h1, List.append_assoc],
          by rw [sectionCalls_append, h2, h5]; rfl⟩)
      (fun x a b hab =>
        assignmentResultEnrollment_no_sections env c r.ctx fuel user userID x a b hab)
      _ _ _ hloop
    exact ⟨more, by rw [← hrun.2]; exact h1, h2⟩

/-- The assignment report: a run that encodes rows has made no call of `GetSectionByID`. -/
theorem assignment_report_no_sections (env : Env) (c : CanvasClient) (r : Request) (fuel : Nat)
    (w : World) (userID : Int) (out : List (Write AssignmentResult))
    (rows : List AssignmentResult) (w' : World)
    (hid : Atoi r.urlParam = some userID)
    (hrun : GetStudentAssignmentsResultByUserID env c r fuel w = (some out, w'))
    (hrows : Write.json rows ∈ out) :
    sectionCalls (callsSince w w') = [] := by
  have hne : r.urlParam ≠ "" := by
    intro h
    rw [h, Atoi_empty] at hid
    simp at hid
  unfold GetStudentAssignmentsResultByUserID at hrun
  rw [if_neg hne, hid] at hrun
  simp only at hrun
  have hc0 := GetUserByID_calls env c userID w
  rcases hu : GetUserByID env c userID w with ⟨⟨uv, uc, ue⟩, w1⟩
  rw [hu] at hrun hc0
  simp only at hrun hc0
  have hout0 : OnlyErrors (match ue with
      | some _ => [Write.error s!"error fetching user: {Itoa userID}" uc]
      | none => ([] : List (Write AssignmentResult))) := by
    cases ue with
    | some e => exact OnlyErrors_error [] _ _ OnlyErrors_nil
    | none => exact OnlyErrors_nil
  have hc1 := GetCoursesByUserID_calls env c r.ctx userID fuel w1
  rcases hc : GetCoursesByUserID env c r.ctx userID fuel w1 with ⟨r2, w2⟩
  rw [hc] at hrun hc1
  simp only at hc1
  cases r2 with
  | none => simp at hrun
  | some rep2 =>
    obtain ⟨cv, cc, ce⟩ := rep2
    cases ce with
    | some e =>
      simp only [Prod.mk.injEq, Option.some.injEq] at hrun
      rw [← hrun.1] at hrows
      exact absurd hrows (OnlyErrors_error _ _ _ hout0 rows)
    | none =>
      simp only at hrun
      split at hrun
      · simp [nilDereference] at hrun
      have hc2 := GetEnrollmentsByUserID_calls env c r.ctx userID
        [ActiveEnrollmentState, CompletedEnrollmentState] fuel w2
      rcases he : GetEnrollmentsByUserID env c r.ctx userID
        [ActiveEnrollmentState, CompletedEnrollmentState] fuel w2 with ⟨r3, w3⟩
      rw [he] at hrun hc2
      simp only at hc2
      cases r3 with
      | none => simp at hrun
      | some rep3 =>
        obtain ⟨ev, ec, ee⟩ := rep3
        cases ee with
        | some e =>
          simp only [Prod.mk.injEq, Option.some.injEq] at hrun
          rw [← hrun.1] at hrows
          exact absurd hrows (OnlyErrors_error _ _ _ hout0 rows)
        | none =>
          simp only at hrun
          obtain ⟨more, h1, h2⟩ := assignment_loop_no_sections env c r fuel w3 w' uv userID
            _ _ _ out rows hout0 hrun hrows
          have hsince : callsSince w w' =
              [Call.GetUserByID userID, Call.GetCoursesByUserID userID,
                Call.GetEnrollmentsByUserID userID
                  [ActiveEnrollmentState, CompletedEnrollmentState]] ++ more := by
            apply callsSince_append
            rw [h1, hc2, hc1, hc0]
            simp
          rw [hsince, sectionCalls_append, h2]
          rfl

theorem assignmentResult_section (user : User) (enrollment : Enrollment)
    (ad : AssignmentData) (row : AssignmentResult)
    (h : IsAssignmentResultOf user enrollment ad row) :
    row.Section = enrollment.SISSectionID.String := by
  obtain ⟨course, rfl⟩ := h
  unfold assignmentResult
  split <;> rfl

/-- C24 (the assignment report has no fallback).  The second and the third enrollment of
user 43 have no SIS section id and are in section 3, which is named `Section three`.  The
enrollment report of the user looks the section up and gives its rows this name; the
assignment report of the same user makes no call of `GetSectionByID` and encodes the row of
the third enrollment with an empty section. -/
theorem assignment_report_section_empty :
    (exampleEnrollments43.map fun e => (e.Role, e.CourseSectionID, e.SISSectionID)) =
      [("StudentEnrollment", 1, { String := "SIS-1", Valid := true }),
       ("TeacherEnrollment", 3, { String := "", Valid := false }),
       ("StudentEnrollment", 3, { String := "", Valid := false })] ∧
    (GetSectionByID reportEnv exampleClient 3 {}).1.val.Name = "Section three" ∧
    (GetStudentEnrollmentsResultByUserID reportEnv exampleClient
        { urlParam := "43", ctx := background } 5 {}).1 =
      some [.json exampleEnrollmentRows43] ∧
    (exampleEnrollmentRows43.map fun row => (row.EnrollmentRole, row.SectionName)) =
      [("StudentEnrollment", "SIS-1"), ("TeacherEnrollment", "Section three"),
       ("StudentEnrollment", "Section three")] ∧
    (GetStudentAssignmentsResultByUserID reportEnv exampleClient
        { urlParam := "43", ctx := background } 5 {}).1 = some [.json exampleResults43] ∧
    (exampleResults43.map fun row => (row.Title, row.Section)) =
      [("Essay", "SIS-1"), ("Quiz", "SIS-1"), ("Lab", "")] ∧
    sectionCalls (callsSince {}
      (GetStudentAssignmentsResultByUserID reportEnv exampleClient
        { urlParam := "43", ctx := background } 5 {}).2) = [] := by
  decide

/-- The section names of the three reports.  In a run of `GetUngradedAssignmentsByCourseID`
that writes the encoded rows and nothing else, the section name of the row of a pair
(assignment, section) is the SIS section id of the first teacher enrollment of the section when there is one and the id
is not empty, and otherwise the name of the section that `GetSectionByID` returned without
an error.  In a run of `GetStudentEnrollmentsResultByUserID` that encodes rows, the section
name of the row of an enrollment is its SIS section id when that is not empty, and
otherwise the name of the section that `GetSectionByID` returned without an error for the
`course_section_id` of the enrollment.  In a run of `GetStudentAssignmentsResultByUserID`
that encodes rows, the section of every row is the SIS section id of an enrollment of the
user, as it is, and the run makes no call of `GetSectionByID`. -/
theorem section_display_name (env : Env) (c : CanvasClient) (fuel : Nat)
    (r1 : Request) (w1 : World) (courseID : Int) (rows1 : List UngradedAssignment)
    (w1' : World)
    (r2 : Request) (w2 : World) (userID2 : Int) (out2 : List (Write EnrollmentResult))
    (rows2 : List EnrollmentResult) (w2' : World)
    (r3 : Request) (w3 : World) (userID3 : Int) (out3 : List (Write AssignmentResult))
    (rows3 : List AssignmentResult) (w3' : World)
    (hid1 : Atoi r1.urlParam = some courseID)
    (hrun1 : GetUngradedAssignmentsByCourseID env c r1 fuel w1 = (some [.json rows1], w1'))
    (hid2 : Atoi r2.urlParam = some userID2)
    (hrun2 : GetStudentEnrollmentsResultByUserID env c r2 fuel w2 = (some out2, w2'))
    (hrows2 : Write.json rows2 ∈ out2)
    (hid3 : Atoi r3.urlParam = some userID3)
    (hrun3 : GetStudentAssignmentsResultByUserID env c r3 fuel w3 = (some out3, w3'))
    (hrows3 : Write.json rows3 ∈ out3) :
    (∃ assignments code err wa,
      GetAssignmentsByCourseID env c r1.ctx courseID "" UngradedAssignmentBucket true fuel
          (GetCourseByID env c courseID w1).2 = (some ⟨assignments, code, err⟩, wa) ∧
        List.Forall₂
          (fun (p : Assignment × SectionCount) (row : UngradedAssignment) =>
            ∃ (w0 : World) (enrollments : Option (List Enrollment)) (code : Nat) (wb : World),
              GetEnrollmentsBySectionID env c r1.ctx p.2.SectionID [] [TeacherEnrollmentType]
                  fuel w0 = (some ⟨enrollments, code, none⟩, wb) ∧
                if (sectionEntry p.2.SectionID (enrollments.getD [])).sisSectionID = "" then
                  (GetSectionByID env c p.2.SectionID wb).1.err = none ∧
                    row.SectionName = (GetSectionByID env c p.2.SectionID wb).1.val.Name
                else
                  row.SectionName =
                    (sectionEntry p.2.SectionID (enrollments.getD [])).sisSectionID)
          (sectionPairs (assignments.getD [])) rows1) ∧
    (∃ enrollments code wa,
      GetEnrollmentsByUserID env c r2.ctx userID2 (GetOnlyValidEnrollmentState r2.states) fuel
          w2 = (some ⟨enrollments, code, none⟩, wa) ∧
        List.Forall₂ (HasSectionNameOf env c) (enrollments.getD []) rows2) ∧
    (∃ enrollments code wa wb,
      GetEnrollmentsByUserID env c r3.ctx userID3
          [ActiveEnrollmentState, CompletedEnrollmentState] fuel wa =
        (some ⟨enrollments, code, none⟩, wb) ∧
        ∀ row ∈ rows3, ∃ e ∈ enrollments.getD [], row.Section = e.SISSectionID.String) ∧
    sectionCalls (callsSince w3 w3') = [] := by
  refine ⟨?_, ?_, ?_, ?_⟩
  · obtain ⟨course, code1, wc, assignments, code2, err2, wa, hc, ha, hf⟩ :=
      ungraded_report_origin env c r1 fuel w1 courseID _ rows1 w1' hid1 hrun1 (by simp)
    refine ⟨assignments, code2, err2, wa, by rw [hc]; exact ha, ?_⟩
    refine hf.imp ?_
    rintro p row ⟨memo, st, hl, ⟨w0, enrollments, code, wb, hg, _, hn⟩, hr⟩
    have hS := (ungradedRow_section c course courseID p.1 p.2 memo st hl).1
    refine ⟨w0, enrollments, code, wb, hg, ?_⟩
    by_cases hsis : (sectionEntry p.2.SectionID (enrollments.getD [])).sisSectionID = ""
    · rw [if_pos hsis] at hn ⊢
      exact ⟨hn.2 rfl, by rw [hr, hS, hn.1]⟩
    · rw [if_neg hsis] at hn ⊢
      rw [hr, hS, hn]
  · obtain ⟨enrollments, code1, wa, courses, code2, wb, he, _, _, hf, _⟩ :=
      enrollment_report_origin env c r2 fuel w2 userID2 out2 rows2 w2' hid2 hrun2 hrows2
    refine ⟨enrollments, code1, wa, he, hf.imp ?_⟩
    rintro e row ⟨course, _, hs, _⟩
    exact hs
  · obtain ⟨user, wu, courses, code1, wa, enrollments, code2, wb, _, _, he, blocks, hflat,
        hblocks⟩ :=
      assignment_report_blocks env c r3 fuel w3 userID3 out3 rows3 w3' hid3 hrun3 hrows3
    refine ⟨enrollments, code2, wa, wb, he, ?_⟩
    intro row hrow
    rw [hflat, List.mem_flatten] at hrow
    obtain ⟨block, hblock, hrb⟩ := hrow
    obtain ⟨e, he1, hB⟩ := forall2_mem_right _ _ _ hblocks block hblock
    unfold IsAnalyticsBlockOf at hB
    by_cases hrole : e.Role = StudentEnrollmentType
    · rw [if_pos hrole] at hB
      obtain ⟨data, code, w0, w1b, _, hf⟩ := hB
      obtain ⟨ad, _, hrel⟩ := forall2_mem_right _ _ _ hf row hrb
      exact ⟨e, he1, assignmentResult_section user.val e ad row hrel⟩
    · rw [if_neg hrole] at hB
      rw [hB] at hrb
      simp at hrb
  · exact assignment_report_no_sections env c r3 fuel w3 userID3 out3 rows3 w3' hid3 hrun3
      hrows3

/-- The section names at the second upstream: the course report of course 10, whose two
sections have a teacher with the SIS section id `SIS-1`, and the two reports of user 43, whose second and
third enrollment have no SIS section id and are in section 3, named `Section three`. -/
theorem section_display_name_witness :
    ((GetUngradedAssignmentsByCourseID reportEnv exampleClient
        { urlParam := "10", ctx := background } 5 {}).1 = some [.json exampleRows10] ∧
      (GetStudentEnrollmentsResultByUserID reportEnv exampleClient
        { urlParam := "43", ctx := background } 5 {}).1 =
          some [.json exampleEnrollmentRows43] ∧
      (GetStudentAssignmentsResultByUserID reportEnv exampleClient
        { urlParam := "43", ctx := background } 5 {}).1 = some [.json exampleResults43] ∧
      (exampleRows10.map fun row => row.SectionName) = ["SIS-1", "SIS-1"] ∧
      (exampleEnrollmentRows43.map fun row => row.SectionName) =
        ["SIS-1", "Section three", "Section three"] ∧
      (exampleResults43.map fun row => row.Section) = ["SIS-1", "SIS-1", ""]) ∧
    (∃ enrollments code wa,
      GetEnrollmentsByUserID reportEnv exampleClient background 43
          (GetOnlyValidEnrollmentState []) 5 {} = (some ⟨enrollments, code, none⟩, wa) ∧
        List.Forall₂ (HasSectionNameOf reportEnv exampleClient) (enrollments.getD [])
          exampleEnrollmentRows43) ∧
    (∃ enrollments code wa wb,
      GetEnrollmentsByUserID reportEnv exampleClient background 43
          [ActiveEnrollmentState, CompletedEnrollmentState] 5 wa =
        (some ⟨enrollments, code, none⟩, wb) ∧
        ∀ row ∈ exampleResults43,
          ∃ e ∈ enrollments.getD [], row.Section = e.SISSectionID.String) ∧
    sectionCalls (callsSince {}
      (GetStudentAssignmentsResultByUserID reportEnv exampleClient
        { urlParam := "43", ctx := background } 5 {}).2) = [] := by
  have h1 : GetUngradedAssignmentsByCourseID reportEnv exampleClient
      { urlParam := "10", ctx := background } 5 {} =
      (some [.json exampleRows10],
        (GetUngradedAssignmentsByCourseID reportEnv exampleClient
          { urlParam := "10", ctx := background } 5 {}).2) := by
    decide
  have h2 : GetStudentEnrollmentsResultByUserID reportEnv exampleClient
      { urlParam := "43", ctx := background } 5 {} =
      (some [.json exampleEnrollmentRows43],
        (GetStudentEnrollmentsResultByUserID reportEnv exampleClient
          { urlParam := "43", ctx := background } 5 {}).2) := by
    decide
  have h3 : GetStudentAssignmentsResultByUserID reportEnv exampleClient
      { urlParam := "43", ctx := background } 5 {} =
      (some [.json exampleResults43],
        (GetStudentAssignmentsResultByUserID reportEnv exampleClient
          { urlParam := "43", ctx := background } 5 {}).2) := by
    decide
  exact ⟨⟨by rw [h1], by rw [h2], by rw [h3], by decide, by decide, by decide⟩,
    (section_display_name reportEnv exampleClient 5
      { urlParam := "10", ctx := background } {} 10 exampleRows10 _
      { urlParam := "43", ctx := background } {} 43 _ exampleEnrollmentRows43 _
      { urlParam := "43", ctx := background } {} 43 _ exampleResults43 _
      (by decide) h1 (by decide) h2 (by simp) (by decide) h3 (by simp)).2⟩

end CanvasReports
